import Mathlib

/-!
# The 8271 floppy disc controller of BeebEm (`Src/disc8271.cpp`)

A shallow embedding of the controller's data model, sector and track lookup,
command table, command handlers and register interface, followed by theorems
about them.

Conventions of the embedding:

* `unsigned char` objects are `Nat`; a narrowing store is written `% 256`
  wherever the stored value can leave the byte range.
* `int` objects are `Int` (no operation of the controller brings them near the
  32-bit limits).
* A pointer into the disc store is the path it designates (drive, head, track
  and, for a sector, the index in the track's sector array); `none` is
  `nullptr`.
* A function whose C execution can dereference `nullptr`, index outside an
  allocated array, or loop for ever returns `Option`; `none` is "does not
  return normally".
-/

namespace Disc8271

/-! ## Constants -/

def STATUS_REG_COMMAND_BUSY : Nat := 0x80
def STATUS_REG_COMMAND_FULL : Nat := 0x40
def STATUS_REG_PARAMETER_FULL : Nat := 0x20
def STATUS_REG_RESULT_FULL : Nat := 0x10
def STATUS_REG_INTERRUPT_REQUEST : Nat := 0x08
def STATUS_REG_NON_DMA_MODE : Nat := 0x04

def RESULT_REG_SUCCESS : Nat := 0x00
def RESULT_REG_DATA_CRC_ERROR : Nat := 0x0E
def RESULT_REG_DRIVE_NOT_READY : Nat := 0x10
def RESULT_REG_WRITE_PROTECT : Nat := 0x12
def RESULT_REG_SECTOR_NOT_FOUND : Nat := 0x18
def RESULT_REG_DRIVE_NOT_PRESENT : Nat := 0x1E
def RESULT_REG_DELETED_DATA_FOUND : Nat := 0x20
def RESULT_REG_DELETED_DATA_CRC_ERROR : Nat := 0x2E

def SPECIAL_REG_SCAN_SECTOR_NUMBER : Nat := 0x06
def SPECIAL_REG_SCAN_COUNT_MSB : Nat := 0x14
def SPECIAL_REG_SCAN_COUNT_LSB : Nat := 0x13
def SPECIAL_REG_SURFACE_0_CURRENT_TRACK : Nat := 0x12
def SPECIAL_REG_SURFACE_1_CURRENT_TRACK : Nat := 0x1A
def SPECIAL_REG_MODE_REGISTER : Nat := 0x17
def SPECIAL_REG_DRIVE_CONTROL_OUTPUT_PORT : Nat := 0x23
def SPECIAL_REG_DRIVE_CONTROL_INPUT_PORT : Nat := 0x22
def SPECIAL_REG_SURFACE_0_BAD_TRACK_1 : Nat := 0x10
def SPECIAL_REG_SURFACE_0_BAD_TRACK_2 : Nat := 0x11
def SPECIAL_REG_SURFACE_1_BAD_TRACK_1 : Nat := 0x18
def SPECIAL_REG_SURFACE_1_BAD_TRACK_2 : Nat := 0x19

def TRACKS_PER_DRIVE : Nat := 80
def FSD_TRACKS_PER_DRIVE : Nat := 40 + 1
def TIME_BETWEEN_BYTES : Int := 160

/-! ## Data model -/

structure IDFieldType where
  LogicalTrack : Nat
  HeadNum : Nat
  LogicalSector : Nat
  SectorLength : Nat
deriving DecidableEq

structure SectorType where
  IDField : IDFieldType
  CylinderNum : Nat
  RecordNum : Nat
  IDSiz : Int
  RealSectorSize : Int
  Error : Nat
  Data : Option (List Nat)
deriving DecidableEq

structure TrackType where
  LogicalSectors : Int
  NSectors : Int
  Sectors : Option (List SectorType)
  Gap1Size : Int
  Gap3Size : Int
  Gap5Size : Int
  TrackIsReadable : Bool
deriving DecidableEq

/-- The track `InitDiscStore` writes into every slot of the store. -/
def Blank : TrackType :=
  { LogicalSectors := 0, NSectors := 0, Sectors := none,
    Gap1Size := 0, Gap3Size := 0, Gap5Size := 0, TrackIsReadable := false }

/-- Modelled from the spec: the disc kind tag (SSD, DSD, FSD); the enumeration
`DiscType` is declared in `DiscType.h`, which is not part of the sources. -/
inductive DiscType where
  | SSD
  | DSD
  | FSD
deriving DecidableEq

/-- One drive of `DiscStatus`. `Tracks head track` is the object reached by
`Tracks[head][track]`; the array is `[2][TRACKS_PER_DRIVE]`, and for an index
outside it the function gives whatever the C program finds at that address. -/
structure DiscStatusType where
  Kind : DiscType
  FileName : String
  Writeable : Bool
  NumHeads : Int
  TotalTracks : Int
  Tracks : Nat → Nat → TrackType

structure FDCStateType where
  ResultReg : Nat
  StatusReg : Nat
  DataReg : Nat
  Command : Nat
  CommandParamCount : Int
  CurrentParam : Int
  Params : Nat → Nat
  Select0 : Bool
  Select1 : Bool
  ScanSectorNum : Nat
  ScanCount : Nat
  ModeReg : Nat
  CurrentTrack0 : Nat
  CurrentTrack1 : Nat
  DriveControlOutputPort : Nat
  DriveControlInputPort : Nat
  BadTracks00 : Nat
  BadTracks01 : Nat
  BadTracks10 : Nat
  BadTracks11 : Nat
  StepRate : Int
  HeadSettlingTime : Int
  IndexCountBeforeHeadUnload : Int
  HeadLoadTime : Int

/-- A `TrackType *` into the disc store. -/
structure TrackPtr where
  Drive : Nat
  Head : Nat
  Track : Nat
deriving DecidableEq

/-- A `SectorType *` into the sector array of a track of the disc store. -/
structure SectorPtr where
  Trk : TrackPtr
  Index : Nat
deriving DecidableEq

structure CommandStatusType where
  TrackAddr : Int
  CurrentSector : Int
  SectorLength : Int
  SectorsToGo : Int
  CurrentSectorPtr : Option SectorPtr
  CurrentTrackPtr : Option TrackPtr
  ByteWithinSector : Int
  FirstWriteInt : Bool
  NextInterruptIsErr : Nat

/-- The files the controller can reach and the outcome of its stdio calls.
`Files name` is the content of the file that `fopen(name, "r+b")` opens, `none`
when it cannot be opened; `IOFail k` tells whether the `k`-th stdio call made
after a successful `fopen` reports failure; `IOCalls` counts those calls. -/
structure FileSys where
  Files : String → Option (List Nat)
  IOFail : Nat → Bool
  IOCalls : Nat

/-- The whole state the controller code reads and writes: its own globals and
the globals of the emulator it touches. -/
structure State where
  Disc8271Enabled : Bool
  /-- Modelled from the spec: the trigger is the absolute cycle of the next
  event or the sentinel "never" (`none`); `SetTrigger`, `ClearTrigger` and
  `CycleCountTMax` are declared in `6502core.h`, not part of the sources. -/
  Disc8271Trigger : Option Int
  TotalCycles : Int
  DriveHeadPosition0 : Int
  DriveHeadPosition1 : Int
  DriveHeadLoaded : Bool
  DriveHeadUnloadPending : Bool
  PositionInTrack : Nat
  SectorOverRead : Bool
  UsingSpecial : Bool
  DRDSC : Nat
  DiscStatus : Nat → DiscStatusType
  FDCState : FDCStateType
  FSDLogicalTrack : Nat
  FSDPhysicalTrack : Nat
  CommandStatus : CommandStatusType
  /-- The floppy bit (`1 << nmi_floppy`) of the emulator's `NMIStatus`. -/
  NMIFloppy : Bool
  /-- The emulator's `mainWin->m_ShiftBooted`. -/
  ShiftBooted : Bool
  /-- The emulator's `DiscDriveSoundEnabled`. -/
  DiscDriveSoundEnabled : Bool
  LEDsDisc0 : Bool
  LEDsDisc1 : Bool
  /-- Cycle counts of the drive sound samples (`beebsound.h`). -/
  SAMPLE_HEAD_LOAD_CYCLES : Int
  SAMPLE_HEAD_SEEK_CYCLES_PER_TRACK : Int
  SAMPLE_HEAD_STEP_CYCLES : Int
  /-- The values `rand()` returns, in call order, and the number of calls. -/
  Rand : Nat → Nat
  RandCalls : Nat
  FS : FileSys
  /-- The function-local `static bool InitialInit` of `Disc8271Reset`. -/
  InitialInit : Bool

/-! ## Small helpers of the source -/

/-- Modelled from the spec: `SetTrigger(after, Disc8271Trigger)` arms the
trigger `after` cycles from now (macro of `6502core.h`, not in the sources). -/
def SetTrigger (after : Int) (s : State) : State :=
  { s with Disc8271Trigger := some (s.TotalCycles + after) }

/-- Modelled from the spec: `ClearTrigger(Disc8271Trigger)` sets the trigger to
the sentinel "never" (macro of `6502core.h`, not in the sources). -/
def ClearTrigger (s : State) : State :=
  { s with Disc8271Trigger := none }

def UpdateNMIStatus (s : State) : State :=
  if s.FDCState.StatusReg &&& STATUS_REG_INTERRUPT_REQUEST ≠ 0 then
    { s with NMIFloppy := true }
  else
    { s with NMIFloppy := false }

def setStatus (v : Nat) (s : State) : State :=
  { s with FDCState := { s.FDCState with StatusReg := v } }

def setResult (v : Nat) (s : State) : State :=
  { s with FDCState := { s.FDCState with ResultReg := v } }

def setData (v : Nat) (s : State) : State :=
  { s with FDCState := { s.FDCState with DataReg := v } }

/-- `CURRENT_HEAD`: bit 5 of the drive control output port. -/
def CURRENT_HEAD (s : State) : Nat :=
  (s.FDCState.DriveControlOutputPort >>> 5) &&& 1

def DoSelects (s : State) : State :=
  let Select0 := decide (s.FDCState.Command &&& 0x40 ≠ 0)
  let Select1 := decide (s.FDCState.Command &&& 0x80 ≠ 0)
  let port := s.FDCState.DriveControlOutputPort &&& 0x3f
  let port := if Select0 then port ||| 0x40 else port
  let port := if Select1 then port ||| 0x80 else port
  { s with FDCState := { s.FDCState with
      Select0 := Select0, Select1 := Select1, DriveControlOutputPort := port } }

/-- `NotImp` reports the unsupported operation to the user interface and leaves
the controller untouched. -/
def NotImp (s : State) : State := s

def DoLoadHead (s : State) : State := s

def GetSelectedDrive (s : State) : Int :=
  if s.FDCState.Select0 then 0
  else if s.FDCState.Select1 then 1
  else -1

/-- The track a `TrackType *` designates. -/
def trackAt (s : State) (p : TrackPtr) : TrackType :=
  (s.DiscStatus p.Drive).Tracks p.Head p.Track

/-- The sector a `SectorType *` designates; `none` when the pointer leaves the
allocated sector array. -/
def sectorAt (s : State) (p : SectorPtr) : Option SectorType :=
  match (trackAt s p.Trk).Sectors with
  | none => none
  | some secs => secs[p.Index]?

def setCurrentTrack (Drive : Int) (v : Nat) (s : State) : State :=
  if Drive = 0 then { s with FDCState := { s.FDCState with CurrentTrack0 := v } }
  else { s with FDCState := { s.FDCState with CurrentTrack1 := v } }

/-! ## Track and sector lookup -/

def GetTrackPtrPhysical (PhysicalTrackID : Nat) (s : State) : Option TrackPtr × State :=
  let Drive := GetSelectedDrive s
  if Drive < 0 then (none, s)
  else
    let s := { s with PositionInTrack := 0, FSDPhysicalTrack := PhysicalTrackID }
    (some { Drive := Drive.toNat, Head := CURRENT_HEAD s, Track := PhysicalTrackID }, s)

/-- The `for` loop of `GetTrackPtr`, one unit of fuel per evaluation of the
loop test. `tracks` is `DiscStatus[Drive].Tracks[CURRENT_HEAD]`, `Track` the
`unsigned char` loop counter (its increment wraps at 256, while the bound
`FSDPhysicalTrack + 2` is computed in `int`), `seen` the indices examined so
far. The result is the index of the matching track (`none` for `nullptr`)
together with the indices examined, in order; the outer `none` is "no result":
fuel exhausted or `SecPtr[0]` outside an empty sector array. -/
def GetTrackPtrLoop (tracks : Nat → TrackType) (LogicalTrackID FSDPhysicalTrack : Nat) :
    Nat → Nat → List Nat → Option (Option Nat × List Nat)
  | 0, _, _ => none
  | fuel + 1, Track, seen =>
    if Track < FSDPhysicalTrack + 2 then
      match (tracks Track).Sectors with
      | none => some (none, seen ++ [Track])
      | some [] => none
      | some (sec0 :: _) =>
        if LogicalTrackID = sec0.IDField.LogicalTrack then
          some (some Track, seen ++ [Track])
        else
          GetTrackPtrLoop tracks LogicalTrackID FSDPhysicalTrack fuel ((Track + 1) % 256)
            (seen ++ [Track])
    else some (none, seen)

/-- `GetTrackPtr`. The loop counter takes at most 256 values, so 257 units of
fuel let the loop examine every value it can reach. -/
def GetTrackPtr (LogicalTrackID : Nat) (s : State) : Option (Option TrackPtr × State) :=
  let Drive := GetSelectedDrive s
  if Drive < 0 then some (none, s)
  else
    match GetTrackPtrLoop ((s.DiscStatus Drive.toNat).Tracks (CURRENT_HEAD s))
        LogicalTrackID s.FSDPhysicalTrack 257 s.FSDPhysicalTrack [] with
    | none => none
    | some (none, _) => some (none, s)
    | some (some Track, _) =>
      some (some { Drive := Drive.toNat, Head := CURRENT_HEAD s, Track := Track },
            { s with FSDPhysicalTrack := Track })

/-- One of the two `for` loops of `GetSectorPtr`: `count` iterations starting
at index `CurrentSector`. Gives the index of the first sector whose ID field
carries `LogicalSectorID`, `some none` when the loop ends without a match, and
`none` when `Track->Sectors[CurrentSector]` is outside the sector array. -/
def GetSectorPtrScan (Sectors : Option (List SectorType)) (LogicalSectorID : Nat) :
    Nat → Nat → Option (Option Nat)
  | 0, _ => some none
  | count + 1, CurrentSector =>
    match Sectors with
    | none => none
    | some secs =>
      match secs[CurrentSector]? with
      | none => none
      | some sec =>
        if sec.IDField.LogicalSector = LogicalSectorID then some (some CurrentSector)
        else GetSectorPtrScan Sectors LogicalSectorID count (CurrentSector + 1)

/-- `GetSectorPtr` on the track itself: the result is the index of the sector
returned (`&Track->Sectors[RecordNum]`) and the new `PositionInTrack`. -/
def GetSectorPtrOn (Track : TrackType) (LogicalSectorID PositionInTrack : Nat) :
    Option (Option Nat × Nat) :=
  match GetSectorPtrScan Track.Sectors LogicalSectorID
      (Track.NSectors - (PositionInTrack : Int)).toNat PositionInTrack with
  | none => none
  | some (some CurrentSector) =>
    match Track.Sectors with
    | none => none
    | some secs =>
      match secs[CurrentSector]? with
      | none => none
      | some sec => some (some sec.RecordNum, sec.RecordNum)
  | some none =>
    if PositionInTrack > 0 then
      match GetSectorPtrScan Track.Sectors LogicalSectorID PositionInTrack 0 with
      | none => none
      | some (some CurrentSector) =>
        match Track.Sectors with
        | none => none
        | some secs =>
          match secs[CurrentSector]? with
          | none => none
          | some sec => some (some sec.RecordNum, CurrentSector % 256)
      | some none => some (none, PositionInTrack)
    else some (none, PositionInTrack)

def GetSectorPtr (Track : TrackPtr) (LogicalSectorID : Nat) (s : State) :
    Option (Option SectorPtr × State) :=
  match GetSectorPtrOn (trackAt s Track) LogicalSectorID s.PositionInTrack with
  | none => none
  | some (r, pos) =>
    some (r.map (fun i => { Trk := Track, Index := i }), { s with PositionInTrack := pos })

def GetSectorPtrForTrackID (Track : TrackPtr) (s : State) : Option (Option SectorPtr) :=
  match (trackAt s Track).Sectors with
  | none => some none
  | some secs =>
    match secs[s.PositionInTrack]? with
    | none => none
    | some sec => some (some { Trk := Track, Index := sec.RecordNum })

def DoErr (ErrNum : Nat) (s : State) : State :=
  let s := SetTrigger 50 s
  let s := { s with CommandStatus := { s.CommandStatus with NextInterruptIsErr := ErrNum } }
  let s := setStatus STATUS_REG_COMMAND_BUSY s
  UpdateNMIStatus s

def ValidateSector (_Sector : SectorPtr) (_Track : Int) (_SecLength : Int) : Bool := true

/-! ## Parameter and pointer access -/

/-- `FDCState.Params[i]`. -/
def Param (s : State) (i : Nat) : Nat := s.FDCState.Params i

def setCommandStatus (f : CommandStatusType → CommandStatusType) (s : State) : State :=
  { s with CommandStatus := f s.CommandStatus }

/-- The sector `CommandStatus.CurrentSectorPtr` designates; `none` when the
pointer is `nullptr` or leaves the sector array. -/
def currentSector (s : State) : Option SectorType :=
  match s.CommandStatus.CurrentSectorPtr with
  | none => none
  | some p => sectorAt s p

/-- Replace the data buffer contents of the sector a pointer designates. -/
def setSectorData (p : SectorPtr) (data : List Nat) (s : State) : State :=
  { s with DiscStatus := fun d =>
      if d = p.Trk.Drive then
        { s.DiscStatus d with Tracks := fun h t =>
            if h = p.Trk.Head ∧ t = p.Trk.Track then
              let trk := (s.DiscStatus d).Tracks h t
              { trk with Sectors := trk.Sectors.map (fun secs =>
                  secs.modify (fun sec => { sec with Data := some data }) p.Index) }
            else (s.DiscStatus d).Tracks h t }
      else s.DiscStatus d }

/-- `GetSectorPtr(CommandStatus.CurrentTrackPtr, CommandStatus.CurrentSector, false)`
followed by the store into `CommandStatus.CurrentSectorPtr`; the sector number
is narrowed to `unsigned char` by the call. -/
def nextSectorPtr (s : State) : Option State :=
  match s.CommandStatus.CurrentTrackPtr with
  | none => none
  | some tp =>
    match GetSectorPtr tp (s.CommandStatus.CurrentSector % 256).toNat s with
    | none => none
    | some (ptr, s) => some (setCommandStatus (fun c => { c with CurrentSectorPtr := ptr }) s)

/-- The statements every data tick ends with unless it was the last byte. -/
def notLastByte (after : Int) (s : State) : State :=
  let s := setStatus (STATUS_REG_COMMAND_BUSY ||| STATUS_REG_INTERRUPT_REQUEST |||
                      STATUS_REG_NON_DMA_MODE) s
  let s := UpdateNMIStatus s
  SetTrigger after s

/-- The first statements of every data tick once `SectorsToGo < 0`. -/
def pickUpResult (s : State) : State :=
  UpdateNMIStatus (setStatus (STATUS_REG_RESULT_FULL ||| STATUS_REG_INTERRUPT_REQUEST) s)

/-! ## Track write-back -/

/-- One stdio call: whether it succeeds, and the call counter advanced. -/
def ioCall (fs : FileSys) : Bool × FileSys :=
  (!fs.IOFail fs.IOCalls, { fs with IOCalls := fs.IOCalls + 1 })

/-- The loop `while (Success && FileOffset > FileLength)` of `SaveTrackImage`:
`count` is `FileOffset - FileLength`; each `fputc` that succeeds appends a zero
byte. -/
def extendFile : Nat → FileSys → List Nat → Bool × FileSys × List Nat
  | 0, fs, content => (true, fs, content)
  | count + 1, fs, content =>
    let (ok, fs) := ioCall fs
    if ok then extendFile count fs (content ++ [0])
    else (false, fs, content)

/-- The loop `for (CurrentSector = 0; Success && CurrentSector < 10; ...)` of
`SaveTrackImage`: `count` sectors remain, `CurrentSector` is the next one and
`pos` the file position. `none` when `SecPtr[CurrentSector].Data` does not
designate 256 readable bytes. -/
def writeSectors (SecPtr : Option (List SectorType)) :
    Nat → Nat → Nat → FileSys → List Nat → Option (Bool × FileSys × List Nat)
  | 0, _, _, fs, content => some (true, fs, content)
  | count + 1, CurrentSector, pos, fs, content =>
    match SecPtr with
    | none => none
    | some secs =>
      match secs[CurrentSector]? with
      | none => none
      | some sec =>
        match sec.Data with
        | none => none
        | some data =>
          if data.length < 256 then none
          else
            let (ok, fs) := ioCall fs
            if ok then
              writeSectors SecPtr count (CurrentSector + 1) (pos + 256) fs
                (content.take pos ++ data.take 256 ++ content.drop (pos + 256))
            else some (false, fs, content)

def SaveTrackImage (DriveNum : Nat) (HeadNum : Nat) (TrackNum : Int) (s : State) :
    Option (Bool × State) :=
  let disc := s.DiscStatus DriveNum
  match s.FS.Files disc.FileName with
  | none => some (false, s)
  | some content =>
    let FileOffset : Int :=
      if disc.NumHeads ≠ 0 then (disc.NumHeads * TrackNum + HeadNum) * 2560
      else (TrackNum + HeadNum * TRACKS_PER_DRIVE) * 2560
    -- fseek(outfile, 0L, SEEK_END), then ftell
    let (Success, fs) := ioCall s.FS
    let (Success, fs) := if Success then ioCall fs else (Success, fs)
    let FileLength : Int := content.length
    let (Success, fs, content) :=
      if Success then extendFile (FileOffset - FileLength).toNat fs content
      else (Success, fs, content)
    let written : Option (Bool × FileSys × List Nat) :=
      if Success then
        -- fseek(outfile, FileOffset, SEEK_SET)
        let (ok, fs) := ioCall fs
        if ok ∧ 0 ≤ FileOffset then
          if TrackNum < 0 then none
          else writeSectors (disc.Tracks HeadNum TrackNum.toNat).Sectors 10 0 FileOffset.toNat
                 fs content
        else some (false, fs, content)
      else some (Success, fs, content)
    match written with
    | none => none
    | some (Success, fs, content) =>
      -- fclose(outfile)
      let (ok, fs) := ioCall fs
      let Success := Success && ok
      some (Success, { s with FS := { fs with Files := fun name =>
              if name = disc.FileName then some content else fs.Files name } })

/-! ## Command handlers -/

def DoVarLength_ScanDataCommand (s : State) : Option State := some (NotImp (DoSelects s))
def DoVarLength_ScanDataAndDeldCommand (s : State) : Option State := some (NotImp (DoSelects s))
def Do128ByteSR_WriteDataCommand (s : State) : Option State := some (NotImp (DoSelects s))
def Do128ByteSR_WriteDeletedDataCommand (s : State) : Option State := some (NotImp (DoSelects s))
def DoVarLength_WriteDeletedDataCommand (s : State) : Option State := some (NotImp (DoSelects s))
def Do128ByteSR_ReadDataCommand (s : State) : Option State := some (NotImp (DoSelects s))
def Do128ByteSR_VerifyDataAndDeldCommand (s : State) : Option State := some (NotImp (DoSelects s))

/-- The assignments of `TrackAddr`, `CurrentSector`, `SectorsToGo` and
`SectorLength` from the three parameters of a variable-length command. -/
def latchVarLength (s : State) : State :=
  setCommandStatus (fun c => { c with
    TrackAddr := (Param s 0 : Int),
    CurrentSector := (Param s 1 : Int),
    SectorsToGo := ((Param s 2 &&& 31 : Nat) : Int),
    SectorLength := ((1 <<< (7 + ((Param s 2 >>> 5) &&& 7)) : Nat) : Int) }) s

def DoVarLength_WriteDataCommand (s : State) : Option State :=
  let s := DoLoadHead (DoSelects s)
  let Drive := GetSelectedDrive s
  if Drive < 0 then some (DoErr RESULT_REG_DRIVE_NOT_READY s)
  else if !(s.DiscStatus Drive.toNat).Writeable then some (DoErr RESULT_REG_WRITE_PROTECT s)
  else
    let s := setCurrentTrack Drive (Param s 0) s
    match GetTrackPtr (Param s 0) s with
    | none => none
    | some (tp, s) =>
      let s := setCommandStatus (fun c => { c with CurrentTrackPtr := tp }) s
      match tp with
      | none => some (DoErr RESULT_REG_SECTOR_NOT_FOUND s)
      | some tp =>
        match GetSectorPtr tp (Param s 1) s with
        | none => none
        | some (sp, s) =>
          let s := setCommandStatus (fun c => { c with CurrentSectorPtr := sp }) s
          match sp with
          | none => some (DoErr RESULT_REG_DRIVE_NOT_PRESENT s)
          | some sp =>
            let s := latchVarLength s
            if ValidateSector sp s.CommandStatus.TrackAddr s.CommandStatus.SectorLength then
              let s := setCommandStatus (fun c => { c with ByteWithinSector := 0 }) s
              let s := SetTrigger TIME_BETWEEN_BYTES s
              let s := UpdateNMIStatus (setStatus STATUS_REG_COMMAND_BUSY s)
              some (setCommandStatus (fun c => { c with
                ByteWithinSector := 0, FirstWriteInt := true }) s)
            else some (DoErr RESULT_REG_DRIVE_NOT_PRESENT s)

/-- The tail of `WriteInterrupt` and `FormatInterrupt` once a sector is
complete; `after` is the delay of the trigger armed for the next tick. -/
def sectorWritten (after : Int) (s : State) : Option State :=
  let s := setCommandStatus (fun c => { c with
    ByteWithinSector := 0, SectorsToGo := c.SectorsToGo - 1 }) s
  if s.CommandStatus.SectorsToGo ≠ 0 then
    let s := setCommandStatus (fun c => { c with CurrentSector := c.CurrentSector + 1 }) s
    match nextSectorPtr s with
    | none => none
    | some s =>
      if s.CommandStatus.CurrentSectorPtr = none then some (DoErr RESULT_REG_DRIVE_NOT_PRESENT s)
      else some (notLastByte after s)
  else
    match SaveTrackImage (if s.FDCState.Select0 then 0 else 1) (CURRENT_HEAD s)
        s.CommandStatus.TrackAddr s with
    | none => none
    | some (true, s) =>
      let s := UpdateNMIStatus (setStatus STATUS_REG_RESULT_FULL s)
      let s := setCommandStatus (fun c => { c with SectorsToGo := -1 }) s
      some (SetTrigger 0 s)
    | some (false, s) => some (notLastByte after (DoErr RESULT_REG_WRITE_PROTECT s))

def WriteInterrupt (s : State) : Option State :=
  if s.CommandStatus.SectorsToGo < 0 then some (pickUpResult s)
  else
    let stored : Option State :=
      if !s.CommandStatus.FirstWriteInt then
        match s.CommandStatus.CurrentSectorPtr with
        | none => none
        | some p =>
          match sectorAt s p with
          | none => none
          | some sec =>
            match sec.Data with
            | none => none
            | some data =>
              if 0 ≤ s.CommandStatus.ByteWithinSector ∧
                  s.CommandStatus.ByteWithinSector < data.length then
                let s := setSectorData p
                  (data.set s.CommandStatus.ByteWithinSector.toNat s.FDCState.DataReg) s
                some (setCommandStatus (fun c => { c with
                  ByteWithinSector := c.ByteWithinSector + 1 }) s)
              else none
      else some (setCommandStatus (fun c => { c with FirstWriteInt := false }) s)
    match stored with
    | none => none
    | some s =>
      let s := setResult RESULT_REG_SUCCESS s
      if s.CommandStatus.ByteWithinSector ≥ s.CommandStatus.SectorLength then
        sectorWritten TIME_BETWEEN_BYTES s
      else some (notLastByte TIME_BETWEEN_BYTES s)

/-- The positioning statements of `DoVarLength_ReadDataCommand` between the
drive check and the call of `GetTrackPtr`; a conditional assignment
`if (c) x = v;` is written `x := if c then v else x`. -/
def readPositioning (s : State) : State :=
  let s := { s with ShiftBooted := if s.ShiftBooted then false else s.ShiftBooted }
  let s := { s with
    FSDPhysicalTrack := if !s.UsingSpecial then Param s 0 else s.FSDPhysicalTrack }
  let s := { s with
    PositionInTrack := if s.FSDLogicalTrack ≠ Param s 0 then 0 else s.PositionInTrack }
  let s := { s with FSDLogicalTrack := Param s 0 }
  let s := { s with FSDPhysicalTrack := if s.DRDSC > 1 then 0 else s.FSDPhysicalTrack }
  let s := { s with DRDSC := 0 }
  let s := { s with
    FSDPhysicalTrack := if s.FSDPhysicalTrack = 0 then s.FSDLogicalTrack else s.FSDPhysicalTrack }
  { s with
    UsingSpecial := if s.FSDLogicalTrack = s.FSDPhysicalTrack then false else s.UsingSpecial }

def DoVarLength_ReadDataCommand (s : State) : Option State :=
  let s := DoLoadHead (DoSelects s)
  let s := { s with SectorOverRead := false }
  let Drive := GetSelectedDrive s
  if Drive < 0 then some (DoErr RESULT_REG_DRIVE_NOT_READY s)
  else
    let s := readPositioning s
    match GetTrackPtr s.FSDLogicalTrack s with
    | none => none
    | some (tp, s) =>
      let s := setCommandStatus (fun c => { c with CurrentTrackPtr := tp }) s
      match tp with
      | none => some (DoErr RESULT_REG_SECTOR_NOT_FOUND s)
      | some tp =>
        if !(trackAt s tp).TrackIsReadable then some (DoErr RESULT_REG_SECTOR_NOT_FOUND s)
        else
          match GetSectorPtr tp (Param s 1) s with
          | none => none
          | some (sp, s) =>
            let s := setCommandStatus (fun c => { c with CurrentSectorPtr := sp }) s
            match sp with
            | none => some (DoErr RESULT_REG_SECTOR_NOT_FOUND s)
            | some sp =>
              match sectorAt s sp with
              | none => none
              | some sec =>
                if sec.Error = 0xE0 ∧ sec.IDField.LogicalSector = 0x09 ∧
                    s.CommandStatus.SectorLength > sec.RealSectorSize then
                  some (DoErr RESULT_REG_SECTOR_NOT_FOUND s)
                else
                  let s := latchVarLength s
                  let s :=
                    if s.CommandStatus.SectorLength > sec.RealSectorSize then
                      { setCommandStatus (fun c => { c with
                          SectorLength := sec.RealSectorSize }) s with SectorOverRead := true }
                    else s
                  if ValidateSector sp s.CommandStatus.TrackAddr s.CommandStatus.SectorLength then
                    let s := setCommandStatus (fun c => { c with ByteWithinSector := 0 }) s
                    let s := SetTrigger TIME_BETWEEN_BYTES s
                    some (UpdateNMIStatus (setStatus STATUS_REG_COMMAND_BUSY s))
                  else some (DoErr RESULT_REG_SECTOR_NOT_FOUND s)

/-- `FDCState.DataReg = CommandStatus.CurrentSectorPtr->Data[CommandStatus.ByteWithinSector++]`:
the sector read and the state after the statement. -/
def loadDataByte (s : State) : Option (SectorType × State) :=
  match currentSector s with
  | none => none
  | some sec =>
    match sec.Data with
    | none => none
    | some data =>
      if 0 ≤ s.CommandStatus.ByteWithinSector then
        match data[s.CommandStatus.ByteWithinSector.toNat]? with
        | none => none
        | some b =>
          some (sec, setCommandStatus (fun c => { c with
            ByteWithinSector := c.ByteWithinSector + 1 }) (setData b s))
      else none

/-- The tail of `ReadInterrupt` and `Read128Interrupt` from the test
`ByteWithinSector >= SectorLength` on. -/
def sectorRead (s : State) : Option State :=
  if s.CommandStatus.ByteWithinSector ≥ s.CommandStatus.SectorLength then
    let s := setCommandStatus (fun c => { c with
      ByteWithinSector := 0, SectorsToGo := c.SectorsToGo - 1 }) s
    if s.CommandStatus.SectorsToGo ≠ 0 then
      let s := setCommandStatus (fun c => { c with CurrentSector := c.CurrentSector + 1 }) s
      match nextSectorPtr s with
      | none => none
      | some s =>
        if s.CommandStatus.CurrentSectorPtr = none then some (DoErr RESULT_REG_SECTOR_NOT_FOUND s)
        else some (notLastByte TIME_BETWEEN_BYTES s)
    else
      let s := setStatus (STATUS_REG_COMMAND_BUSY ||| STATUS_REG_RESULT_FULL |||
                          STATUS_REG_INTERRUPT_REQUEST ||| STATUS_REG_NON_DMA_MODE) s
      let s := UpdateNMIStatus s
      let s := setCommandStatus (fun c => { c with SectorsToGo := -1 }) s
      some (SetTrigger TIME_BETWEEN_BYTES s)
  else some (notLastByte TIME_BETWEEN_BYTES s)

/-- The value the assignments to `FDCState.ResultReg` in `ReadInterrupt` leave
in the register, in source order: `E`, `R`, `I` are the `Error`,
`RealSectorSize` and `IDSiz` of `*CommandStatus.CurrentSectorPtr`, `L` is
`CommandStatus.SectorLength` and `O` is `SectorOverRead`. -/
def readResultValue (E : Nat) (R I L : Int) (O : Bool) : Nat :=
  let r := E
  let r := if E = RESULT_REG_SUCCESS ∧ R ≠ L then RESULT_REG_DATA_CRC_ERROR else r
  let r :=
    if O then
      if E = RESULT_REG_SUCCESS then RESULT_REG_DATA_CRC_ERROR
      else if E = RESULT_REG_DELETED_DATA_FOUND then RESULT_REG_DELETED_DATA_CRC_ERROR
      else if E = RESULT_REG_DELETED_DATA_CRC_ERROR then RESULT_REG_DELETED_DATA_CRC_ERROR
      else r
    else r
  let r := if E = RESULT_REG_DELETED_DATA_FOUND ∧ R ≠ L then RESULT_REG_DELETED_DATA_CRC_ERROR
           else r
  let r := if E = RESULT_REG_DELETED_DATA_CRC_ERROR ∧ I = L ∧ !O then RESULT_REG_DELETED_DATA_FOUND
           else r
  let r :=
    if E = 0xE1 ∧ L ≠ 0x100 then RESULT_REG_DATA_CRC_ERROR
    else if E = 0xE1 ∧ L = 0x100 then RESULT_REG_SUCCESS
    else r
  let r :=
    if E = 0xE0 ∧ L ≠ 0x80 then RESULT_REG_DATA_CRC_ERROR
    else if E = 0xE0 ∧ L = 0x80 then RESULT_REG_SUCCESS
    else r
  if E = RESULT_REG_DATA_CRC_ERROR ∧ R = I then RESULT_REG_DATA_CRC_ERROR else r

/-- The statements of `ReadInterrupt` between the load of the data register and
the test `ByteWithinSector >= SectorLength`: the result register, and the shift
of every fifth byte of a sector with a data CRC error; `sec` is
`*CommandStatus.CurrentSectorPtr`. -/
def readResult (sec : SectorType) (s : State) : State :=
  let s := setResult (readResultValue sec.Error sec.RealSectorSize sec.IDSiz
    s.CommandStatus.SectorLength s.SectorOverRead) s
  if sec.Error = RESULT_REG_DATA_CRC_ERROR ∧ sec.RealSectorSize = sec.IDSiz ∧
      s.CommandStatus.ByteWithinSector % 5 = 0 then
    { setData (s.FDCState.DataReg >>> (s.Rand s.RandCalls % 8)) s with
      RandCalls := s.RandCalls + 1 }
  else s

def ReadInterrupt (s : State) : Option State :=
  if s.CommandStatus.SectorsToGo < 0 then some (pickUpResult s)
  else
    match loadDataByte s with
    | none => none
    | some (sec, s) => sectorRead (readResult sec s)

def Do128ByteSR_ReadDataAndDeldCommand (s : State) : Option State :=
  let s := DoLoadHead (DoSelects s)
  let Drive := GetSelectedDrive s
  if Drive < 0 then some (DoErr RESULT_REG_DRIVE_NOT_READY s)
  else
    let s := if !s.UsingSpecial then { s with FSDPhysicalTrack := Param s 0 } else s
    let s := setCurrentTrack Drive (Param s 0) s
    let s := if Param s 0 = 0 then { s with FSDPhysicalTrack := 0 } else s
    match GetTrackPtr (Param s 0) s with
    | none => none
    | some (tp, s) =>
      let s := setCommandStatus (fun c => { c with CurrentTrackPtr := tp }) s
      match tp with
      | none => some (DoErr RESULT_REG_DRIVE_NOT_READY s)
      | some tp =>
        if !(trackAt s tp).TrackIsReadable then some (DoErr RESULT_REG_SECTOR_NOT_FOUND s)
        else
          match GetSectorPtr tp (Param s 1) s with
          | none => none
          | some (sp, s) =>
            let s := setCommandStatus (fun c => { c with CurrentSectorPtr := sp }) s
            match sp with
            | none => some (DoErr RESULT_REG_SECTOR_NOT_FOUND s)
            | some sp =>
              let s := setCommandStatus (fun c => { c with
                TrackAddr := (Param s 0 : Int), CurrentSector := (Param s 1 : Int),
                SectorsToGo := 1, SectorLength := 0x80 }) s
              if ValidateSector sp s.CommandStatus.TrackAddr s.CommandStatus.SectorLength then
                let s := setCommandStatus (fun c => { c with ByteWithinSector := 0 }) s
                let s := SetTrigger TIME_BETWEEN_BYTES s
                let s := UpdateNMIStatus (setStatus STATUS_REG_COMMAND_BUSY s)
                some (setCommandStatus (fun c => { c with ByteWithinSector := 0 }) s)
              else some (DoErr RESULT_REG_SECTOR_NOT_FOUND s)

/-- The value the assignments to `FDCState.ResultReg` in `Read128Interrupt`
leave in the register, in source order (arguments as for `readResultValue`). -/
def read128ResultValue (E : Nat) (R L : Int) (O : Bool) : Nat :=
  let r := E
  let r := if E = 0 ∧ R ≠ L then RESULT_REG_DATA_CRC_ERROR else r
  let r := if O then RESULT_REG_DATA_CRC_ERROR else r
  let r := if E = 0x20 ∧ R ≠ L then RESULT_REG_DELETED_DATA_CRC_ERROR else r
  if E = 0xE1 ∧ L ≠ 0x100 then RESULT_REG_DATA_CRC_ERROR
  else if E = 0xE1 ∧ L = 0x100 then RESULT_REG_SUCCESS
  else r

def read128Result (sec : SectorType) (s : State) : State :=
  setResult (read128ResultValue sec.Error sec.RealSectorSize
    s.CommandStatus.SectorLength s.SectorOverRead) s

def Read128Interrupt (s : State) : Option State :=
  if s.CommandStatus.SectorsToGo < 0 then some (pickUpResult s)
  else
    match loadDataByte s with
    | none => none
    | some (sec, s) => sectorRead (read128Result sec s)

def DoVarLength_ReadDataAndDeldCommand (s : State) : Option State :=
  DoVarLength_ReadDataCommand s

def DoReadIDCommand (s : State) : Option State :=
  let s := DoLoadHead (DoSelects s)
  let Drive := GetSelectedDrive s
  if Drive < 0 then some (DoErr RESULT_REG_DRIVE_NOT_READY s)
  else
    let s := { s with FSDPhysicalTrack := Param s 0 }
    let (tp, s) := GetTrackPtrPhysical s.FSDPhysicalTrack s
    let s := setCommandStatus (fun c => { c with CurrentTrackPtr := tp }) s
    match tp with
    | none => some (DoErr RESULT_REG_SECTOR_NOT_FOUND s)
    | some tp =>
      match GetSectorPtrForTrackID tp s with
      | none => none
      | some sp =>
        let s := setCommandStatus (fun c => { c with CurrentSectorPtr := sp }) s
        match sp with
        | none => some (DoErr RESULT_REG_SECTOR_NOT_FOUND s)
        | some _ =>
          let s := setCommandStatus (fun c => { c with
            TrackAddr := (Param s 0 : Int), CurrentSector := 0,
            SectorsToGo := (Param s 2 : Int) }) s
          let s :=
            if s.CommandStatus.SectorsToGo = 0 then
              setCommandStatus (fun c => { c with SectorsToGo := 0x20 }) s
            else s
          let s := setCommandStatus (fun c => { c with ByteWithinSector := 0 }) s
          let s := SetTrigger TIME_BETWEEN_BYTES s
          some (UpdateNMIStatus (setStatus STATUS_REG_COMMAND_BUSY s))

def ReadIDInterrupt (s : State) : Option State :=
  if s.CommandStatus.SectorsToGo < 0 then some (pickUpResult s)
  else
    let b := s.CommandStatus.ByteWithinSector
    let loaded : Option State :=
      if b = 0 ∨ b = 1 ∨ b = 2 ∨ b = 3 then
        match currentSector s with
        | none => none
        | some sec =>
          some (setData
            (if b = 0 then sec.IDField.LogicalTrack
             else if b = 1 then sec.IDField.HeadNum
             else if b = 2 then sec.IDField.LogicalSector
             else sec.IDField.SectorLength) s)
      else some s
    match loaded with
    | none => none
    | some s =>
      let s := setCommandStatus (fun c => { c with ByteWithinSector := c.ByteWithinSector + 1 }) s
      let s := setResult RESULT_REG_SUCCESS s
      if s.CommandStatus.ByteWithinSector ≥ 4 then
        let s := setCommandStatus (fun c => { c with
          ByteWithinSector := 0, SectorsToGo := c.SectorsToGo - 1 }) s
        if s.CommandStatus.SectorsToGo > 0 then
          match s.CommandStatus.CurrentTrackPtr with
          | none => none
          | some tp =>
            let s := setCommandStatus (fun c => { c with CurrentSector := c.CurrentSector + 1 }) s
            let s :=
              if s.CommandStatus.CurrentSector = (trackAt s tp).NSectors then
                setCommandStatus (fun c => { c with CurrentSector := 0 }) s
              else s
            let s := { s with PositionInTrack := (s.CommandStatus.CurrentSector % 256).toNat }
            match GetSectorPtrForTrackID tp s with
            | none => none
            | some sp =>
              let s := setCommandStatus (fun c => { c with CurrentSectorPtr := sp }) s
              if sp = none then some (DoErr RESULT_REG_DRIVE_NOT_PRESENT s)
              else some (notLastByte TIME_BETWEEN_BYTES s)
        else
          let s := setStatus (STATUS_REG_COMMAND_BUSY ||| STATUS_REG_INTERRUPT_REQUEST |||
                              STATUS_REG_NON_DMA_MODE) s
          let s := UpdateNMIStatus s
          let s := setCommandStatus (fun c => { c with SectorsToGo := -1 }) s
          some (SetTrigger TIME_BETWEEN_BYTES s)
      else some (notLastByte TIME_BETWEEN_BYTES s)

def DoVarLength_VerifyDataAndDeldCommand (s : State) : Option State :=
  let s := DoSelects s
  let Drive := GetSelectedDrive s
  if Drive < 0 then some (DoErr RESULT_REG_DRIVE_NOT_READY s)
  else
    let s := setCurrentTrack Drive (Param s 0) s
    let s := { s with FSDPhysicalTrack := Param s 0, FSDLogicalTrack := Param s 0 }
    match GetTrackPtr s.FSDLogicalTrack s with
    | none => none
    | some (tp, s) =>
      let s := setCommandStatus (fun c => { c with CurrentTrackPtr := tp }) s
      match tp with
      | none => some (DoErr RESULT_REG_DRIVE_NOT_READY s)
      | some tp =>
        match GetSectorPtr tp (Param s 1) s with
        | none => none
        | some (sp, s) =>
          let s := setCommandStatus (fun c => { c with CurrentSectorPtr := sp }) s
          match sp with
          | none => some (DoErr RESULT_REG_DRIVE_NOT_PRESENT s)
          | some sp =>
            match sectorAt s sp with
            | none => none
            | some sec =>
              let s := setResult sec.Error s
              let s :=
                if s.FDCState.ResultReg ≠ 0 then setStatus s.FDCState.ResultReg s
                else setStatus STATUS_REG_COMMAND_BUSY s
              some (SetTrigger 100 (UpdateNMIStatus s))

def VerifyInterrupt (s : State) : Option State :=
  let s := UpdateNMIStatus (setStatus (STATUS_REG_RESULT_FULL ||| STATUS_REG_INTERRUPT_REQUEST) s)
  some (setResult RESULT_REG_SUCCESS s)

def DoFormatCommand (s : State) : Option State :=
  let s := DoLoadHead (DoSelects s)
  let Drive := GetSelectedDrive s
  if Drive < 0 then some (DoErr RESULT_REG_DRIVE_NOT_READY s)
  else if !(s.DiscStatus Drive.toNat).Writeable then some (DoErr RESULT_REG_WRITE_PROTECT s)
  else
    let s := setCurrentTrack Drive (Param s 0) s
    match GetTrackPtr (Param s 0) s with
    | none => none
    | some (tp, s) =>
      let s := setCommandStatus (fun c => { c with CurrentTrackPtr := tp }) s
      match tp with
      | none => some (DoErr RESULT_REG_DRIVE_NOT_READY s)
      | some tp =>
        match GetSectorPtr tp 0 s with
        | none => none
        | some (sp, s) =>
          let s := setCommandStatus (fun c => { c with CurrentSectorPtr := sp }) s
          match sp with
          | none => some (DoErr RESULT_REG_DRIVE_NOT_PRESENT s)
          | some _ =>
            let s := setCommandStatus (fun c => { c with
              TrackAddr := (Param s 0 : Int), CurrentSector := 0,
              SectorsToGo := ((Param s 2 &&& 31 : Nat) : Int),
              SectorLength := ((1 <<< (7 + ((Param s 2 >>> 5) &&& 7)) : Nat) : Int) }) s
            if s.CommandStatus.SectorsToGo = 10 ∧ s.CommandStatus.SectorLength = 256 then
              let s := setCommandStatus (fun c => { c with ByteWithinSector := 0 }) s
              let s := SetTrigger TIME_BETWEEN_BYTES s
              let s := UpdateNMIStatus (setStatus STATUS_REG_COMMAND_BUSY s)
              some (setCommandStatus (fun c => { c with FirstWriteInt := true }) s)
            else some (DoErr RESULT_REG_DRIVE_NOT_PRESENT s)

def FormatInterrupt (s : State) : Option State :=
  if s.CommandStatus.SectorsToGo < 0 then some (pickUpResult s)
  else
    let s :=
      if !s.CommandStatus.FirstWriteInt then
        setCommandStatus (fun c => { c with ByteWithinSector := c.ByteWithinSector + 1 }) s
      else setCommandStatus (fun c => { c with FirstWriteInt := false }) s
    let s := setResult RESULT_REG_SUCCESS s
    if s.CommandStatus.ByteWithinSector ≥ 4 then
      -- fill the first 256 bytes of the sector with 0xe5
      match s.CommandStatus.CurrentSectorPtr with
      | none => none
      | some p =>
        match sectorAt s p with
        | none => none
        | some sec =>
          match sec.Data with
          | none => none
          | some data =>
            if data.length < 256 then none
            else
              let s := setSectorData p (List.replicate 256 0xe5 ++ data.drop 256) s
              sectorWritten (TIME_BETWEEN_BYTES * 256) s
    else some (notLastByte (TIME_BETWEEN_BYTES * 256) s)

def SeekInterrupt (s : State) : Option State :=
  let s := UpdateNMIStatus (setStatus (STATUS_REG_RESULT_FULL ||| STATUS_REG_INTERRUPT_REQUEST) s)
  some (setResult RESULT_REG_SUCCESS s)

def DoSeekCommand (s : State) : Option State :=
  let s := DoLoadHead (DoSelects s)
  let Drive := GetSelectedDrive s
  if Drive < 0 then some (DoErr RESULT_REG_DRIVE_NOT_READY s)
  else
    let s := { s with DRDSC := 0 }
    let s := setCurrentTrack Drive (Param s 0) s
    let s := { s with FSDPhysicalTrack := Param s 0, UsingSpecial := false, PositionInTrack := 0 }
    let s := UpdateNMIStatus (setStatus STATUS_REG_COMMAND_BUSY s)
    some (SetTrigger 100 s)

def DoReadDriveStatusCommand (s : State) : Option State :=
  let Track0 := false
  let WriteProt := false
  let (Track0, WriteProt) :=
    if s.FDCState.Command &&& 0x40 ≠ 0 then
      (decide (s.FDCState.CurrentTrack0 = 0), !(s.DiscStatus 0).Writeable)
    else (Track0, WriteProt)
  let (Track0, WriteProt) :=
    if s.FDCState.Command &&& 0x80 ≠ 0 then
      (decide (s.FDCState.CurrentTrack1 = 0), !(s.DiscStatus 1).Writeable)
    else (Track0, WriteProt)
  let s := { s with DRDSC := (s.DRDSC + 1) % 256 }
  let s := setResult (0x80 ||| (if s.FDCState.Select1 then 0x40 else 0)
                           ||| (if s.FDCState.Select0 then 0x04 else 0)
                           ||| (if WriteProt then 0x08 else 0)
                           ||| (if Track0 then 0x02 else 0)) s
  let s := setStatus (s.FDCState.StatusReg ||| STATUS_REG_RESULT_FULL) s
  some (UpdateNMIStatus s)

def setFDC (f : FDCStateType → FDCStateType) (s : State) : State :=
  { s with FDCState := f s.FDCState }

def DoSpecifyCommand (s : State) : Option State :=
  if Param s 0 = 0x0D then
    some (setFDC (fun f => { f with
      StepRate := (Param s 1 : Int),
      HeadSettlingTime := (Param s 2 : Int),
      IndexCountBeforeHeadUnload := (((Param s 3 &&& 0xf0) >>> 4 : Nat) : Int),
      HeadLoadTime := ((Param s 3 &&& 0x0f : Nat) : Int) }) s)
  else if Param s 0 = 0x10 then
    some (setFDC (fun f => { f with
      BadTracks00 := Param s 1, BadTracks01 := Param s 2, CurrentTrack0 := Param s 3 }) s)
  else if Param s 0 = 0x18 then
    some (setFDC (fun f => { f with
      BadTracks10 := Param s 1, BadTracks11 := Param s 2, CurrentTrack1 := Param s 3 }) s)
  else some s

def DoWriteSpecialCommand (s : State) : Option State :=
  let s := DoSelects s
  let r := Param s 0
  let v := Param s 1
  if r = SPECIAL_REG_SCAN_SECTOR_NUMBER then
    some (setFDC (fun f => { f with ScanSectorNum := v }) s)
  else if r = SPECIAL_REG_SCAN_COUNT_MSB then
    some (setFDC (fun f => { f with ScanCount := (f.ScanCount &&& 0xff) ||| (v <<< 8) }) s)
  else if r = SPECIAL_REG_SCAN_COUNT_LSB then
    some (setFDC (fun f => { f with ScanCount := (f.ScanCount &&& 0xff00) ||| v }) s)
  else if r = SPECIAL_REG_SURFACE_0_CURRENT_TRACK then
    let s := setFDC (fun f => { f with CurrentTrack0 := v }) s
    some { s with FSDLogicalTrack := v, UsingSpecial := decide (v ≠ s.FSDPhysicalTrack),
                  DRDSC := 0 }
  else if r = SPECIAL_REG_SURFACE_1_CURRENT_TRACK then
    some (setFDC (fun f => { f with CurrentTrack1 := v }) s)
  else if r = SPECIAL_REG_MODE_REGISTER then
    some (setFDC (fun f => { f with ModeReg := v }) s)
  else if r = SPECIAL_REG_DRIVE_CONTROL_OUTPUT_PORT then
    some (setFDC (fun f => { f with
      DriveControlOutputPort := v,
      Select0 := decide (v &&& 0x40 ≠ 0),
      Select1 := decide (v &&& 0x80 ≠ 0) }) s)
  else if r = SPECIAL_REG_DRIVE_CONTROL_INPUT_PORT then
    some (setFDC (fun f => { f with DriveControlInputPort := v }) s)
  else if r = SPECIAL_REG_SURFACE_0_BAD_TRACK_1 then
    some (setFDC (fun f => { f with BadTracks00 := v }) s)
  else if r = SPECIAL_REG_SURFACE_0_BAD_TRACK_2 then
    some (setFDC (fun f => { f with BadTracks01 := v }) s)
  else if r = SPECIAL_REG_SURFACE_1_BAD_TRACK_1 then
    some (setFDC (fun f => { f with BadTracks10 := v }) s)
  else if r = SPECIAL_REG_SURFACE_1_BAD_TRACK_2 then
    some (setFDC (fun f => { f with BadTracks11 := v }) s)
  else some s

def DoReadSpecialCommand (s : State) : Option State :=
  let s := DoSelects s
  let r := Param s 0
  let f := s.FDCState
  let value : Option Nat :=
    if r = SPECIAL_REG_SCAN_SECTOR_NUMBER then some f.ScanSectorNum
    else if r = SPECIAL_REG_SCAN_COUNT_MSB then some ((f.ScanCount >>> 8) &&& 0xff)
    else if r = SPECIAL_REG_SCAN_COUNT_LSB then some (f.ScanCount &&& 0xff)
    else if r = SPECIAL_REG_SURFACE_0_CURRENT_TRACK then some f.CurrentTrack0
    else if r = SPECIAL_REG_SURFACE_1_CURRENT_TRACK then some f.CurrentTrack1
    else if r = SPECIAL_REG_MODE_REGISTER then some f.ModeReg
    else if r = SPECIAL_REG_DRIVE_CONTROL_OUTPUT_PORT then some f.DriveControlOutputPort
    else if r = SPECIAL_REG_DRIVE_CONTROL_INPUT_PORT then some f.DriveControlInputPort
    else if r = SPECIAL_REG_SURFACE_0_BAD_TRACK_1 then some f.BadTracks00
    else if r = SPECIAL_REG_SURFACE_0_BAD_TRACK_2 then some f.BadTracks01
    else if r = SPECIAL_REG_SURFACE_1_BAD_TRACK_1 then some f.BadTracks10
    else if r = SPECIAL_REG_SURFACE_1_BAD_TRACK_2 then some f.BadTracks11
    else none
  match value with
  | none => some s
  | some v =>
    let s := setResult v s
    some (UpdateNMIStatus (setStatus (s.FDCState.StatusReg ||| STATUS_REG_RESULT_FULL) s))

def DoBadCommand (s : State) : Option State := some s

/-! ## Command table -/

/-- The setup handlers a table entry can name (`CommandFunc ToCall`). -/
inductive CommandFunc where
  | DoVarLength_ScanDataCommand
  | DoVarLength_ScanDataAndDeldCommand
  | Do128ByteSR_WriteDataCommand
  | DoVarLength_WriteDataCommand
  | Do128ByteSR_WriteDeletedDataCommand
  | DoVarLength_WriteDeletedDataCommand
  | Do128ByteSR_ReadDataCommand
  | DoVarLength_ReadDataCommand
  | Do128ByteSR_ReadDataAndDeldCommand
  | DoVarLength_ReadDataAndDeldCommand
  | DoReadIDCommand
  | Do128ByteSR_VerifyDataAndDeldCommand
  | DoVarLength_VerifyDataAndDeldCommand
  | DoFormatCommand
  | DoSeekCommand
  | DoReadDriveStatusCommand
  | DoSpecifyCommand
  | DoWriteSpecialCommand
  | DoReadSpecialCommand
  | DoBadCommand
deriving DecidableEq

/-- The tick handlers a table entry can name (`CommandFunc IntHandler`). -/
inductive IntFunc where
  | WriteInterrupt
  | ReadInterrupt
  | Read128Interrupt
  | ReadIDInterrupt
  | VerifyInterrupt
  | FormatInterrupt
  | SeekInterrupt
deriving DecidableEq

structure PrimaryCommandLookupType where
  CommandNum : Nat
  Mask : Nat
  NParams : Int
  ToCall : CommandFunc
  IntHandler : Option IntFunc
  Ident : String
deriving DecidableEq

def PrimaryCommandLookup : List PrimaryCommandLookupType := [
  ⟨0x00, 0x3f, 3, .DoVarLength_ScanDataCommand, none, "Scan Data (Variable Length/Multi-Record)"⟩,
  ⟨0x04, 0x3f, 3, .DoVarLength_ScanDataAndDeldCommand, none, "Scan Data & deleted data (Variable Length/Multi-Record)"⟩,
  ⟨0x0a, 0x3f, 2, .Do128ByteSR_WriteDataCommand, none, "Write Data (128 byte/single record)"⟩,
  ⟨0x0b, 0x3f, 3, .DoVarLength_WriteDataCommand, some .WriteInterrupt, "Write Data (Variable Length/Multi-Record)"⟩,
  ⟨0x0e, 0x3f, 2, .Do128ByteSR_WriteDeletedDataCommand, none, "Write Deleted Data (128 byte/single record)"⟩,
  ⟨0x0f, 0x3f, 3, .DoVarLength_WriteDeletedDataCommand, none, "Write Deleted Data (Variable Length/Multi-Record)"⟩,
  ⟨0x12, 0x3f, 2, .Do128ByteSR_ReadDataCommand, none, "Read Data (128 byte/single record)"⟩,
  ⟨0x13, 0x3f, 3, .DoVarLength_ReadDataCommand, some .ReadInterrupt, "Read Data (Variable Length/Multi-Record)"⟩,
  ⟨0x16, 0x3f, 2, .Do128ByteSR_ReadDataAndDeldCommand, some .Read128Interrupt, "Read Data & deleted data (128 byte/single record)"⟩,
  ⟨0x17, 0x3f, 3, .DoVarLength_ReadDataAndDeldCommand, some .ReadInterrupt, "Read Data & deleted data (Variable Length/Multi-Record)"⟩,
  ⟨0x1b, 0x3f, 3, .DoReadIDCommand, some .ReadIDInterrupt, "ReadID"⟩,
  ⟨0x1e, 0x3f, 2, .Do128ByteSR_VerifyDataAndDeldCommand, none, "Verify Data and Deleted Data (128 byte/single record)"⟩,
  ⟨0x1f, 0x3f, 3, .DoVarLength_VerifyDataAndDeldCommand, some .VerifyInterrupt, "Verify Data and Deleted Data (Variable Length/Multi-Record)"⟩,
  ⟨0x23, 0x3f, 5, .DoFormatCommand, some .FormatInterrupt, "Format"⟩,
  ⟨0x29, 0x3f, 1, .DoSeekCommand, some .SeekInterrupt, "Seek"⟩,
  ⟨0x2c, 0x3f, 0, .DoReadDriveStatusCommand, none, "Read drive status"⟩,
  ⟨0x35, 0xff, 4, .DoSpecifyCommand, none, "Specify"⟩,
  ⟨0x3a, 0x3f, 2, .DoWriteSpecialCommand, none, "Write special registers"⟩,
  ⟨0x3d, 0x3f, 1, .DoReadSpecialCommand, none, "Read special registers"⟩,
  ⟨0, 0, 0, .DoBadCommand, none, "Unknown command"⟩ ]

/-- The `while` loop of `CommandPtrFromNumber`: `presptr` walks the entries
that remain; `none` when it walks past the end of the table. -/
def CommandPtrFromNumberLoop (CommandNumber : Nat) :
    List PrimaryCommandLookupType → Option PrimaryCommandLookupType
  | [] => none
  | presptr :: rest =>
    if presptr.CommandNum ≠ (presptr.Mask &&& CommandNumber) then
      CommandPtrFromNumberLoop CommandNumber rest
    else some presptr

def CommandPtrFromNumber (CommandNumber : Nat) : Option PrimaryCommandLookupType :=
  CommandPtrFromNumberLoop CommandNumber PrimaryCommandLookup

/-- The call `ptr->ToCall()`. -/
def callToCall : CommandFunc → State → Option State
  | .DoVarLength_ScanDataCommand => DoVarLength_ScanDataCommand
  | .DoVarLength_ScanDataAndDeldCommand => DoVarLength_ScanDataAndDeldCommand
  | .Do128ByteSR_WriteDataCommand => Do128ByteSR_WriteDataCommand
  | .DoVarLength_WriteDataCommand => DoVarLength_WriteDataCommand
  | .Do128ByteSR_WriteDeletedDataCommand => Do128ByteSR_WriteDeletedDataCommand
  | .DoVarLength_WriteDeletedDataCommand => DoVarLength_WriteDeletedDataCommand
  | .Do128ByteSR_ReadDataCommand => Do128ByteSR_ReadDataCommand
  | .DoVarLength_ReadDataCommand => DoVarLength_ReadDataCommand
  | .Do128ByteSR_ReadDataAndDeldCommand => Do128ByteSR_ReadDataAndDeldCommand
  | .DoVarLength_ReadDataAndDeldCommand => DoVarLength_ReadDataAndDeldCommand
  | .DoReadIDCommand => DoReadIDCommand
  | .Do128ByteSR_VerifyDataAndDeldCommand => Do128ByteSR_VerifyDataAndDeldCommand
  | .DoVarLength_VerifyDataAndDeldCommand => DoVarLength_VerifyDataAndDeldCommand
  | .DoFormatCommand => DoFormatCommand
  | .DoSeekCommand => DoSeekCommand
  | .DoReadDriveStatusCommand => DoReadDriveStatusCommand
  | .DoSpecifyCommand => DoSpecifyCommand
  | .DoWriteSpecialCommand => DoWriteSpecialCommand
  | .DoReadSpecialCommand => DoReadSpecialCommand
  | .DoBadCommand => DoBadCommand

/-- The call `comptr->IntHandler()`. -/
def callIntHandler : IntFunc → State → Option State
  | .WriteInterrupt => WriteInterrupt
  | .ReadInterrupt => ReadInterrupt
  | .Read128Interrupt => Read128Interrupt
  | .ReadIDInterrupt => ReadIDInterrupt
  | .VerifyInterrupt => VerifyInterrupt
  | .FormatInterrupt => FormatInterrupt
  | .SeekInterrupt => SeekInterrupt

/-! ## Drive motor and head -/

def DriveHeadScheduleUnload (s : State) : State :=
  if s.DriveHeadLoaded ∧ s.Disc8271Trigger = none then
    { SetTrigger 4000000 s with DriveHeadUnloadPending := true }
  else s

/-- `DriveHeadMotorUpdate`; the calls that start and stop sound samples have no
effect on the controller and are left out. -/
def DriveHeadMotorUpdate (s : State) : Bool × State :=
  if s.DriveHeadUnloadPending then
    let s := setFDC (fun f => { f with Select0 := false, Select1 := false }) s
    (true, { s with DriveHeadUnloadPending := false, DriveHeadLoaded := false,
                    LEDsDisc0 := false, LEDsDisc1 := false })
  else if !s.DiscDriveSoundEnabled then
    (false, { s with DriveHeadLoaded := true })
  else if !s.DriveHeadLoaded then
    let s := if s.FDCState.Select0 then { s with LEDsDisc0 := true } else s
    let s := if s.FDCState.Select1 then { s with LEDsDisc1 := true } else s
    let s := { s with DriveHeadLoaded := true }
    (true, SetTrigger s.SAMPLE_HEAD_LOAD_CYCLES s)
  else
    let Drive : Nat := if s.FDCState.Select1 then 1 else 0
    let pos : Int := if Drive = 0 then s.DriveHeadPosition0 else s.DriveHeadPosition1
    if pos ≠ (s.FSDPhysicalTrack : Int) then
      let Tracks : Int := |pos - (s.FSDPhysicalTrack : Int)|
      let s :=
        if Tracks > 1 then SetTrigger (Tracks * s.SAMPLE_HEAD_SEEK_CYCLES_PER_TRACK) s
        else SetTrigger s.SAMPLE_HEAD_STEP_CYCLES s
      let pos' : Int := if pos < (s.FSDPhysicalTrack : Int) then pos + Tracks else pos - Tracks
      (true, if Drive = 0 then { s with DriveHeadPosition0 := pos' }
             else { s with DriveHeadPosition1 := pos' })
    else (false, s)

/-! ## Reset -/

def InitDiscStore (s : State) : State :=
  { s with DiscStatus := fun Drive =>
      if Drive < 2 then
        { s.DiscStatus Drive with Tracks := fun Head Track =>
            if Head < 2 ∧ Track < TRACKS_PER_DRIVE then Blank
            else (s.DiscStatus Drive).Tracks Head Track }
      else s.DiscStatus Drive }

def Disc8271Reset (s : State) : State :=
  let s := setResult RESULT_REG_SUCCESS s
  let s := setStatus 0 s
  let s := UpdateNMIStatus s
  let s := setFDC (fun f => { f with
    ScanSectorNum := 0, ScanCount := 0, ModeReg := 0, CurrentTrack0 := 0, CurrentTrack1 := 0 }) s
  let s := { s with UsingSpecial := false }
  let s := setFDC (fun f => { f with
    DriveControlOutputPort := 0, DriveControlInputPort := 0,
    BadTracks00 := 0xff, BadTracks01 := 0xff, BadTracks10 := 0xff, BadTracks11 := 0xff,
    StepRate := 12, HeadSettlingTime := 10, IndexCountBeforeHeadUnload := 12,
    HeadLoadTime := 8 }) s
  let s :=
    if s.DriveHeadLoaded then
      (DriveHeadMotorUpdate { s with DriveHeadUnloadPending := true }).2
    else s
  let s := ClearTrigger s
  let s := setFDC (fun f => { f with
    Command := 255, CommandParamCount := 0, CurrentParam := 0,
    Select0 := false, Select1 := false }) s
  if s.InitialInit then InitDiscStore { s with InitialInit := false } else s

/-! ## Register interface -/

/-- `Disc8271Read`: the value returned to the host and the state afterwards.
`~(a | b)` applied to the `unsigned char` status register keeps the other six
bits, so it is written as the mask `0xff ^^^ (a ||| b)`. -/
def Disc8271Read (Address : Int) (s : State) : Nat × State :=
  if !s.Disc8271Enabled then (0xFF, s)
  else if Address = 0 then (s.FDCState.StatusReg, s)
  else if Address = 1 then
    let s := setStatus (s.FDCState.StatusReg &&&
      (0xff ^^^ (STATUS_REG_RESULT_FULL ||| STATUS_REG_INTERRUPT_REQUEST))) s
    let s := UpdateNMIStatus s
    let Value := s.FDCState.ResultReg
    (Value, setResult RESULT_REG_SUCCESS s)
  else if Address = 4 then
    let s := setStatus (s.FDCState.StatusReg &&&
      (0xff ^^^ (STATUS_REG_INTERRUPT_REQUEST ||| STATUS_REG_NON_DMA_MODE))) s
    let s := UpdateNMIStatus s
    (s.FDCState.DataReg, s)
  else (0, s)

/-- The statements `FDCState.StatusReg &= 0x7e; UpdateNMIStatus();` that precede
every call of a setup handler: the state the handler is entered with. -/
def handlerEntry (s : State) : State :=
  UpdateNMIStatus (setStatus (s.FDCState.StatusReg &&& 0x7e) s)

def CommandRegWrite (Value : Nat) (s : State) : Option State :=
  match CommandPtrFromNumber Value with
  | none => none
  | some ptr =>
    let s := setFDC (fun f => { f with
      Command := Value, CommandParamCount := ptr.NParams, CurrentParam := 0 }) s
    let s := setStatus (s.FDCState.StatusReg |||
      (STATUS_REG_COMMAND_BUSY ||| STATUS_REG_RESULT_FULL)) s
    let s := UpdateNMIStatus s
    if s.FDCState.CommandParamCount = 0 then callToCall ptr.ToCall (handlerEntry s)
    else some s

/-- The statements `FDCState.Params[FDCState.CurrentParam++] = Value;
FDCState.StatusReg &= 0xfe; UpdateNMIStatus();` of `ParamRegWrite`. -/
def storeParam (Value : Nat) (s : State) : State :=
  let s := setFDC (fun f => { f with
    Params := Function.update f.Params f.CurrentParam.toNat Value,
    CurrentParam := f.CurrentParam + 1 }) s
  UpdateNMIStatus (setStatus (s.FDCState.StatusReg &&& 0xfe) s)

def ParamRegWrite (Value : Nat) (s : State) : Option State :=
  if s.FDCState.CurrentParam ≥ s.FDCState.CommandParamCount then some s
  else if s.FDCState.CurrentParam < 0 ∨ s.FDCState.CurrentParam ≥ 16 then none
  else
    let s := storeParam Value s
    if s.FDCState.CurrentParam ≥ s.FDCState.CommandParamCount then
      match CommandPtrFromNumber s.FDCState.Command with
      | none => none
      | some ptr => callToCall ptr.ToCall (handlerEntry s)
    else some s

/-- The statements of `Disc8271Write` that clear a pending head unload. -/
def cancelHeadUnload (s : State) : State :=
  if s.DriveHeadUnloadPending then ClearTrigger { s with DriveHeadUnloadPending := false }
  else s

def Disc8271Write (Address : Int) (Value : Nat) (s : State) : Option State :=
  if !s.Disc8271Enabled then some s
  else
    let s := cancelHeadUnload s
    let written : Option State :=
      if Address = 0 then CommandRegWrite Value s
      else if Address = 1 then ParamRegWrite Value s
      else if Address = 2 then some (Disc8271Reset s)
      else if Address = 4 then
        let s := setStatus (s.FDCState.StatusReg &&&
          (0xff ^^^ (STATUS_REG_INTERRUPT_REQUEST ||| STATUS_REG_NON_DMA_MODE))) s
        some (setData Value (UpdateNMIStatus s))
      else some s
    written.map DriveHeadScheduleUnload

/-! ## The controller tick -/

def Disc8271_poll_real (s : State) : Option State :=
  let s := ClearTrigger s
  let (busy, s) := DriveHeadMotorUpdate s
  if busy then some s
  else
    let s := setStatus (s.FDCState.StatusReg ||| STATUS_REG_INTERRUPT_REQUEST) s
    let s := UpdateNMIStatus s
    let handled : Option State :=
      if s.CommandStatus.NextInterruptIsErr ≠ RESULT_REG_DATA_CRC_ERROR ∧
          s.CommandStatus.NextInterruptIsErr ≠ RESULT_REG_DELETED_DATA_FOUND ∧
          s.CommandStatus.NextInterruptIsErr ≠ RESULT_REG_SUCCESS then
        let s := setResult s.CommandStatus.NextInterruptIsErr s
        let s := setStatus (STATUS_REG_RESULT_FULL ||| STATUS_REG_INTERRUPT_REQUEST) s
        let s := UpdateNMIStatus s
        some (setCommandStatus (fun c => { c with NextInterruptIsErr := RESULT_REG_SUCCESS }) s)
      else
        match CommandPtrFromNumber s.FDCState.Command with
        | none => none
        | some comptr =>
          match comptr.IntHandler with
          | none => some s
          | some h => callIntHandler h s
    handled.map DriveHeadScheduleUnload

/-! ## Specification-side definitions -/

/-- The order in which a lookup starting at position `p` visits the `n` sectors
of a track: `p, p+1, …, n-1, 0, …, p-1`. -/
def cyclicOrder (p n : Nat) : List Nat :=
  List.range' p (n - p) ++ List.range p

/-- Whether the sector at index `i` of `secs` carries logical sector `id` in
its ID field. -/
def hasID (secs : List SectorType) (id : Nat) (i : Nat) : Bool :=
  (secs[i]?.map (fun sec => sec.IDField.LogicalSector)) == some id

/-- The read decision table of the specification, first match wins: `E` is the
sector's stored error, `R` its real size, `I` its declared ID size, `L` the
sector length of the transfer and `O` the over-read flag. -/
def readResultTable (E : Nat) (R I L : Int) (O : Bool) : Nat :=
  if E = 0 ∧ R ≠ L then 0x0E
  else if O = true ∧ E = 0 then 0x0E
  else if O = true ∧ (E = 0x20 ∨ E = 0x2E) then 0x2E
  else if E = 0x20 ∧ R ≠ L then 0x2E
  else if E = 0x2E ∧ I = L ∧ O = false then 0x20
  else if E = 0xE1 then (if L = 256 then 0x00 else 0x0E)
  else if E = 0xE0 then (if L = 128 then 0x00 else 0x0E)
  else if E = 0x0E ∧ R = I then 0x0E
  else E

/-- The data-model invariant of a track: the sector array is allocated, holds
`NSectors` sectors, and each sector's record number is its index. -/
def TrackWF (t : TrackType) (secs : List SectorType) : Prop :=
  t.Sectors = some secs ∧ t.NSectors = (secs.length : Int) ∧
    ∀ i (h : i < secs.length), (secs.get ⟨i, h⟩).RecordNum = i

/-- The `command_busy` bit (0x80) of the status register. -/
def commandBusy (s : State) : Bool := s.FDCState.StatusReg.testBit 7

/-- The `result_full` bit (0x10) of the status register. -/
def resultFull (s : State) : Bool := s.FDCState.StatusReg.testBit 4

/-- The status values a tick handler can leave: `result_full|interrupt_request`,
`command_busy`, `command_busy|interrupt_request|non_dma_mode`, the same with
`result_full`, and `result_full` alone. -/
def tickStatus (v : Nat) : Prop := v = 0x18 ∨ v = 0x80 ∨ v = 0x8C ∨ v = 0x9C ∨ v = 0x10

/-- A sequence of host register writes `(offset, value)`, in order. -/
def hostWrites : List (Int × Nat) → State → Option State
  | [], s => some s
  | (Address, Value) :: rest, s => (Disc8271Write Address Value s).bind (hostWrites rest)

/-- Apply a tick handler `n` times in a row. -/
def iterate (f : State → Option State) : Nat → State → Option State
  | 0, s => some s
  | n + 1, s => (f s).bind (iterate f n)

/-- The values of the data register after each of `n` successive ticks. -/
def dataTrace (f : State → Option State) : Nat → State → Option (List Nat)
  | 0, _ => some []
  | n + 1, s =>
    match f s with
    | none => none
    | some s' => (dataTrace f n s').map (fun rest => s'.FDCState.DataReg :: rest)

/-! ## Concrete states -/

/-- The statics of the controller as the program starts: zero-initialised, the
controller enabled, no file reachable. -/
def zeroState : State :=
  { Disc8271Enabled := true, Disc8271Trigger := some 0, TotalCycles := 0,
    DriveHeadPosition0 := 0, DriveHeadPosition1 := 0, DriveHeadLoaded := false,
    DriveHeadUnloadPending := false, PositionInTrack := 0, SectorOverRead := false,
    UsingSpecial := false, DRDSC := 0,
    DiscStatus := fun _ => { Kind := .SSD, FileName := "", Writeable := false, NumHeads := 0,
                             TotalTracks := 0, Tracks := fun _ _ => Blank },
    FDCState := { ResultReg := 0, StatusReg := 0, DataReg := 0, Command := 0,
                  CommandParamCount := 0, CurrentParam := 0, Params := fun _ => 0,
                  Select0 := false, Select1 := false, ScanSectorNum := 0, ScanCount := 0,
                  ModeReg := 0, CurrentTrack0 := 0, CurrentTrack1 := 0,
                  DriveControlOutputPort := 0, DriveControlInputPort := 0,
                  BadTracks00 := 0, BadTracks01 := 0, BadTracks10 := 0, BadTracks11 := 0,
                  StepRate := 0, HeadSettlingTime := 0, IndexCountBeforeHeadUnload := 0,
                  HeadLoadTime := 0 },
    FSDLogicalTrack := 0, FSDPhysicalTrack := 0,
    CommandStatus := { TrackAddr := 0, CurrentSector := 0, SectorLength := 0, SectorsToGo := 0,
                       CurrentSectorPtr := none, CurrentTrackPtr := none, ByteWithinSector := 0,
                       FirstWriteInt := false, NextInterruptIsErr := 0 },
    NMIFloppy := false, ShiftBooted := false, DiscDriveSoundEnabled := false,
    LEDsDisc0 := false, LEDsDisc1 := false,
    SAMPLE_HEAD_LOAD_CYCLES := 0, SAMPLE_HEAD_SEEK_CYCLES_PER_TRACK := 0,
    SAMPLE_HEAD_STEP_CYCLES := 0,
    Rand := fun _ => 0, RandCalls := 0,
    FS := { Files := fun _ => none, IOFail := fun _ => false, IOCalls := 0 },
    InitialInit := true }

/-- The controller after the reset the emulator performs at start-up. -/
def powerOn : State := Disc8271Reset zeroState

/-- A sector with the given ID-field track and sector numbers, record number,
size, error code and data. -/
def mkSector (LogicalTrack LogicalSector RecordNum : Nat) (size : Int) (Error : Nat)
    (Data : List Nat) : SectorType :=
  { IDField := { LogicalTrack := LogicalTrack, HeadNum := 0, LogicalSector := LogicalSector,
                 SectorLength := 1 },
    CylinderNum := LogicalTrack, RecordNum := RecordNum, IDSiz := size, RealSectorSize := size,
    Error := Error, Data := some Data }

/-- A readable track holding the given sectors. -/
def mkTrack (secs : List SectorType) : TrackType :=
  { LogicalSectors := secs.length, NSectors := secs.length, Sectors := some secs,
    Gap1Size := 0, Gap3Size := 0, Gap5Size := 0, TrackIsReadable := true }

/-- Put the given tracks of head 0 into drive 0 of a state. -/
def withTracks (tracks : Nat → TrackType) (s : State) : State :=
  { s with DiscStatus := fun d =>
      if d = 0 then
        { s.DiscStatus 0 with Tracks := fun Head Track =>
            if Head = 0 then tracks Track else (s.DiscStatus 0).Tracks Head Track }
      else s.DiscStatus d }

/-- Select drive 0, as `DoSelects` does for a command byte with bit 6 set. -/
def selectDrive0 (s : State) : State :=
  setFDC (fun f => { f with Select0 := true, Command := 0x40 ||| f.Command }) s

/-- Three sectors of 128 bytes with logical sector IDs 5, 7, 5: the ID 5 is
carried by the sectors at indices 0 and 2, whose data differ. -/
def threeSectors : List SectorType :=
  [mkSector 0 5 0 128 0 (List.replicate 128 1), mkSector 0 7 1 128 0 (List.replicate 128 2),
   mkSector 0 5 2 128 0 (List.replicate 128 3)]

/-- Drive 0 selected, every track of head 0 holding `threeSectors`, and
`PositionInTrack = 1`. -/
def lookupState : State :=
  withTracks (fun _ => mkTrack threeSectors) (selectDrive0 { powerOn with PositionInTrack := 1 })

/-- A disc whose physical track 0 is unformatted and whose physical track 1
holds one sector with logical track 1. -/
def unformattedThenTrack1 : Nat → TrackType := fun t =>
  if t = 1 then mkTrack [mkSector 1 0 0 256 0 (List.replicate 256 0)] else Blank

/-- Drive 0 selected, head at physical track 0, on the disc
`unformattedThenTrack1`. -/
def krakoutState : State := withTracks unformattedThenTrack1 (selectDrive0 powerOn)

/-- The state `s` with the emulator's drive sounds switched on. -/
def soundOn (s : State) : State := { s with DiscDriveSoundEnabled := true }

/-- A read of one 128-byte sector in progress on `lookupState`: the transfer
state designates the sector at index 0 of track 0. -/
def readState : State :=
  setCommandStatus (fun c => { c with
    SectorLength := 128, SectorsToGo := 1, ByteWithinSector := 0,
    CurrentTrackPtr := some ⟨0, 0, 0⟩, CurrentSectorPtr := some ⟨⟨0, 0, 0⟩, 0⟩ }) lookupState

/-- The controller with command byte `cmd` latched and its parameters stored,
as the register writes leave it when the setup handler is entered. -/
def latched (cmd : Nat) (params : List Nat) (s : State) : State :=
  setFDC (fun f => { f with Command := cmd, Params := fun i => params.getD i 0 }) s

/-- Drive 0 selected, every track of head 0 holding one 256-byte sector with
logical sector ID 0 and stored error 0x0E. -/
def crcErrorState : State :=
  withTracks (fun _ => mkTrack [mkSector 0 0 0 256 0x0E (List.replicate 256 0)])
    (selectDrive0 powerOn)

/-- Make the disc in drive 0 writable. -/
def writableDrive0 (s : State) : State :=
  { s with DiscStatus := fun d =>
      if d = 0 then { s.DiscStatus 0 with Writeable := true } else s.DiscStatus d }

/-! ## Disc images -/

/-- An assignment through `DiscStatus[Drive]`. -/
def setDisc (Drive : Nat) (f : DiscStatusType → DiscStatusType) (s : State) : State :=
  { s with DiscStatus := fun d => if d = Drive then f (s.DiscStatus d) else s.DiscStatus d }

/-- The assignment of `DiscStatus[Drive].Tracks[Head][Track]`. -/
def setTrack (Drive Head Track : Nat) (t : TrackType) (s : State) : State :=
  setDisc Drive (fun disc => { disc with Tracks := fun h k =>
    if h = Head ∧ k = Track then t else disc.Tracks h k }) s

/-- The body of the loop of `FreeDiscImage` for one track: the sector array is
freed and the pointer set to `nullptr`; the track's `LogicalSectors` and
`NSectors` keep their values. `none` when the inner loop, which runs
`LogicalSectors` times, leaves the sector array. -/
def freeTrack (t : TrackType) : Option TrackType :=
  match t.Sectors with
  | none => some t
  | some secs =>
    if t.LogicalSectors ≤ (secs.length : Int) then some { t with Sectors := none } else none

/-- The loop `for (Track = 0; Track < TRACKS_PER_DRIVE; Track++)` of
`FreeDiscImage`, on the tracks of head 0 (`const int Head = 0`). -/
def FreeDiscImageLoop (Drive : Nat) : Nat → Nat → State → Option State
  | 0, _, s => some s
  | count + 1, Track, s =>
    match freeTrack ((s.DiscStatus Drive).Tracks 0 Track) with
    | none => none
    | some t => FreeDiscImageLoop Drive count (Track + 1) (setTrack Drive 0 Track t s)

def FreeDiscImage (Drive : Nat) (s : State) : Option State :=
  FreeDiscImageLoop Drive TRACKS_PER_DRIVE 0 s

def Eject8271DiscImage (DriveNum : Nat) (s : State) : Option State :=
  FreeDiscImage DriveNum (setDisc DriveNum (fun d => { d with FileName := "" }) s)

/-- The call `fgetc(infile)` stored in an `unsigned char`; `rd` holds the bytes
of the stream not read yet. At the end of the file `EOF` is stored as 255. -/
def fgetc8 (rd : List Nat) : Nat × List Nat :=
  match rd with
  | [] => (255, [])
  | b :: rest => (b % 256, rest)

/-- The calls `calloc(1, n)` and `fread(Data, 1, n, infile)`: the buffer and the
rest of the stream. -/
def freadBuffer (n : Nat) (rd : List Nat) : List Nat × List Nat :=
  (rd.take n ++ List.replicate (n - rd.length) 0, rd.drop n)

/-- The loop over the ten sectors of a track in `LoadSimpleDiscImage` and
`LoadSimpleDSDiscImage`; the members not assigned keep the zero of `calloc`,
and `IDField.SectorLength = 256` stores 0 in the `unsigned char`. -/
def loadSimpleSectors (Track HeadNum : Nat) : Nat → Nat → List Nat → List SectorType × List Nat
  | 0, _, rd => ([], rd)
  | count + 1, Sector, rd =>
    let (data, rd) := freadBuffer 256 rd
    let sec : SectorType :=
      { IDField := { LogicalTrack := Track % 256, HeadNum := HeadNum % 256,
                     LogicalSector := Sector % 256, SectorLength := 256 % 256 },
        CylinderNum := 0, RecordNum := Sector % 256, IDSiz := 0, RealSectorSize := 256,
        Error := RESULT_REG_SUCCESS, Data := some data }
    let (rest, rd) := loadSimpleSectors Track HeadNum count (Sector + 1) rd
    (sec :: rest, rd)

/-- The body of the track loop of the two simple loaders: `none` when `Track`
is outside the track array. -/
def loadSimpleTrack (DriveNum Head Track HeadNum : Nat) (rd : List Nat) (s : State) :
    Option (List Nat × State) :=
  if Track < TRACKS_PER_DRIVE then
    let (secs, rd) := loadSimpleSectors Track HeadNum 10 0 rd
    some (rd, setTrack DriveNum Head Track
      { LogicalSectors := 10, NSectors := 10, Sectors := some secs,
        Gap1Size := 0, Gap3Size := 0, Gap5Size := 0, TrackIsReadable := true } s)
  else none

/-- The loop `for (Track = 0; Track < Tracks; Track++)` of
`LoadSimpleDiscImage`. -/
def loadSimpleTracks (DriveNum Head HeadNum : Nat) :
    Nat → Nat → List Nat → State → Option (List Nat × State)
  | 0, _, rd, s => some (rd, s)
  | count + 1, Track, rd, s =>
    match loadSimpleTrack DriveNum Head Track HeadNum rd s with
    | none => none
    | some (rd, s) => loadSimpleTracks DriveNum Head HeadNum count (Track + 1) rd s

/-- The loop `for (Head = HeadNum; Head < Heads; Head++)` of
`LoadSimpleDiscImage`. -/
def loadSimpleHeads (DriveNum HeadNum Tracks : Nat) :
    Nat → Nat → List Nat → State → Option (List Nat × State)
  | 0, _, rd, s => some (rd, s)
  | count + 1, Head, rd, s =>
    match loadSimpleTracks DriveNum Head HeadNum Tracks 0 rd s with
    | none => none
    | some (rd, s) => loadSimpleHeads DriveNum HeadNum Tracks count (Head + 1) rd s

/-- `LoadSimpleDiscImage`; `DriveNum` is 0 or 1 and `HeadNum`, `Tracks` are not
negative. The file is the list of its bytes. -/
def LoadSimpleDiscImage (FileName : String) (DriveNum HeadNum Tracks : Nat) (s : State) :
    Option State :=
  match s.FS.Files FileName with
  | none => some s
  | some content =>
    let Heads : Nat := if content.length > 0x40000 then 2 else 1
    let s := setDisc DriveNum (fun d => { d with
      NumHeads := if content.length > 0x40000 then 0 else 1,
      FileName := FileName, Kind := .SSD }) s
    match FreeDiscImage DriveNum s with
    | none => none
    | some s =>
      (loadSimpleHeads DriveNum HeadNum Tracks (Heads - HeadNum) HeadNum content s).map
        (fun p => p.2)

/-- The loop `for (Head = 0; Head < 2; Head++)` of `LoadSimpleDSDiscImage`. -/
def loadDSHeads (DriveNum Track : Nat) :
    Nat → Nat → List Nat → State → Option (List Nat × State)
  | 0, _, rd, s => some (rd, s)
  | count + 1, Head, rd, s =>
    match loadSimpleTrack DriveNum Head Track Head rd s with
    | none => none
    | some (rd, s) => loadDSHeads DriveNum Track count (Head + 1) rd s

/-- The loop `for (Track = 0; Track < Tracks; Track++)` of
`LoadSimpleDSDiscImage`. -/
def loadDSTracks (DriveNum : Nat) : Nat → Nat → List Nat → State → Option (List Nat × State)
  | 0, _, rd, s => some (rd, s)
  | count + 1, Track, rd, s =>
    match loadDSHeads DriveNum Track 2 0 rd s with
    | none => none
    | some (rd, s) => loadDSTracks DriveNum count (Track + 1) rd s

def LoadSimpleDSDiscImage (FileName : String) (DriveNum Tracks : Nat) (s : State) :
    Option State :=
  match s.FS.Files FileName with
  | none => some s
  | some content =>
    let s := setDisc DriveNum (fun d => { d with
      FileName := FileName, Kind := .DSD, NumHeads := 2 }) s
    match FreeDiscImage DriveNum s with
    | none => none
    | some s => (loadDSTracks DriveNum Tracks 0 content s).map (fun p => p.2)

def GetFSDSectorSize (Index : Nat) : Nat :=
  if Index = 1 then 256
  else if Index = 2 then 512
  else if Index = 3 then 1024
  else if Index = 4 then 2048
  else 128

/-- The loop `while (dtchar != 0) dtchar = fgetc(infile)` of
`LoadFSDDiscImage`: the stream after the first zero byte; `none` when there is
none, as `fgetc` then returns `EOF` for ever. -/
def skipTitle : List Nat → Option (List Nat)
  | [] => none
  | b :: rest => if b = 0 then some rest else skipTitle rest

/-- The loop over the sectors of a track in `LoadFSDDiscImage`; the members not
assigned keep the zero of `calloc`. -/
def loadFSDSectors (CurrentTrack TrackIsReadable : Nat) :
    Nat → Nat → List Nat → List SectorType × List Nat
  | 0, _, rd => ([], rd)
  | count + 1, CurrentSector, rd =>
    let (LogicalTrack, rd) := fgetc8 rd
    let (HeadNum, rd) := fgetc8 rd
    let (LogicalSector, rd) := fgetc8 rd
    let (FRecLength, rd) := fgetc8 rd
    let sec : SectorType :=
      { IDField := { LogicalTrack := LogicalTrack, HeadNum := HeadNum,
                     LogicalSector := LogicalSector, SectorLength := FRecLength },
        CylinderNum := CurrentTrack % 256, RecordNum := CurrentSector % 256,
        IDSiz := GetFSDSectorSize FRecLength, RealSectorSize := 0, Error := 0, Data := none }
    let (sec, rd) :=
      if TrackIsReadable = 255 then
        let (FPRecLength, rd) := fgetc8 rd
        let (FErr, rd) := fgetc8 rd
        let (data, rd) := freadBuffer (GetFSDSectorSize FPRecLength) rd
        ({ sec with RealSectorSize := GetFSDSectorSize FPRecLength, Error := FErr,
                    Data := some data }, rd)
      else (sec, rd)
    let (rest, rd) := loadFSDSectors CurrentTrack TrackIsReadable count (CurrentSector + 1) rd
    (sec :: rest, rd)

/-- The loop `for (CurrentTrack = 0; CurrentTrack < TotalTracks; CurrentTrack++)`
of `LoadFSDDiscImage`, on the tracks of head 0. -/
def loadFSDTracks (DriveNum : Nat) : Nat → Nat → List Nat → State → State
  | 0, _, _, s => s
  | count + 1, CurrentTrack, rd, s =>
    let (_, rd) := fgetc8 rd
    let (SectorsPerTrack, rd) := fgetc8 rd
    let trk := { (s.DiscStatus DriveNum).Tracks 0 CurrentTrack with
      LogicalSectors := SectorsPerTrack }
    if SectorsPerTrack > 0 then
      let (TrackIsReadable, rd) := fgetc8 rd
      let (secs, rd) := loadFSDSectors CurrentTrack TrackIsReadable SectorsPerTrack 0 rd
      loadFSDTracks DriveNum count (CurrentTrack + 1) rd
        (setTrack DriveNum 0 CurrentTrack { trk with
          NSectors := SectorsPerTrack, Sectors := some secs,
          TrackIsReadable := decide (TrackIsReadable ≠ 0) } s)
    else
      loadFSDTracks DriveNum count (CurrentTrack + 1) rd (setTrack DriveNum 0 CurrentTrack trk s)

/-- `LoadFSDDiscImage`; `int LastTrack = fgetc(infile)` is −1 at the end of the
file. -/
def LoadFSDDiscImage (FileName : String) (DriveNum : Nat) (s : State) : Option State :=
  match s.FS.Files FileName with
  | none => some s
  | some content =>
    let s := setDisc DriveNum (fun d => { d with
      NumHeads := 1, FileName := FileName, Kind := .FSD }) s
    match FreeDiscImage DriveNum s with
    | none => none
    | some s =>
      match skipTitle (content.drop 8) with
      | none => none
      | some rd =>
        let LastTrack : Int := match rd with
          | [] => -1
          | b :: _ => (b : Int)
        let s := setDisc DriveNum (fun d => { d with TotalTracks := LastTrack + 1 }) s
        if LastTrack + 1 > (FSD_TRACKS_PER_DRIVE : Int) then some s
        else some (loadFSDTracks DriveNum (LastTrack + 1).toNat 0 (rd.drop 1) s)

/-- A state with the file `name` holding `content`. -/
def withFile (name : String) (content : List Nat) (s : State) : State :=
  { s with FS := { s.FS with Files := fun n => if n = name then some content else s.FS.Files n } }

/-- An FSD image of one track: an 8-byte header, the title "T", last track 0;
track 0 readable with three 128-byte sectors whose logical sector IDs are
5, 7, 5 and whose data bytes are all 1, all 2 and all 3. -/
def fsdImage : List Nat :=
  [70, 83, 68, 0, 0, 0, 0, 0] ++ [84, 0] ++ [0] ++ [0, 3, 255] ++
  [0, 0, 5, 0, 0, 0] ++ List.replicate 128 1 ++
  [0, 0, 7, 0, 0, 0] ++ List.replicate 128 2 ++
  [0, 0, 5, 0, 0, 0] ++ List.replicate 128 3

/-- An FSD image whose header declares last track 40, that is 41 tracks: tracks
0 to 39 unformatted, track 40 with one 128-byte sector of logical sector ID 0. -/
def fsdImage41 : List Nat :=
  [70, 83, 68, 0, 0, 0, 0, 0] ++ [84, 0] ++ [40] ++
  (List.range 40).flatMap (fun t => [t, 0]) ++ [40, 1, 255] ++
  [40, 0, 0, 0, 0, 0] ++ List.replicate 128 9

/-- A short double-sided image: every byte the loader finds missing reads as
zero. -/
def dsdImage : List Nat := [7, 7, 7, 7]

/-- The store with the sector arrays of the tracks `k0 ≤ k < k0 + n` of head 0
of drive `d` removed. -/
def freedStore (d k0 n : Nat) (s : State) : State :=
  setDisc d (fun disc => { disc with
    Tracks := fun hd k =>
      if hd = 0 ∧ k0 ≤ k ∧ k < k0 + n then { disc.Tracks 0 k with Sectors := none }
      else disc.Tracks hd k }) s

/-- The data-model invariant the loaders, eject and the write and format
commands maintain for a track: when the sector array is present it holds
`NSectors` sectors and each sector's record number is its index. -/
def TrackOK (t : TrackType) : Prop :=
  ∀ secs, t.Sectors = some secs →
    t.NSectors = (secs.length : Int) ∧
    ∀ i (h : i < secs.length), (secs.get ⟨i, h⟩).RecordNum = i

/-- Every track of every drive satisfies `TrackOK`. -/
def StoreOK (s : State) : Prop :=
  ∀ d h k, TrackOK ((s.DiscStatus d).Tracks h k)

/-- An FSD image whose header declares last track 41, that is 42 tracks. -/
def fsdImage42 : List Nat :=
  [70, 83, 68, 0, 0, 0, 0, 0] ++ ([84] ++ 0 :: 41 :: [0, 1, 255, 0, 0, 0, 0, 0, 0])

/-- The data buffer of the sector at index `i` of a sector array (empty when
there is none). -/
def sectorData (secs : List SectorType) (i : Nat) : List Nat :=
  ((secs[i]?).bind (fun sec => sec.Data)).getD []

/-- Drive 0 holds on every track of head 0 a 256-byte sector with logical ID 0
and a 128-byte sector with logical ID 9 and stored error 0xE0. -/
def poolState : State :=
  withTracks (fun _ => mkTrack [mkSector 0 0 0 256 0 (List.replicate 256 1),
    mkSector 0 9 1 128 0xE0 (List.replicate 128 2)]) powerOn

/-- A track of two 128-byte sectors whose logical IDs descend with the physical
index: index 0 carries ID 1, index 1 carries ID 0. -/
def swappedState : State :=
  withTracks (fun _ => mkTrack [mkSector 0 1 0 128 0 (List.replicate 128 1),
    mkSector 0 0 1 128 0 (List.replicate 128 2)]) powerOn

/-- The four bytes of the ID field of the sector at index `i` of a sector
array: logical track, head, logical sector, size code. -/
def idFieldAt (secs : List SectorType) (i : Nat) : List Nat :=
  match secs[i]? with
  | none => []
  | some sec => [sec.IDField.LogicalTrack, sec.IDField.HeadNum, sec.IDField.LogicalSector,
                 sec.IDField.SectorLength]

/-- The decision table of the 128-byte read tick, first match wins: `E` is the
sector's stored error, `R` its real size, `L` the sector length of the
transfer and `O` the over-read flag. -/
def read128Table (E : Nat) (R L : Int) (O : Bool) : Nat :=
  if E = 0xE1 then (if L = 256 then 0x00 else 0x0E)
  else if E = 0x20 ∧ R ≠ L then 0x2E
  else if O = true then 0x0E
  else if E = 0 ∧ R ≠ L then 0x0E
  else E

/-- Drive 0 selected, every track of head 0 holding one 128-byte sector with
logical sector ID 0 and stored error 0xE0. -/
def errorE0State : State :=
  withTracks (fun _ => mkTrack [mkSector 0 0 0 128 0xE0 (List.replicate 128 9)])
    (selectDrive0 powerOn)

/-- An FSD image of one track: track 0 readable with two sectors, logical
sector 0 of 256 bytes (all 1) and logical sector 1 of 128 bytes (all 2). -/
def mixedImage : List Nat :=
  [70, 83, 68, 0, 0, 0, 0, 0] ++ [84, 0] ++ [0] ++ [0, 2, 255] ++
  [0, 0, 0, 1, 1, 0] ++ List.replicate 256 1 ++
  [0, 0, 1, 0, 0, 0] ++ List.replicate 128 2

/-- Drive 0 selected, every track of head 0 holding one 128-byte sector with
logical sector ID 0 whose data bytes are 0, 1, …, 127. -/
def rampState : State :=
  withTracks (fun _ => mkTrack [mkSector 0 0 0 128 0 (List.range 128)]) (selectDrive0 powerOn)

/-- The floppy bit of the host NMI status agrees with the `interrupt_request`
bit of the status register. -/
def NMIok (s : State) : Prop :=
  s.NMIFloppy = decide (s.FDCState.StatusReg &&& STATUS_REG_INTERRUPT_REQUEST ≠ 0)

/-- The bounds on the parameter counters: `0 ≤ CurrentParam ≤ CommandParamCount ≤ 5`. -/
def ParamOK (s : State) : Prop :=
  0 ≤ s.FDCState.CurrentParam ∧ s.FDCState.CurrentParam ≤ s.FDCState.CommandParamCount ∧
    s.FDCState.CommandParamCount ≤ 5

/-- What a handler leaves alone: the parameter counters, and the agreement of
the NMI bit with the status register. -/
def regsKept (s s' : State) : Prop :=
  s'.FDCState.CurrentParam = s.FDCState.CurrentParam ∧
  s'.FDCState.CommandParamCount = s.FDCState.CommandParamCount ∧
  (NMIok s → NMIok s')

/-- Two states agree on everything the track and sector lookups read or write:
the disc store, the drive selection and head, the parameters, the transfer
state and the position on the disc. -/
def lookEq (a b : State) : Prop :=
  a.DiscStatus = b.DiscStatus ∧ a.FDCState.Select0 = b.FDCState.Select0 ∧
  a.FDCState.Select1 = b.FDCState.Select1 ∧
  a.FDCState.DriveControlOutputPort = b.FDCState.DriveControlOutputPort ∧
  a.FDCState.Params = b.FDCState.Params ∧ a.CommandStatus = b.CommandStatus ∧
  a.FSDPhysicalTrack = b.FSDPhysicalTrack ∧ a.FSDLogicalTrack = b.FSDLogicalTrack ∧
  a.PositionInTrack = b.PositionInTrack

/-- The 2560 bytes `SaveTrackImage` writes for a track: the first 256 bytes of
the buffer of each of the sectors at indices `cur … cur + n - 1`, in index
order. -/
def trackBytes (secs : List SectorType) (cur n : Nat) : List Nat :=
  (List.range' cur n).flatMap (fun i => (sectorData secs i).take 256)

/-- The file offset `SaveTrackImage` computes for head `hd` of track `t` from
the heads-code `h` of the drive. -/
def saveOffset (h : Int) (hd : Nat) (t : Int) : Int :=
  if h ≠ 0 then (h * t + hd) * 2560 else (t + hd * TRACKS_PER_DRIVE) * 2560

/-- The track the simple loaders build for track number `t` with head number
`H` in the ID fields from the stream `rd`. -/
def simpleTrack (t H : Nat) (rd : List Nat) : TrackType :=
  { LogicalSectors := 10, NSectors := 10, Sectors := some (loadSimpleSectors t H 10 0 rd).1,
    Gap1Size := 0, Gap3Size := 0, Gap5Size := 0, TrackIsReadable := true }

/-- The condition under which `FreeDiscImage` stays inside the sector arrays of
drive `d`: a track of head 0 with a sector array has at most as many logical
sectors as the array holds. -/
def Freeable (d : Nat) (s : State) : Prop :=
  ∀ k secs, ((s.DiscStatus d).Tracks 0 k).Sectors = some secs →
    ((s.DiscStatus d).Tracks 0 k).LogicalSectors ≤ (secs.length : Int)

/-- The file position from which the simple loaders fill track `t` of head `h`:
`LoadSimpleDSDiscImage` reads the tracks interleaved by head,
`LoadSimpleDiscImage` called with 80 tracks reads head 0 and then head 1. -/
def loaderOffset (dsd : Bool) (h t : Nat) : Nat :=
  if dsd then 2560 * (2 * t + h) else 2560 * (80 * h + t)

/-- The number of heads the simple loaders fill from a file of `len` bytes. -/
def loaderHeads (dsd : Bool) (len : Nat) : Nat :=
  if dsd then 2 else if len > 0x40000 then 2 else 1

/-- The load of an image file `name` into drive `d`: `LoadSimpleDSDiscImage`
for a DSD image, `LoadSimpleDiscImage` from head 0 for an SSD image, both with
80 tracks. -/
def loadSimple (dsd : Bool) (name : String) (d : Nat) (s : State) : Option State :=
  if dsd then LoadSimpleDSDiscImage name d 80 s else LoadSimpleDiscImage name d 0 80 s

/-- An image file of two tracks, every byte 7. -/
def twoTrackImage : List Nat := List.replicate 5120 7

/-- What a data tick of a write or format transfer leaves alone: the file
system, the select bits, the drive control output port, the track address and
the file name and heads-code of each drive. -/
def tickFrame (t u : State) : Prop :=
  u.FS = t.FS ∧ u.FDCState.Select0 = t.FDCState.Select0 ∧
  u.FDCState.Select1 = t.FDCState.Select1 ∧
  u.FDCState.DriveControlOutputPort = t.FDCState.DriveControlOutputPort ∧
  u.CommandStatus.TrackAddr = t.CommandStatus.TrackAddr ∧
  ∀ x, (u.DiscStatus x).FileName = (t.DiscStatus x).FileName ∧
    (u.DiscStatus x).NumHeads = (t.DiscStatus x).NumHeads

/-- A sector array as the simple loaders build it: ten sectors, the sector at
index `k` carrying logical sector `k` and record number `k` and owning a buffer
of 256 bytes. -/
def tenSectors (secs : List SectorType) : Prop :=
  secs.length = 10 ∧ ∀ k, k < 10 → ∃ sec data, secs[k]? = some sec ∧
    sec.IDField.LogicalSector = k ∧ sec.RecordNum = k ∧ sec.Data = some data ∧
    data.length = 256

/-- The state after the short image `dsdImage` has been loaded as an SSD image
into drive 0. -/
def loadedSSD : State :=
  (LoadSimpleDiscImage "a.ssd" 0 0 80 (withFile "a.ssd" dsdImage powerOn)).get (by decide)

/-- The data ticks of a write transfer: before each tick the host has stored
the next byte of the list in the data register. -/
def writeTicks : List Nat → State → Option State
  | [], s => some s
  | b :: bs, s => (WriteInterrupt (setData b s)).bind (writeTicks bs)

/-- A buffer after the bytes `bs` have been stored from its start. -/
def storeBytes (bs : List Nat) (data : List Nat) : List Nat :=
  bs ++ data.drop bs.length

/-- A sector array after the sectors at the indices `idx` have taken, in this
order, `L` bytes each from `bytes`. -/
def storeSectors (L : Nat) : List Nat → List Nat → List SectorType → List SectorType
  | [], _, secs => secs
  | i :: idx, bytes, secs =>
    storeSectors L idx (bytes.drop L)
      (secs.modify (fun sec => { sec with Data := sec.Data.map (storeBytes (bytes.take L)) }) i)

/-- The state with the sector array of the track `tp` replaced. -/
def setSectors (tp : TrackPtr) (secs : List SectorType) (s : State) : State :=
  { s with DiscStatus := fun d =>
      if d = tp.Drive then
        { s.DiscStatus d with Tracks := fun h t =>
            if h = tp.Head ∧ t = tp.Track then
              { (s.DiscStatus d).Tracks h t with Sectors := some secs }
            else (s.DiscStatus d).Tracks h t }
      else s.DiscStatus d }

/-- The sector at index `i` owns a buffer of at least `L` bytes. -/
def bufOK (L : Nat) (secs : List SectorType) (i : Nat) : Prop :=
  ∃ sec data, secs[i]? = some sec ∧ sec.Data = some data ∧ L ≤ data.length

/-- The track holds ten sectors with buffers of at least 256 bytes, which is
what `SaveTrackImage` reads. -/
def saveShape (T : TrackType) : Prop :=
  ∃ secs, T.Sectors = some secs ∧ ∀ k, k < 10 → bufOK 256 secs (0 + k)


/-- The two sectors of every track of `swappedState`. -/
def swappedSectors : List SectorType :=
  [mkSector 0 1 0 128 0 (List.replicate 128 1), mkSector 0 0 1 128 0 (List.replicate 128 2)]

/-- The controller as the register writes leave it for Write Data (0x4B, drive
0) with the parameters track 0, first sector 0, two sectors of 128 bytes, the
disc of `swappedState` made writable. -/
def writeTwoState : State := latched 0x4B [0, 0, 0x02] (writableDrive0 swappedState)

/-! ## Snapshot record -/

/-- The call `fputc(v, SUEF)`: the byte appended to the stream. -/
def fputc (v : Nat) : List Nat := [v % 256]

/-- The value of an `int` converted to `unsigned int`. -/
def toU32 (v : Int) : Nat := (v % 4294967296).toNat

/-- The value of an `unsigned int` converted to `int`. -/
def toInt32 (u : Nat) : Int := if u < 2147483648 then (u : Int) else (u : Int) - 4294967296

/-- Modelled from the spec: `fput16` is defined in `UEFState.cpp`, not part of the
sources; it appends the 16-bit value, low byte first. -/
def fput16 (v : Nat) : List Nat := [v % 256, v / 256 % 256]

/-- Modelled from the spec: `fput32` is defined in `UEFState.cpp`, not part of the
sources; it appends the value as `unsigned int` in four bytes, low byte
first. -/
def fput32 (v : Int) : List Nat :=
  [toU32 v % 256, toU32 v / 256 % 256, toU32 v / 65536 % 256, toU32 v / 16777216 % 256]

/-- Modelled from the spec: `fget32` is defined in `UEFState.cpp`, not part of the
sources; it reads four bytes, low byte first, as an `unsigned int`. -/
def fget32 (rd : List Nat) : Nat × List Nat :=
  let (b0, rd) := fgetc8 rd
  let (b1, rd) := fgetc8 rd
  let (b2, rd) := fgetc8 rd
  let (b3, rd) := fgetc8 rd
  (b0 + 256 * b1 + 65536 * b2 + 16777216 * b3, rd)

/-- Modelled from the spec: `CycleCountTMax`, the trigger value "never", is
declared in `6502core.h`, not part of the sources; the record carries it as the
largest `int`. -/
def CycleCountTMax : Int := 2147483647

/-- The 256 bytes of a `char FileName[256]` holding the C string `name`: its
characters, the terminating zero, and after it the bytes an earlier use left in
the array, which the state does not carry: `residue i` is the `i`-th of them. -/
def nameField (name : String) (residue : Nat → Nat) : List Nat :=
  (name.toList.map Char.toNat).take 255 ++
    0 :: (List.range (255 - min name.toList.length 255)).map (fun i => residue i % 256)

/-- The 16 bytes of `FDCState.Params`. -/
def paramBytes (s : State) : List Nat := (List.range 16).map (fun i => s.FDCState.Params i % 256)

/-- The bytes `Save8271UEF` appends after the two file names, one list for each
call in the order of the calls. -/
def fieldBytes (s : State) : List Nat :=
  List.flatten [
    (match s.Disc8271Trigger with
      | none => fput32 CycleCountTMax
      | some t => fput32 (t - s.TotalCycles)),
    fputc s.FDCState.ResultReg,
    fputc s.FDCState.StatusReg,
    fputc s.FDCState.DataReg,
    fputc s.FDCState.ScanSectorNum,
    fput32 (s.FDCState.ScanCount : Int),
    fputc s.FDCState.ModeReg,
    fputc s.FDCState.CurrentTrack0,
    fputc s.FDCState.CurrentTrack1,
    fputc s.FDCState.DriveControlOutputPort,
    fputc s.FDCState.DriveControlInputPort,
    fputc s.FDCState.BadTracks00,
    fputc s.FDCState.BadTracks01,
    fputc s.FDCState.BadTracks10,
    fputc s.FDCState.BadTracks11,
    fput32 (s.FDCState.Command : Int),
    fput32 s.FDCState.CommandParamCount,
    fput32 s.FDCState.CurrentParam,
    paramBytes s,
    fput32 (s.DiscStatus 0).NumHeads,
    fput32 (s.DiscStatus 1).NumHeads,
    fput32 (if s.FDCState.Select0 then 1 else 0),
    fput32 (if s.FDCState.Select1 then 1 else 0),
    fput32 (if (s.DiscStatus 0).Writeable then 1 else 0),
    fput32 (if (s.DiscStatus 1).Writeable then 1 else 0),
    fput32 (if s.CommandStatus.FirstWriteInt then 1 else 0),
    fput32 (s.CommandStatus.NextInterruptIsErr : Int),
    fput32 s.CommandStatus.TrackAddr,
    fput32 s.CommandStatus.CurrentSector,
    fput32 s.CommandStatus.SectorLength,
    fput32 s.CommandStatus.SectorsToGo,
    fput32 s.CommandStatus.ByteWithinSector]

/-- The file-name field `Save8271UEF` writes for drive `d`: 256 zero bytes when
the drive holds no disc, the array `DiscStatus[d].FileName` otherwise. -/
def savedName (d : Nat) (s : State) (residue : Nat → Nat → Nat) : List Nat :=
  if ((s.DiscStatus d).Tracks 0 0).Sectors.isNone then List.replicate 256 0
  else nameField (s.DiscStatus d).FileName (residue d)

/-- The bytes `Save8271UEF` appends after the chunk header: what
`Load8271UEF` is given to read. -/
def recordBody (s : State) (residue : Nat → Nat → Nat) : List Nat :=
  savedName 0 s residue ++ savedName 1 s residue ++ fieldBytes s

/-- `Save8271UEF`: the bytes appended to the stream; `residue d` gives the bytes
the array `DiscStatus[d].FileName` holds after its terminating zero. -/
def Save8271UEF (s : State) (residue : Nat → Nat → Nat) : List Nat :=
  fput16 0x046E ++ fput32 613 ++ recordBody s residue

/-- Modelled from the spec: `fget8` is defined in `UEFState.cpp`, not part of the
sources; it reads one byte. -/
def fget8 (rd : List Nat) : Nat × List Nat := fgetc8 rd

/-- An assignment `x = fget8(SUEF)`: `set` stores the value read. -/
def rd8 (set : Nat → State → State) (p : State × List Nat) : State × List Nat :=
  ((set (fget8 p.2).1 p.1), (fget8 p.2).2)

/-- An assignment `x = fget32(SUEF)`: `set` stores the value read. -/
def rd32 (set : Nat → State → State) (p : State × List Nat) : State × List Nat :=
  ((set (fget32 p.2).1 p.1), (fget32 p.2).2)

/-- The call `fread(FDCState.Params, 1, sizeof(FDCState.Params), SUEF)`: entries the
stream does not reach keep their values. -/
def rdParams (p : State × List Nat) : State × List Nat :=
  (setFDC (fun f => { f with Params := fun i =>
      if i < 16 then (p.2.take 16).getD i (f.Params i) else f.Params i }) p.1, p.2.drop 16)

/-- The statements `Disc8271Trigger = fget32(SUEF); if (Disc8271Trigger !=
CycleCountTMax) Disc8271Trigger += TotalCycles;` for the value `v` read. -/
def setTrigger32 (v : Nat) (s : State) : State :=
  { s with Disc8271Trigger :=
      (if toInt32 v ≠ CycleCountTMax then some (toInt32 v + s.TotalCycles) else none) }

/-- The assignments of `Load8271UEF` from `Disc8271Trigger = fget32(SUEF)` to
`CommandStatus.ByteWithinSector = fget32(SUEF)`. -/
def restoreFields (rd : List Nat) (s : State) : State × List Nat :=
  (s, rd)
  |> rd32 (fun v s => setTrigger32 v s)
  |> rd8 (fun v s => setFDC (fun f => { f with ResultReg := v }) s)
  |> rd8 (fun v s => setFDC (fun f => { f with StatusReg := v }) s)
  |> rd8 (fun v s => setFDC (fun f => { f with DataReg := v }) s)
  |> rd8 (fun v s => setFDC (fun f => { f with ScanSectorNum := v }) s)
  |> rd32 (fun v s => setFDC (fun f => { f with ScanCount := v }) s)
  |> rd8 (fun v s => setFDC (fun f => { f with ModeReg := v }) s)
  |> rd8 (fun v s => setFDC (fun f => { f with CurrentTrack0 := v }) s)
  |> rd8 (fun v s => setFDC (fun f => { f with CurrentTrack1 := v }) s)
  |> rd8 (fun v s => setFDC (fun f => { f with DriveControlOutputPort := v }) s)
  |> rd8 (fun v s => setFDC (fun f => { f with DriveControlInputPort := v }) s)
  |> rd8 (fun v s => setFDC (fun f => { f with BadTracks00 := v }) s)
  |> rd8 (fun v s => setFDC (fun f => { f with BadTracks01 := v }) s)
  |> rd8 (fun v s => setFDC (fun f => { f with BadTracks10 := v }) s)
  |> rd8 (fun v s => setFDC (fun f => { f with BadTracks11 := v }) s)
  |> rd32 (fun v s => setFDC (fun f => { f with Command := v % 256 }) s)
  |> rd32 (fun v s => setFDC (fun f => { f with CommandParamCount := toInt32 v }) s)
  |> rd32 (fun v s => setFDC (fun f => { f with CurrentParam := toInt32 v }) s)
  |> rdParams
  |> rd32 (fun v s => setDisc 0 (fun d => { d with NumHeads := toInt32 v }) s)
  |> rd32 (fun v s => setDisc 1 (fun d => { d with NumHeads := toInt32 v }) s)
  |> rd32 (fun v s => setFDC (fun f => { f with Select0 := decide (v ≠ 0) }) s)
  |> rd32 (fun v s => setFDC (fun f => { f with Select1 := decide (v ≠ 0) }) s)
  |> rd32 (fun v s => setDisc 0 (fun d => { d with Writeable := decide (v ≠ 0) }) s)
  |> rd32 (fun v s => setDisc 1 (fun d => { d with Writeable := decide (v ≠ 0) }) s)
  |> rd32 (fun v s => setCommandStatus (fun c => { c with FirstWriteInt := decide (v ≠ 0) }) s)
  |> rd32 (fun v s => setCommandStatus (fun c => { c with NextInterruptIsErr := v % 256 }) s)
  |> rd32 (fun v s => setCommandStatus (fun c => { c with TrackAddr := toInt32 v }) s)
  |> rd32 (fun v s => setCommandStatus (fun c => { c with CurrentSector := toInt32 v }) s)
  |> rd32 (fun v s => setCommandStatus (fun c => { c with SectorLength := toInt32 v }) s)
  |> rd32 (fun v s => setCommandStatus (fun c => { c with SectorsToGo := toInt32 v }) s)
  |> rd32 (fun v s => setCommandStatus (fun c => { c with ByteWithinSector := toInt32 v }) s)

/-- The end of `Load8271UEF`: the track and sector pointers are looked up from
the restored track address and sector number. -/
def lookupPointers (s : State) : Option State :=
  match GetTrackPtr (s.CommandStatus.TrackAddr % 256).toNat s with
  | none => none
  | some (tp, s) =>
    let s := setCommandStatus (fun c => { c with CurrentTrackPtr := tp }) s
    match tp with
    | some tp =>
      match GetSectorPtr tp (s.CommandStatus.CurrentSector % 256).toNat s with
      | none => none
      | some (sp, s) => some (setCommandStatus (fun c => { c with CurrentSectorPtr := sp }) s)
    | none => some (setCommandStatus (fun c => { c with CurrentSectorPtr := none }) s)

/-- The call `fread(FileName, 1, 256, SUEF)` into the local array `FileName` and
the C string then found in it. `prev` holds the bytes the array is known to
hold before the call (none while it is uninitialised); bytes the stream does
not reach keep their values. The result is the string, the array and the rest
of the stream; `none` when the known bytes of the array hold no terminating
zero, where the string functions leave the initialised part of the array. -/
def readName (prev rd : List Nat) : Option (List Nat × List Nat × List Nat) :=
  if 0 ∈ rd.take 256 ++ prev.drop (rd.take 256).length then
    some ((rd.take 256 ++ prev.drop (rd.take 256).length).takeWhile (fun b => b ≠ 0),
      rd.take 256 ++ prev.drop (rd.take 256).length, rd.drop 256)
  else none

/-- The test `ext != nullptr && _stricmp(ext + 1, "dsd") == 0` with
`ext = strrchr(FileName, '.')`, on the bytes of the name. -/
def isDsdName (n : List Nat) : Bool :=
  decide ((n.reverse.takeWhile (fun b => b ≠ 46)).length < n.length) &&
    ((n.reverse.takeWhile (fun b => b ≠ 46)).reverse.map
      (fun b => if 65 ≤ b ∧ b ≤ 90 then b + 32 else b) == [100, 115, 100])

/-- The block `if (FileName[0]) { … }` of `Load8271UEF` for one drive; `flags` are
`Loaded` and `LoadFailed`. -/
def loadNamed (n : List Nat) (Drive : Nat) (flags : Bool × Bool) (s : State) :
    Option (State × Bool × Bool) :=
  if n ≠ [] then
    match (if isDsdName n then LoadSimpleDSDiscImage (String.mk (n.map Char.ofNat)) Drive 80 s
      else LoadSimpleDiscImage (String.mk (n.map Char.ofNat)) Drive 0 80 s) with
    | none => none
    | some s => some (s, true, flags.2 || ((s.DiscStatus Drive).Tracks 0 0).Sectors.isNone)
  else some (s, flags.1, flags.2)

/-- `Load8271UEF` on the bytes that follow the chunk header. The emulator's
`DiscLoaded` flags, which the function clears, are not part of the state. -/
def Load8271UEF (rd : List Nat) (s : State) : Option State :=
  match FreeDiscImage 0 s with
  | none => none
  | some s =>
    match FreeDiscImage 1 s with
    | none => none
    | some s =>
      match readName [] rd with
      | none => none
      | some (n0, FileName, rd) =>
        match loadNamed n0 0 (false, false) s with
        | none => none
        | some (s, Loaded, LoadFailed) =>
          match readName FileName rd with
          | none => none
          | some (n1, _, rd) =>
            match loadNamed n1 1 (Loaded, LoadFailed) s with
            | none => none
            | some (s, Loaded, LoadFailed) =>
              if Loaded && !LoadFailed then lookupPointers (restoreFields rd s).1
              else some s


/-- The values of the saved state `A` lie in the ranges of their C types
(`unsigned char`, `unsigned int`, `int`), and a relative trigger is not the
value that stands for "never". -/
structure Recordable (A : State) : Prop where
  ResultReg : A.FDCState.ResultReg < 256
  StatusReg : A.FDCState.StatusReg < 256
  DataReg : A.FDCState.DataReg < 256
  ScanSectorNum : A.FDCState.ScanSectorNum < 256
  ScanCount : A.FDCState.ScanCount < 4294967296
  ModeReg : A.FDCState.ModeReg < 256
  CurrentTrack0 : A.FDCState.CurrentTrack0 < 256
  CurrentTrack1 : A.FDCState.CurrentTrack1 < 256
  DriveControlOutputPort : A.FDCState.DriveControlOutputPort < 256
  DriveControlInputPort : A.FDCState.DriveControlInputPort < 256
  BadTracks00 : A.FDCState.BadTracks00 < 256
  BadTracks01 : A.FDCState.BadTracks01 < 256
  BadTracks10 : A.FDCState.BadTracks10 < 256
  BadTracks11 : A.FDCState.BadTracks11 < 256
  Command : A.FDCState.Command < 256
  CommandParamCount : -2147483648 ≤ A.FDCState.CommandParamCount ∧
    A.FDCState.CommandParamCount < 2147483648
  CurrentParam : -2147483648 ≤ A.FDCState.CurrentParam ∧ A.FDCState.CurrentParam < 2147483648
  Params : ∀ i, i < 16 → A.FDCState.Params i < 256
  NumHeads0 : -2147483648 ≤ (A.DiscStatus 0).NumHeads ∧ (A.DiscStatus 0).NumHeads < 2147483648
  NumHeads1 : -2147483648 ≤ (A.DiscStatus 1).NumHeads ∧ (A.DiscStatus 1).NumHeads < 2147483648
  NextInterruptIsErr : A.CommandStatus.NextInterruptIsErr < 256
  TrackAddr : -2147483648 ≤ A.CommandStatus.TrackAddr ∧ A.CommandStatus.TrackAddr < 2147483648
  CurrentSector : -2147483648 ≤ A.CommandStatus.CurrentSector ∧
    A.CommandStatus.CurrentSector < 2147483648
  SectorLength : -2147483648 ≤ A.CommandStatus.SectorLength ∧
    A.CommandStatus.SectorLength < 2147483648
  SectorsToGo : -2147483648 ≤ A.CommandStatus.SectorsToGo ∧
    A.CommandStatus.SectorsToGo < 2147483648
  ByteWithinSector : -2147483648 ≤ A.CommandStatus.ByteWithinSector ∧
    A.CommandStatus.ByteWithinSector < 2147483648
  Trigger : ∀ t, A.Disc8271Trigger = some t →
    -2147483648 ≤ t - A.TotalCycles ∧ t - A.TotalCycles < 2147483647

/-- Every field `Save8271UEF` writes after the file names has in `R` the value
it has in `A`; the trigger of `R` is the trigger of `A` moved from the cycle
count of `A` to the cycle count of `R`, or "never" as in `A`. -/
structure RestoredFrom (A R : State) : Prop where
  Trigger : R.Disc8271Trigger = A.Disc8271Trigger.map (fun t => t - A.TotalCycles + R.TotalCycles)
  ResultReg : R.FDCState.ResultReg = A.FDCState.ResultReg
  StatusReg : R.FDCState.StatusReg = A.FDCState.StatusReg
  DataReg : R.FDCState.DataReg = A.FDCState.DataReg
  ScanSectorNum : R.FDCState.ScanSectorNum = A.FDCState.ScanSectorNum
  ScanCount : R.FDCState.ScanCount = A.FDCState.ScanCount
  ModeReg : R.FDCState.ModeReg = A.FDCState.ModeReg
  CurrentTrack0 : R.FDCState.CurrentTrack0 = A.FDCState.CurrentTrack0
  CurrentTrack1 : R.FDCState.CurrentTrack1 = A.FDCState.CurrentTrack1
  DriveControlOutputPort : R.FDCState.DriveControlOutputPort = A.FDCState.DriveControlOutputPort
  DriveControlInputPort : R.FDCState.DriveControlInputPort = A.FDCState.DriveControlInputPort
  BadTracks00 : R.FDCState.BadTracks00 = A.FDCState.BadTracks00
  BadTracks01 : R.FDCState.BadTracks01 = A.FDCState.BadTracks01
  BadTracks10 : R.FDCState.BadTracks10 = A.FDCState.BadTracks10
  BadTracks11 : R.FDCState.BadTracks11 = A.FDCState.BadTracks11
  Command : R.FDCState.Command = A.FDCState.Command
  CommandParamCount : R.FDCState.CommandParamCount = A.FDCState.CommandParamCount
  CurrentParam : R.FDCState.CurrentParam = A.FDCState.CurrentParam
  Params : ∀ i, i < 16 → R.FDCState.Params i = A.FDCState.Params i
  NumHeads0 : (R.DiscStatus 0).NumHeads = (A.DiscStatus 0).NumHeads
  NumHeads1 : (R.DiscStatus 1).NumHeads = (A.DiscStatus 1).NumHeads
  Select0 : R.FDCState.Select0 = A.FDCState.Select0
  Select1 : R.FDCState.Select1 = A.FDCState.Select1
  Writeable0 : (R.DiscStatus 0).Writeable = (A.DiscStatus 0).Writeable
  Writeable1 : (R.DiscStatus 1).Writeable = (A.DiscStatus 1).Writeable
  FirstWriteInt : R.CommandStatus.FirstWriteInt = A.CommandStatus.FirstWriteInt
  NextInterruptIsErr : R.CommandStatus.NextInterruptIsErr = A.CommandStatus.NextInterruptIsErr
  TrackAddr : R.CommandStatus.TrackAddr = A.CommandStatus.TrackAddr
  CurrentSector : R.CommandStatus.CurrentSector = A.CommandStatus.CurrentSector
  SectorLength : R.CommandStatus.SectorLength = A.CommandStatus.SectorLength
  SectorsToGo : R.CommandStatus.SectorsToGo = A.CommandStatus.SectorsToGo
  ByteWithinSector : R.CommandStatus.ByteWithinSector = A.CommandStatus.ByteWithinSector


/-- A file name a `char FileName[256]` holds as a C string that `Load8271UEF`
does not take for "no disc": not empty, shorter than 256 bytes, every
character one non-zero byte. -/
def storableName (name : String) : Prop :=
  name.toList ≠ [] ∧ name.toList.length < 256 ∧ ∀ c ∈ name.toList, c.toNat ≠ 0 ∧ c.toNat < 256

/-- Drive `d` of the saved state `A` holds no disc, or it holds a disc whose
file name is storable and names a file that can be opened in the state `B`. -/
def reloads (A B : State) (d : Nat) : Prop :=
  ((A.DiscStatus d).Tracks 0 0).Sectors.isNone = true ∨
  (storableName (A.DiscStatus d).FileName ∧ (B.FS.Files (A.DiscStatus d).FileName).isSome = true)


/-- A saved state: the disc of `poolState` under the file name `a.ssd`, drive 0
selected, a Seek command latched, the trigger 600 cycles ahead of cycle 400. -/
def savedState : State :=
  { setDisc 0 (fun d => { d with FileName := "a.ssd", NumHeads := 1 })
      (latched 0x69 [0, 5] (selectDrive0 poolState)) with
    Disc8271Trigger := some 1000, TotalCycles := 400 }

/-- A track slot the pointer lookups can be run on with the head at position
`p`: a sector array, where present, is not empty, has the length the track
records, numbers its sectors by index and holds at least `p` sectors. -/
def slotOK (p : Nat) (T : TrackType) : Prop :=
  ∀ secs, T.Sectors = some secs → TrackWF T secs ∧ secs ≠ [] ∧ p ≤ secs.length

/-- Every track slot of `s'` is the slot of `s`, or has no sector array, or is
a track as the simple loaders build it. -/
def slotsFrom (s s' : State) : Prop :=
  ∀ d h t, (s'.DiscStatus d).Tracks h t = (s.DiscStatus d).Tracks h t ∨
    ((s'.DiscStatus d).Tracks h t).Sectors = none ∨
    ∃ a b c, (s'.DiscStatus d).Tracks h t = simpleTrack a b c

/-- The state `s'` differs from `s` in the disc store only. -/
def storeOnly (s s' : State) : Prop :=
  s'.FS = s.FS ∧ s'.FSDPhysicalTrack = s.FSDPhysicalTrack ∧ s'.PositionInTrack = s.PositionInTrack

/-! # Theorems -/

set_option maxRecDepth 100000

/-! ## Command decode -/

theorem CommandPtrFromNumberLoop_eq_find (v : Nat) (tbl : List PrimaryCommandLookupType) :
    CommandPtrFromNumberLoop v tbl = tbl.find? (fun e => decide (e.CommandNum = (e.Mask &&& v))) := by
  induction tbl with
  | nil => rfl
  | cons e rest ih =>
    by_cases h : e.CommandNum = (e.Mask &&& v)
    · simp [CommandPtrFromNumberLoop, List.find?, h]
    · simp [CommandPtrFromNumberLoop, List.find?, h, ih]

theorem CommandPtrFromNumber_isSome (v : Nat) : (CommandPtrFromNumber v).isSome = true := by
  rw [CommandPtrFromNumber, CommandPtrFromNumberLoop_eq_find, List.find?_isSome]
  refine ⟨⟨0, 0, 0, .DoBadCommand, none, "Unknown command"⟩, ?_, ?_⟩
  · simp [PrimaryCommandLookup]
  · simp

/-- C6: for every byte written to the command register, `CommandPtrFromNumber`
returns, and what it returns is the first table entry whose opcode equals the
byte masked with the entry's mask. Hence the parameter count depends only on the
low six bits for the eleven opcodes 0x0B … 0x3D listed, Specify (four
parameters) is selected by 0x35 alone, and a byte that matches none of the first
nineteen entries selects the zero-parameter catch-all entry. -/
theorem CommandPtrFromNumber_decode (v : Nat) (hv : v < 256) :
    CommandPtrFromNumber v =
        PrimaryCommandLookup.find? (fun e => decide (e.CommandNum = (e.Mask &&& v))) ∧
    (CommandPtrFromNumber v).isSome = true ∧
    (v &&& 0x3f = 0x0B → (CommandPtrFromNumber v).map (fun e => e.NParams) = some 3) ∧
    (v &&& 0x3f = 0x13 → (CommandPtrFromNumber v).map (fun e => e.NParams) = some 3) ∧
    (v &&& 0x3f = 0x16 → (CommandPtrFromNumber v).map (fun e => e.NParams) = some 2) ∧
    (v &&& 0x3f = 0x17 → (CommandPtrFromNumber v).map (fun e => e.NParams) = some 3) ∧
    (v &&& 0x3f = 0x1B → (CommandPtrFromNumber v).map (fun e => e.NParams) = some 3) ∧
    (v &&& 0x3f = 0x1F → (CommandPtrFromNumber v).map (fun e => e.NParams) = some 3) ∧
    (v &&& 0x3f = 0x23 → (CommandPtrFromNumber v).map (fun e => e.NParams) = some 5) ∧
    (v &&& 0x3f = 0x29 → (CommandPtrFromNumber v).map (fun e => e.NParams) = some 1) ∧
    (v &&& 0x3f = 0x2C → (CommandPtrFromNumber v).map (fun e => e.NParams) = some 0) ∧
    (v &&& 0x3f = 0x3A → (CommandPtrFromNumber v).map (fun e => e.NParams) = some 2) ∧
    (v &&& 0x3f = 0x3D → (CommandPtrFromNumber v).map (fun e => e.NParams) = some 1) ∧
    ((CommandPtrFromNumber v).map (fun e => e.ToCall) = some .DoSpecifyCommand ↔ v = 0x35) ∧
    (v = 0x35 → (CommandPtrFromNumber v).map (fun e => e.NParams) = some 4) ∧
    ((∀ e ∈ PrimaryCommandLookup.dropLast, e.CommandNum ≠ (e.Mask &&& v)) →
      (CommandPtrFromNumber v).map (fun e => e.ToCall) = some .DoBadCommand ∧
      (CommandPtrFromNumber v).map (fun e => e.NParams) = some 0 ∧
      (CommandPtrFromNumber v).map (fun e => e.Mask) = some 0) := by
  refine ⟨CommandPtrFromNumberLoop_eq_find v _, CommandPtrFromNumber_isSome v,
    ?_, ?_, ?_, ?_, ?_, ?_, ?_, ?_, ?_, ?_, ?_, ?_, ?_, ?_⟩ <;> (revert v; decide)

theorem CommandPtrFromNumber_decode_witness :
    (CommandPtrFromNumber 0x53).map (fun e => e.NParams) = some 3 :=
  (CommandPtrFromNumber_decode 0x53 (by decide)).2.2.2.1 (by decide)

/-! ## Result register read -/

/-- C7: with the controller enabled, a host read of offset 1 returns the result
register; afterwards the status register is the old one with `result_full`
(0x10) and `interrupt_request` (0x08) cleared and each of the other six bits as
before, and the result register is 0. -/
theorem Disc8271Read_result (s : State) (hen : s.Disc8271Enabled = true) :
    (Disc8271Read 1 s).1 = s.FDCState.ResultReg ∧
    (Disc8271Read 1 s).2.FDCState.StatusReg &&& STATUS_REG_RESULT_FULL = 0 ∧
    (Disc8271Read 1 s).2.FDCState.StatusReg &&& STATUS_REG_INTERRUPT_REQUEST = 0 ∧
    (∀ i, i < 8 → i ≠ 3 → i ≠ 4 →
      (Disc8271Read 1 s).2.FDCState.StatusReg.testBit i = s.FDCState.StatusReg.testBit i) ∧
    (Disc8271Read 1 s).2.FDCState.ResultReg = 0 := by
  have hst : (Disc8271Read 1 s).2.FDCState.StatusReg = s.FDCState.StatusReg &&& 0xE7 := by
    simp [Disc8271Read, hen, setStatus, setResult, UpdateNMIStatus, STATUS_REG_RESULT_FULL,
      STATUS_REG_INTERRUPT_REQUEST]
    split <;> rfl
  have h10 : (0xE7 &&& 0x10 : Nat) = 0 := by decide
  have h08 : (0xE7 &&& 0x08 : Nat) = 0 := by decide
  refine ⟨?_, ?_, ?_, ?_, ?_⟩
  · simp [Disc8271Read, hen, setStatus, setResult, UpdateNMIStatus]
    split <;> rfl
  · rw [hst, STATUS_REG_RESULT_FULL, Nat.and_assoc, h10, Nat.and_zero]
  · rw [hst, STATUS_REG_INTERRUPT_REQUEST, Nat.and_assoc, h08, Nat.and_zero]
  · intro i hi h3 h4
    have : Nat.testBit 231 i = true := by interval_cases i <;> first | rfl | contradiction
    rw [hst]
    simp [Nat.testBit_and, this]
  · simp [Disc8271Read, hen, setStatus, setResult, UpdateNMIStatus, RESULT_REG_SUCCESS]

theorem Disc8271Read_result_witness :
    (Disc8271Read 1 { powerOn with FDCState := { powerOn.FDCState with
        ResultReg := 0x18, StatusReg := 0x18 } }).1 = 0x18 :=
  (Disc8271Read_result _ rfl).1

/-! ## Sector lookup -/

theorem hasID_get (secs : List SectorType) (id i : Nat) (sec : SectorType)
    (h : secs[i]? = some sec) : hasID secs id i = decide (sec.IDField.LogicalSector = id) := by
  simp only [hasID, h, Option.map_some']
  by_cases hid : sec.IDField.LogicalSector = id <;> simp [hid]

/-- A scan of `count` sector slots starting at `cur`, all inside the sector
array, is the first slot in that range holding the ID. -/
theorem GetSectorPtrScan_eq (secs : List SectorType) (id : Nat) (count cur : Nat)
    (h : cur + count ≤ secs.length) :
    GetSectorPtrScan (some secs) id count cur = some ((List.range' cur count).find? (hasID secs id)) := by
  induction count generalizing cur with
  | zero => simp [GetSectorPtrScan]
  | succ n ih =>
    have hlt : cur < secs.length := by omega
    have hget : secs[cur]? = some secs[cur] := List.getElem?_eq_getElem hlt
    rw [GetSectorPtrScan]
    simp only [hget, List.range'_succ, List.find?_cons, hasID_get secs id cur _ hget]
    by_cases hid : (secs[cur]).IDField.LogicalSector = id
    · simp [hid]
    · simp [hid]
      exact ih (cur + 1) (by omega)

theorem find_range'_lt (p : Nat → Bool) (a n i : Nat)
    (h : (List.range' a n).find? p = some i) : a ≤ i ∧ i < a + n ∧ p i = true := by
  have hm := List.mem_of_find?_eq_some h
  have hp := List.find?_some h
  simp [List.mem_range'_1] at hm
  exact ⟨hm.1, hm.2, hp⟩

theorem GetSectorPtrOn_eq (Track : TrackType) (secs : List SectorType) (id p : Nat)
    (hwf : TrackWF Track secs) (hp : p ≤ secs.length) (hbyte : p < 256) :
    GetSectorPtrOn Track id p =
      some (match (cyclicOrder p secs.length).find? (hasID secs id) with
            | some i => (some i, i)
            | none => (none, p)) := by
  obtain ⟨hs, hn, hrec⟩ := hwf
  have hcount : (Track.NSectors - (p : Int)).toNat = secs.length - p := by
    rw [hn]; omega
  have h1 := GetSectorPtrScan_eq secs id (secs.length - p) p (by omega)
  have h2 := GetSectorPtrScan_eq secs id p 0 (by omega)
  unfold GetSectorPtrOn
  rw [hs, hcount, h1]
  simp only [cyclicOrder, List.find?_append, List.range_eq_range']
  cases hf : (List.range' p (secs.length - p)).find? (hasID secs id) with
  | some i =>
    obtain ⟨hi1, hi2, _⟩ := find_range'_lt _ _ _ _ hf
    have hlt : i < secs.length := by omega
    have hget : secs[i]? = some secs[i] := List.getElem?_eq_getElem hlt
    have hr : (secs[i]).RecordNum = i := hrec i hlt
    simp [hget, hr]
  | none =>
    by_cases hp0 : p > 0
    · simp only [hp0, if_true, h2, Option.none_or]
      cases hg : (List.range' 0 p).find? (hasID secs id) with
      | some i =>
        obtain ⟨_, hi2, _⟩ := find_range'_lt _ _ _ _ hg
        have hlt : i < secs.length := by omega
        have hget : secs[i]? = some secs[i] := List.getElem?_eq_getElem hlt
        have hr : (secs[i]).RecordNum = i := hrec i hlt
        have hmod : i % 256 = i := Nat.mod_eq_of_lt (by omega)
        simp [hget, hr, hmod]
      | none => simp
    · have : p = 0 := by omega
      subst this
      simp

theorem mem_cyclicOrder (p n i : Nat) (hp : p ≤ n) : i ∈ cyclicOrder p n ↔ i < n := by
  simp [cyclicOrder, List.mem_range'_1]
  omega

theorem cyclic_find_none (secs : List SectorType) (id p : Nat) (hp : p ≤ secs.length) :
    (cyclicOrder p secs.length).find? (hasID secs id) = none ↔
      ∀ sec ∈ secs, sec.IDField.LogicalSector ≠ id := by
  rw [List.find?_eq_none]
  constructor
  · intro h sec hsec
    obtain ⟨i, hi, rfl⟩ := List.getElem_of_mem hsec
    have := h i ((mem_cyclicOrder p _ i hp).2 hi)
    simpa [hasID, List.getElem?_eq_getElem hi] using this
  · intro h i hi
    have hlt := (mem_cyclicOrder p _ i hp).1 hi
    have := h secs[i] (List.getElem_mem hlt)
    simpa [hasID, List.getElem?_eq_getElem hlt] using this

/-- C8: on a track whose sector array holds `NSectors` sectors with record
numbers equal to their indices, `GetSectorPtr` called with `PositionInTrack = p`
(at most the number of sectors) returns the first sector, in the cyclic order
`p, …, n-1, 0, …, p-1`, whose ID field carries the logical sector asked for and
sets `PositionInTrack` to its record number; it returns `nullptr` with
`PositionInTrack` unchanged exactly when no sector of the track carries the
ID. Nothing else in the state changes. -/
theorem GetSectorPtr_cyclic (tp : TrackPtr) (id : Nat) (st : State) (secs : List SectorType)
    (hwf : TrackWF (trackAt st tp) secs) (hp : st.PositionInTrack ≤ secs.length)
    (hbyte : st.PositionInTrack < 256) :
    GetSectorPtr tp id st =
      some (match (cyclicOrder st.PositionInTrack secs.length).find? (hasID secs id) with
            | some i => (some { Trk := tp, Index := i }, { st with PositionInTrack := i })
            | none => (none, st)) ∧
    (∀ i, (cyclicOrder st.PositionInTrack secs.length).find? (hasID secs id) = some i →
      ∃ sec, secs[i]? = some sec ∧ sec.IDField.LogicalSector = id ∧ sec.RecordNum = i) ∧
    ((cyclicOrder st.PositionInTrack secs.length).find? (hasID secs id) = none ↔
      ∀ sec ∈ secs, sec.IDField.LogicalSector ≠ id) := by
  refine ⟨?_, ?_, cyclic_find_none secs id _ hp⟩
  · unfold GetSectorPtr
    rw [GetSectorPtrOn_eq _ secs id _ hwf hp hbyte]
    cases (cyclicOrder st.PositionInTrack secs.length).find? (hasID secs id) <;> rfl
  · intro i hi
    have hm := (mem_cyclicOrder _ _ i hp).1 (List.mem_of_find?_eq_some hi)
    have hpi := List.find?_some hi
    refine ⟨secs[i], List.getElem?_eq_getElem hm, ?_, hwf.2.2 i hm⟩
    simpa [hasID, List.getElem?_eq_getElem hm] using hpi

theorem GetSectorPtr_cyclic_witness :
    (GetSectorPtr ⟨0, 0, 0⟩ 5 lookupState).map (fun r => r.1) =
      some (some { Trk := ⟨0, 0, 0⟩, Index := 2 }) := by
  have h := (GetSectorPtr_cyclic ⟨0, 0, 0⟩ 5 lookupState threeSectors
    ⟨rfl, rfl, by decide⟩ (by decide) (by decide)).1
  rw [h]
  rfl

/-! ## Track lookup -/

/-- With `FSDPhysicalTrack ≤ 253` the loop counter of `GetTrackPtr` does not
wrap and the loop looks at the slots `FSDPhysicalTrack` and
`FSDPhysicalTrack + 1` only. -/
theorem GetTrackPtrLoop_two (tracks : Nat → TrackType) (t pt fuel : Nat) (hpt : pt ≤ 253) :
    GetTrackPtrLoop tracks t pt (fuel + 3) pt [] =
      match (tracks pt).Sectors with
      | none => some (none, [pt])
      | some [] => none
      | some (a :: _) =>
        if t = a.IDField.LogicalTrack then some (some pt, [pt])
        else
          match (tracks (pt + 1)).Sectors with
          | none => some (none, [pt, pt + 1])
          | some [] => none
          | some (b :: _) =>
            if t = b.IDField.LogicalTrack then some (some (pt + 1), [pt, pt + 1])
            else some (none, [pt, pt + 1]) := by
  have h1 : (pt + 1) % 256 = pt + 1 := Nat.mod_eq_of_lt (by omega)
  have h2 : (pt + 1 + 1) % 256 = pt + 2 := Nat.mod_eq_of_lt (by omega)
  rw [GetTrackPtrLoop]
  simp only [show pt < pt + 2 by omega, if_true, List.nil_append]
  cases hs : (tracks pt).Sectors with
  | none => rfl
  | some l =>
    cases l with
    | nil => rfl
    | cons a rest =>
      by_cases ha : t = a.IDField.LogicalTrack
      · simp [ha]
      · simp only [ha, if_false, h1]
        rw [GetTrackPtrLoop]
        simp only [show pt + 1 < pt + 2 by omega, if_true]
        cases hs2 : (tracks (pt + 1)).Sectors with
        | none => rfl
        | some l2 =>
          cases l2 with
          | nil => rfl
          | cons b rest2 =>
            by_cases hb : t = b.IDField.LogicalTrack
            · simp [hb]
            · simp only [hb, if_false, h2]
              rw [GetTrackPtrLoop]
              simp

/-- C9 (amended): with a drive selected and `FSDPhysicalTrack ≤ 253`,
`GetTrackPtr` examines the slots `FSDPhysicalTrack` and `FSDPhysicalTrack + 1`
in that order. A slot without a sector array ends the scan at once: no track is
returned and `FSDPhysicalTrack` is unchanged. Otherwise the logical track of
the slot's first sector is compared with the one requested; on the first match
`FSDPhysicalTrack` becomes the slot's index and the slot is returned; when
neither slot matches, no track is returned and `FSDPhysicalTrack` is
unchanged. -/
theorem GetTrackPtr_two_candidates (t : Nat) (s : State) (hsel : 0 ≤ GetSelectedDrive s)
    (hpt : s.FSDPhysicalTrack ≤ 253) :
    GetTrackPtr t s =
      match ((s.DiscStatus (GetSelectedDrive s).toNat).Tracks (CURRENT_HEAD s)
              s.FSDPhysicalTrack).Sectors with
      | none => some (none, s)
      | some [] => none
      | some (a :: _) =>
        if t = a.IDField.LogicalTrack then
          some (some { Drive := (GetSelectedDrive s).toNat, Head := CURRENT_HEAD s,
                       Track := s.FSDPhysicalTrack }, s)
        else
          match ((s.DiscStatus (GetSelectedDrive s).toNat).Tracks (CURRENT_HEAD s)
                  (s.FSDPhysicalTrack + 1)).Sectors with
          | none => some (none, s)
          | some [] => none
          | some (b :: _) =>
            if t = b.IDField.LogicalTrack then
              some (some { Drive := (GetSelectedDrive s).toNat, Head := CURRENT_HEAD s,
                           Track := s.FSDPhysicalTrack + 1 },
                    { s with FSDPhysicalTrack := s.FSDPhysicalTrack + 1 })
            else some (none, s) := by
  unfold GetTrackPtr
  simp only [show ¬ GetSelectedDrive s < 0 by omega, if_false]
  rw [show (257 : Nat) = 254 + 3 from rfl, GetTrackPtrLoop_two _ _ _ _ hpt]
  cases hs : ((s.DiscStatus (GetSelectedDrive s).toNat).Tracks (CURRENT_HEAD s)
              s.FSDPhysicalTrack).Sectors with
  | none => rfl
  | some l =>
    cases l with
    | nil => rfl
    | cons a rest =>
      by_cases ha : t = a.IDField.LogicalTrack
      · simp [ha]
      · simp only [ha, if_false]
        cases hs2 : ((s.DiscStatus (GetSelectedDrive s).toNat).Tracks (CURRENT_HEAD s)
              (s.FSDPhysicalTrack + 1)).Sectors with
        | none => rfl
        | some l2 =>
          cases l2 with
          | nil => rfl
          | cons b rest2 =>
            by_cases hb : t = b.IDField.LogicalTrack
            · simp [hb]
            · simp [hb]

theorem GetTrackPtr_two_candidates_witness :
    (GetTrackPtr 1 krakoutState).map (fun r => r.1) = some none := by
  rw [GetTrackPtr_two_candidates 1 krakoutState (by decide) (by decide)]
  rfl

/-- C9 (as stated) fails: the head is at physical track 0, which has no sector
array, and the first sector of physical track 1 carries the requested logical
track 1, yet `GetTrackPtr` returns no track. -/
theorem GetTrackPtr_stops_at_unformatted :
    krakoutState.FSDPhysicalTrack = 0 ∧
    (trackAt krakoutState ⟨0, 0, 0⟩).Sectors = none ∧
    ((trackAt krakoutState ⟨0, 0, 1⟩).Sectors.bind List.head?).map
      (fun sec => sec.IDField.LogicalTrack) = some 1 ∧
    (GetTrackPtr 1 krakoutState).map (fun r => r.1) = some none := by
  refine ⟨rfl, rfl, rfl, ?_⟩
  decide

/-- The source's overlapping assignments to the result register compute the
value of the specification's first-match table. -/
theorem readResultValue_eq_table (E : Nat) (R I L : Int) (O : Bool) :
    readResultValue E R I L O = readResultTable E R I L O := by
  unfold readResultValue readResultTable
  simp only [RESULT_REG_SUCCESS, RESULT_REG_DATA_CRC_ERROR, RESULT_REG_DELETED_DATA_FOUND,
    RESULT_REG_DELETED_DATA_CRC_ERROR]
  by_cases h0 : E = 0
  · subst h0; cases O <;> simp
  by_cases h20 : E = 0x20
  · subst h20; cases O <;> simp
  by_cases h2e : E = 0x2E
  · subst h2e; cases O <;> simp
  by_cases he1 : E = 0xE1
  · subst he1; cases O <;> simp <;> split_ifs <;> simp_all
  by_cases he0 : E = 0xE0
  · subst he0; cases O <;> simp <;> split_ifs <;> simp_all
  by_cases h0e : E = 0x0E
  · subst h0e; cases O <;> simp
  cases O <;> simp [h0, h20, h2e, he1, he0, h0e]

/-! ## Frame lemmas -/

theorem UpdateNMIStatus_eq (s : State) :
    UpdateNMIStatus s =
      { s with NMIFloppy := decide (s.FDCState.StatusReg &&& STATUS_REG_INTERRUPT_REQUEST ≠ 0) } := by
  unfold UpdateNMIStatus
  split <;> simp_all

theorem GetSectorPtr_frame (tp : TrackPtr) (id : Nat) (s s' : State) (r : Option SectorPtr)
    (h : GetSectorPtr tp id s = some (r, s')) :
    s' = { s with PositionInTrack := s'.PositionInTrack } := by
  unfold GetSectorPtr at h
  cases hg : GetSectorPtrOn (trackAt s tp) id s.PositionInTrack with
  | none => simp [hg] at h
  | some x =>
    obtain ⟨a, b⟩ := x
    simp [hg] at h
    rw [← h.2]

theorem nextSectorPtr_frame (s s' : State) (h : nextSectorPtr s = some s') :
    s' = { s with PositionInTrack := s'.PositionInTrack,
                  CommandStatus := { s.CommandStatus with
                    CurrentSectorPtr := s'.CommandStatus.CurrentSectorPtr } } := by
  unfold nextSectorPtr at h
  cases htp : s.CommandStatus.CurrentTrackPtr with
  | none => simp [htp] at h
  | some tp =>
    cases hg : GetSectorPtr tp (s.CommandStatus.CurrentSector % 256).toNat s with
    | none => simp [htp, hg] at h
    | some x =>
      obtain ⟨r, s1⟩ := x
      have hf := GetSectorPtr_frame _ _ _ _ _ hg
      simp [htp, hg] at h
      rw [← h, hf]
      simp [setCommandStatus]

/-- The tail of a read tick leaves the result and data registers as they
are. -/
theorem sectorRead_regs (s s' : State) (h : sectorRead s = some s') :
    s'.FDCState.ResultReg = s.FDCState.ResultReg ∧ s'.FDCState.DataReg = s.FDCState.DataReg := by
  unfold sectorRead at h
  dsimp only at h
  split at h
  · split at h
    · split at h
      · simp at h
      · rename_i s2 hn
        have hf := nextSectorPtr_frame _ _ hn
        split at h <;> simp at h <;> rw [← h, hf] <;>
          simp [DoErr, notLastByte, UpdateNMIStatus_eq, setStatus, SetTrigger, setCommandStatus]
    · simp at h
      rw [← h]
      simp [UpdateNMIStatus_eq, setStatus, SetTrigger, setCommandStatus]
  · simp at h
    rw [← h]
    simp [notLastByte, UpdateNMIStatus_eq, setStatus, SetTrigger, setCommandStatus]

theorem loadDataByte_eq (s : State) (sec : SectorType) (data : List Nat)
    (hsec : currentSector s = some sec) (hd : sec.Data = some data)
    (h0 : 0 ≤ s.CommandStatus.ByteWithinSector)
    (hlt : s.CommandStatus.ByteWithinSector < data.length) :
    loadDataByte s = some (sec, setCommandStatus (fun c => { c with
      ByteWithinSector := c.ByteWithinSector + 1 })
      (setData (data.getD s.CommandStatus.ByteWithinSector.toNat 0) s)) := by
  have hi : s.CommandStatus.ByteWithinSector.toNat < data.length := by omega
  unfold loadDataByte
  simp [hsec, hd, h0, List.getElem?_eq_getElem hi, List.getD_eq_getElem?_getD]

theorem nextSectorPtr_isSome (s : State) (tp : TrackPtr) (secs : List SectorType)
    (htp : s.CommandStatus.CurrentTrackPtr = some tp) (hwf : TrackWF (trackAt s tp) secs)
    (hp : s.PositionInTrack ≤ secs.length) (hb : s.PositionInTrack < 256) :
    ∃ s', nextSectorPtr s = some s' := by
  unfold nextSectorPtr GetSectorPtr
  rw [htp]
  simp only [GetSectorPtrOn_eq _ secs _ _ hwf hp hb]
  exact ⟨_, rfl⟩

theorem sectorRead_isSome (s : State) (tp : TrackPtr) (secs : List SectorType)
    (htp : s.CommandStatus.CurrentTrackPtr = some tp) (hwf : TrackWF (trackAt s tp) secs)
    (hp : s.PositionInTrack ≤ secs.length) (hb : s.PositionInTrack < 256) :
    ∃ s', sectorRead s = some s' := by
  unfold sectorRead
  dsimp only
  split
  · split
    · obtain ⟨s2, h2⟩ := nextSectorPtr_isSome (setCommandStatus (fun c => { c with
          CurrentSector := c.CurrentSector + 1 }) (setCommandStatus (fun c => { c with
          ByteWithinSector := 0, SectorsToGo := c.SectorsToGo - 1 }) s)) tp secs htp hwf hp hb
      rw [h2]
      dsimp only
      split <;> exact ⟨_, rfl⟩
    · exact ⟨_, rfl⟩
  · exact ⟨_, rfl⟩

theorem readResult_ResultReg (sec : SectorType) (s : State) :
    (readResult sec s).FDCState.ResultReg =
      readResultValue sec.Error sec.RealSectorSize sec.IDSiz s.CommandStatus.SectorLength
        s.SectorOverRead := by
  unfold readResult
  dsimp only
  split <;> simp [setResult, setData]

theorem readResult_frame (sec : SectorType) (s : State) :
    (readResult sec s).CommandStatus = s.CommandStatus ∧
    (readResult sec s).DiscStatus = s.DiscStatus ∧
    (readResult sec s).PositionInTrack = s.PositionInTrack := by
  unfold readResult
  dsimp only
  split <;> simp [setResult, setData]

/-- C1: a `ReadInterrupt` tick of a transfer in progress (`SectorsToGo ≥ 0`)
on the sector the transfer state designates leaves in the result register the
value the specification's ordered first-match table gives for the sector's
stored error, real size and declared ID size, the sector length of the transfer
and the over-read flag. The tick returns whenever the byte index is inside the
sector's buffer and the current track is well formed. -/
theorem ReadInterrupt_result_table (s : State) (sec : SectorType)
    (hgo : 0 ≤ s.CommandStatus.SectorsToGo) (hsec : currentSector s = some sec) :
    (∀ s', ReadInterrupt s = some s' →
      s'.FDCState.ResultReg =
        readResultTable sec.Error sec.RealSectorSize sec.IDSiz s.CommandStatus.SectorLength
          s.SectorOverRead) ∧
    (∀ data tp secs, sec.Data = some data → 0 ≤ s.CommandStatus.ByteWithinSector →
      s.CommandStatus.ByteWithinSector < data.length →
      s.CommandStatus.CurrentTrackPtr = some tp → TrackWF (trackAt s tp) secs →
      s.PositionInTrack ≤ secs.length → s.PositionInTrack < 256 →
      ∃ s', ReadInterrupt s = some s') := by
  constructor
  · intro s' h
    unfold ReadInterrupt at h
    simp only [show ¬ s.CommandStatus.SectorsToGo < 0 by omega, if_false] at h
    cases hl : loadDataByte s with
    | none => simp [hl] at h
    | some x =>
      obtain ⟨sec1, s1⟩ := x
      simp only [hl] at h
      have hsec1 : sec1 = sec ∧ s1.CommandStatus.SectorLength = s.CommandStatus.SectorLength ∧
          s1.SectorOverRead = s.SectorOverRead := by
        unfold loadDataByte at hl
        rw [hsec] at hl
        dsimp only at hl
        split at hl
        · simp at hl
        · split at hl
          · split at hl
            · simp at hl
            · simp at hl
              obtain ⟨h1, h2⟩ := hl
              subst h1 h2
              simp [setCommandStatus, setData]
          · simp at hl
      obtain ⟨e1, e2, e3⟩ := hsec1
      subst e1
      rw [(sectorRead_regs _ _ h).1, readResult_ResultReg, readResultValue_eq_table, e2, e3]
  · intro data tp secs hd h0 hlt htp hwf hp hb
    unfold ReadInterrupt
    simp only [show ¬ s.CommandStatus.SectorsToGo < 0 by omega, if_false,
      loadDataByte_eq s sec data hsec hd h0 hlt]
    obtain ⟨hc, hdisc, hpos⟩ := readResult_frame sec (setCommandStatus (fun c => { c with
      ByteWithinSector := c.ByteWithinSector + 1 })
      (setData (data.getD s.CommandStatus.ByteWithinSector.toNat 0) s))
    apply sectorRead_isSome _ tp secs
    · rw [hc]; simpa [setCommandStatus, setData] using htp
    · unfold trackAt; rw [hdisc]; simpa [setCommandStatus, setData, trackAt] using hwf
    · rw [hpos]; simpa [setCommandStatus, setData] using hp
    · rw [hpos]; simpa [setCommandStatus, setData] using hb

theorem ReadInterrupt_result_table_witness :
    ∃ s', ReadInterrupt readState = some s' ∧ s'.FDCState.ResultReg = 0 := by
  have h := ReadInterrupt_result_table readState (mkSector 0 5 0 128 0 (List.replicate 128 1))
    (by decide) rfl
  obtain ⟨s', hs'⟩ := h.2 (List.replicate 128 1) ⟨0, 0, 0⟩ threeSectors rfl (by decide)
    (by decide) rfl ⟨rfl, rfl, by decide⟩ (by decide) (by decide)
  exact ⟨s', hs', (h.1 s' hs').trans (by decide)⟩

/-! ## The status register after setup handlers and tick handlers -/

theorem DoVarLength_WriteDataCommand_status (s s' : State)
    (h : DoVarLength_WriteDataCommand s = some s') : s'.FDCState.StatusReg = 0x80 := by
  unfold DoVarLength_WriteDataCommand at h
  dsimp only at h
  repeat' split at h
  all_goals first
    | (simp at h; done)
    | (simp only [Option.some.injEq] at h; rw [← h]
       simp [DoErr, UpdateNMIStatus_eq, setStatus, SetTrigger, STATUS_REG_COMMAND_BUSY,
         setCommandStatus, latchVarLength])

theorem DoVarLength_ReadDataCommand_status (s s' : State)
    (h : DoVarLength_ReadDataCommand s = some s') : s'.FDCState.StatusReg = 0x80 := by
  unfold DoVarLength_ReadDataCommand at h
  dsimp only at h
  repeat' split at h
  all_goals first
    | (simp at h; done)
    | (simp only [Option.some.injEq] at h; rw [← h]
       simp [DoErr, UpdateNMIStatus_eq, setStatus, SetTrigger, STATUS_REG_COMMAND_BUSY,
         setCommandStatus, latchVarLength])

theorem Do128ByteSR_ReadDataAndDeldCommand_status (s s' : State)
    (h : Do128ByteSR_ReadDataAndDeldCommand s = some s') : s'.FDCState.StatusReg = 0x80 := by
  unfold Do128ByteSR_ReadDataAndDeldCommand at h
  dsimp only at h
  repeat' split at h
  all_goals first
    | (simp at h; done)
    | (simp only [Option.some.injEq] at h; rw [← h]
       simp [DoErr, UpdateNMIStatus_eq, setStatus, SetTrigger, STATUS_REG_COMMAND_BUSY,
         setCommandStatus])

theorem DoReadIDCommand_status (s s' : State)
    (h : DoReadIDCommand s = some s') : s'.FDCState.StatusReg = 0x80 := by
  unfold DoReadIDCommand at h
  dsimp only at h
  repeat' split at h
  all_goals first
    | (simp at h; done)
    | (simp only [Option.some.injEq] at h; rw [← h]
       simp [DoErr, UpdateNMIStatus_eq, setStatus, SetTrigger, STATUS_REG_COMMAND_BUSY,
         setCommandStatus])

theorem DoFormatCommand_status (s s' : State)
    (h : DoFormatCommand s = some s') : s'.FDCState.StatusReg = 0x80 := by
  unfold DoFormatCommand at h
  dsimp only at h
  repeat' split at h
  all_goals first
    | (simp at h; done)
    | (simp only [Option.some.injEq] at h; rw [← h]
       simp [DoErr, UpdateNMIStatus_eq, setStatus, SetTrigger, STATUS_REG_COMMAND_BUSY,
         setCommandStatus])

theorem DoSeekCommand_status (s s' : State)
    (h : DoSeekCommand s = some s') : s'.FDCState.StatusReg = 0x80 := by
  unfold DoSeekCommand at h
  dsimp only at h
  repeat' split at h
  all_goals first
    | (simp at h; done)
    | (simp only [Option.some.injEq] at h; rw [← h]
       simp [DoErr, UpdateNMIStatus_eq, setStatus, SetTrigger, STATUS_REG_COMMAND_BUSY,
         setCommandStatus])

theorem DoVarLength_VerifyDataAndDeldCommand_status (s s' : State)
    (h : DoVarLength_VerifyDataAndDeldCommand s = some s') :
    s'.FDCState.StatusReg = 0x80 ∨
      (s'.FDCState.StatusReg = s'.FDCState.ResultReg ∧ s'.FDCState.ResultReg ≠ 0) := by
  unfold DoVarLength_VerifyDataAndDeldCommand at h
  dsimp only at h
  repeat' split at h
  all_goals first
    | (simp at h; done)
    | (simp only [Option.some.injEq] at h; subst h
       simp only [DoErr, UpdateNMIStatus_eq, setStatus, setResult, SetTrigger,
         STATUS_REG_COMMAND_BUSY, setCommandStatus]
       first
         | (simp; done)
         | simp_all [setResult, setCommandStatus, setStatus, UpdateNMIStatus_eq])

theorem ite_map_eq {α β : Type} (c : Prop) [Decidable c] (f : α → β) (a b : Option α) (v : β)
    (ha : a.map f = some v) (hb : b.map f = some v) :
    (if c then a else b).map f = some v := by
  split <;> assumption

theorem DoWriteSpecialCommand_status (s : State) :
    (DoWriteSpecialCommand s).map (fun t => t.FDCState.StatusReg) =
      some s.FDCState.StatusReg := by
  unfold DoWriteSpecialCommand
  dsimp only
  repeat' (first | apply ite_map_eq | rfl)

/-- The setup handlers of the commands without a tick handler leave bit 7 of
the status register as it is. -/
theorem noTick_status (f : CommandFunc) (s s' : State)
    (hf : f ≠ .DoVarLength_WriteDataCommand ∧ f ≠ .DoVarLength_ReadDataCommand ∧
          f ≠ .Do128ByteSR_ReadDataAndDeldCommand ∧ f ≠ .DoVarLength_ReadDataAndDeldCommand ∧
          f ≠ .DoReadIDCommand ∧ f ≠ .DoVarLength_VerifyDataAndDeldCommand ∧
          f ≠ .DoFormatCommand ∧ f ≠ .DoSeekCommand)
    (h : callToCall f s = some s') :
    s'.FDCState.StatusReg.testBit 7 = s.FDCState.StatusReg.testBit 7 := by
  have key : s'.FDCState.StatusReg = s.FDCState.StatusReg ∨
      s'.FDCState.StatusReg = s.FDCState.StatusReg ||| 0x10 := by
    cases f <;> simp only [callToCall] at h <;> first | (exfalso; simp at hf; done) | skip
    case DoVarLength_ScanDataCommand =>
      simp [DoVarLength_ScanDataCommand, NotImp, DoSelects] at h; rw [← h]; simp
    case DoVarLength_ScanDataAndDeldCommand =>
      simp [DoVarLength_ScanDataAndDeldCommand, NotImp, DoSelects] at h; rw [← h]; simp
    case Do128ByteSR_WriteDataCommand =>
      simp [Do128ByteSR_WriteDataCommand, NotImp, DoSelects] at h; rw [← h]; simp
    case Do128ByteSR_WriteDeletedDataCommand =>
      simp [Do128ByteSR_WriteDeletedDataCommand, NotImp, DoSelects] at h; rw [← h]; simp
    case DoVarLength_WriteDeletedDataCommand =>
      simp [DoVarLength_WriteDeletedDataCommand, NotImp, DoSelects] at h; rw [← h]; simp
    case Do128ByteSR_ReadDataCommand =>
      simp [Do128ByteSR_ReadDataCommand, NotImp, DoSelects] at h; rw [← h]; simp
    case Do128ByteSR_VerifyDataAndDeldCommand =>
      simp [Do128ByteSR_VerifyDataAndDeldCommand, NotImp, DoSelects] at h; rw [← h]; simp
    case DoReadDriveStatusCommand =>
      simp [DoReadDriveStatusCommand, UpdateNMIStatus_eq, setStatus, setResult,
        STATUS_REG_RESULT_FULL] at h
      rw [← h]; simp
    case DoSpecifyCommand =>
      unfold DoSpecifyCommand at h
      repeat' split at h
      all_goals (simp only [Option.some.injEq] at h; rw [← h]; simp [setFDC])
    case DoWriteSpecialCommand =>
      have hst := DoWriteSpecialCommand_status s
      rw [h] at hst
      simp only [Option.map_some', Option.some.injEq] at hst
      exact Or.inl hst
    case DoReadSpecialCommand =>
      unfold DoReadSpecialCommand at h
      dsimp only at h
      split at h
      all_goals (simp only [Option.some.injEq] at h; subst h
                 simp [setFDC, DoSelects, UpdateNMIStatus_eq, setStatus, setResult,
                   STATUS_REG_RESULT_FULL])
    case DoBadCommand =>
      simp [DoBadCommand] at h; rw [← h]; simp
  rcases key with k | k
  · rw [k]
  · rw [k, Nat.testBit_or]
    have : Nat.testBit 16 7 = false := by decide
    simp [this]

theorem tickStatus_bits (v : Nat) (h : tickStatus v) : v.testBit 7 = true ∨ v.testBit 4 = true := by
  rcases h with h | h | h | h | h <;> subst h <;> decide

theorem sectorRead_status (s s' : State) (h : sectorRead s = some s') :
    tickStatus s'.FDCState.StatusReg := by
  unfold sectorRead at h
  dsimp only at h
  repeat' split at h
  all_goals first
    | (simp at h; done)
    | (simp only [Option.some.injEq] at h; subst h
       simp [tickStatus, DoErr, notLastByte, UpdateNMIStatus_eq, setStatus, SetTrigger,
         setCommandStatus, STATUS_REG_COMMAND_BUSY, STATUS_REG_RESULT_FULL,
         STATUS_REG_INTERRUPT_REQUEST, STATUS_REG_NON_DMA_MODE])

theorem pickUpResult_status (s : State) : (pickUpResult s).FDCState.StatusReg = 0x18 := by
  simp [pickUpResult, UpdateNMIStatus_eq, setStatus, STATUS_REG_RESULT_FULL,
    STATUS_REG_INTERRUPT_REQUEST]

theorem ReadInterrupt_status (s s' : State) (h : ReadInterrupt s = some s') :
    tickStatus s'.FDCState.StatusReg := by
  unfold ReadInterrupt at h
  repeat' split at h
  · simp only [Option.some.injEq] at h; subst h; left; exact pickUpResult_status s
  · simp at h
  · exact sectorRead_status _ _ h

theorem Read128Interrupt_status (s s' : State) (h : Read128Interrupt s = some s') :
    tickStatus s'.FDCState.StatusReg := by
  unfold Read128Interrupt at h
  repeat' split at h
  · simp only [Option.some.injEq] at h; subst h; left; exact pickUpResult_status s
  · simp at h
  · exact sectorRead_status _ _ h

theorem sectorWritten_status (after : Int) (s s' : State) (h : sectorWritten after s = some s') :
    tickStatus s'.FDCState.StatusReg := by
  unfold sectorWritten at h
  dsimp only at h
  repeat' split at h
  all_goals first
    | (simp at h; done)
    | (simp only [Option.some.injEq] at h; subst h
       simp [tickStatus, DoErr, notLastByte, UpdateNMIStatus_eq, setStatus, SetTrigger,
         setCommandStatus, STATUS_REG_COMMAND_BUSY, STATUS_REG_RESULT_FULL,
         STATUS_REG_INTERRUPT_REQUEST, STATUS_REG_NON_DMA_MODE])

theorem notLastByte_status (after : Int) (s : State) :
    (notLastByte after s).FDCState.StatusReg = 0x8C := by
  simp [notLastByte, UpdateNMIStatus_eq, setStatus, SetTrigger, STATUS_REG_COMMAND_BUSY,
    STATUS_REG_INTERRUPT_REQUEST, STATUS_REG_NON_DMA_MODE]

theorem WriteInterrupt_status (s s' : State) (h : WriteInterrupt s = some s') :
    tickStatus s'.FDCState.StatusReg := by
  unfold WriteInterrupt at h
  dsimp only at h
  repeat' split at h
  all_goals first
    | (simp at h; done)
    | exact sectorWritten_status _ _ _ h
    | (simp only [Option.some.injEq] at h; subst h
       simp [tickStatus, DoErr, notLastByte, pickUpResult, UpdateNMIStatus_eq, setStatus,
         SetTrigger, setCommandStatus, setResult, STATUS_REG_COMMAND_BUSY,
         STATUS_REG_RESULT_FULL, STATUS_REG_INTERRUPT_REQUEST, STATUS_REG_NON_DMA_MODE])

theorem FormatInterrupt_status (s s' : State) (h : FormatInterrupt s = some s') :
    tickStatus s'.FDCState.StatusReg := by
  unfold FormatInterrupt at h
  dsimp only at h
  repeat' split at h
  all_goals first
    | (simp at h; done)
    | exact sectorWritten_status _ _ _ h
    | (simp only [Option.some.injEq] at h; subst h
       simp [tickStatus, DoErr, notLastByte, pickUpResult, UpdateNMIStatus_eq, setStatus,
         SetTrigger, setCommandStatus, setResult, STATUS_REG_COMMAND_BUSY,
         STATUS_REG_RESULT_FULL, STATUS_REG_INTERRUPT_REQUEST, STATUS_REG_NON_DMA_MODE])

theorem ReadIDInterrupt_status (s s' : State) (h : ReadIDInterrupt s = some s') :
    tickStatus s'.FDCState.StatusReg := by
  unfold ReadIDInterrupt at h
  dsimp only at h
  repeat' split at h
  all_goals first
    | (simp at h; done)
    | exact sectorWritten_status _ _ _ h
    | (simp only [Option.some.injEq] at h; subst h
       simp [tickStatus, DoErr, notLastByte, pickUpResult, UpdateNMIStatus_eq, setStatus,
         SetTrigger, setCommandStatus, setResult, STATUS_REG_COMMAND_BUSY,
         STATUS_REG_RESULT_FULL, STATUS_REG_INTERRUPT_REQUEST, STATUS_REG_NON_DMA_MODE])

theorem callIntHandler_status (f : IntFunc) (s s' : State) (h : callIntHandler f s = some s') :
    tickStatus s'.FDCState.StatusReg := by
  cases f <;> simp only [callIntHandler] at h
  · exact WriteInterrupt_status _ _ h
  · exact ReadInterrupt_status _ _ h
  · exact Read128Interrupt_status _ _ h
  · exact ReadIDInterrupt_status _ _ h
  · simp [VerifyInterrupt, UpdateNMIStatus_eq, setStatus, setResult, STATUS_REG_RESULT_FULL,
      STATUS_REG_INTERRUPT_REQUEST] at h
    subst h; left; rfl
  · exact FormatInterrupt_status _ _ h
  · simp [SeekInterrupt, UpdateNMIStatus_eq, setStatus, setResult, STATUS_REG_RESULT_FULL,
      STATUS_REG_INTERRUPT_REQUEST] at h
    subst h; left; rfl

/-! ## The controller tick -/

theorem DriveHeadMotorUpdate_frame (s : State) :
    (DriveHeadMotorUpdate s).2.CommandStatus = s.CommandStatus ∧
    (DriveHeadMotorUpdate s).2.FDCState.StatusReg = s.FDCState.StatusReg ∧
    (DriveHeadMotorUpdate s).2.FDCState.ResultReg = s.FDCState.ResultReg ∧
    (DriveHeadMotorUpdate s).2.FDCState.DataReg = s.FDCState.DataReg ∧
    (DriveHeadMotorUpdate s).2.FDCState.Command = s.FDCState.Command ∧
    (DriveHeadMotorUpdate s).2.DiscStatus = s.DiscStatus ∧
    (DriveHeadMotorUpdate s).2.PositionInTrack = s.PositionInTrack ∧
    (DriveHeadMotorUpdate s).2.FSDPhysicalTrack = s.FSDPhysicalTrack := by
  unfold DriveHeadMotorUpdate
  dsimp only
  repeat' split
  all_goals simp [setFDC, SetTrigger]

theorem DriveHeadScheduleUnload_frame (s : State) :
    (DriveHeadScheduleUnload s).CommandStatus = s.CommandStatus ∧
    (DriveHeadScheduleUnload s).FDCState = s.FDCState ∧
    (DriveHeadScheduleUnload s).DiscStatus = s.DiscStatus ∧
    (DriveHeadScheduleUnload s).PositionInTrack = s.PositionInTrack ∧
    (DriveHeadScheduleUnload s).FSDPhysicalTrack = s.FSDPhysicalTrack ∧
    (DriveHeadScheduleUnload s).NMIFloppy = s.NMIFloppy := by
  unfold DriveHeadScheduleUnload
  split <;> simp [SetTrigger]

/-- The tick when the motor state machine is idle and a deferred error is
pending. -/
theorem poll_error (t : State)
    (he : t.CommandStatus.NextInterruptIsErr ≠ RESULT_REG_DATA_CRC_ERROR ∧
          t.CommandStatus.NextInterruptIsErr ≠ RESULT_REG_DELETED_DATA_FOUND ∧
          t.CommandStatus.NextInterruptIsErr ≠ RESULT_REG_SUCCESS)
    (hidle : (DriveHeadMotorUpdate (ClearTrigger t)).1 = false) :
    ∃ t', Disc8271_poll_real t = some t' ∧
      t'.FDCState.ResultReg = t.CommandStatus.NextInterruptIsErr ∧
      t'.FDCState.StatusReg = STATUS_REG_RESULT_FULL ||| STATUS_REG_INTERRUPT_REQUEST ∧
      t'.CommandStatus = { t.CommandStatus with NextInterruptIsErr := RESULT_REG_SUCCESS } ∧
      t'.FDCState.DataReg = t.FDCState.DataReg ∧ t'.DiscStatus = t.DiscStatus ∧
      t'.PositionInTrack = t.PositionInTrack ∧ t'.NMIFloppy = true := by
  obtain ⟨f1, f2, f3, f4, f5, f6, f7, f8⟩ := DriveHeadMotorUpdate_frame (ClearTrigger t)
  unfold Disc8271_poll_real
  dsimp only
  generalize hm : DriveHeadMotorUpdate (ClearTrigger t) = m at *
  obtain ⟨busy, s1⟩ := m
  simp only at hidle f1 f2 f3 f4 f5 f6 f7 f8
  subst hidle
  have hc : s1.CommandStatus = t.CommandStatus := by rw [f1]; rfl
  have he' : (UpdateNMIStatus (setStatus (s1.FDCState.StatusReg ||| STATUS_REG_INTERRUPT_REQUEST)
      s1)).CommandStatus.NextInterruptIsErr = t.CommandStatus.NextInterruptIsErr := by
    simp [UpdateNMIStatus_eq, setStatus, hc]
  simp only [Bool.false_eq_true, if_false, he', he.1, he.2.1, he.2.2, ne_eq, not_false_eq_true,
    and_self, if_true, Option.map_some']
  refine ⟨_, rfl, ?_⟩
  obtain ⟨g1, g2, g3, g4, g5, g6⟩ := DriveHeadScheduleUnload_frame
    (setCommandStatus (fun c => { c with NextInterruptIsErr := RESULT_REG_SUCCESS })
      (UpdateNMIStatus (setStatus (STATUS_REG_RESULT_FULL ||| STATUS_REG_INTERRUPT_REQUEST)
        (setResult t.CommandStatus.NextInterruptIsErr
          (UpdateNMIStatus (setStatus (s1.FDCState.StatusReg ||| STATUS_REG_INTERRUPT_REQUEST)
            s1))))))
  rw [g1, g2, g3, g4, g6]
  have e4 : s1.FDCState.DataReg = t.FDCState.DataReg := by rw [f4]; rfl
  have e6 : s1.DiscStatus = t.DiscStatus := by rw [f6]; rfl
  have e7 : s1.PositionInTrack = t.PositionInTrack := by rw [f7]; rfl
  simp [UpdateNMIStatus_eq, setStatus, setResult, setCommandStatus, hc, e4, e6, e7,
    STATUS_REG_RESULT_FULL, STATUS_REG_INTERRUPT_REQUEST]

/-- C4: `DoErr e` stores `e` in `NextInterruptIsErr`, sets the status register to
`command_busy` alone and arms the trigger 50 cycles ahead. Whenever such a code
(any value other than the three the tick treats as "no error": 0x00, 0x0E,
0x20; the source passes 0x10, 0x12, 0x18 and 0x1E) is pending and the motor
state machine is idle, the next tick returns with the result register equal to
`e`, the status register exactly `result_full|interrupt_request`,
`NextInterruptIsErr` reset to 0, and the transfer state, data register, disc
store and track position untouched: the command's tick handler is not run. -/
theorem DoErr_then_tick (e : Nat) (s : State)
    (he : e ≠ RESULT_REG_DATA_CRC_ERROR ∧ e ≠ RESULT_REG_DELETED_DATA_FOUND ∧
          e ≠ RESULT_REG_SUCCESS) :
    (DoErr e s).CommandStatus.NextInterruptIsErr = e ∧
    (DoErr e s).FDCState.StatusReg = STATUS_REG_COMMAND_BUSY ∧
    (DoErr e s).Disc8271Trigger = some (s.TotalCycles + 50) ∧
    ∀ t : State, t.CommandStatus.NextInterruptIsErr = e →
      (DriveHeadMotorUpdate (ClearTrigger t)).1 = false →
      ∃ t', Disc8271_poll_real t = some t' ∧
        t'.FDCState.ResultReg = e ∧
        t'.FDCState.StatusReg = STATUS_REG_RESULT_FULL ||| STATUS_REG_INTERRUPT_REQUEST ∧
        t'.CommandStatus = { t.CommandStatus with NextInterruptIsErr := 0 } ∧
        t'.FDCState.DataReg = t.FDCState.DataReg ∧ t'.DiscStatus = t.DiscStatus ∧
        t'.PositionInTrack = t.PositionInTrack ∧ t'.NMIFloppy = true := by
  refine ⟨?_, ?_, ?_, ?_⟩
  · simp [DoErr, UpdateNMIStatus_eq, setStatus, SetTrigger]
  · simp [DoErr, UpdateNMIStatus_eq, setStatus, SetTrigger]
  · simp [DoErr, UpdateNMIStatus_eq, setStatus, SetTrigger]
  · intro t ht hidle
    subst ht
    exact poll_error t he hidle

theorem DoErr_then_tick_witness :
    ∃ t', Disc8271_poll_real (DoErr RESULT_REG_SECTOR_NOT_FOUND powerOn) = some t' ∧
      t'.FDCState.ResultReg = 0x18 ∧ t'.FDCState.StatusReg = 0x18 := by
  obtain ⟨t', h1, h2, h3, _⟩ := (DoErr_then_tick RESULT_REG_SECTOR_NOT_FOUND powerOn
    (by decide)).2.2.2 (DoErr RESULT_REG_SECTOR_NOT_FOUND powerOn) rfl (by decide)
  exact ⟨t', h1, h2, h3⟩

/-- What a tick can do to the status register: leave it (the motor state machine
took the tick), set `interrupt_request` (no tick handler), or leave one of the
values of `tickStatus`. -/
theorem poll_status (t s' : State) (h : Disc8271_poll_real t = some s') :
    s'.FDCState.StatusReg = t.FDCState.StatusReg ∨
    s'.FDCState.StatusReg = t.FDCState.StatusReg ||| STATUS_REG_INTERRUPT_REQUEST ∨
    tickStatus s'.FDCState.StatusReg := by
  obtain ⟨f1, f2, f3, f4, f5, f6, f7, f8⟩ := DriveHeadMotorUpdate_frame (ClearTrigger t)
  unfold Disc8271_poll_real at h
  dsimp only at h
  generalize hm : DriveHeadMotorUpdate (ClearTrigger t) = m at *
  obtain ⟨busy, s1⟩ := m
  simp only at f2 h
  have e2 : s1.FDCState.StatusReg = t.FDCState.StatusReg := by rw [f2]; rfl
  cases busy with
  | true =>
    simp at h
    subst h
    exact Or.inl e2
  | false =>
    simp only [Bool.false_eq_true, if_false] at h
    split at h
    · simp only [Option.map_some', Option.some.injEq] at h
      subst h
      right; right; left
      rw [(DriveHeadScheduleUnload_frame _).2.1]
      simp [UpdateNMIStatus_eq, setStatus, setResult, setCommandStatus, STATUS_REG_RESULT_FULL,
        STATUS_REG_INTERRUPT_REQUEST]
    · split at h
      · simp at h
      · split at h
        · simp only [Option.map_some', Option.some.injEq] at h
          subst h
          right; left
          rw [(DriveHeadScheduleUnload_frame _).2.1]
          simp [UpdateNMIStatus_eq, setStatus, e2]
        · rename_i hh
          cases hc : callIntHandler _ (UpdateNMIStatus (setStatus
              (s1.FDCState.StatusReg ||| STATUS_REG_INTERRUPT_REQUEST) s1)) with
          | none => rw [hc] at h; simp at h
          | some s2 =>
            rw [hc] at h
            simp only [Option.map_some', Option.some.injEq] at h
            subst h
            right; right
            rw [(DriveHeadScheduleUnload_frame _).2.1]
            exact callIntHandler_status _ _ _ hc

/-! ## `command_busy` across a command -/

theorem table_handlers : ∀ e ∈ PrimaryCommandLookup,
    (e.IntHandler = none ∧
      (e.ToCall ≠ .DoVarLength_WriteDataCommand ∧ e.ToCall ≠ .DoVarLength_ReadDataCommand ∧
       e.ToCall ≠ .Do128ByteSR_ReadDataAndDeldCommand ∧
       e.ToCall ≠ .DoVarLength_ReadDataAndDeldCommand ∧
       e.ToCall ≠ .DoReadIDCommand ∧ e.ToCall ≠ .DoVarLength_VerifyDataAndDeldCommand ∧
       e.ToCall ≠ .DoFormatCommand ∧ e.ToCall ≠ .DoSeekCommand)) ∨
    (e.IntHandler = some .VerifyInterrupt ∧ e.ToCall = .DoVarLength_VerifyDataAndDeldCommand) ∨
    (e.IntHandler ≠ none ∧ e.IntHandler ≠ some .VerifyInterrupt ∧
      (e.ToCall = .DoVarLength_WriteDataCommand ∨ e.ToCall = .DoVarLength_ReadDataCommand ∨
       e.ToCall = .Do128ByteSR_ReadDataAndDeldCommand ∨
       e.ToCall = .DoVarLength_ReadDataAndDeldCommand ∨
       e.ToCall = .DoReadIDCommand ∨ e.ToCall = .DoFormatCommand ∨ e.ToCall = .DoSeekCommand)) := by
  decide

theorem CommandPtrFromNumber_mem (v : Nat) (e : PrimaryCommandLookupType)
    (h : CommandPtrFromNumber v = some e) : e ∈ PrimaryCommandLookup := by
  rw [CommandPtrFromNumber, CommandPtrFromNumberLoop_eq_find] at h
  exact List.mem_of_find?_eq_some h

theorem transfer_setup_status (f : CommandFunc) (s s' : State)
    (hf : f = .DoVarLength_WriteDataCommand ∨ f = .DoVarLength_ReadDataCommand ∨
       f = .Do128ByteSR_ReadDataAndDeldCommand ∨ f = .DoVarLength_ReadDataAndDeldCommand ∨
       f = .DoReadIDCommand ∨ f = .DoFormatCommand ∨ f = .DoSeekCommand)
    (h : callToCall f s = some s') : s'.FDCState.StatusReg = 0x80 := by
  rcases hf with rfl | rfl | rfl | rfl | rfl | rfl | rfl <;> simp only [callToCall] at h
  · exact DoVarLength_WriteDataCommand_status _ _ h
  · exact DoVarLength_ReadDataCommand_status _ _ h
  · exact Do128ByteSR_ReadDataAndDeldCommand_status _ _ h
  · exact DoVarLength_ReadDataCommand_status _ _ h
  · exact DoReadIDCommand_status _ _ h
  · exact DoFormatCommand_status _ _ h
  · exact DoSeekCommand_status _ _ h

theorem and_fe_bit7 (x : Nat) : (x &&& 0xfe).testBit 7 = x.testBit 7 := by
  rw [Nat.testBit_and]
  have : Nat.testBit 0xfe 7 = true := by decide
  simp [this]

theorem and_7e_bit7 (x : Nat) : (x &&& 0x7e).testBit 7 = false := by
  rw [Nat.testBit_and]
  have : Nat.testBit 0x7e 7 = false := by decide
  simp [this]

theorem or_90_bit7 (x : Nat) : (x ||| (0x80 ||| 0x10)).testBit 7 = true := by
  have : Nat.testBit (0x80 ||| 0x10) 7 = true := by decide
  rw [Nat.testBit_or, this, Bool.or_true]

theorem or_08_bit7 (x : Nat) : (x ||| 0x08).testBit 7 = x.testBit 7 := by
  have : Nat.testBit 0x08 7 = false := by decide
  rw [Nat.testBit_or, this, Bool.or_false]

theorem storeParam_fields (v : Nat) (s : State) :
    (storeParam v s).FDCState.StatusReg = s.FDCState.StatusReg &&& 0xfe ∧
    (storeParam v s).FDCState.CurrentParam = s.FDCState.CurrentParam + 1 ∧
    (storeParam v s).FDCState.CommandParamCount = s.FDCState.CommandParamCount ∧
    (storeParam v s).FDCState.Command = s.FDCState.Command := by
  simp [storeParam, UpdateNMIStatus_eq, setStatus, setFDC]

theorem handlerEntry_fields (s : State) :
    (handlerEntry s).FDCState.StatusReg = s.FDCState.StatusReg &&& 0x7e ∧
    (handlerEntry s).FDCState.Command = s.FDCState.Command := by
  simp [handlerEntry, UpdateNMIStatus_eq, setStatus]

/-- The command register write of a command that takes parameters. -/
theorem CommandRegWrite_busy (v : Nat) (s s' : State) (e : PrimaryCommandLookupType)
    (he : CommandPtrFromNumber v = some e) (hn : 1 ≤ e.NParams)
    (h : CommandRegWrite v s = some s') :
    commandBusy s' = true ∧ s'.FDCState.CommandParamCount = e.NParams ∧
    s'.FDCState.CurrentParam = 0 ∧ s'.FDCState.Command = v := by
  unfold CommandRegWrite at h
  rw [he] at h
  dsimp only at h
  split at h
  · rename_i hz
    simp [UpdateNMIStatus_eq, setStatus, setFDC] at hz
    omega
  · simp only [Option.some.injEq] at h
    subst h
    refine ⟨?_, ?_, ?_, ?_⟩
    · simp only [commandBusy, UpdateNMIStatus_eq, setStatus, STATUS_REG_COMMAND_BUSY,
        STATUS_REG_RESULT_FULL]
      exact or_90_bit7 _
    all_goals simp [UpdateNMIStatus_eq, setStatus, setFDC]

/-- A parameter write that is not the last one. -/
theorem ParamRegWrite_more (v : Nat) (s s' : State)
    (hlt : s.FDCState.CurrentParam + 1 < s.FDCState.CommandParamCount)
    (h : ParamRegWrite v s = some s') :
    s'.FDCState.StatusReg = s.FDCState.StatusReg &&& 0xfe ∧
    s'.FDCState.CurrentParam = s.FDCState.CurrentParam + 1 ∧
    s'.FDCState.CommandParamCount = s.FDCState.CommandParamCount ∧
    s'.FDCState.Command = s.FDCState.Command := by
  obtain ⟨f1, f2, f3, f4⟩ := storeParam_fields v s
  unfold ParamRegWrite at h
  rw [if_neg (by omega)] at h
  split at h
  · simp at h
  · dsimp only at h
    rw [if_neg (by rw [f2, f3]; omega)] at h
    simp only [Option.some.injEq] at h
    subst h
    exact ⟨f1, f2, f3, f4⟩

/-- The last parameter write: the state the setup handler is entered with has
`command_busy` clear, and the handler decides what the host sees. -/
theorem ParamRegWrite_last (v : Nat) (s s' : State) (e : PrimaryCommandLookupType)
    (hlt : s.FDCState.CurrentParam < s.FDCState.CommandParamCount)
    (hle : s.FDCState.CommandParamCount ≤ s.FDCState.CurrentParam + 1)
    (he : CommandPtrFromNumber s.FDCState.Command = some e)
    (h : ParamRegWrite v s = some s') :
    (e.IntHandler = none → commandBusy s' = false) ∧
    (e.IntHandler ≠ none → e.IntHandler ≠ some .VerifyInterrupt →
      s'.FDCState.StatusReg = STATUS_REG_COMMAND_BUSY) ∧
    (e.IntHandler = some .VerifyInterrupt →
      s'.FDCState.StatusReg = STATUS_REG_COMMAND_BUSY ∨
      (s'.FDCState.StatusReg = s'.FDCState.ResultReg ∧ s'.FDCState.ResultReg ≠ 0)) := by
  obtain ⟨f1, f2, f3, f4⟩ := storeParam_fields v s
  obtain ⟨g1, g2⟩ := handlerEntry_fields (storeParam v s)
  unfold ParamRegWrite at h
  rw [if_neg (by omega)] at h
  split at h
  · simp at h
  · dsimp only at h
    rw [if_pos (by rw [f2, f3]; omega), f4, he] at h
    dsimp only at h
    have hmem := table_handlers e (CommandPtrFromNumber_mem _ _ he)
    rcases hmem with ⟨h1, h2⟩ | ⟨h1, h2⟩ | ⟨h1, h2, h3⟩
    · refine ⟨fun _ => ?_, fun hc => absurd h1 hc, fun hc => by rw [h1] at hc; simp at hc⟩
      have := noTick_status e.ToCall _ _ h2 h
      rw [commandBusy, this, g1]
      exact and_7e_bit7 _
    · refine ⟨fun hc => by rw [h1] at hc; simp at hc, fun _ hc => absurd h1 hc, fun _ => ?_⟩
      rw [h2] at h
      exact DoVarLength_VerifyDataAndDeldCommand_status _ _ h
    · refine ⟨fun hc => absurd hc h1, fun _ _ => ?_, fun hc => absurd hc h2⟩
      exact transfer_setup_status _ _ _ h3 h

/-- With the controller enabled a host write is the register write proper
applied to a state with the same controller registers, followed by the
scheduling of the head unload, which leaves the registers alone. -/
theorem Disc8271Write_inv (a : Int) (v : Nat) (s s' : State) (hen : s.Disc8271Enabled = true)
    (h : Disc8271Write a v s = some s') :
    ∃ s0 s1, s0.FDCState = s.FDCState ∧ s'.FDCState = s1.FDCState ∧
      (a = 0 → CommandRegWrite v s0 = some s1) ∧ (a = 1 → ParamRegWrite v s0 = some s1) := by
  unfold Disc8271Write at h
  simp only [hen, Bool.not_true, Bool.false_eq_true, if_false] at h
  generalize hs0 : cancelHeadUnload s = s0 at h
  have hf : s0.FDCState = s.FDCState := by
    rw [← hs0, cancelHeadUnload]; split <;> simp [ClearTrigger]
  by_cases ha0 : a = 0
  · subst ha0
    simp only [if_true] at h
    cases hw : CommandRegWrite v s0 with
    | none => rw [hw] at h; simp at h
    | some s1 =>
      rw [hw] at h
      simp only [Option.map_some', Option.some.injEq] at h
      subst h
      exact ⟨s0, s1, hf, (DriveHeadScheduleUnload_frame s1).2.1, fun _ => hw,
        fun hc => by omega⟩
  · by_cases ha1 : a = 1
    · subst ha1
      simp only [if_neg ha0, if_true] at h
      cases hw : ParamRegWrite v s0 with
      | none => rw [hw] at h; simp at h
      | some s1 =>
        rw [hw] at h
        simp only [Option.map_some', Option.some.injEq] at h
        subst h
        exact ⟨s0, s1, hf, (DriveHeadScheduleUnload_frame s1).2.1, fun hc => by omega,
          fun _ => hw⟩
    · exact ⟨s, s', rfl, rfl, fun hc => absurd hc ha0, fun hc => absurd hc ha1⟩

/-- C5 (amended): for a command that takes parameters, `command_busy` is set
after the command write and after every parameter write but the last. The last
parameter write clears the bit (mask 0x7E) and runs the setup handler, after
which the status register is `command_busy` alone for the commands that have a
tick handler (Write 0x0B, Read 0x13 and 0x17, 128-byte Read 0x16, Read ID 0x1B,
Format 0x23, Seek 0x29), is `command_busy` alone or the sector's non-zero error
code for Verify 0x1F, and has `command_busy` clear for every command without a
tick handler. From a state with `command_busy` set, a controller tick leaves
the bit set unless it leaves `result_full` set. -/
theorem command_busy_through_command :
    (∀ (v : Nat) (s s' : State) (e : PrimaryCommandLookupType),
      s.Disc8271Enabled = true → CommandPtrFromNumber v = some e → 1 ≤ e.NParams →
      Disc8271Write 0 v s = some s' → commandBusy s' = true) ∧
    (∀ (v : Nat) (s s' : State), s.Disc8271Enabled = true →
      s.FDCState.CurrentParam + 1 < s.FDCState.CommandParamCount →
      Disc8271Write 1 v s = some s' → commandBusy s' = commandBusy s) ∧
    (∀ (v : Nat) (s s' : State) (e : PrimaryCommandLookupType), s.Disc8271Enabled = true →
      s.FDCState.CurrentParam < s.FDCState.CommandParamCount →
      s.FDCState.CommandParamCount ≤ s.FDCState.CurrentParam + 1 →
      CommandPtrFromNumber s.FDCState.Command = some e →
      Disc8271Write 1 v s = some s' →
        (e.IntHandler = none → commandBusy s' = false) ∧
        (e.IntHandler ≠ none → e.IntHandler ≠ some .VerifyInterrupt →
          s'.FDCState.StatusReg = STATUS_REG_COMMAND_BUSY) ∧
        (e.IntHandler = some .VerifyInterrupt →
          s'.FDCState.StatusReg = STATUS_REG_COMMAND_BUSY ∨
          (s'.FDCState.StatusReg = s'.FDCState.ResultReg ∧ s'.FDCState.ResultReg ≠ 0))) ∧
    (∀ (s s' : State), Disc8271_poll_real s = some s' → commandBusy s = true →
      commandBusy s' = true ∨ resultFull s' = true) := by
  refine ⟨?_, ?_, ?_, ?_⟩
  · intro v s s' e hen he hn h
    obtain ⟨s0, s1, hf, hf', h0, _⟩ := Disc8271Write_inv 0 v s s' hen h
    have := (CommandRegWrite_busy v s0 s1 e he hn (h0 rfl)).1
    rw [commandBusy, hf']
    exact this
  · intro v s s' hen hlt h
    obtain ⟨s0, s1, hf, hf', _, h1⟩ := Disc8271Write_inv 1 v s s' hen h
    have := (ParamRegWrite_more v s0 s1 (by rw [hf]; exact hlt) (h1 rfl)).1
    rw [commandBusy, commandBusy, hf', this, hf]
    exact and_fe_bit7 _
  · intro v s s' e hen hlt hle he h
    obtain ⟨s0, s1, hf, hf', _, h1⟩ := Disc8271Write_inv 1 v s s' hen h
    have := ParamRegWrite_last v s0 s1 e (by rw [hf]; exact hlt) (by rw [hf]; exact hle)
      (by rw [hf]; exact he) (h1 rfl)
    rw [commandBusy, hf']
    exact this
  · intro s s' h hb
    rcases poll_status s s' h with hs | hs | hs
    · left; rw [commandBusy, hs]; exact hb
    · left; rw [commandBusy, hs, STATUS_REG_INTERRUPT_REQUEST, or_08_bit7]; exact hb
    · exact tickStatus_bits _ hs

theorem command_busy_through_command_witness :
    ∀ s', Disc8271Write 0 0x53 powerOn = some s' → commandBusy s' = true :=
  fun s' h => command_busy_through_command.1 0x53 powerOn s'
    ⟨0x13, 0x3f, 3, .DoVarLength_ReadDataCommand, some .ReadInterrupt,
      "Read Data (Variable Length/Multi-Record)"⟩ rfl (by decide) (by decide) h

/-- C5 (as stated) fails: after the command byte of Specify (0x35) and its four
parameters, with no tick in between, `command_busy` is clear; it was set after
the command write and after each of the first three parameters. -/
theorem Specify_clears_command_busy :
    (hostWrites [(0, 0x35)] powerOn).map commandBusy = some true ∧
    (hostWrites [(0, 0x35), (1, 0x0D), (1, 12), (1, 10)] powerOn).map commandBusy = some true ∧
    (hostWrites [(0, 0x35), (1, 0x0D), (1, 12), (1, 10), (1, 0xC8)] powerOn).map
      (fun s => (commandBusy s, s.FDCState.StatusReg)) = some (false, 0x10) := by
  refine ⟨?_, ?_, ?_⟩ <;> decide

/-- The tick when the motor state machine is idle and no deferred error is
pending: the tick handler of the latched command runs on the state with
`interrupt_request` set. -/
theorem poll_handler (t : State) (e : PrimaryCommandLookupType) (h : IntFunc)
    (hs : t.CommandStatus.NextInterruptIsErr = RESULT_REG_DATA_CRC_ERROR ∨
          t.CommandStatus.NextInterruptIsErr = RESULT_REG_DELETED_DATA_FOUND ∨
          t.CommandStatus.NextInterruptIsErr = RESULT_REG_SUCCESS)
    (hidle : (DriveHeadMotorUpdate (ClearTrigger t)).1 = false)
    (he : CommandPtrFromNumber t.FDCState.Command = some e) (hh : e.IntHandler = some h) :
    Disc8271_poll_real t =
      (callIntHandler h (UpdateNMIStatus (setStatus
        ((DriveHeadMotorUpdate (ClearTrigger t)).2.FDCState.StatusReg |||
          STATUS_REG_INTERRUPT_REQUEST) (DriveHeadMotorUpdate (ClearTrigger t)).2))).map
        DriveHeadScheduleUnload := by
  obtain ⟨f1, f2, f3, f4, f5, f6, f7, f8⟩ := DriveHeadMotorUpdate_frame (ClearTrigger t)
  unfold Disc8271_poll_real
  dsimp only
  generalize hm : DriveHeadMotorUpdate (ClearTrigger t) = m at *
  obtain ⟨busy, s1⟩ := m
  simp only at hidle f1 f5 ⊢
  subst hidle
  have hc : s1.CommandStatus = t.CommandStatus := by rw [f1]; rfl
  have h5 : s1.FDCState.Command = t.FDCState.Command := by rw [f5]; rfl
  have he' : (UpdateNMIStatus (setStatus (s1.FDCState.StatusReg ||| STATUS_REG_INTERRUPT_REQUEST)
      s1)).CommandStatus.NextInterruptIsErr = t.CommandStatus.NextInterruptIsErr := by
    simp [UpdateNMIStatus_eq, setStatus, hc]
  have hcmd : (UpdateNMIStatus (setStatus (s1.FDCState.StatusReg ||| STATUS_REG_INTERRUPT_REQUEST)
      s1)).FDCState.Command = t.FDCState.Command := by
    simp [UpdateNMIStatus_eq, setStatus, h5]
  have hcond : ¬ (t.CommandStatus.NextInterruptIsErr ≠ RESULT_REG_DATA_CRC_ERROR ∧
      t.CommandStatus.NextInterruptIsErr ≠ RESULT_REG_DELETED_DATA_FOUND ∧
      t.CommandStatus.NextInterruptIsErr ≠ RESULT_REG_SUCCESS) := by
    rcases hs with h | h | h <;> simp [h]
  simp only [Bool.false_eq_true, if_false, he', hcond, hcmd, he, hh]

/-! ## Seek, Verify, Read Drive Status -/

theorem setCurrentTrack_frame (d : Int) (v : Nat) (s : State) :
    (setCurrentTrack d v s).CommandStatus = s.CommandStatus ∧
    (setCurrentTrack d v s).FDCState.Command = s.FDCState.Command ∧
    (setCurrentTrack d v s).FDCState.Params = s.FDCState.Params ∧
    (setCurrentTrack d v s).DiscStatus = s.DiscStatus ∧
    (setCurrentTrack d v s).TotalCycles = s.TotalCycles ∧
    (setCurrentTrack d v s).FDCState.ResultReg = s.FDCState.ResultReg ∧
    (setCurrentTrack d v s).FDCState.StatusReg = s.FDCState.StatusReg ∧
    (setCurrentTrack d v s).PositionInTrack = s.PositionInTrack := by
  unfold setCurrentTrack
  split <;> simp

/-- The tick handler of each opcode that has one. -/
theorem handler_of_opcode : ∀ v < 256,
    (v &&& 0x3f = 0x29 → (CommandPtrFromNumber v).bind (fun e => e.IntHandler) =
      some .SeekInterrupt) ∧
    (v &&& 0x3f = 0x1f → (CommandPtrFromNumber v).bind (fun e => e.IntHandler) =
      some .VerifyInterrupt) ∧
    ((v &&& 0x3f = 0x13 ∨ v &&& 0x3f = 0x17) →
      (CommandPtrFromNumber v).bind (fun e => e.IntHandler) = some .ReadInterrupt) ∧
    (v &&& 0x3f = 0x0b → (CommandPtrFromNumber v).bind (fun e => e.IntHandler) =
      some .WriteInterrupt) ∧
    (v &&& 0x3f = 0x23 → (CommandPtrFromNumber v).bind (fun e => e.IntHandler) =
      some .FormatInterrupt) ∧
    (v &&& 0x3f = 0x1b → (CommandPtrFromNumber v).bind (fun e => e.IntHandler) =
      some .ReadIDInterrupt) := by
  decide

/-- The tick of a latched command `v` whose tick handler is `h`, when the motor
state machine is idle and no deferred error is pending. -/
theorem poll_opcode (t : State) (h : IntFunc)
    (hs : t.CommandStatus.NextInterruptIsErr = RESULT_REG_DATA_CRC_ERROR ∨
          t.CommandStatus.NextInterruptIsErr = RESULT_REG_DELETED_DATA_FOUND ∨
          t.CommandStatus.NextInterruptIsErr = RESULT_REG_SUCCESS)
    (hidle : (DriveHeadMotorUpdate (ClearTrigger t)).1 = false)
    (hh : (CommandPtrFromNumber t.FDCState.Command).bind (fun e => e.IntHandler) = some h) :
    Disc8271_poll_real t =
      (callIntHandler h (UpdateNMIStatus (setStatus
        ((DriveHeadMotorUpdate (ClearTrigger t)).2.FDCState.StatusReg |||
          STATUS_REG_INTERRUPT_REQUEST) (DriveHeadMotorUpdate (ClearTrigger t)).2))).map
        DriveHeadScheduleUnload := by
  cases he : CommandPtrFromNumber t.FDCState.Command with
  | none => rw [he] at hh; simp at hh
  | some e =>
    rw [he] at hh
    exact poll_handler t e h hs hidle he hh

/-- The tick that runs `SeekInterrupt` or `VerifyInterrupt`: result register 0,
status register exactly `result_full|interrupt_request`. -/
theorem poll_short (t : State) (h : IntFunc)
    (hs : t.CommandStatus.NextInterruptIsErr = RESULT_REG_DATA_CRC_ERROR ∨
          t.CommandStatus.NextInterruptIsErr = RESULT_REG_DELETED_DATA_FOUND ∨
          t.CommandStatus.NextInterruptIsErr = RESULT_REG_SUCCESS)
    (hidle : (DriveHeadMotorUpdate (ClearTrigger t)).1 = false)
    (hh : (CommandPtrFromNumber t.FDCState.Command).bind (fun e => e.IntHandler) = some h)
    (hk : h = .SeekInterrupt ∨ h = .VerifyInterrupt) :
    ∃ t', Disc8271_poll_real t = some t' ∧ t'.FDCState.ResultReg = 0 ∧
      t'.FDCState.StatusReg = STATUS_REG_RESULT_FULL ||| STATUS_REG_INTERRUPT_REQUEST := by
  rw [poll_opcode t h hs hidle hh]
  rcases hk with rfl | rfl
  · simp only [callIntHandler, SeekInterrupt, Option.map_some']
    refine ⟨_, rfl, ?_, ?_⟩
    · rw [(DriveHeadScheduleUnload_frame _).2.1]
      simp [setResult, RESULT_REG_SUCCESS]
    · rw [(DriveHeadScheduleUnload_frame _).2.1]
      simp [setResult, UpdateNMIStatus_eq, setStatus]
  · simp only [callIntHandler, VerifyInterrupt, Option.map_some']
    refine ⟨_, rfl, ?_, ?_⟩
    · rw [(DriveHeadScheduleUnload_frame _).2.1]
      simp [setResult, RESULT_REG_SUCCESS]
    · rw [(DriveHeadScheduleUnload_frame _).2.1]
      simp [setResult, UpdateNMIStatus_eq, setStatus]

/-- C21 (amended): a Seek command (opcode 0x29) with parameter `t` on a selected drive
leaves the current-track register of that drive equal to `t`,
`FSDPhysicalTrack = t`, `UsingSpecial` false, `PositionInTrack = 0`,
`DRDSC = 0`, the status register `command_busy` alone and the trigger 100
cycles ahead. The following tick, when the motor state machine is idle and no
deferred error of an earlier command is pending, leaves the result register 0
and the status register exactly `result_full|interrupt_request`. -/
theorem DoSeekCommand_effect (s : State)
    (hcmd : s.FDCState.Command < 256) (hop : s.FDCState.Command &&& 0x3f = 0x29)
    (hsel : 0 ≤ GetSelectedDrive (DoSelects s)) :
    ∃ s1, DoSeekCommand s = some s1 ∧
      (if GetSelectedDrive (DoSelects s) = 0 then s1.FDCState.CurrentTrack0
       else s1.FDCState.CurrentTrack1) = Param s 0 ∧
      s1.FSDPhysicalTrack = Param s 0 ∧ s1.UsingSpecial = false ∧ s1.PositionInTrack = 0 ∧
      s1.DRDSC = 0 ∧ s1.FDCState.StatusReg = STATUS_REG_COMMAND_BUSY ∧
      s1.Disc8271Trigger = some (s.TotalCycles + 100) ∧
      ((s1.CommandStatus.NextInterruptIsErr = RESULT_REG_DATA_CRC_ERROR ∨
        s1.CommandStatus.NextInterruptIsErr = RESULT_REG_DELETED_DATA_FOUND ∨
        s1.CommandStatus.NextInterruptIsErr = RESULT_REG_SUCCESS) →
       (DriveHeadMotorUpdate (ClearTrigger s1)).1 = false →
       ∃ s2, Disc8271_poll_real s1 = some s2 ∧ s2.FDCState.ResultReg = 0 ∧
         s2.FDCState.StatusReg = STATUS_REG_RESULT_FULL ||| STATUS_REG_INTERRUPT_REQUEST) := by
  have hnot : ¬ GetSelectedDrive (DoSelects s) < 0 := by omega
  obtain ⟨s1, h1⟩ : ∃ s1, DoSeekCommand s = some s1 := by
    unfold DoSeekCommand
    simp only [DoLoadHead, hnot, if_false]
    exact ⟨_, rfl⟩
  have hst := DoSeekCommand_status s s1 h1
  refine ⟨s1, h1, ?_⟩
  unfold DoSeekCommand at h1
  simp only [DoLoadHead, hnot, if_false, Option.some.injEq] at h1
  have hp : (DoSelects s).FDCState.Params = s.FDCState.Params := rfl
  have htc : (DoSelects s).TotalCycles = s.TotalCycles := rfl
  have hcm : (DoSelects s).FDCState.Command = s.FDCState.Command := rfl
  generalize DoSelects s = t at h1 hp htc hcm hsel hnot ⊢
  subst h1
  have hc : ∀ (d : Int) (v : Nat) (u : State),
      (setCurrentTrack d v u).FDCState.Command = u.FDCState.Command ∧
      (setCurrentTrack d v u).FDCState.Params = u.FDCState.Params ∧
      (setCurrentTrack d v u).TotalCycles = u.TotalCycles ∧
      (setCurrentTrack d v u).DRDSC = u.DRDSC := by
    intro d v u
    unfold setCurrentTrack
    split <;> simp
  refine ⟨?_, ?_, ?_, ?_, ?_, hst, ?_, ?_⟩
  · by_cases hd : GetSelectedDrive t = 0
    · simp [hd, setCurrentTrack, UpdateNMIStatus_eq, setStatus, SetTrigger, Param, hp]
    · simp [hd, setCurrentTrack, UpdateNMIStatus_eq, setStatus, SetTrigger, Param, hp]
  · simp [UpdateNMIStatus_eq, setStatus, SetTrigger, Param, hc, hp]
  · simp [UpdateNMIStatus_eq, setStatus, SetTrigger]
  · simp [UpdateNMIStatus_eq, setStatus, SetTrigger]
  · simp [UpdateNMIStatus_eq, setStatus, SetTrigger, hc]
  · simp [UpdateNMIStatus_eq, setStatus, SetTrigger, hc, htc]
  · intro hs hidle
    refine poll_short _ .SeekInterrupt hs hidle ?_ (Or.inl rfl)
    have : (SetTrigger 100 (UpdateNMIStatus (setStatus STATUS_REG_COMMAND_BUSY
        { setCurrentTrack (GetSelectedDrive t) (Param { t with DRDSC := 0 } 0)
            { t with DRDSC := 0 } with
          FSDPhysicalTrack := Param (setCurrentTrack (GetSelectedDrive t)
            (Param { t with DRDSC := 0 } 0) { t with DRDSC := 0 }) 0,
          UsingSpecial := false, PositionInTrack := 0 }))).FDCState.Command =
        s.FDCState.Command := by
      simp [UpdateNMIStatus_eq, setStatus, SetTrigger, hc, hcm]
    rw [this]
    exact (handler_of_opcode _ hcmd).1 hop

theorem DoSeekCommand_effect_witness :
    ∃ s1, DoSeekCommand (latched 0x69 [5] powerOn) = some s1 ∧ s1.FSDPhysicalTrack = 5 ∧
      s1.FDCState.CurrentTrack0 = 5 ∧
      ∃ s2, Disc8271_poll_real s1 = some s2 ∧ s2.FDCState.ResultReg = 0 ∧
        s2.FDCState.StatusReg = 0x18 := by
  obtain ⟨s1, h1, h2, h3, _, _, _, _, _, h9⟩ :=
    DoSeekCommand_effect (latched 0x69 [5] powerOn) (by decide) (by decide) (by decide)
  have e1 : s1 = (DoSeekCommand (latched 0x69 [5] powerOn)).get (by decide) := by
    simp [h1]
  refine ⟨s1, h1, h3, ?_, ?_⟩
  · rw [if_pos (by decide)] at h2
    exact h2
  · exact h9 (by rw [e1]; decide) (by rw [e1]; decide)

/-! ## Frame lemmas of the lookups -/

theorem GetTrackPtr_frame (id : Nat) (s s' : State) (r : Option TrackPtr)
    (h : GetTrackPtr id s = some (r, s')) :
    s' = { s with FSDPhysicalTrack := s'.FSDPhysicalTrack } := by
  unfold GetTrackPtr at h
  dsimp only at h
  split at h
  · simp only [Option.some.injEq, Prod.mk.injEq] at h
    rw [← h.2]
  · split at h
    · simp at h
    · simp only [Option.some.injEq, Prod.mk.injEq] at h
      rw [← h.2]
    · simp only [Option.some.injEq, Prod.mk.injEq] at h
      rw [← h.2]

theorem GetSectorPtr_setCommandStatus (tp : TrackPtr) (id : Nat)
    (f : CommandStatusType → CommandStatusType) (s : State) :
    GetSectorPtr tp id (setCommandStatus f s) =
      (GetSectorPtr tp id s).map (fun p => (p.1, setCommandStatus f p.2)) := by
  unfold GetSectorPtr
  change (match GetSectorPtrOn (trackAt s tp) id s.PositionInTrack with
    | none => none
    | some (r, pos) => some (r.map (fun i => (⟨tp, i⟩ : SectorPtr)),
        { setCommandStatus f s with PositionInTrack := pos })) = _
  cases GetSectorPtrOn (trackAt s tp) id s.PositionInTrack with
  | none => rfl
  | some x => rfl

theorem Param_setCurrentTrack (d : Int) (v : Nat) (s : State) (i : Nat) :
    Param (setCurrentTrack d v s) i = Param s i := by
  unfold setCurrentTrack Param
  split <;> rfl

/-- C22 (amended): Verify Data (opcode 0x1F) with a drive selected, the track resolved by
`GetTrackPtr`, the sector resolved by `GetSectorPtr` and designating a sector
`sec`: setup leaves the result register equal to `sec.Error` and arms the
trigger 100 cycles ahead. The following tick, when the motor state machine is
idle and no deferred error of an earlier command is pending, leaves the result
register 0 and the status register exactly `result_full|interrupt_request`,
whatever `sec.Error` is. -/
theorem Verify_effect (s sa sb : State) (tp : TrackPtr) (sp : SectorPtr) (sec : SectorType)
    (hcmd : s.FDCState.Command < 256) (hop : s.FDCState.Command &&& 0x3f = 0x1f)
    (hsel : 0 ≤ GetSelectedDrive (DoSelects s))
    (ht : GetTrackPtr (Param s 0)
      { setCurrentTrack (GetSelectedDrive (DoSelects s)) (Param s 0) (DoSelects s) with
        FSDPhysicalTrack := Param s 0, FSDLogicalTrack := Param s 0 } = some (some tp, sa))
    (hs : GetSectorPtr tp (Param s 1) sa = some (some sp, sb))
    (hsec : sectorAt sb sp = some sec) :
    ∃ s1, DoVarLength_VerifyDataAndDeldCommand s = some s1 ∧
      s1.FDCState.ResultReg = sec.Error ∧
      s1.Disc8271Trigger = some (s.TotalCycles + 100) ∧
      ((s1.CommandStatus.NextInterruptIsErr = RESULT_REG_DATA_CRC_ERROR ∨
        s1.CommandStatus.NextInterruptIsErr = RESULT_REG_DELETED_DATA_FOUND ∨
        s1.CommandStatus.NextInterruptIsErr = RESULT_REG_SUCCESS) →
       (DriveHeadMotorUpdate (ClearTrigger s1)).1 = false →
       ∃ s2, Disc8271_poll_real s1 = some s2 ∧ s2.FDCState.ResultReg = 0 ∧
         s2.FDCState.StatusReg = STATUS_REG_RESULT_FULL ||| STATUS_REG_INTERRUPT_REQUEST) := by
  have hnot : ¬ GetSelectedDrive (DoSelects s) < 0 := by omega
  have hfa := GetTrackPtr_frame _ _ _ _ ht
  have hfb := GetSectorPtr_frame _ _ _ _ _ hs
  obtain ⟨c1, c2, c3, c4, c5, c6, c7, c8⟩ := setCurrentTrack_frame
    (GetSelectedDrive (DoSelects s)) (Param s 0) (DoSelects s)
  have hpa : ∀ i, Param sa i = Param s i := by
    intro i
    rw [hfa]
    exact congrFun c3 i
  have hca : sa.FDCState.Command = s.FDCState.Command := by
    rw [hfa]
    exact c2
  have hta : sa.TotalCycles = s.TotalCycles := by
    rw [hfa]
    exact c5
  have hcb : sb.FDCState.Command = s.FDCState.Command := by
    rw [hfb]
    exact hca
  have htb : sb.TotalCycles = s.TotalCycles := by
    rw [hfb]
    exact hta
  have heq : DoVarLength_VerifyDataAndDeldCommand s = some (SetTrigger 100 (UpdateNMIStatus
      (if sec.Error ≠ 0 then
        setStatus sec.Error (setResult sec.Error (setCommandStatus (fun c => { c with
          CurrentSectorPtr := some sp }) (setCommandStatus (fun c => { c with
          CurrentTrackPtr := some tp }) sb)))
       else setStatus STATUS_REG_COMMAND_BUSY (setResult sec.Error (setCommandStatus (fun c =>
          { c with CurrentSectorPtr := some sp }) (setCommandStatus (fun c => { c with
          CurrentTrackPtr := some tp }) sb)))))) := by
    unfold DoVarLength_VerifyDataAndDeldCommand
    dsimp only
    rw [if_neg hnot]
    simp only [Param_setCurrentTrack]
    rw [show Param (DoSelects s) 0 = Param s 0 from rfl, ht]
    dsimp only
    rw [GetSectorPtr_setCommandStatus]
    rw [show Param (setCommandStatus (fun c => { c with CurrentTrackPtr := some tp }) sa) 1
      = Param sa 1 from rfl, hpa, hs]
    dsimp only [Option.map_some']
    rw [show sectorAt (setCommandStatus (fun c => { c with CurrentSectorPtr := some sp })
      (setCommandStatus (fun c => { c with CurrentTrackPtr := some tp }) sb)) sp
      = sectorAt sb sp from rfl, hsec]
    rfl
  refine ⟨_, heq, ?_, ?_, ?_⟩
  · split <;> simp [UpdateNMIStatus_eq, setStatus, SetTrigger, setResult]
  · split <;> simp [UpdateNMIStatus_eq, setStatus, SetTrigger, setResult, setCommandStatus, htb]
  · intro hs' hidle
    refine poll_short _ .VerifyInterrupt hs' hidle ?_ (Or.inr rfl)
    have : (SetTrigger 100 (UpdateNMIStatus
      (if sec.Error ≠ 0 then
        setStatus sec.Error (setResult sec.Error (setCommandStatus (fun c => { c with
          CurrentSectorPtr := some sp }) (setCommandStatus (fun c => { c with
          CurrentTrackPtr := some tp }) sb)))
       else setStatus STATUS_REG_COMMAND_BUSY (setResult sec.Error (setCommandStatus (fun c =>
          { c with CurrentSectorPtr := some sp }) (setCommandStatus (fun c => { c with
          CurrentTrackPtr := some tp }) sb)))))).FDCState.Command = s.FDCState.Command := by
      split <;> simp [UpdateNMIStatus_eq, setStatus, SetTrigger, setResult, setCommandStatus, hcb]
    rw [this]
    exact (handler_of_opcode _ hcmd).2.1 hop

theorem some_pair_of_get {α β : Type} (o : Option (α × β)) (h : o.isSome = true) (a : α)
    (ha : (o.get h).1 = a) : o = some (a, (o.get h).2) := by
  subst ha
  simp

theorem Verify_effect_witness :
    ∃ s1 s2, DoVarLength_VerifyDataAndDeldCommand (latched 0x5F [0, 0, 1] crcErrorState) = some s1 ∧
      s1.FDCState.ResultReg = 0x0E ∧ Disc8271_poll_real s1 = some s2 ∧
      s2.FDCState.ResultReg = 0 ∧ s2.FDCState.StatusReg = 0x18 := by
  obtain ⟨s1, h1, h2, _, h4⟩ := Verify_effect (latched 0x5F [0, 0, 1] crcErrorState) _ _
    ⟨0, 0, 0⟩ ⟨⟨0, 0, 0⟩, 0⟩ (mkSector 0 0 0 256 0x0E (List.replicate 256 0))
    (by decide) (by decide) (by decide)
    (some_pair_of_get _ (by decide) _ (by decide))
    (some_pair_of_get _ (by decide) _ (by decide)) (by decide)
  have e1 : s1 = (DoVarLength_VerifyDataAndDeldCommand
      (latched 0x5F [0, 0, 1] crcErrorState)).get (by decide) := by
    simp [h1]
  obtain ⟨s2, h5, h6, h7⟩ := h4 (by rw [e1]; decide) (by rw [e1]; decide)
  exact ⟨s1, s2, h1, h2, h5, h6, h7⟩

/-- C24: after `Disc8271Reset` from any state the result and status registers,
scan sector, scan count, mode, both current-track registers and both
drive-control ports are 0, both select flags are false, the four bad-track
registers are 0xFF, step rate is 12, head settling time 10, index count before
head unload 12, head load time 8, the expected and received parameter counts
are 0 and the trigger is the sentinel "never". -/
theorem Disc8271Reset_registers (s : State) :
    (Disc8271Reset s).FDCState.ResultReg = 0 ∧ (Disc8271Reset s).FDCState.StatusReg = 0 ∧
    (Disc8271Reset s).FDCState.ScanSectorNum = 0 ∧ (Disc8271Reset s).FDCState.ScanCount = 0 ∧
    (Disc8271Reset s).FDCState.ModeReg = 0 ∧
    (Disc8271Reset s).FDCState.CurrentTrack0 = 0 ∧ (Disc8271Reset s).FDCState.CurrentTrack1 = 0 ∧
    (Disc8271Reset s).FDCState.DriveControlOutputPort = 0 ∧
    (Disc8271Reset s).FDCState.DriveControlInputPort = 0 ∧
    (Disc8271Reset s).FDCState.Select0 = false ∧ (Disc8271Reset s).FDCState.Select1 = false ∧
    (Disc8271Reset s).FDCState.BadTracks00 = 0xff ∧ (Disc8271Reset s).FDCState.BadTracks01 = 0xff ∧
    (Disc8271Reset s).FDCState.BadTracks10 = 0xff ∧ (Disc8271Reset s).FDCState.BadTracks11 = 0xff ∧
    (Disc8271Reset s).FDCState.StepRate = 12 ∧ (Disc8271Reset s).FDCState.HeadSettlingTime = 10 ∧
    (Disc8271Reset s).FDCState.IndexCountBeforeHeadUnload = 12 ∧
    (Disc8271Reset s).FDCState.HeadLoadTime = 8 ∧
    (Disc8271Reset s).FDCState.CommandParamCount = 0 ∧
    (Disc8271Reset s).FDCState.CurrentParam = 0 ∧
    (Disc8271Reset s).Disc8271Trigger = none := by
  unfold Disc8271Reset
  dsimp only
  split <;> split <;>
    simp [DriveHeadMotorUpdate, InitDiscStore, ClearTrigger, setFDC, UpdateNMIStatus_eq, setStatus,
      setResult, RESULT_REG_SUCCESS]

/-- C23 (as the code has it): Read Drive Status leaves in the result register
0x80, 0x40 when the stored select flag of drive 1 is set, 0x04 when the stored
select flag of drive 0 is set (the flags an earlier command left: the handler
does not call `DoSelects`), 0x08 when the disc of the drive named by the
command byte is not writable and 0x02 when that drive's current-track register
is 0, where the drive named by the command byte is drive 1 when bit 7 is set,
else drive 0 when bit 6 is set, and with neither bit set both are clear; it
sets `result_full`, keeps the other status bits, and increments `DRDSC` modulo
256. -/
theorem DoReadDriveStatusCommand_result (s : State) :
    ∃ s1, DoReadDriveStatusCommand s = some s1 ∧
      s1.FDCState.ResultReg =
        (0x80 ||| (if s.FDCState.Select1 then 0x40 else 0)
              ||| (if s.FDCState.Select0 then 0x04 else 0)
              ||| (if (if s.FDCState.Command &&& 0x80 ≠ 0 then !(s.DiscStatus 1).Writeable
                       else if s.FDCState.Command &&& 0x40 ≠ 0 then !(s.DiscStatus 0).Writeable
                       else false) then 0x08 else 0)
              ||| (if (if s.FDCState.Command &&& 0x80 ≠ 0 then
                         decide (s.FDCState.CurrentTrack1 = 0)
                       else if s.FDCState.Command &&& 0x40 ≠ 0 then
                         decide (s.FDCState.CurrentTrack0 = 0)
                       else false) then 0x02 else 0)) ∧
      s1.FDCState.StatusReg = s.FDCState.StatusReg ||| STATUS_REG_RESULT_FULL ∧
      resultFull s1 = true ∧
      s1.DRDSC = (s.DRDSC + 1) % 256 := by
  have hb : ∀ x : Nat, (x ||| 0x10).testBit 4 = true := by
    intro x
    have : Nat.testBit 0x10 4 = true := by decide
    simp [Nat.testBit_or, this]
  by_cases h7 : s.FDCState.Command &&& 0x80 = 0 <;>
    by_cases h6 : s.FDCState.Command &&& 0x40 = 0 <;>
    simp only [DoReadDriveStatusCommand, h7, h6, ne_eq, if_true, if_false, not_true_eq_false,
      not_false_eq_true] <;>
    refine ⟨_, rfl, ?_, ?_, ?_, ?_⟩ <;>
    simp [UpdateNMIStatus_eq, setStatus, setResult, resultFull, STATUS_REG_RESULT_FULL, hb]

/-- C23, counterexample: after power-on the command byte 0x6C (Read Drive
Status naming drive 0) leaves 0x8A in the result register: the bit 0x04 "drive
0 selected" is clear, because the stored select flags are those of the reset;
and on a state where drive 1 is at track 5 and drive 0 at track 0 the command
byte 0xEC (both select bits) reports 0x88, the track-0 bit of drive 1. -/
theorem ReadDriveStatus_stale_selects :
    (hostWrites [(0, 0x6C)] powerOn).map (fun s => s.FDCState.ResultReg) = some 0x8A ∧
    (DoReadDriveStatusCommand
      (latched 0xEC [] (setFDC (fun f => { f with CurrentTrack1 := 5 }) powerOn))).map
      (fun s => s.FDCState.ResultReg) = some 0x88 := by
  refine ⟨?_, ?_⟩ <;> decide

/-- C26 (as the code has it): a command-register write of a command that takes
no parameter enters the setup handler with the status register equal to
`(old ||| 0x90) &&& 0x7E`: `command_busy` is clear and `result_full` is set,
for every prior status value. -/
theorem CommandRegWrite_entry (v : Nat) (s : State) (ptr : PrimaryCommandLookupType)
    (hp : CommandPtrFromNumber v = some ptr) (h0 : ptr.NParams = 0) :
    ∃ t, CommandRegWrite v s = callToCall ptr.ToCall t ∧
      t = handlerEntry (UpdateNMIStatus (setStatus (s.FDCState.StatusReg |||
        (STATUS_REG_COMMAND_BUSY ||| STATUS_REG_RESULT_FULL))
        (setFDC (fun f => { f with
          Command := v, CommandParamCount := ptr.NParams, CurrentParam := 0 }) s))) ∧
      t.FDCState.StatusReg = (s.FDCState.StatusReg ||| 0x90) &&& 0x7e ∧
      commandBusy t = false ∧ resultFull t = true := by
  refine ⟨_, ?_, rfl, ?_, ?_, ?_⟩
  · unfold CommandRegWrite
    rw [hp]
    dsimp only
    rw [if_pos (by simp [UpdateNMIStatus_eq, setStatus, setFDC, h0])]
    rfl
  · simp [handlerEntry, UpdateNMIStatus_eq, setStatus, setFDC, STATUS_REG_COMMAND_BUSY,
      STATUS_REG_RESULT_FULL]
  · simp only [handlerEntry, UpdateNMIStatus_eq, setStatus, setFDC, commandBusy]
    exact and_7e_bit7 _
  · simp only [handlerEntry, UpdateNMIStatus_eq, setStatus, setFDC, resultFull,
      STATUS_REG_COMMAND_BUSY, STATUS_REG_RESULT_FULL, Nat.testBit_and, Nat.testBit_or]
    have h1 : Nat.testBit 0x10 4 = true := by decide
    have h2 : Nat.testBit 0x7e 4 = true := by decide
    simp [h1, h2]

theorem CommandRegWrite_entry_witness :
    ∃ t, CommandRegWrite 0x2C powerOn = DoReadDriveStatusCommand t ∧
      t.FDCState.StatusReg = 0x10 := by
  obtain ⟨t, h1, h2, h3, _⟩ := CommandRegWrite_entry 0x2C powerOn
    ⟨0x2c, 0x3f, 0, .DoReadDriveStatusCommand, none, "Read drive status"⟩ (by decide) rfl
  refine ⟨t, h1, ?_⟩
  rw [h3]
  decide

/-- C26, counterexample: the opcode 0x3F matches no entry of the command table
but the last, which takes no parameter and whose handler does nothing; written
after power-on it leaves the status register 0x10, the value the handler was
entered with: `result_full` is set, not clear. -/
theorem CommandRegWrite_entry_result_full :
    (CommandRegWrite 0x3F powerOn).map (fun s => (s.FDCState.StatusReg, resultFull s)) =
      some (0x10, true) := by
  decide

/-- C13: `FSDPhysicalTrack` is not confined to 0..79. A Seek stores its
parameter unchecked: after power-on, Seek to track 200 on drive 0 leaves
`FSDPhysicalTrack = 200`, and a following Read ID of track 200 takes
`Tracks[head][200]` of the 80-entry track array as the current track. -/
theorem FSDPhysicalTrack_unchecked :
    (hostWrites [(0, 0x69), (1, 200)] powerOn).map (fun s => s.FSDPhysicalTrack) = some 200 ∧
    ((hostWrites [(0, 0x69), (1, 200), (0, 0x5B), (1, 200), (1, 0), (1, 1)] powerOn).bind
      (fun s => s.CommandStatus.CurrentTrackPtr)).map (fun p => decide (p.Track < TRACKS_PER_DRIVE))
      = some false := by
  refine ⟨?_, ?_⟩ <;> decide

/-! ## Write protection and the Format parameter check -/

/-- C16 (amended): a Write Data or Format command that selects a drive whose
disc is not writable defers `write_protect` (0x12) whatever its parameters are
and whatever the disc holds: the setup handler returns `DoErr 0x12` right after
the drive selection, the disc store is unchanged, and the next tick, when the
drive-head motor state machine does not take it, posts result 0x12 with status
`result_full|interrupt_request` and leaves the disc store unchanged. -/
theorem write_protect_deferred (s : State) (hsel : 0 ≤ GetSelectedDrive (DoSelects s))
    (hw : (s.DiscStatus (GetSelectedDrive (DoSelects s)).toNat).Writeable = false) :
    DoVarLength_WriteDataCommand s = some (DoErr RESULT_REG_WRITE_PROTECT (DoSelects s)) ∧
    DoFormatCommand s = some (DoErr RESULT_REG_WRITE_PROTECT (DoSelects s)) ∧
    (DoErr RESULT_REG_WRITE_PROTECT (DoSelects s)).DiscStatus = s.DiscStatus ∧
    (DoErr RESULT_REG_WRITE_PROTECT (DoSelects s)).CommandStatus.NextInterruptIsErr = 0x12 ∧
    ((DriveHeadMotorUpdate (ClearTrigger (DoErr RESULT_REG_WRITE_PROTECT (DoSelects s)))).1 = false →
      ∃ t, Disc8271_poll_real (DoErr RESULT_REG_WRITE_PROTECT (DoSelects s)) = some t ∧
        t.FDCState.ResultReg = 0x12 ∧
        t.FDCState.StatusReg = STATUS_REG_RESULT_FULL ||| STATUS_REG_INTERRUPT_REQUEST ∧
        t.DiscStatus = s.DiscStatus) := by
  have hnot : ¬ GetSelectedDrive (DoSelects s) < 0 := by omega
  have hw2 : ((DoSelects s).DiscStatus (GetSelectedDrive (DoSelects s)).toNat).Writeable = false := hw
  have hd : (DoErr RESULT_REG_WRITE_PROTECT (DoSelects s)).DiscStatus = s.DiscStatus := by
    simp [DoErr, UpdateNMIStatus_eq, setStatus, SetTrigger, DoSelects]
  have hn : (DoErr RESULT_REG_WRITE_PROTECT (DoSelects s)).CommandStatus.NextInterruptIsErr =
      0x12 := by
    simp [DoErr, UpdateNMIStatus_eq, setStatus, SetTrigger, RESULT_REG_WRITE_PROTECT]
  refine ⟨?_, ?_, hd, hn, ?_⟩
  · unfold DoVarLength_WriteDataCommand
    simp only [DoLoadHead, hnot, if_false, hw2, Bool.not_false, if_true]
  · unfold DoFormatCommand
    simp only [DoLoadHead, hnot, if_false, hw2, Bool.not_false, if_true]
  · intro hidle
    obtain ⟨t, h1, h2, h3, _, _, h6, _⟩ := poll_error
      (DoErr RESULT_REG_WRITE_PROTECT (DoSelects s)) (by rw [hn]; decide) hidle
    exact ⟨t, h1, by rw [h2, hn], h3, by rw [h6, hd]⟩

theorem write_protect_deferred_witness :
    ∃ t, (DoVarLength_WriteDataCommand (latched 0x4B [0, 0, 0x21] lookupState)).bind
        Disc8271_poll_real = some t ∧ t.FDCState.ResultReg = 0x12 := by
  obtain ⟨h1, _, _, _, h5⟩ := write_protect_deferred (latched 0x4B [0, 0, 0x21] lookupState)
    (by decide) (by decide)
  obtain ⟨t, h6, h7, _⟩ := h5 (by decide)
  exact ⟨t, by rw [h1]; exact h6, h7⟩

theorem size_code_256 (p : Nat) :
    (((1 <<< (7 + ((p >>> 5) &&& 7)) : Nat) : Int) = 256) ↔ (p >>> 5) &&& 7 = 1 := by
  have hle : (p >>> 5) &&& 7 ≤ 7 := Nat.and_le_right
  generalize (p >>> 5) &&& 7 = c at hle
  interval_cases c <;> simp

/-- C19: Format setup with a drive selected, the disc writable, the track
resolved by `GetTrackPtr` and logical sector 0 resolved by `GetSectorPtr` arms
the transfer (trigger 160 cycles ahead, first-write flag set, 10 sectors to go,
no error deferred) if and only if the low five bits of the third parameter are
10 and its size code (bits 5..7) is 1; for every other value it defers
`drive_not_present` (0x1E, trigger 50 cycles ahead). In both cases the disc
store is unchanged. -/
theorem DoFormatCommand_arms_iff (s sa sb : State) (tp : TrackPtr) (sp : SectorPtr)
    (hsel : 0 ≤ GetSelectedDrive (DoSelects s))
    (hw : (s.DiscStatus (GetSelectedDrive (DoSelects s)).toNat).Writeable = true)
    (ht : GetTrackPtr (Param s 0)
      (setCurrentTrack (GetSelectedDrive (DoSelects s)) (Param s 0) (DoSelects s)) =
        some (some tp, sa))
    (hs : GetSectorPtr tp 0 sa = some (some sp, sb)) :
    ∃ s1, DoFormatCommand s = some s1 ∧ s1.DiscStatus = s.DiscStatus ∧
      (s1.Disc8271Trigger = some (s.TotalCycles + TIME_BETWEEN_BYTES) ↔
        (Param s 2 &&& 31 = 10 ∧ (Param s 2 >>> 5) &&& 7 = 1)) ∧
      ((Param s 2 &&& 31 = 10 ∧ (Param s 2 >>> 5) &&& 7 = 1) →
        s1.CommandStatus.FirstWriteInt = true ∧ s1.CommandStatus.SectorsToGo = 10 ∧
        s1.CommandStatus.SectorLength = 256 ∧ s1.CommandStatus.ByteWithinSector = 0 ∧
        s1.CommandStatus.NextInterruptIsErr = s.CommandStatus.NextInterruptIsErr ∧
        s1.FDCState.StatusReg = STATUS_REG_COMMAND_BUSY) ∧
      (¬ (Param s 2 &&& 31 = 10 ∧ (Param s 2 >>> 5) &&& 7 = 1) →
        s1.CommandStatus.NextInterruptIsErr = RESULT_REG_DRIVE_NOT_PRESENT ∧
        s1.Disc8271Trigger = some (s.TotalCycles + 50) ∧
        s1.FDCState.StatusReg = STATUS_REG_COMMAND_BUSY) := by
  have hnot : ¬ GetSelectedDrive (DoSelects s) < 0 := by omega
  have hw2 : ((DoSelects s).DiscStatus (GetSelectedDrive (DoSelects s)).toNat).Writeable = true := hw
  have hfa := GetTrackPtr_frame _ _ _ _ ht
  have hfb := GetSectorPtr_frame _ _ _ _ _ hs
  obtain ⟨c1, c2, c3, c4, c5, c6, c7, c8⟩ := setCurrentTrack_frame
    (GetSelectedDrive (DoSelects s)) (Param s 0) (DoSelects s)
  have hpb : ∀ i, Param sb i = Param s i := by
    intro i
    rw [hfb, hfa]
    exact congrFun c3 i
  have htb : sb.TotalCycles = s.TotalCycles := by
    rw [hfb, hfa]
    exact c5
  have hdb : sb.DiscStatus = s.DiscStatus := by
    rw [hfb, hfa]
    exact c4
  have hcb : sb.CommandStatus = s.CommandStatus := by
    rw [hfb, hfa]
    exact c1
  have hcond : (((Param s 2 &&& 31 : Nat) : Int) = 10 ∧
      ((1 <<< (7 + ((Param s 2 >>> 5) &&& 7)) : Nat) : Int) = 256) ↔
      (Param s 2 &&& 31 = 10 ∧ (Param s 2 >>> 5) &&& 7 = 1) := by
    rw [size_code_256]
    constructor
    · rintro ⟨h1, h2⟩
      exact ⟨by exact_mod_cast h1, h2⟩
    · rintro ⟨h1, h2⟩
      exact ⟨by exact_mod_cast h1, h2⟩
  have heq : DoFormatCommand s =
      (if ((Param s 2 &&& 31 : Nat) : Int) = 10 ∧
          ((1 <<< (7 + ((Param s 2 >>> 5) &&& 7)) : Nat) : Int) = 256 then
        some (setCommandStatus (fun c => { c with FirstWriteInt := true })
          (UpdateNMIStatus (setStatus STATUS_REG_COMMAND_BUSY (SetTrigger TIME_BETWEEN_BYTES
            (setCommandStatus (fun c => { c with ByteWithinSector := 0 })
              (setCommandStatus (fun c => { c with
                TrackAddr := (Param s 0 : Int), CurrentSector := 0,
                SectorsToGo := ((Param s 2 &&& 31 : Nat) : Int),
                SectorLength := ((1 <<< (7 + ((Param s 2 >>> 5) &&& 7)) : Nat) : Int) })
                (setCommandStatus (fun c => { c with CurrentSectorPtr := some sp })
                  (setCommandStatus (fun c => { c with CurrentTrackPtr := some tp }) sb))))))))
      else some (DoErr RESULT_REG_DRIVE_NOT_PRESENT
        (setCommandStatus (fun c => { c with
                TrackAddr := (Param s 0 : Int), CurrentSector := 0,
                SectorsToGo := ((Param s 2 &&& 31 : Nat) : Int),
                SectorLength := ((1 <<< (7 + ((Param s 2 >>> 5) &&& 7)) : Nat) : Int) })
                (setCommandStatus (fun c => { c with CurrentSectorPtr := some sp })
                  (setCommandStatus (fun c => { c with CurrentTrackPtr := some tp }) sb))))) := by
    unfold DoFormatCommand
    dsimp only [DoLoadHead]
    rw [if_neg hnot]
    simp only [hw2, Bool.not_true, Bool.false_eq_true, if_false, Param_setCurrentTrack]
    rw [show Param (DoSelects s) 0 = Param s 0 from rfl, ht]
    dsimp only
    rw [GetSectorPtr_setCommandStatus, hs]
    dsimp only [Option.map_some']
    have e0 : Param (setCommandStatus (fun c => { c with CurrentSectorPtr := some sp })
        (setCommandStatus (fun c => { c with CurrentTrackPtr := some tp }) sb)) 0 = Param s 0 :=
      hpb 0
    have e2 : Param (setCommandStatus (fun c => { c with CurrentSectorPtr := some sp })
        (setCommandStatus (fun c => { c with CurrentTrackPtr := some tp }) sb)) 2 = Param s 2 :=
      hpb 2
    rw [e0, e2]
    rfl
  rw [heq]
  by_cases hc : (Param s 2 &&& 31 = 10 ∧ (Param s 2 >>> 5) &&& 7 = 1)
  · have hc' := hcond.2 hc
    rw [if_pos hc']
    refine ⟨_, rfl, ?_, ?_, ?_, ?_⟩
    · simp [setCommandStatus, UpdateNMIStatus_eq, setStatus, SetTrigger, hdb]
    · simp [setCommandStatus, UpdateNMIStatus_eq, setStatus, SetTrigger, htb, hc]
    · intro _
      refine ⟨?_, ?_, ?_, ?_, ?_, ?_⟩ <;>
        simp [setCommandStatus, UpdateNMIStatus_eq, setStatus, SetTrigger, hcb, hc'.1, hc'.2]
    · intro h
      exact absurd hc h
  · have hc' : ¬ _ := fun h => hc (hcond.1 h)
    rw [if_neg hc']
    refine ⟨_, rfl, ?_, ?_, ?_, ?_⟩
    · simp [DoErr, setCommandStatus, UpdateNMIStatus_eq, setStatus, SetTrigger, hdb]
    · simp [DoErr, setCommandStatus, UpdateNMIStatus_eq, setStatus, SetTrigger, htb, hc,
        TIME_BETWEEN_BYTES]
    · intro h
      exact absurd h hc
    · intro _
      refine ⟨?_, ?_, ?_⟩ <;>
        simp [DoErr, setCommandStatus, UpdateNMIStatus_eq, setStatus, SetTrigger, htb]

theorem DoFormatCommand_arms_iff_witness :
    ∃ s1, DoFormatCommand (latched 0x63 [0, 0, 0x2A] (writableDrive0 crcErrorState)) = some s1 ∧
      s1.CommandStatus.FirstWriteInt = true := by
  obtain ⟨s1, h1, _, _, h4, _⟩ := DoFormatCommand_arms_iff
    (latched 0x63 [0, 0, 0x2A] (writableDrive0 crcErrorState)) _ _ ⟨0, 0, 0⟩ ⟨⟨0, 0, 0⟩, 0⟩
    (by decide) (by decide)
    (some_pair_of_get _ (by decide) _ (by decide))
    (some_pair_of_get _ (by decide) _ (by decide))
  exact ⟨s1, h1, (h4 (by decide)).1⟩

/-! ## Disc images: free, eject and load -/

theorem freeTrack_eq (t t' : TrackType) (h : freeTrack t = some t') :
    t' = { t with Sectors := none } := by
  unfold freeTrack at h
  split at h
  · rename_i hs
    simp only [Option.some.injEq] at h
    rw [← h]
    cases t
    simp_all
  · split at h
    · simp only [Option.some.injEq] at h
      rw [← h]
    · simp at h

theorem freedStore_zero (d k0 : Nat) (s : State) : freedStore d k0 0 s = s := by
  unfold freedStore setDisc
  have : (fun x => if x = d then { s.DiscStatus x with
      Tracks := fun hd k =>
        if hd = 0 ∧ k0 ≤ k ∧ k < k0 + 0 then
          { (s.DiscStatus x).Tracks 0 k with Sectors := none }
        else (s.DiscStatus x).Tracks hd k } else s.DiscStatus x) = s.DiscStatus := by
    funext x
    split
    · have : (fun hd k => if hd = 0 ∧ k0 ≤ k ∧ k < k0 + 0 then
          { (s.DiscStatus x).Tracks 0 k with Sectors := none }
          else (s.DiscStatus x).Tracks hd k) = (s.DiscStatus x).Tracks := by
        funext hd k
        rw [if_neg (by omega)]
      rw [this]
    · rfl
  rw [this]

theorem freedStore_succ (d k0 n : Nat) (s : State) :
    freedStore d (k0 + 1) n (setTrack d 0 k0
      { (s.DiscStatus d).Tracks 0 k0 with Sectors := none } s) = freedStore d k0 (n + 1) s := by
  unfold freedStore setTrack setDisc
  simp only [if_true]
  congr 1
  funext x
  by_cases hx : x = d
  · subst hx
    simp only [if_true]
    congr 1
    funext hd k
    by_cases h1 : hd = 0 ∧ k = k0
    · obtain ⟨rfl, rfl⟩ := h1
      simp
    · by_cases h2 : hd = 0
      · subst h2
        have hk : k ≠ k0 := fun h => h1 ⟨rfl, h⟩
        simp only [true_and, hk, if_false]
        by_cases h3 : k0 + 1 ≤ k ∧ k < k0 + 1 + n
        · rw [if_pos h3, if_pos (by omega)]
        · rw [if_neg h3, if_neg (by omega)]
      · simp [h2]
  · simp [hx]

theorem FreeDiscImageLoop_eq (d n : Nat) : ∀ (k0 : Nat) (s s' : State),
    FreeDiscImageLoop d n k0 s = some s' → s' = freedStore d k0 n s := by
  induction n with
  | zero =>
    intro k0 s s' h
    simp only [FreeDiscImageLoop, Option.some.injEq] at h
    rw [← h, freedStore_zero]
  | succ n ih =>
    intro k0 s s' h
    unfold FreeDiscImageLoop at h
    cases hf : freeTrack ((s.DiscStatus d).Tracks 0 k0) with
    | none => simp [hf] at h
    | some t =>
      rw [hf] at h
      have ht := freeTrack_eq _ _ hf
      subst ht
      rw [ih _ _ _ h, freedStore_succ]

theorem FreeDiscImage_eq (d : Nat) (s s' : State) (h : FreeDiscImage d s = some s') :
    s' = freedStore d 0 TRACKS_PER_DRIVE s :=
  FreeDiscImageLoop_eq d _ 0 s s' h

/-- C29: `FreeDiscImage` frees the tracks of head 0 only. After the image
`dsdImage` has been loaded into drive 0 and ejected, track 0 of head 0 has no
sector array, but track 0 of head 1 still holds its ten sectors and their
256-byte data buffers; with head 1 selected through the drive control output
port, a Read of track 0 sector 0 is armed and its first tick delivers a data
byte of the ejected image with result 0 (on head 0 the same Read is answered
by "sector not found", 0x18). -/
theorem FreeDiscImage_keeps_head1 :
    ((LoadSimpleDSDiscImage "a.dsd" 0 80 (withFile "a.dsd" dsdImage powerOn)).bind
      (Eject8271DiscImage 0)).map (fun s =>
        (((s.DiscStatus 0).Tracks 0 0).Sectors.isSome,
         ((s.DiscStatus 0).Tracks 1 0).Sectors.map List.length,
         ((s.DiscStatus 0).Tracks 1 0).Sectors.bind (fun l =>
           l.head?.bind (fun x => x.Data.map List.length)))) =
      some (false, some 10, some 256) ∧
    ((((LoadSimpleDSDiscImage "a.dsd" 0 80 (withFile "a.dsd" dsdImage powerOn)).bind
      (Eject8271DiscImage 0)).bind
      (hostWrites [(0, 0x7A), (1, 0x23), (1, 0x20), (0, 0x53), (1, 0), (1, 0), (1, 0x21)])).bind
      Disc8271_poll_real).map (fun s =>
        (s.FDCState.DataReg, s.FDCState.StatusReg, s.FDCState.ResultReg)) =
      some (0, 0x8C, 0) ∧
    ((((LoadSimpleDSDiscImage "a.dsd" 0 80 (withFile "a.dsd" dsdImage powerOn)).bind
      (Eject8271DiscImage 0)).bind
      (hostWrites [(0, 0x53), (1, 0), (1, 0), (1, 0x21)])).bind
      Disc8271_poll_real).map (fun s => (s.FDCState.StatusReg, s.FDCState.ResultReg)) =
      some (0x18, 0x18) := by
  refine ⟨?_, ?_, ?_⟩ <;> decide

theorem skipTitle_eq (title rest : List Nat) (ht : ∀ b ∈ title, b ≠ 0) :
    skipTitle (title ++ 0 :: rest) = some rest := by
  induction title with
  | nil => simp [skipTitle]
  | cons b tl ih =>
    have hb : b ≠ 0 := ht b (List.mem_cons_self _ _)
    simp only [List.cons_append, skipTitle, hb, if_false]
    exact ih (fun x hx => ht x (List.mem_cons_of_mem _ hx))

/-- C27 (as the code has it): the limit of the FSD loader is
`FSD_TRACKS_PER_DRIVE = 41` tracks. For an image made of an 8-byte header, a
title without zero byte, the terminating zero, the last-track byte `last` and
the track records `rest`, loaded into a drive whose old image `FreeDiscImage`
can free: when `last + 1 > 41` the loader returns right after storing
`TotalTracks = last + 1`, and no track of head 0 of the drive has a sector
array; when `last + 1 ≤ 41` the loader goes on to install the `last + 1` track
records. -/
theorem LoadFSDDiscImage_limit (name : String) (d : Nat) (s s0 : State)
    (hdr title rest : List Nat) (last : Nat)
    (hfile : s.FS.Files name = some (hdr ++ (title ++ 0 :: last :: rest)))
    (hh : hdr.length = 8) (ht : ∀ b ∈ title, b ≠ 0)
    (hfree : FreeDiscImage d (setDisc d (fun x => { x with
      NumHeads := 1, FileName := name, Kind := .FSD }) s) = some s0) :
    (last + 1 > FSD_TRACKS_PER_DRIVE →
      ∃ s1, LoadFSDDiscImage name d s = some s1 ∧
        (s1.DiscStatus d).TotalTracks = (last : Int) + 1 ∧
        ∀ k, k < TRACKS_PER_DRIVE → ((s1.DiscStatus d).Tracks 0 k).Sectors = none) ∧
    (last + 1 ≤ FSD_TRACKS_PER_DRIVE →
      LoadFSDDiscImage name d s = some (loadFSDTracks d (last + 1) 0 rest
        (setDisc d (fun x => { x with TotalTracks := (last : Int) + 1 }) s0))) := by
  have hd : (hdr ++ (title ++ 0 :: last :: rest)).drop 8 = title ++ 0 :: last :: rest :=
    List.drop_left' hh
  have hs0 := FreeDiscImage_eq _ _ _ hfree
  constructor
  · intro hgt
    have hgt2 : ((last : Int) + 1 > (FSD_TRACKS_PER_DRIVE : Int)) := by exact_mod_cast hgt
    refine ⟨setDisc d (fun x => { x with TotalTracks := (last : Int) + 1 }) s0, ?_, ?_, ?_⟩
    · unfold LoadFSDDiscImage
      simp only [hfile, hfree, hd, skipTitle_eq _ _ ht, if_pos hgt2]
    · simp [setDisc]
    · intro k hk
      rw [hs0]
      simp [setDisc, freedStore, hk]
  · intro hle
    have hle2 : ¬ ((last : Int) + 1 > (FSD_TRACKS_PER_DRIVE : Int)) := by
      have : ((last : Int) + 1 ≤ (FSD_TRACKS_PER_DRIVE : Int)) := by exact_mod_cast hle
      omega
    unfold LoadFSDDiscImage
    simp only [hfile, hfree, hd, skipTitle_eq _ _ ht, if_neg hle2, List.drop_one, List.tail_cons]
    rfl

theorem LoadFSDDiscImage_limit_witness :
    ∃ s1, LoadFSDDiscImage "a.fsd" 0 (withFile "a.fsd" fsdImage42 powerOn) = some s1 ∧
      (s1.DiscStatus 0).TotalTracks = 42 ∧ ((s1.DiscStatus 0).Tracks 0 0).Sectors = none := by
  obtain ⟨s1, h1, h2, h3⟩ := (LoadFSDDiscImage_limit "a.fsd" 0
    (withFile "a.fsd" fsdImage42 powerOn) _ [70, 83, 68, 0, 0, 0, 0, 0] [84]
    [0, 1, 255, 0, 0, 0, 0, 0, 0] 41 rfl rfl (by decide)
    (Option.some_get (by decide)).symm).1 (by decide)
  exact ⟨s1, h1, h2, h3 0 (by decide)⟩

/-- C27, counterexample: the image `fsdImage41` declares last track 40, that is
41 tracks, more than 40; the loader accepts it and installs its track 40. -/
theorem LoadFSDDiscImage_accepts_41 :
    (LoadFSDDiscImage "a.fsd" 0 (withFile "a.fsd" fsdImage41 powerOn)).map (fun s =>
      ((s.DiscStatus 0).TotalTracks, ((s.DiscStatus 0).Tracks 0 40).Sectors.map List.length,
       ((s.DiscStatus 0).Tracks 0 40).NSectors)) = some (41, some 1, 1) := by
  decide

/-- C14, counterexample: after an SSD image has been loaded into drive 0 and
ejected, track 0 of head 0 has `NSectors = 10` and no sector array. -/
theorem eject_leaves_NSectors :
    ((LoadSimpleDiscImage "a.ssd" 0 0 80 (withFile "a.ssd" [] powerOn)).bind
      (Eject8271DiscImage 0)).map (fun s =>
        (((s.DiscStatus 0).Tracks 0 0).NSectors, ((s.DiscStatus 0).Tracks 0 0).Sectors.isSome)) =
      some (10, false) := by
  decide

/-! ## The data-model invariant of the disc store -/

theorem StoreOK_of_disc (s s' : State) (h : s'.DiscStatus = s.DiscStatus) (hs : StoreOK s) :
    StoreOK s' := by
  intro d hd k
  rw [h]
  exact hs d hd k

theorem TrackOK_none (t : TrackType) (h : t.Sectors = none) : TrackOK t := by
  intro secs hs
  rw [h] at hs
  cases hs

theorem StoreOK_setDisc (d : Nat) (f : DiscStatusType → DiscStatusType) (s : State)
    (hf : ∀ x, (f x).Tracks = x.Tracks) (hs : StoreOK s) : StoreOK (setDisc d f s) := by
  intro d' hd k
  unfold setDisc
  dsimp only
  split
  · rw [hf]
    exact hs _ hd k
  · exact hs d' hd k

theorem StoreOK_setTrack (d h k : Nat) (t : TrackType) (s : State) (hs : StoreOK s)
    (ht : TrackOK t) : StoreOK (setTrack d h k t s) := by
  intro d' h' k'
  unfold setTrack setDisc
  dsimp only
  split
  · dsimp only
    split
    · exact ht
    · exact hs _ h' k'
  · exact hs d' h' k'

theorem StoreOK_freedStore (d k0 n : Nat) (s : State) (hs : StoreOK s) :
    StoreOK (freedStore d k0 n s) := by
  intro d' h' k'
  unfold freedStore setDisc
  dsimp only
  split
  · dsimp only
    split
    · exact TrackOK_none _ rfl
    · exact hs _ h' k'
  · exact hs d' h' k'

theorem TrackOK_of_records (t : TrackType) (secs : List SectorType) (ht : t.Sectors = some secs)
    (hn : t.NSectors = (secs.length : Int))
    (hr : ∀ (i : Nat) (sec : SectorType), secs[i]? = some sec → sec.RecordNum = i) : TrackOK t := by
  intro l hl
  rw [ht] at hl
  cases hl
  refine ⟨hn, ?_⟩
  intro i h
  exact hr i _ (List.getElem?_eq_getElem h)

theorem loadSimpleSectors_spec (T H : Nat) : ∀ (n start : Nat) (rd : List Nat),
    (loadSimpleSectors T H n start rd).1.length = n ∧
    ∀ (i : Nat) (sec : SectorType), (loadSimpleSectors T H n start rd).1[i]? = some sec →
      sec.RecordNum = (start + i) % 256 := by
  intro n
  induction n with
  | zero =>
    intro start rd
    simp [loadSimpleSectors]
  | succ n ih =>
    intro start rd
    unfold loadSimpleSectors
    dsimp only
    obtain ⟨h1, h2⟩ := ih (start + 1) (freadBuffer 256 rd).2
    refine ⟨by simp [h1], ?_⟩
    intro i sec hi
    cases i with
    | zero =>
      simp only [List.getElem?_cons_zero, Option.some.injEq] at hi
      rw [← hi]
      simp
    | succ j =>
      simp only [List.getElem?_cons_succ] at hi
      rw [h2 j sec hi]
      congr 1
      omega

theorem loadFSDSectors_spec (T R : Nat) : ∀ (n start : Nat) (rd : List Nat),
    (loadFSDSectors T R n start rd).1.length = n ∧
    ∀ (i : Nat) (sec : SectorType), (loadFSDSectors T R n start rd).1[i]? = some sec →
      sec.RecordNum = (start + i) % 256 := by
  intro n
  induction n with
  | zero =>
    intro start rd
    simp [loadFSDSectors]
  | succ n ih =>
    intro start rd
    unfold loadFSDSectors
    dsimp only
    split
    · rename_i hR
      refine ⟨?_, ?_⟩
      · simp [(ih (start + 1) _).1]
      · intro i sec hi
        cases i with
        | zero =>
          simp only [List.getElem?_cons_zero, Option.some.injEq] at hi
          rw [← hi]
          simp
        | succ j =>
          simp only [List.getElem?_cons_succ] at hi
          rw [(ih (start + 1) _).2 j sec hi]
          congr 1
          omega
    · refine ⟨?_, ?_⟩
      · simp [(ih (start + 1) _).1]
      · intro i sec hi
        cases i with
        | zero =>
          simp only [List.getElem?_cons_zero, Option.some.injEq] at hi
          rw [← hi]
          simp
        | succ j =>
          simp only [List.getElem?_cons_succ] at hi
          rw [(ih (start + 1) _).2 j sec hi]
          congr 1
          omega

theorem loadSimpleTrack_ok (d hd k H : Nat) (rd rd' : List Nat) (s s' : State)
    (h : loadSimpleTrack d hd k H rd s = some (rd', s')) (hs : StoreOK s) : StoreOK s' := by
  unfold loadSimpleTrack at h
  split at h
  · simp only [Option.some.injEq, Prod.mk.injEq] at h
    rw [← h.2]
    obtain ⟨h1, h2⟩ := loadSimpleSectors_spec k H 10 0 rd
    refine StoreOK_setTrack _ _ _ _ _ hs (TrackOK_of_records _ _ rfl ?_ ?_)
    · simp [h1]
    · intro i sec hi
      have hlt : i < 10 := by
        have := (List.getElem?_eq_some_iff.1 hi).1
        omega
      rw [h2 i sec hi]
      simp
      omega
  · simp at h

theorem loadSimpleTracks_ok (d hd H : Nat) : ∀ (n k : Nat) (rd rd' : List Nat) (s s' : State),
    loadSimpleTracks d hd H n k rd s = some (rd', s') → StoreOK s → StoreOK s' := by
  intro n
  induction n with
  | zero =>
    intro k rd rd' s s' h hs
    simp only [loadSimpleTracks, Option.some.injEq, Prod.mk.injEq] at h
    rw [← h.2]
    exact hs
  | succ n ih =>
    intro k rd rd' s s' h hs
    unfold loadSimpleTracks at h
    cases ht : loadSimpleTrack d hd k H rd s with
    | none => simp [ht] at h
    | some p =>
      obtain ⟨rd1, s1⟩ := p
      rw [ht] at h
      exact ih _ _ _ _ _ h (loadSimpleTrack_ok _ _ _ _ _ _ _ _ ht hs)

theorem loadSimpleHeads_ok (d H T : Nat) : ∀ (n hd : Nat) (rd rd' : List Nat) (s s' : State),
    loadSimpleHeads d H T n hd rd s = some (rd', s') → StoreOK s → StoreOK s' := by
  intro n
  induction n with
  | zero =>
    intro hd rd rd' s s' h hs
    simp only [loadSimpleHeads, Option.some.injEq, Prod.mk.injEq] at h
    rw [← h.2]
    exact hs
  | succ n ih =>
    intro hd rd rd' s s' h hs
    unfold loadSimpleHeads at h
    cases ht : loadSimpleTracks d hd H T 0 rd s with
    | none => simp [ht] at h
    | some p =>
      obtain ⟨rd1, s1⟩ := p
      rw [ht] at h
      exact ih _ _ _ _ _ h (loadSimpleTracks_ok _ _ _ _ _ _ _ _ _ ht hs)

theorem loadDSHeads_ok (d k : Nat) : ∀ (n hd : Nat) (rd rd' : List Nat) (s s' : State),
    loadDSHeads d k n hd rd s = some (rd', s') → StoreOK s → StoreOK s' := by
  intro n
  induction n with
  | zero =>
    intro hd rd rd' s s' h hs
    simp only [loadDSHeads, Option.some.injEq, Prod.mk.injEq] at h
    rw [← h.2]
    exact hs
  | succ n ih =>
    intro hd rd rd' s s' h hs
    unfold loadDSHeads at h
    cases ht : loadSimpleTrack d hd k hd rd s with
    | none => simp [ht] at h
    | some p =>
      obtain ⟨rd1, s1⟩ := p
      rw [ht] at h
      exact ih _ _ _ _ _ h (loadSimpleTrack_ok _ _ _ _ _ _ _ _ ht hs)

theorem loadDSTracks_ok (d : Nat) : ∀ (n k : Nat) (rd rd' : List Nat) (s s' : State),
    loadDSTracks d n k rd s = some (rd', s') → StoreOK s → StoreOK s' := by
  intro n
  induction n with
  | zero =>
    intro k rd rd' s s' h hs
    simp only [loadDSTracks, Option.some.injEq, Prod.mk.injEq] at h
    rw [← h.2]
    exact hs
  | succ n ih =>
    intro k rd rd' s s' h hs
    unfold loadDSTracks at h
    cases ht : loadDSHeads d k 2 0 rd s with
    | none => simp [ht] at h
    | some p =>
      obtain ⟨rd1, s1⟩ := p
      rw [ht] at h
      exact ih _ _ _ _ _ h (loadDSHeads_ok _ _ _ _ _ _ _ _ ht hs)

theorem fgetc8_lt (rd : List Nat) : (fgetc8 rd).1 < 256 := by
  unfold fgetc8
  split
  · decide
  · exact Nat.mod_lt _ (by decide)

theorem loadFSDTracks_ok (d : Nat) : ∀ (n k : Nat) (rd : List Nat) (s : State),
    StoreOK s → StoreOK (loadFSDTracks d n k rd s) := by
  intro n
  induction n with
  | zero =>
    intro k rd s hs
    exact hs
  | succ n ih =>
    intro k rd s hs
    unfold loadFSDTracks
    dsimp only
    split
    · apply ih
      have hlt := fgetc8_lt (fgetc8 rd).2
      obtain ⟨h1, h2⟩ := loadFSDSectors_spec k (fgetc8 (fgetc8 (fgetc8 rd).2).2).1
        (fgetc8 (fgetc8 rd).2).1 0 (fgetc8 (fgetc8 (fgetc8 rd).2).2).2
      refine StoreOK_setTrack _ _ _ _ _ hs (TrackOK_of_records _ _ rfl ?_ ?_)
      · simp [h1]
      · intro i sec hi
        have hlt2 := (List.getElem?_eq_some_iff.1 hi).1
        rw [h2 i sec hi]
        simp
        omega
    · apply ih
      refine StoreOK_setTrack _ _ _ _ _ hs ?_
      intro secs hsecs
      exact hs d 0 k secs hsecs

theorem StoreOK_powerOn : StoreOK powerOn := by
  intro d h k
  apply TrackOK_none
  simp only [powerOn, Disc8271Reset, zeroState, InitDiscStore, ClearTrigger, setFDC,
    UpdateNMIStatus_eq, setStatus, setResult, Bool.false_eq_true, if_false, if_true]
  split_ifs <;> simp [Blank]

theorem LoadSimpleDiscImage_ok (name : String) (d H T : Nat) (s s' : State)
    (h : LoadSimpleDiscImage name d H T s = some s') (hs : StoreOK s) : StoreOK s' := by
  unfold LoadSimpleDiscImage at h
  split at h
  · simp only [Option.some.injEq] at h
    rw [← h]
    exact hs
  · dsimp only at h
    split at h
    · simp at h
    · rename_i s1 hf
      have h1 := FreeDiscImage_eq _ _ _ hf
      have hs1 : StoreOK s1 := by
        rw [h1]
        exact StoreOK_freedStore _ _ _ _ (StoreOK_setDisc _ _ _ (fun _ => rfl) hs)
      cases hl : loadSimpleHeads d H T ((if List.length ‹List Nat› > 0x40000 then 2 else 1) - H) H
          ‹List Nat› s1 with
      | none => simp [hl] at h
      | some p =>
        obtain ⟨rd, s2⟩ := p
        simp only [hl, Option.map_some', Option.some.injEq] at h
        rw [← h]
        exact loadSimpleHeads_ok _ _ _ _ _ _ _ _ _ hl hs1

theorem LoadSimpleDSDiscImage_ok (name : String) (d T : Nat) (s s' : State)
    (h : LoadSimpleDSDiscImage name d T s = some s') (hs : StoreOK s) : StoreOK s' := by
  unfold LoadSimpleDSDiscImage at h
  split at h
  · simp only [Option.some.injEq] at h
    rw [← h]
    exact hs
  · dsimp only at h
    split at h
    · simp at h
    · rename_i s1 hf
      have h1 := FreeDiscImage_eq _ _ _ hf
      have hs1 : StoreOK s1 := by
        rw [h1]
        exact StoreOK_freedStore _ _ _ _ (StoreOK_setDisc _ _ _ (fun _ => rfl) hs)
      cases hl : loadDSTracks d T 0 ‹List Nat› s1 with
      | none => simp [hl] at h
      | some p =>
        obtain ⟨rd, s2⟩ := p
        simp only [hl, Option.map_some', Option.some.injEq] at h
        rw [← h]
        exact loadDSTracks_ok _ _ _ _ _ _ _ hl hs1

theorem LoadFSDDiscImage_ok (name : String) (d : Nat) (s s' : State)
    (h : LoadFSDDiscImage name d s = some s') (hs : StoreOK s) : StoreOK s' := by
  unfold LoadFSDDiscImage at h
  split at h
  · simp only [Option.some.injEq] at h
    rw [← h]
    exact hs
  · dsimp only at h
    split at h
    · simp at h
    · rename_i s1 hf
      have h1 := FreeDiscImage_eq _ _ _ hf
      have hs1 : StoreOK s1 := by
        rw [h1]
        exact StoreOK_freedStore _ _ _ _ (StoreOK_setDisc _ _ _ (fun _ => rfl) hs)
      split at h
      · simp at h
      · split at h
        · simp only [Option.some.injEq] at h
          rw [← h]
          exact StoreOK_setDisc _ _ _ (fun _ => rfl) hs1
        · simp only [Option.some.injEq] at h
          rw [← h]
          exact loadFSDTracks_ok _ _ _ _ _ (StoreOK_setDisc _ _ _ (fun _ => rfl) hs1)

theorem Eject8271DiscImage_ok (d : Nat) (s s' : State)
    (h : Eject8271DiscImage d s = some s') (hs : StoreOK s) : StoreOK s' := by
  unfold Eject8271DiscImage at h
  rw [FreeDiscImage_eq _ _ _ h]
  exact StoreOK_freedStore _ _ _ _ (StoreOK_setDisc _ _ _ (fun _ => rfl) hs)

theorem StoreOK_setSectorData (p : SectorPtr) (data : List Nat) (s : State) (hs : StoreOK s) :
    StoreOK (setSectorData p data s) := by
  intro d h k
  unfold setSectorData
  dsimp only
  split
  · dsimp only
    split
    · intro secs hsecs
      have ho := hs d h k
      cases hc : ((s.DiscStatus d).Tracks h k).Sectors with
      | none => simp [hc] at hsecs
      | some l =>
        obtain ⟨o1, o2⟩ := ho l hc
        simp only [hc, Option.map_some', Option.some.injEq] at hsecs
        subst hsecs
        refine ⟨by simpa using o1, ?_⟩
        intro i hi
        have hi2 : i < l.length := by simpa using hi
        rw [List.get_eq_getElem, List.getElem_modify]
        split
        · exact o2 i hi2
        · exact o2 i hi2
    · exact hs d h k
  · exact hs d h k

theorem SaveTrackImage_disc (d hd : Nat) (k : Int) (s s' : State) (b : Bool)
    (h : SaveTrackImage d hd k s = some (b, s')) : s'.DiscStatus = s.DiscStatus := by
  unfold SaveTrackImage at h
  dsimp only at h
  split at h
  · simp only [Option.some.injEq, Prod.mk.injEq] at h
    rw [← h.2]
  · split at h
    · simp at h
    · simp only [Option.some.injEq, Prod.mk.injEq] at h
      rw [← h.2]

theorem sectorWritten_disc (after : Int) (s s' : State) (h : sectorWritten after s = some s') :
    s'.DiscStatus = s.DiscStatus := by
  unfold sectorWritten at h
  dsimp only at h
  split at h
  · split at h
    · simp at h
    · rename_i s2 hn
      have hf := nextSectorPtr_frame _ _ hn
      split at h <;> simp only [Option.some.injEq] at h <;> rw [← h, hf] <;>
        simp [DoErr, notLastByte, UpdateNMIStatus_eq, setStatus, SetTrigger, setCommandStatus]
  · split at h
    · simp at h
    · rename_i s2 hsv
      have hd := SaveTrackImage_disc _ _ _ _ _ _ hsv
      simp only [Option.some.injEq] at h
      rw [← h]
      simp [UpdateNMIStatus_eq, setStatus, SetTrigger, setCommandStatus, hd]
    · rename_i s2 hsv
      have hd := SaveTrackImage_disc _ _ _ _ _ _ hsv
      simp only [Option.some.injEq] at h
      rw [← h]
      simp [DoErr, notLastByte, UpdateNMIStatus_eq, setStatus, SetTrigger, setCommandStatus, hd]

theorem WriteInterrupt_ok (s s' : State) (h : WriteInterrupt s = some s') (hs : StoreOK s) :
    StoreOK s' := by
  unfold WriteInterrupt at h
  dsimp only at h
  split at h
  · simp only [Option.some.injEq] at h
    rw [← h]
    exact StoreOK_of_disc _ _ (by simp [pickUpResult, UpdateNMIStatus_eq, setStatus]) hs
  · split at h
    · simp at h
    · rename_i s1 hst
      have hs1 : StoreOK s1 := by
        split at hst
        · split at hst
          · simp at hst
          · split at hst
            · simp at hst
            · split at hst
              · simp at hst
              · split at hst
                · simp only [Option.some.injEq] at hst
                  rw [← hst]
                  rename_i p _ _ _ _ _ data _ _
                  exact StoreOK_of_disc (setSectorData p
                    (data.set s.CommandStatus.ByteWithinSector.toNat s.FDCState.DataReg) s) _ rfl
                    (StoreOK_setSectorData _ _ _ hs)
                · simp at hst
        · simp only [Option.some.injEq] at hst
          rw [← hst]
          exact StoreOK_of_disc _ _ (by simp [setCommandStatus]) hs
      split at h
      · exact StoreOK_of_disc _ _ ((sectorWritten_disc _ _ _ h).trans (by simp [setResult])) hs1
      · simp only [Option.some.injEq] at h
        rw [← h]
        exact StoreOK_of_disc _ _
          (by simp [notLastByte, UpdateNMIStatus_eq, setStatus, SetTrigger, setResult]) hs1

theorem FormatInterrupt_ok (s s' : State) (h : FormatInterrupt s = some s') (hs : StoreOK s) :
    StoreOK s' := by
  unfold FormatInterrupt at h
  dsimp only at h
  split at h
  · simp only [Option.some.injEq] at h
    rw [← h]
    exact StoreOK_of_disc _ _ (by simp [pickUpResult, UpdateNMIStatus_eq, setStatus]) hs
  · have hd : (if (!s.CommandStatus.FirstWriteInt) = true then
        setCommandStatus (fun c => { c with ByteWithinSector := c.ByteWithinSector + 1 }) s
        else setCommandStatus (fun c => { c with FirstWriteInt := false }) s).DiscStatus =
        s.DiscStatus := by
      split <;> rfl
    generalize (if (!s.CommandStatus.FirstWriteInt) = true then
        setCommandStatus (fun c => { c with ByteWithinSector := c.ByteWithinSector + 1 }) s
        else setCommandStatus (fun c => { c with FirstWriteInt := false }) s) = s1 at h hd
    have hs1 : StoreOK (setResult RESULT_REG_SUCCESS s1) := StoreOK_of_disc _ _ hd hs
    split at h
    · split at h
      · simp at h
      · split at h
        · simp at h
        · split at h
          · simp at h
          · split at h
            · simp at h
            · exact StoreOK_of_disc _ _ (sectorWritten_disc _ _ _ h)
                (StoreOK_setSectorData _ _ _ hs1)
    · simp only [Option.some.injEq] at h
      rw [← h]
      exact StoreOK_of_disc _ _
        (by simp [notLastByte, UpdateNMIStatus_eq, setStatus, SetTrigger]) hs1

theorem GetTrackPtr_disc (id : Nat) (s s' : State) (r : Option TrackPtr)
    (h : GetTrackPtr id s = some (r, s')) : s'.DiscStatus = s.DiscStatus := by
  rw [GetTrackPtr_frame _ _ _ _ h]

theorem GetSectorPtr_disc (tp : TrackPtr) (id : Nat) (s s' : State) (r : Option SectorPtr)
    (h : GetSectorPtr tp id s = some (r, s')) : s'.DiscStatus = s.DiscStatus := by
  rw [GetSectorPtr_frame _ _ _ _ _ h]

theorem DoVarLength_WriteDataCommand_disc (s s' : State)
    (h : DoVarLength_WriteDataCommand s = some s') : s'.DiscStatus = s.DiscStatus := by
  have hc : ∀ d v, (setCurrentTrack d v (DoSelects s)).DiscStatus = s.DiscStatus :=
    fun d v => (setCurrentTrack_frame d v (DoSelects s)).2.2.2.1
  unfold DoVarLength_WriteDataCommand at h
  dsimp only [DoLoadHead] at h
  split at h
  · simp only [Option.some.injEq] at h
    rw [← h]
    simp [DoErr, UpdateNMIStatus_eq, setStatus, SetTrigger, DoSelects]
  · split at h
    · simp only [Option.some.injEq] at h
      rw [← h]
      simp [DoErr, UpdateNMIStatus_eq, setStatus, SetTrigger, DoSelects]
    · split at h
      · simp at h
      · rename_i tp s1 ht
        have h1 := (GetTrackPtr_disc _ _ _ _ ht).trans (hc _ _)
        split at h
        · simp only [Option.some.injEq] at h
          rw [← h]
          simp [DoErr, UpdateNMIStatus_eq, setStatus, SetTrigger, setCommandStatus, h1]
        · split at h
          · simp at h
          · rename_i sp s2 hsp
            have h2 := (GetSectorPtr_disc _ _ _ _ _ hsp).trans
              (show (setCommandStatus _ s1).DiscStatus = _ from h1)
            split at h
            · simp only [Option.some.injEq] at h
              rw [← h]
              simp [DoErr, UpdateNMIStatus_eq, setStatus, SetTrigger, setCommandStatus, h2]
            · split at h <;> simp only [Option.some.injEq] at h <;> rw [← h] <;>
                simp [DoErr, UpdateNMIStatus_eq, setStatus, SetTrigger, setCommandStatus,
                  latchVarLength, h2]

theorem DoFormatCommand_disc (s s' : State)
    (h : DoFormatCommand s = some s') : s'.DiscStatus = s.DiscStatus := by
  have hc : ∀ d v, (setCurrentTrack d v (DoSelects s)).DiscStatus = s.DiscStatus :=
    fun d v => (setCurrentTrack_frame d v (DoSelects s)).2.2.2.1
  unfold DoFormatCommand at h
  dsimp only [DoLoadHead] at h
  split at h
  · simp only [Option.some.injEq] at h
    rw [← h]
    simp [DoErr, UpdateNMIStatus_eq, setStatus, SetTrigger, DoSelects]
  · split at h
    · simp only [Option.some.injEq] at h
      rw [← h]
      simp [DoErr, UpdateNMIStatus_eq, setStatus, SetTrigger, DoSelects]
    · split at h
      · simp at h
      · rename_i tp s1 ht
        have h1 := (GetTrackPtr_disc _ _ _ _ ht).trans (hc _ _)
        split at h
        · simp only [Option.some.injEq] at h
          rw [← h]
          simp [DoErr, UpdateNMIStatus_eq, setStatus, SetTrigger, setCommandStatus, h1]
        · split at h
          · simp at h
          · rename_i sp s2 hsp
            have h2 := (GetSectorPtr_disc _ _ _ _ _ hsp).trans
              (show (setCommandStatus _ s1).DiscStatus = _ from h1)
            split at h
            · simp only [Option.some.injEq] at h
              rw [← h]
              simp [DoErr, UpdateNMIStatus_eq, setStatus, SetTrigger, setCommandStatus, h2]
            · split at h <;> simp only [Option.some.injEq] at h <;> rw [← h] <;>
                simp [DoErr, UpdateNMIStatus_eq, setStatus, SetTrigger, setCommandStatus, h2]

/-- C14 (as the code has it): the invariant the disc store keeps is `TrackOK`:
for every track of every drive, if the sector array is present then it holds
`NSectors` sectors and each sector's record number equals its index. It holds
after power-on and is preserved by the SSD, DSD and FSD loaders, by eject, and
by the setup and tick handlers of the Write Data and Format commands. -/
theorem StoreOK_preserved (s : State) (hs : StoreOK s) :
    StoreOK powerOn ∧
    (∀ name d H T s', LoadSimpleDiscImage name d H T s = some s' → StoreOK s') ∧
    (∀ name d T s', LoadSimpleDSDiscImage name d T s = some s' → StoreOK s') ∧
    (∀ name d s', LoadFSDDiscImage name d s = some s' → StoreOK s') ∧
    (∀ d s', Eject8271DiscImage d s = some s' → StoreOK s') ∧
    (∀ s', DoVarLength_WriteDataCommand s = some s' → StoreOK s') ∧
    (∀ s', WriteInterrupt s = some s' → StoreOK s') ∧
    (∀ s', DoFormatCommand s = some s' → StoreOK s') ∧
    (∀ s', FormatInterrupt s = some s' → StoreOK s') :=
  ⟨StoreOK_powerOn,
   fun _ _ _ _ _ h => LoadSimpleDiscImage_ok _ _ _ _ _ _ h hs,
   fun _ _ _ _ h => LoadSimpleDSDiscImage_ok _ _ _ _ _ h hs,
   fun _ _ _ h => LoadFSDDiscImage_ok _ _ _ _ h hs,
   fun _ _ h => Eject8271DiscImage_ok _ _ _ h hs,
   fun _ h => StoreOK_of_disc _ _ (DoVarLength_WriteDataCommand_disc _ _ h) hs,
   fun _ h => WriteInterrupt_ok _ _ h hs,
   fun _ h => StoreOK_of_disc _ _ (DoFormatCommand_disc _ _ h) hs,
   fun _ h => FormatInterrupt_ok _ _ h hs⟩

theorem StoreOK_preserved_witness :
    ∃ s', LoadFSDDiscImage "a.fsd" 0 (withFile "a.fsd" fsdImage powerOn) = some s' ∧
      StoreOK s' := by
  have hp : StoreOK (withFile "a.fsd" fsdImage powerOn) :=
    StoreOK_of_disc _ _ rfl StoreOK_powerOn
  have h := (StoreOK_preserved (withFile "a.fsd" fsdImage powerOn) hp).2.2.2.1 "a.fsd" 0
  have hsome : (LoadFSDDiscImage "a.fsd" 0 (withFile "a.fsd" fsdImage powerOn)).isSome = true := by
    decide
  exact ⟨_, (Option.some_get hsome).symm, h _ (Option.some_get hsome).symm⟩

/-! ## Iterated ticks -/

theorem iterate_add (f : State → Option State) (a b : Nat) (s : State) :
    iterate f (a + b) s = (iterate f a s).bind (iterate f b) := by
  induction a generalizing s with
  | zero => simp [iterate]
  | succ a ih =>
    rw [Nat.succ_add]
    simp only [iterate]
    cases f s with
    | none => rfl
    | some s1 => simp [ih]

theorem dataTrace_add (f : State → Option State) (a b : Nat) (s sa : State) (la lb : List Nat)
    (h1 : iterate f a s = some sa) (h2 : dataTrace f a s = some la)
    (h3 : dataTrace f b sa = some lb) : dataTrace f (a + b) s = some (la ++ lb) := by
  induction a generalizing s la with
  | zero =>
    simp only [iterate, Option.some.injEq] at h1
    simp only [dataTrace, Option.some.injEq] at h2
    subst h1 h2
    simpa using h3
  | succ a ih =>
    rw [Nat.succ_add]
    simp only [iterate] at h1
    simp only [dataTrace] at h2 ⊢
    cases hf : f s with
    | none => simp [hf] at h1
    | some s1 =>
      rw [hf] at h1 h2
      simp only [Option.some_bind] at h1
      cases hd : dataTrace f a s1 with
      | none => simp [hd] at h2
      | some l1 =>
        simp only [hd, Option.map_some', Option.some.injEq] at h2
        subst h2
        simp [ih s1 l1 h1 hd]

/-! ## Sector lookup on a well-formed track -/

theorem GetSectorPtr_eq_find (tp : TrackPtr) (id : Nat) (st : State) (secs : List SectorType)
    (hwf : TrackWF (trackAt st tp) secs) (hp : st.PositionInTrack ≤ secs.length)
    (hbyte : st.PositionInTrack < 256) :
    GetSectorPtr tp id st =
      some (match (cyclicOrder st.PositionInTrack secs.length).find? (hasID secs id) with
            | some i => (some { Trk := tp, Index := i }, { st with PositionInTrack := i })
            | none => (none, st)) := by
  unfold GetSectorPtr
  rw [GetSectorPtrOn_eq _ secs id _ hwf hp hbyte]
  cases (cyclicOrder st.PositionInTrack secs.length).find? (hasID secs id) <;> rfl

theorem find_cyclic_spec (secs : List SectorType) (id p i : Nat) (hp : p ≤ secs.length)
    (h : (cyclicOrder p secs.length).find? (hasID secs id) = some i) :
    i < secs.length ∧ hasID secs id i = true ∧
      ∃ sec, secs[i]? = some sec ∧ sec.IDField.LogicalSector = id := by
  have hm := (mem_cyclicOrder _ _ i hp).1 (List.mem_of_find?_eq_some h)
  have hpi := List.find?_some h
  refine ⟨hm, hpi, secs[i], List.getElem?_eq_getElem hm, ?_⟩
  simpa [hasID, List.getElem?_eq_getElem hm] using hpi

theorem GetSectorPtr_found (tp : TrackPtr) (id : Nat) (st : State) (secs : List SectorType)
    (hwf : TrackWF (trackAt st tp) secs) (hp : st.PositionInTrack ≤ secs.length)
    (hbyte : st.PositionInTrack < 256)
    (hex : ∃ sec ∈ secs, sec.IDField.LogicalSector = id) :
    ∃ i sec, i < secs.length ∧ secs[i]? = some sec ∧ sec.IDField.LogicalSector = id ∧
      hasID secs id i = true ∧
      GetSectorPtr tp id st = some (some { Trk := tp, Index := i }, { st with PositionInTrack := i }) := by
  cases hf : (cyclicOrder st.PositionInTrack secs.length).find? (hasID secs id) with
  | none =>
    obtain ⟨sec, hsec, hid⟩ := hex
    exact absurd hid ((cyclic_find_none secs id _ hp).1 hf sec hsec)
  | some i =>
    obtain ⟨h1, h2, sec, h3, h4⟩ := find_cyclic_spec secs id _ i hp hf
    refine ⟨i, sec, h1, h3, h4, h2, ?_⟩
    rw [GetSectorPtr_eq_find tp id st secs hwf hp hbyte, hf]

theorem cyclicOrder_head (p n : Nat) (h : p < n) :
    cyclicOrder p n = p :: (List.range' (p + 1) (n - p - 1) ++ List.range p) := by
  unfold cyclicOrder
  have : n - p = (n - p - 1) + 1 := by omega
  rw [this, List.range'_succ]
  rfl

/-- A lookup of the ID carried by the sector at the current position returns
that sector and leaves the position where it is. -/
theorem GetSectorPtr_here (tp : TrackPtr) (id : Nat) (st : State) (secs : List SectorType)
    (hwf : TrackWF (trackAt st tp) secs) (hp : st.PositionInTrack < secs.length)
    (hbyte : st.PositionInTrack < 256) (hid : hasID secs id st.PositionInTrack = true) :
    GetSectorPtr tp id st = some (some { Trk := tp, Index := st.PositionInTrack }, st) := by
  rw [GetSectorPtr_eq_find tp id st secs hwf (Nat.le_of_lt hp) hbyte, cyclicOrder_head _ _ hp]
  simp [List.find?_cons, hid]

/-! ## One tick of a read transfer -/

theorem currentSector_congr (t u : State) (hd : u.DiscStatus = t.DiscStatus)
    (hp : u.CommandStatus.CurrentSectorPtr = t.CommandStatus.CurrentSectorPtr) :
    currentSector u = currentSector t := by
  unfold currentSector sectorAt trackAt
  rw [hp, hd]

theorem readResult_frame2 (sec : SectorType) (s : State) :
    (readResult sec s).SectorOverRead = s.SectorOverRead ∧
    (readResult sec s).FDCState.StatusReg = s.FDCState.StatusReg ∧
    (¬ (sec.Error = RESULT_REG_DATA_CRC_ERROR ∧ sec.RealSectorSize = sec.IDSiz) →
      (readResult sec s).FDCState.DataReg = s.FDCState.DataReg) := by
  unfold readResult
  dsimp only
  refine ⟨?_, ?_, ?_⟩
  · split <;> simp [setResult, setData]
  · split <;> simp [setResult, setData]
  · intro hn
    rw [if_neg (fun h => hn ⟨h.1, h.2.1⟩)]
    simp [setResult]

/-- A read tick that does not complete the sector. -/
theorem ReadInterrupt_mid (t : State) (sec : SectorType) (data : List Nat)
    (hg : 0 ≤ t.CommandStatus.SectorsToGo)
    (hcur : currentSector t = some sec) (hd : sec.Data = some data)
    (hb0 : 0 ≤ t.CommandStatus.ByteWithinSector)
    (hlen : t.CommandStatus.ByteWithinSector < data.length)
    (hmid : t.CommandStatus.ByteWithinSector + 1 < t.CommandStatus.SectorLength) :
    ∃ u, ReadInterrupt t = some u ∧
      u.CommandStatus = { t.CommandStatus with
        ByteWithinSector := t.CommandStatus.ByteWithinSector + 1 } ∧
      u.DiscStatus = t.DiscStatus ∧ u.PositionInTrack = t.PositionInTrack ∧
      u.SectorOverRead = t.SectorOverRead ∧
      u.FDCState.ResultReg = readResultValue sec.Error sec.RealSectorSize sec.IDSiz
        t.CommandStatus.SectorLength t.SectorOverRead ∧
      u.FDCState.StatusReg = 0x8C ∧
      (¬ (sec.Error = RESULT_REG_DATA_CRC_ERROR ∧ sec.RealSectorSize = sec.IDSiz) →
        u.FDCState.DataReg = data.getD t.CommandStatus.ByteWithinSector.toNat 0) := by
  unfold ReadInterrupt
  rw [if_neg (by omega), loadDataByte_eq t sec data hcur hd hb0 hlen]
  dsimp only
  generalize hX : setCommandStatus (fun c => { c with ByteWithinSector := c.ByteWithinSector + 1 })
    (setData (data.getD t.CommandStatus.ByteWithinSector.toNat 0) t) = X
  have x1 : X.CommandStatus = { t.CommandStatus with
      ByteWithinSector := t.CommandStatus.ByteWithinSector + 1 } := by rw [← hX]; rfl
  have x2 : X.DiscStatus = t.DiscStatus := by rw [← hX]; rfl
  have x3 : X.PositionInTrack = t.PositionInTrack := by rw [← hX]; rfl
  have x4 : X.SectorOverRead = t.SectorOverRead := by rw [← hX]; rfl
  have x5 : X.FDCState.DataReg = data.getD t.CommandStatus.ByteWithinSector.toNat 0 := by
    rw [← hX]; rfl
  obtain ⟨f1, f2, f3⟩ := readResult_frame sec X
  obtain ⟨f4, f5, f6⟩ := readResult_frame2 sec X
  have f7 := readResult_ResultReg sec X
  unfold sectorRead
  rw [if_neg (by rw [f1, x1]; dsimp only; omega)]
  refine ⟨_, rfl, ?_, ?_, ?_, ?_, ?_, ?_, ?_⟩
  · simp [notLastByte, UpdateNMIStatus_eq, setStatus, SetTrigger, f1, x1]
  · simp [notLastByte, UpdateNMIStatus_eq, setStatus, SetTrigger, f2, x2]
  · simp [notLastByte, UpdateNMIStatus_eq, setStatus, SetTrigger, f3, x3]
  · simp [notLastByte, UpdateNMIStatus_eq, setStatus, SetTrigger, f4, x4]
  · simp [notLastByte, UpdateNMIStatus_eq, setStatus, SetTrigger, f7, x1, x4]
  · simp [notLastByte, UpdateNMIStatus_eq, setStatus, SetTrigger, STATUS_REG_COMMAND_BUSY,
      STATUS_REG_INTERRUPT_REQUEST, STATUS_REG_NON_DMA_MODE]
  · intro hn
    simp [notLastByte, UpdateNMIStatus_eq, setStatus, SetTrigger, f6 hn, x5]

/-- The read tick that completes the last sector of the transfer. -/
theorem ReadInterrupt_done (t : State) (sec : SectorType) (data : List Nat)
    (hg : t.CommandStatus.SectorsToGo = 1)
    (hcur : currentSector t = some sec) (hd : sec.Data = some data)
    (hb0 : 0 ≤ t.CommandStatus.ByteWithinSector)
    (hlen : t.CommandStatus.ByteWithinSector < data.length)
    (hlast : t.CommandStatus.SectorLength ≤ t.CommandStatus.ByteWithinSector + 1) :
    ∃ u, ReadInterrupt t = some u ∧
      u.CommandStatus = { t.CommandStatus with ByteWithinSector := 0, SectorsToGo := -1 } ∧
      u.DiscStatus = t.DiscStatus ∧ u.PositionInTrack = t.PositionInTrack ∧
      u.SectorOverRead = t.SectorOverRead ∧
      u.FDCState.ResultReg = readResultValue sec.Error sec.RealSectorSize sec.IDSiz
        t.CommandStatus.SectorLength t.SectorOverRead ∧
      u.FDCState.StatusReg = 0x9C ∧
      (¬ (sec.Error = RESULT_REG_DATA_CRC_ERROR ∧ sec.RealSectorSize = sec.IDSiz) →
        u.FDCState.DataReg = data.getD t.CommandStatus.ByteWithinSector.toNat 0) := by
  unfold ReadInterrupt
  rw [if_neg (by omega), loadDataByte_eq t sec data hcur hd hb0 hlen]
  dsimp only
  generalize hX : setCommandStatus (fun c => { c with ByteWithinSector := c.ByteWithinSector + 1 })
    (setData (data.getD t.CommandStatus.ByteWithinSector.toNat 0) t) = X
  have x1 : X.CommandStatus = { t.CommandStatus with
      ByteWithinSector := t.CommandStatus.ByteWithinSector + 1 } := by rw [← hX]; rfl
  have x2 : X.DiscStatus = t.DiscStatus := by rw [← hX]; rfl
  have x3 : X.PositionInTrack = t.PositionInTrack := by rw [← hX]; rfl
  have x4 : X.SectorOverRead = t.SectorOverRead := by rw [← hX]; rfl
  have x5 : X.FDCState.DataReg = data.getD t.CommandStatus.ByteWithinSector.toNat 0 := by
    rw [← hX]; rfl
  obtain ⟨f1, f2, f3⟩ := readResult_frame sec X
  obtain ⟨f4, f5, f6⟩ := readResult_frame2 sec X
  have f7 := readResult_ResultReg sec X
  unfold sectorRead
  rw [if_pos (by rw [f1, x1]; dsimp only; omega)]
  dsimp only
  rw [if_neg (by simp [setCommandStatus, f1, x1, hg])]
  refine ⟨_, rfl, ?_, ?_, ?_, ?_, ?_, ?_, ?_⟩
  · simp [UpdateNMIStatus_eq, setStatus, SetTrigger, setCommandStatus, f1, x1]
  · simp [UpdateNMIStatus_eq, setStatus, SetTrigger, setCommandStatus, f2, x2]
  · simp [UpdateNMIStatus_eq, setStatus, SetTrigger, setCommandStatus, f3, x3]
  · simp [UpdateNMIStatus_eq, setStatus, SetTrigger, setCommandStatus, f4, x4]
  · simp [UpdateNMIStatus_eq, setStatus, SetTrigger, setCommandStatus, f7, x1, x4]
  · simp [UpdateNMIStatus_eq, setStatus, SetTrigger, setCommandStatus, STATUS_REG_COMMAND_BUSY,
      STATUS_REG_INTERRUPT_REQUEST, STATUS_REG_NON_DMA_MODE, STATUS_REG_RESULT_FULL]
  · intro hn
    simp [UpdateNMIStatus_eq, setStatus, SetTrigger, setCommandStatus, f6 hn, x5]

/-- The read tick that completes a sector which is not the last: the next
logical sector is looked up from the current position. -/
theorem ReadInterrupt_next (t : State) (sec : SectorType) (data : List Nat) (tp : TrackPtr)
    (secs : List SectorType)
    (hg : 0 ≤ t.CommandStatus.SectorsToGo) (hmore : t.CommandStatus.SectorsToGo ≠ 1)
    (hcur : currentSector t = some sec) (hd : sec.Data = some data)
    (hb0 : 0 ≤ t.CommandStatus.ByteWithinSector)
    (hlen : t.CommandStatus.ByteWithinSector < data.length)
    (hlast : t.CommandStatus.SectorLength ≤ t.CommandStatus.ByteWithinSector + 1)
    (htp : t.CommandStatus.CurrentTrackPtr = some tp) (hwf : TrackWF (trackAt t tp) secs)
    (hp : t.PositionInTrack ≤ secs.length) (hbyte : t.PositionInTrack < 256)
    (hex : ∃ sec' ∈ secs, sec'.IDField.LogicalSector =
      ((t.CommandStatus.CurrentSector + 1) % 256).toNat) :
    ∃ u i, i < secs.length ∧
      hasID secs ((t.CommandStatus.CurrentSector + 1) % 256).toNat i = true ∧
      ReadInterrupt t = some u ∧
      u.CommandStatus = { t.CommandStatus with
        ByteWithinSector := 0, SectorsToGo := t.CommandStatus.SectorsToGo - 1,
        CurrentSector := t.CommandStatus.CurrentSector + 1,
        CurrentSectorPtr := some { Trk := tp, Index := i } } ∧
      u.DiscStatus = t.DiscStatus ∧ u.PositionInTrack = i ∧
      u.SectorOverRead = t.SectorOverRead ∧
      u.FDCState.ResultReg = readResultValue sec.Error sec.RealSectorSize sec.IDSiz
        t.CommandStatus.SectorLength t.SectorOverRead ∧
      u.FDCState.StatusReg = 0x8C ∧
      (¬ (sec.Error = RESULT_REG_DATA_CRC_ERROR ∧ sec.RealSectorSize = sec.IDSiz) →
        u.FDCState.DataReg = data.getD t.CommandStatus.ByteWithinSector.toNat 0) := by
  unfold ReadInterrupt
  rw [if_neg (by omega), loadDataByte_eq t sec data hcur hd hb0 hlen]
  dsimp only
  generalize hX : setCommandStatus (fun c => { c with ByteWithinSector := c.ByteWithinSector + 1 })
    (setData (data.getD t.CommandStatus.ByteWithinSector.toNat 0) t) = X
  have x1 : X.CommandStatus = { t.CommandStatus with
      ByteWithinSector := t.CommandStatus.ByteWithinSector + 1 } := by rw [← hX]; rfl
  have x2 : X.DiscStatus = t.DiscStatus := by rw [← hX]; rfl
  have x3 : X.PositionInTrack = t.PositionInTrack := by rw [← hX]; rfl
  have x4 : X.SectorOverRead = t.SectorOverRead := by rw [← hX]; rfl
  have x5 : X.FDCState.DataReg = data.getD t.CommandStatus.ByteWithinSector.toNat 0 := by
    rw [← hX]; rfl
  obtain ⟨f1, f2, f3⟩ := readResult_frame sec X
  obtain ⟨f4, f5, f6⟩ := readResult_frame2 sec X
  have f7 := readResult_ResultReg sec X
  generalize hY : readResult sec X = Y at f1 f2 f3 f4 f5 f6 f7
  unfold sectorRead
  rw [if_pos (by rw [f1, x1]; dsimp only; omega)]
  dsimp only
  rw [if_pos (by simp only [setCommandStatus, f1, x1]; omega)]
  generalize hZ : setCommandStatus (fun c => { c with CurrentSector := c.CurrentSector + 1 })
    (setCommandStatus (fun c => { c with
      ByteWithinSector := 0, SectorsToGo := c.SectorsToGo - 1 }) Y) = Z
  have z1 : Z.CommandStatus = { t.CommandStatus with
      ByteWithinSector := 0, SectorsToGo := t.CommandStatus.SectorsToGo - 1,
      CurrentSector := t.CommandStatus.CurrentSector + 1 } := by
    rw [← hZ]
    simp [setCommandStatus, f1, x1]
  have z2 : Z.DiscStatus = t.DiscStatus := by rw [← hZ]; simp [setCommandStatus, f2, x2]
  have z3 : Z.PositionInTrack = t.PositionInTrack := by
    rw [← hZ]; simp [setCommandStatus, f3, x3]
  have z4 : Z.SectorOverRead = t.SectorOverRead := by rw [← hZ]; simp [setCommandStatus, f4, x4]
  have z5 : Z.FDCState = Y.FDCState := by rw [← hZ]; rfl
  have zwf : TrackWF (trackAt Z tp) secs := by
    unfold trackAt
    rw [z2]
    exact hwf
  obtain ⟨i, sec', hi, _, _, hid, hget⟩ := GetSectorPtr_found tp
    ((t.CommandStatus.CurrentSector + 1) % 256).toNat Z secs zwf (by rw [z3]; exact hp)
    (by rw [z3]; exact hbyte) hex
  have hnext : nextSectorPtr Z = some (setCommandStatus (fun c => { c with
      CurrentSectorPtr := some { Trk := tp, Index := i } }) { Z with PositionInTrack := i }) := by
    have hctp : Z.CommandStatus.CurrentTrackPtr = some tp := by rw [z1]; exact htp
    have hcs : Z.CommandStatus.CurrentSector = t.CommandStatus.CurrentSector + 1 := by rw [z1]
    unfold nextSectorPtr
    rw [hctp]
    dsimp only
    rw [hcs, hget]
  rw [hnext]
  dsimp only
  rw [if_neg (by simp [setCommandStatus])]
  refine ⟨_, i, hi, hid, rfl, ?_, ?_, ?_, ?_, ?_, ?_, ?_⟩
  · simp [notLastByte, UpdateNMIStatus_eq, setStatus, SetTrigger, setCommandStatus, z1]
  · simp [notLastByte, UpdateNMIStatus_eq, setStatus, SetTrigger, setCommandStatus, z2]
  · simp [notLastByte, UpdateNMIStatus_eq, setStatus, SetTrigger, setCommandStatus]
  · simp [notLastByte, UpdateNMIStatus_eq, setStatus, SetTrigger, setCommandStatus, z4]
  · simp [notLastByte, UpdateNMIStatus_eq, setStatus, SetTrigger, setCommandStatus, z5, f7, x1,
      x4]
  · simp [notLastByte, UpdateNMIStatus_eq, setStatus, SetTrigger, setCommandStatus,
      STATUS_REG_COMMAND_BUSY, STATUS_REG_INTERRUPT_REQUEST, STATUS_REG_NON_DMA_MODE]
  · intro hn
    simp [notLastByte, UpdateNMIStatus_eq, setStatus, SetTrigger, setCommandStatus, z5, f6 hn,
      x5]

/-! ## The ticks of one sector -/

theorem CommandStatus_eta (c : CommandStatusType) :
    { c with ByteWithinSector := c.ByteWithinSector + ((0 : Nat) : Int) } = c := by
  cases c
  simp

/-- The first `k` ticks of a sector, none of which completes it. -/
theorem ReadInterrupt_run (sec : SectorType) (data : List Nat) : ∀ (k : Nat) (t : State),
    0 ≤ t.CommandStatus.SectorsToGo → currentSector t = some sec → sec.Data = some data →
    0 ≤ t.CommandStatus.ByteWithinSector →
    t.CommandStatus.ByteWithinSector + k < t.CommandStatus.SectorLength →
    t.CommandStatus.ByteWithinSector + k ≤ data.length →
    ∃ u bytes, iterate ReadInterrupt k t = some u ∧ dataTrace ReadInterrupt k t = some bytes ∧
      bytes.length = k ∧
      u.CommandStatus = { t.CommandStatus with
        ByteWithinSector := t.CommandStatus.ByteWithinSector + (k : Int) } ∧
      u.DiscStatus = t.DiscStatus ∧ u.PositionInTrack = t.PositionInTrack ∧
      u.SectorOverRead = t.SectorOverRead ∧
      (¬ (sec.Error = RESULT_REG_DATA_CRC_ERROR ∧ sec.RealSectorSize = sec.IDSiz) →
        bytes = (data.drop t.CommandStatus.ByteWithinSector.toNat).take k) := by
  intro k
  induction k with
  | zero =>
    intro t _ _ _ _ _ _
    exact ⟨t, [], rfl, rfl, rfl, (CommandStatus_eta _).symm, rfl, rfl, rfl, fun _ => by simp⟩
  | succ k ih =>
    intro t hg hcur hd hb0 hlt hle
    have hlen : t.CommandStatus.ByteWithinSector < data.length := by push_cast at hle; omega
    obtain ⟨u1, e1, c1, d1, p1, o1, _, _, r1⟩ := ReadInterrupt_mid t sec data hg hcur hd hb0 hlen
      (by push_cast at hlt; omega)
    have hcur1 : currentSector u1 = some sec := by
      rw [currentSector_congr t u1 d1 (by rw [c1]), hcur]
    obtain ⟨u, bytes, e2, t2, l2, c2, d2, p2, o2, r2⟩ := ih u1 (by rw [c1]; exact hg) hcur1 hd
      (by rw [c1]; dsimp only; omega) (by rw [c1]; dsimp only; push_cast at hlt; omega)
      (by rw [c1]; dsimp only; push_cast at hle; omega)
    refine ⟨u, u1.FDCState.DataReg :: bytes, ?_, ?_, ?_, ?_, ?_, ?_, ?_, ?_⟩
    · simp only [iterate, e1, Option.some_bind, e2]
    · simp only [dataTrace, e1, t2, Option.map_some']
    · simp [l2]
    · rw [c2, c1]
      simp only [CommandStatusType.mk.injEq, true_and, and_true]
      push_cast
      omega
    · rw [d2, d1]
    · rw [p2, p1]
    · rw [o2, o1]
    · intro hn
      rw [r2 hn, r1 hn, c1]
      dsimp only
      have hb : t.CommandStatus.ByteWithinSector.toNat < data.length := by omega
      have h1 : (t.CommandStatus.ByteWithinSector + 1).toNat =
          t.CommandStatus.ByteWithinSector.toNat + 1 := by omega
      rw [h1, List.getD_eq_getElem _ _ hb, List.drop_eq_getElem_cons hb, List.take_succ_cons]

/-- All ticks of the last sector of a transfer. -/
theorem ReadInterrupt_sector_done (sec : SectorType) (data : List Nat) (L : Nat) (t : State)
    (hg : t.CommandStatus.SectorsToGo = 1) (hcur : currentSector t = some sec)
    (hd : sec.Data = some data) (hb : t.CommandStatus.ByteWithinSector = 0)
    (hL : t.CommandStatus.SectorLength = (L : Int)) (hL1 : 1 ≤ L) (hlen : L ≤ data.length) :
    ∃ u bytes, iterate ReadInterrupt L t = some u ∧ dataTrace ReadInterrupt L t = some bytes ∧
      bytes.length = L ∧
      u.CommandStatus = { t.CommandStatus with ByteWithinSector := 0, SectorsToGo := -1 } ∧
      u.DiscStatus = t.DiscStatus ∧ u.PositionInTrack = t.PositionInTrack ∧
      u.SectorOverRead = t.SectorOverRead ∧
      u.FDCState.ResultReg = readResultValue sec.Error sec.RealSectorSize sec.IDSiz
        L t.SectorOverRead ∧
      u.FDCState.StatusReg = 0x9C ∧
      (¬ (sec.Error = RESULT_REG_DATA_CRC_ERROR ∧ sec.RealSectorSize = sec.IDSiz) →
        bytes = data.take L) := by
  obtain ⟨u1, b1, e1, t1, l1, c1, d1, p1, o1, r1⟩ := ReadInterrupt_run sec data (L - 1) t
    (by omega) hcur hd (by omega) (by rw [hb, hL]; omega) (by rw [hb]; omega)
  have hcur1 : currentSector u1 = some sec := by
    rw [currentSector_congr t u1 d1 (by rw [c1]), hcur]
  obtain ⟨u, e2, c2, d2, p2, o2, rr, st, r2⟩ := ReadInterrupt_done u1 sec data
    (by rw [c1]; exact hg) hcur1 hd (by rw [c1]; dsimp only; omega)
    (by rw [c1]; dsimp only; omega) (by rw [c1]; dsimp only; omega)
  have hLL : L = (L - 1) + 1 := by omega
  have hit : iterate ReadInterrupt 1 u1 = some u := by simp [iterate, e2]
  have hdt : dataTrace ReadInterrupt 1 u1 = some [u.FDCState.DataReg] := by
    simp [dataTrace, e2]
  refine ⟨u, b1 ++ [u.FDCState.DataReg], ?_, ?_, ?_, ?_, ?_, ?_, ?_, ?_, st, ?_⟩
  · rw [hLL, iterate_add, e1]
    exact hit
  · rw [hLL]
    exact dataTrace_add _ _ _ _ _ _ _ e1 t1 hdt
  · simp [l1]
    omega
  · rw [c2, c1]
  · rw [d2, d1]
  · rw [p2, p1]
  · rw [o2, o1]
  · rw [rr, c1, o1]
    dsimp only
    rw [hL]
  · intro hn
    rw [r1 hn, r2 hn, c1, hb]
    dsimp only
    have h0 : ((0 : Int) + ((L - 1 : Nat) : Int)).toNat = L - 1 := by omega
    have hlt : L - 1 < data.length := by omega
    rw [h0, List.getD_eq_getElem _ _ hlt]
    simp only [Int.toNat_zero, List.drop_zero]
    conv_rhs => rw [hLL, List.take_succ, List.getElem?_eq_getElem hlt]
    simp

/-- All ticks of a sector that is not the last of the transfer. -/
theorem ReadInterrupt_sector_next (sec : SectorType) (data : List Nat) (L : Nat) (t : State)
    (tp : TrackPtr) (secs : List SectorType)
    (hg : 0 ≤ t.CommandStatus.SectorsToGo) (hmore : t.CommandStatus.SectorsToGo ≠ 1)
    (hcur : currentSector t = some sec)
    (hd : sec.Data = some data) (hb : t.CommandStatus.ByteWithinSector = 0)
    (hL : t.CommandStatus.SectorLength = (L : Int)) (hL1 : 1 ≤ L) (hlen : L ≤ data.length)
    (htp : t.CommandStatus.CurrentTrackPtr = some tp) (hwf : TrackWF (trackAt t tp) secs)
    (hp : t.PositionInTrack ≤ secs.length) (hbyte : t.PositionInTrack < 256)
    (hex : ∃ sec' ∈ secs, sec'.IDField.LogicalSector =
      ((t.CommandStatus.CurrentSector + 1) % 256).toNat) :
    ∃ u bytes i, i < secs.length ∧
      hasID secs ((t.CommandStatus.CurrentSector + 1) % 256).toNat i = true ∧
      iterate ReadInterrupt L t = some u ∧ dataTrace ReadInterrupt L t = some bytes ∧
      bytes.length = L ∧
      u.CommandStatus = { t.CommandStatus with
        ByteWithinSector := 0, SectorsToGo := t.CommandStatus.SectorsToGo - 1,
        CurrentSector := t.CommandStatus.CurrentSector + 1,
        CurrentSectorPtr := some { Trk := tp, Index := i } } ∧
      u.DiscStatus = t.DiscStatus ∧ u.PositionInTrack = i ∧
      u.SectorOverRead = t.SectorOverRead ∧
      (¬ (sec.Error = RESULT_REG_DATA_CRC_ERROR ∧ sec.RealSectorSize = sec.IDSiz) →
        bytes = data.take L) := by
  obtain ⟨u1, b1, e1, t1, l1, c1, d1, p1, o1, r1⟩ := ReadInterrupt_run sec data (L - 1) t
    hg hcur hd (by omega) (by rw [hb, hL]; omega) (by rw [hb]; omega)
  have hcur1 : currentSector u1 = some sec := by
    rw [currentSector_congr t u1 d1 (by rw [c1]), hcur]
  have hwf1 : TrackWF (trackAt u1 tp) secs := by
    unfold trackAt
    rw [d1]
    exact hwf
  obtain ⟨u, i, hi, hid, e2, c2, d2, p2, o2, _, _, r2⟩ := ReadInterrupt_next u1 sec data tp secs
    (by rw [c1]; exact hg) (by rw [c1]; exact hmore) hcur1 hd (by rw [c1]; dsimp only; omega)
    (by rw [c1]; dsimp only; omega) (by rw [c1]; dsimp only; omega) (by rw [c1]; exact htp) hwf1
    (by rw [p1]; exact hp) (by rw [p1]; exact hbyte) (by rw [c1]; exact hex)
  have hLL : L = (L - 1) + 1 := by omega
  have hit : iterate ReadInterrupt 1 u1 = some u := by simp [iterate, e2]
  have hdt : dataTrace ReadInterrupt 1 u1 = some [u.FDCState.DataReg] := by
    simp [dataTrace, e2]
  refine ⟨u, b1 ++ [u.FDCState.DataReg], i, hi, by rw [c1] at hid; exact hid, ?_, ?_, ?_, ?_,
    ?_, p2, ?_, ?_⟩
  · rw [hLL, iterate_add, e1]
    exact hit
  · rw [hLL]
    exact dataTrace_add _ _ _ _ _ _ _ e1 t1 hdt
  · simp [l1]
    omega
  · rw [c2, c1]
  · rw [d2, d1]
  · rw [o2, o1]
  · intro hn
    rw [r1 hn, r2 hn, c1, hb]
    dsimp only
    have h0 : ((0 : Int) + ((L - 1 : Nat) : Int)).toNat = L - 1 := by omega
    have hlt : L - 1 < data.length := by omega
    rw [h0, List.getD_eq_getElem _ _ hlt]
    simp only [Int.toNat_zero, List.drop_zero]
    conv_rhs => rw [hLL, List.take_succ, List.getElem?_eq_getElem hlt]
    simp

/-! ## A multi-sector read -/

theorem readResultValue_good (I L : Int) : readResultValue 0 L I L false = 0 := by
  simp [readResultValue, RESULT_REG_SUCCESS, RESULT_REG_DELETED_DATA_FOUND,
    RESULT_REG_DELETED_DATA_CRC_ERROR, RESULT_REG_DATA_CRC_ERROR]

theorem currentSector_eq (t : State) (tp : TrackPtr) (i : Nat) (secs : List SectorType)
    (hwf : TrackWF (trackAt t tp) secs)
    (hptr : t.CommandStatus.CurrentSectorPtr = some { Trk := tp, Index := i }) :
    currentSector t = secs[i]? := by
  unfold currentSector sectorAt
  rw [hptr]
  dsimp only
  rw [hwf.1]

theorem sectorData_eq (secs : List SectorType) (i : Nat) (sec : SectorType) (data : List Nat)
    (h : secs[i]? = some sec) (hd : sec.Data = some data) : sectorData secs i = data := by
  simp [sectorData, h, hd]

/-- The ticks of a transfer of `m + 1` sectors of `L` bytes on a well-formed
track, starting at the first byte of the sector at index `i0`, when every
sector the transfer looks up exists, has stored error 0, real size `L` and a
buffer of `L` bytes. -/
theorem ReadInterrupt_sectors (secs : List SectorType) (tp : TrackPtr) (L : Nat) (hL1 : 1 ≤ L)
    (hsz : secs.length < 256) : ∀ (m : Nat) (t : State) (i0 : Nat) (sec0 : SectorType),
    t.CommandStatus.SectorsToGo = (m : Int) + 1 → t.CommandStatus.ByteWithinSector = 0 →
    t.CommandStatus.SectorLength = (L : Int) → t.SectorOverRead = false →
    t.CommandStatus.CurrentTrackPtr = some tp → TrackWF (trackAt t tp) secs →
    t.PositionInTrack ≤ secs.length →
    t.CommandStatus.CurrentSectorPtr = some { Trk := tp, Index := i0 } →
    secs[i0]? = some sec0 →
    (sec0.Error = 0 ∧ sec0.RealSectorSize = (L : Int) ∧
      ∃ data, sec0.Data = some data ∧ data.length = L) →
    (∀ j : Nat, 1 ≤ j → j ≤ m →
      (∃ sec ∈ secs, sec.IDField.LogicalSector =
        ((t.CommandStatus.CurrentSector + (j : Int)) % 256).toNat) ∧
      ∀ sec ∈ secs, sec.IDField.LogicalSector =
        ((t.CommandStatus.CurrentSector + (j : Int)) % 256).toNat →
        sec.Error = 0 ∧ sec.RealSectorSize = (L : Int) ∧
          ∃ data, sec.Data = some data ∧ data.length = L) →
    ∃ (u : State) (idx : List Nat), idx.length = m + 1 ∧ idx.head? = some i0 ∧
      (∀ (j i : Nat), idx[j]? = some i → i < secs.length ∧ (1 ≤ j →
        hasID secs ((t.CommandStatus.CurrentSector + (j : Int)) % 256).toNat i = true)) ∧
      iterate ReadInterrupt (L * (m + 1)) t = some u ∧
      dataTrace ReadInterrupt (L * (m + 1)) t = some (idx.flatMap (sectorData secs)) ∧
      u.CommandStatus.SectorsToGo = -1 ∧ u.FDCState.ResultReg = 0 ∧
      u.FDCState.StatusReg = 0x9C ∧ u.DiscStatus = t.DiscStatus ∧
      u.CommandStatus.NextInterruptIsErr = t.CommandStatus.NextInterruptIsErr := by
  intro m
  induction m with
  | zero =>
    intro t i0 sec0 hg hb hL hO htp hwf hp hptr hsec0 hgood _
    obtain ⟨hE, hR, data, hd, hlen⟩ := hgood
    have hcur : currentSector t = some sec0 := by
      rw [currentSector_eq t tp i0 secs hwf hptr, hsec0]
    obtain ⟨u, bytes, e1, t1, l1, c1, d1, p1, o1, rr, st, r1⟩ :=
      ReadInterrupt_sector_done sec0 data L t (by simpa using hg) hcur hd hb hL hL1 (by omega)
    have hns : ¬ (sec0.Error = RESULT_REG_DATA_CRC_ERROR ∧ sec0.RealSectorSize = sec0.IDSiz) := by
      rw [hE]
      simp [RESULT_REG_DATA_CRC_ERROR]
    have hi0 : i0 < secs.length := (List.getElem?_eq_some_iff.1 hsec0).1
    refine ⟨u, [i0], rfl, rfl, ?_, by simpa using e1, ?_, by rw [c1], ?_, st, d1, by rw [c1]⟩
    · intro j i hji
      cases j with
      | zero =>
        simp only [List.getElem?_cons_zero, Option.some.injEq] at hji
        subst hji
        exact ⟨hi0, fun h => absurd h (by omega)⟩
      | succ j => simp at hji
    · rw [Nat.zero_add, Nat.mul_one, t1, r1 hns]
      simp [sectorData_eq secs i0 sec0 data hsec0 hd, ← hlen]
    · rw [rr, hE, hR, hO]
      exact readResultValue_good _ _
  | succ m ih =>
    intro t i0 sec0 hg hb hL hO htp hwf hp hptr hsec0 hgood hall
    obtain ⟨hE, hR, data, hd, hlen⟩ := hgood
    have hcur : currentSector t = some sec0 := by
      rw [currentSector_eq t tp i0 secs hwf hptr, hsec0]
    have hns : ¬ (sec0.Error = RESULT_REG_DATA_CRC_ERROR ∧ sec0.RealSectorSize = sec0.IDSiz) := by
      rw [hE]
      simp [RESULT_REG_DATA_CRC_ERROR]
    have hi0 : i0 < secs.length := (List.getElem?_eq_some_iff.1 hsec0).1
    obtain ⟨hex1, hgood1⟩ := hall 1 (le_refl 1) (by omega)
    obtain ⟨u1, bytes, i, hi, hid, e1, t1, l1, c1, d1, p1, o1, r1⟩ :=
      ReadInterrupt_sector_next sec0 data L t tp secs (by omega) (by omega) hcur hd hb hL hL1
        (by omega) htp hwf hp (by omega) (by simpa using hex1)
    have hsec1 : secs[i]? = some secs[i] := List.getElem?_eq_getElem hi
    have hid1 : (secs[i]).IDField.LogicalSector =
        ((t.CommandStatus.CurrentSector + 1) % 256).toNat := by
      simpa [hasID, hsec1] using hid
    have hwf1 : TrackWF (trackAt u1 tp) secs := by
      unfold trackAt
      rw [d1]
      exact hwf
    obtain ⟨u, idx, hlen2, hhead, hidx, e2, t2, g2, rr2, st2, d2, n2⟩ := ih u1 i secs[i]
      (by rw [c1]; dsimp only; push_cast at hg; omega) (by rw [c1]) (by rw [c1]; exact hL)
      (by rw [o1]; exact hO) (by rw [c1]; exact htp) hwf1 (by rw [p1]; omega) (by rw [c1]) hsec1
      (hgood1 _ (List.getElem_mem hi) (by simpa using hid1))
      (by
        intro j hj1 hjm
        have := hall (j + 1) (by omega) (by omega)
        rw [c1]
        dsimp only
        have he : t.CommandStatus.CurrentSector + 1 + (j : Int) =
            t.CommandStatus.CurrentSector + ((j + 1 : Nat) : Int) := by push_cast; ring
        rw [he]
        exact this)
    refine ⟨u, i0 :: idx, by simp [hlen2], rfl, ?_, ?_, ?_, g2, rr2, st2, by rw [d2, d1],
      by rw [n2, c1]⟩
    · intro j k hjk
      cases j with
      | zero =>
        simp only [List.getElem?_cons_zero, Option.some.injEq] at hjk
        subst hjk
        exact ⟨hi0, fun h => absurd h (by omega)⟩
      | succ j =>
        simp only [List.getElem?_cons_succ] at hjk
        obtain ⟨h1, h2⟩ := hidx j k hjk
        refine ⟨h1, fun _ => ?_⟩
        cases j with
        | zero =>
          have hk : some i = some k := by
            rw [← hhead, List.head?_eq_getElem?]
            exact hjk
          simp only [Option.some.injEq] at hk
          subst hk
          simpa using hid
        | succ j =>
          have := h2 (by omega)
          rw [c1] at this
          dsimp only at this
          have he : t.CommandStatus.CurrentSector + 1 + ((j + 1 : Nat) : Int) =
              t.CommandStatus.CurrentSector + ((j + 1 + 1 : Nat) : Int) := by push_cast; ring
          rw [he] at this
          exact this
    · have hm : L * (m + 1 + 1) = L + L * (m + 1) := by ring
      rw [hm, iterate_add, e1]
      exact e2
    · have hm : L * (m + 1 + 1) = L + L * (m + 1) := by ring
      rw [hm, dataTrace_add _ _ _ _ _ _ _ e1 t1 t2, r1 hns]
      simp [sectorData_eq secs i0 sec0 data hsec0 hd, ← hlen]

/-! ## Read setup -/

theorem readPositioning_frame (s : State) :
    (readPositioning s).FSDLogicalTrack = Param s 0 ∧
    (readPositioning s).FDCState = s.FDCState ∧
    (readPositioning s).CommandStatus = s.CommandStatus ∧
    (readPositioning s).DiscStatus = s.DiscStatus ∧
    (readPositioning s).TotalCycles = s.TotalCycles ∧
    (readPositioning s).SectorOverRead = s.SectorOverRead ∧
    (readPositioning s).PositionInTrack =
      (if s.FSDLogicalTrack ≠ Param s 0 then 0 else s.PositionInTrack) := by
  unfold readPositioning
  refine ⟨rfl, rfl, rfl, rfl, rfl, rfl, rfl⟩

/-- The state `DoVarLength_ReadDataCommand` leaves when the drive is selected,
the track and the sector are resolved, the track is readable and the check on
a sector with stored error 0xE0 and logical sector 9 does not fire. -/
theorem Read_setup (s sa sb : State) (tp : TrackPtr) (sp : SectorPtr) (sec : SectorType)
    (hsel : 0 ≤ GetSelectedDrive (DoSelects s))
    (ht : GetTrackPtr (Param s 0)
      (readPositioning { DoSelects s with SectorOverRead := false }) = some (some tp, sa))
    (hr : (trackAt sa tp).TrackIsReadable = true)
    (hs : GetSectorPtr tp (Param s 1) sa = some (some sp, sb))
    (hsec : sectorAt sb sp = some sec)
    (hguard : ¬ (sec.Error = 0xE0 ∧ sec.IDField.LogicalSector = 0x09 ∧
      s.CommandStatus.SectorLength > sec.RealSectorSize)) :
    ∃ s1, DoVarLength_ReadDataCommand s = some s1 ∧
      s1.CommandStatus = { s.CommandStatus with
        TrackAddr := (Param s 0 : Int), CurrentSector := (Param s 1 : Int),
        SectorsToGo := ((Param s 2 &&& 31 : Nat) : Int),
        SectorLength :=
          if ((1 <<< (7 + ((Param s 2 >>> 5) &&& 7)) : Nat) : Int) > sec.RealSectorSize then
            sec.RealSectorSize
          else ((1 <<< (7 + ((Param s 2 >>> 5) &&& 7)) : Nat) : Int),
        CurrentSectorPtr := some sp, CurrentTrackPtr := some tp, ByteWithinSector := 0 } ∧
      s1.SectorOverRead =
        decide (((1 <<< (7 + ((Param s 2 >>> 5) &&& 7)) : Nat) : Int) > sec.RealSectorSize) ∧
      s1.DiscStatus = s.DiscStatus ∧ s1.PositionInTrack = sb.PositionInTrack ∧
      s1.FDCState.StatusReg = STATUS_REG_COMMAND_BUSY ∧
      s1.FDCState.Command = s.FDCState.Command ∧
      s1.Disc8271Trigger = some (s.TotalCycles + TIME_BETWEEN_BYTES) := by
  have hnot : ¬ GetSelectedDrive (DoSelects s) < 0 := by omega
  have hnot2 : ¬ GetSelectedDrive { DoSelects s with SectorOverRead := false } < 0 := hnot
  obtain ⟨p1, p2, p3, p4, p5, p6, p7⟩ :=
    readPositioning_frame { DoSelects s with SectorOverRead := false }
  have hfa := GetTrackPtr_frame _ _ _ _ ht
  have hfb := GetSectorPtr_frame _ _ _ _ _ hs
  have hFa : sa.FDCState = (DoSelects s).FDCState := by rw [hfa]; exact p2
  have hFb : sb.FDCState = (DoSelects s).FDCState := by rw [hfb]; exact hFa
  have hpa : ∀ i, Param sa i = Param s i := by
    intro i
    simp only [Param, hFa]
    rfl
  have hpb : ∀ i, Param sb i = Param s i := by
    intro i
    simp only [Param, hFb]
    rfl
  have hCb : sb.CommandStatus = s.CommandStatus := by
    rw [hfb, hfa]
    exact p3
  have hDb : sb.DiscStatus = s.DiscStatus := by
    rw [hfb, hfa]
    exact p4
  have hTb : sb.TotalCycles = s.TotalCycles := by
    rw [hfb, hfa]
    exact p5
  have hcmd : sb.FDCState.Command = s.FDCState.Command := by
    rw [hFb]
    rfl
  have hPb : sb.FDCState.Params = s.FDCState.Params := by
    rw [hFb]
    rfl
  have heq : DoVarLength_ReadDataCommand s = some (UpdateNMIStatus (setStatus
      STATUS_REG_COMMAND_BUSY (SetTrigger TIME_BETWEEN_BYTES (setCommandStatus (fun c => { c with
        ByteWithinSector := 0 })
        (if (latchVarLength (setCommandStatus (fun c => { c with CurrentSectorPtr := some sp })
            (setCommandStatus (fun c => { c with CurrentTrackPtr := some tp })
              sb))).CommandStatus.SectorLength > sec.RealSectorSize then
          { setCommandStatus (fun c => { c with SectorLength := sec.RealSectorSize })
              (latchVarLength (setCommandStatus (fun c => { c with CurrentSectorPtr := some sp })
                (setCommandStatus (fun c => { c with CurrentTrackPtr := some tp }) sb))) with
            SectorOverRead := true }
         else latchVarLength (setCommandStatus (fun c => { c with CurrentSectorPtr := some sp })
            (setCommandStatus (fun c => { c with CurrentTrackPtr := some tp }) sb))))))) := by
    unfold DoVarLength_ReadDataCommand
    dsimp only [DoLoadHead]
    rw [if_neg hnot2, p1]
    rw [show Param { DoSelects s with SectorOverRead := false } 0 = Param s 0 from rfl, ht]
    dsimp only
    rw [show trackAt (setCommandStatus (fun c => { c with CurrentTrackPtr := some tp }) sa) tp =
      trackAt sa tp from rfl, hr]
    simp only [Bool.not_true, Bool.false_eq_true, if_false]
    rw [GetSectorPtr_setCommandStatus]
    rw [show Param (setCommandStatus (fun c => { c with CurrentTrackPtr := some tp }) sa) 1
      = Param sa 1 from rfl, hpa, hs]
    dsimp only [Option.map_some']
    rw [show sectorAt (setCommandStatus (fun c => { c with CurrentSectorPtr := some sp })
      (setCommandStatus (fun c => { c with CurrentTrackPtr := some tp }) sb)) sp
      = sectorAt sb sp from rfl, hsec]
    dsimp only
    rw [show (setCommandStatus (fun c => { c with CurrentSectorPtr := some sp })
      (setCommandStatus (fun c => { c with CurrentTrackPtr := some tp })
        sb)).CommandStatus.SectorLength = sb.CommandStatus.SectorLength from rfl, hCb,
      if_neg hguard]
    simp only [ValidateSector, if_true]
  refine ⟨_, heq, ?_⟩
  have hlatch : (latchVarLength (setCommandStatus (fun c => { c with CurrentSectorPtr := some sp })
      (setCommandStatus (fun c => { c with CurrentTrackPtr := some tp })
        sb))).CommandStatus.SectorLength =
      ((1 <<< (7 + ((Param s 2 >>> 5) &&& 7)) : Nat) : Int) := by
    simp only [latchVarLength, setCommandStatus, Param, hPb]
  rw [hlatch]
  by_cases hov : ((1 <<< (7 + ((Param s 2 >>> 5) &&& 7)) : Nat) : Int) > sec.RealSectorSize
  · simp only [hov, if_true, decide_True]
    refine ⟨?_, ?_, ?_, ?_, ?_, ?_, ?_⟩
    · simp only [UpdateNMIStatus_eq, setStatus, SetTrigger, setCommandStatus, latchVarLength, hCb,
        Param, hPb]
    · simp [UpdateNMIStatus_eq, setStatus, SetTrigger, setCommandStatus]
    · simp [UpdateNMIStatus_eq, setStatus, SetTrigger, setCommandStatus, latchVarLength, hDb]
    · simp [UpdateNMIStatus_eq, setStatus, SetTrigger, setCommandStatus, latchVarLength]
    · simp [UpdateNMIStatus_eq, setStatus, SetTrigger, setCommandStatus]
    · simp [UpdateNMIStatus_eq, setStatus, SetTrigger, setCommandStatus, latchVarLength, hcmd]
    · simp [UpdateNMIStatus_eq, setStatus, SetTrigger, setCommandStatus, latchVarLength, hTb]
  · simp only [hov, if_false, decide_False]
    refine ⟨?_, ?_, ?_, ?_, ?_, ?_, ?_⟩
    · simp only [UpdateNMIStatus_eq, setStatus, SetTrigger, setCommandStatus, latchVarLength, hCb,
        Param, hPb]
    · simp only [UpdateNMIStatus_eq, setStatus, SetTrigger, setCommandStatus, latchVarLength]
      rw [hfb, hfa]
      exact p6
    · simp [UpdateNMIStatus_eq, setStatus, SetTrigger, setCommandStatus, latchVarLength, hDb]
    · simp [UpdateNMIStatus_eq, setStatus, SetTrigger, setCommandStatus, latchVarLength]
    · simp [UpdateNMIStatus_eq, setStatus, SetTrigger, setCommandStatus]
    · simp [UpdateNMIStatus_eq, setStatus, SetTrigger, setCommandStatus, latchVarLength, hcmd]
    · simp [UpdateNMIStatus_eq, setStatus, SetTrigger, setCommandStatus, latchVarLength, hTb]

theorem ReadInterrupt_pickup (t : State) (h : t.CommandStatus.SectorsToGo < 0) :
    ∃ v, ReadInterrupt t = some v ∧ v.FDCState.ResultReg = t.FDCState.ResultReg ∧
      v.FDCState.DataReg = t.FDCState.DataReg ∧
      v.FDCState.StatusReg = STATUS_REG_RESULT_FULL ||| STATUS_REG_INTERRUPT_REQUEST ∧
      v.CommandStatus = t.CommandStatus ∧ v.DiscStatus = t.DiscStatus ∧
      v.PositionInTrack = t.PositionInTrack := by
  unfold ReadInterrupt
  rw [if_pos h]
  refine ⟨_, rfl, ?_, ?_, ?_, ?_, ?_, ?_⟩ <;>
    simp [pickUpResult, UpdateNMIStatus_eq, setStatus]

theorem toNat_emod (p j : Nat) : (((p : Int) + (j : Int)) % 256).toNat = (p + j) % 256 := by
  omega

/-- The run of a variable-length Read of `n ≥ 1` sectors whose sectors all exist
with stored error 0, real size `L` and `L` bytes of data. -/
theorem Read_run (s sa : State) (tp : TrackPtr) (secs : List SectorType)
    (hsel : 0 ≤ GetSelectedDrive (DoSelects s))
    (ht : GetTrackPtr (Param s 0)
      (readPositioning { DoSelects s with SectorOverRead := false }) = some (some tp, sa))
    (hr : (trackAt s tp).TrackIsReadable = true)
    (hwf : TrackWF (trackAt s tp) secs) (hsz : secs.length < 256)
    (hpos : s.PositionInTrack ≤ secs.length) (hbyte : Param s 1 < 256)
    (hn : 1 ≤ Param s 2 &&& 31)
    (hall : ∀ j : Nat, j < Param s 2 &&& 31 →
      (∃ sec ∈ secs, sec.IDField.LogicalSector = (Param s 1 + j) % 256) ∧
      ∀ sec ∈ secs, sec.IDField.LogicalSector = (Param s 1 + j) % 256 →
        sec.Error = 0 ∧
        sec.RealSectorSize = ((1 <<< (7 + ((Param s 2 >>> 5) &&& 7)) : Nat) : Int) ∧
        ∃ data, sec.Data = some data ∧ data.length = 1 <<< (7 + ((Param s 2 >>> 5) &&& 7))) :
    ∃ (s1 u v : State) (idx : List Nat),
      DoVarLength_ReadDataCommand s = some s1 ∧
      s1.FDCState.StatusReg = STATUS_REG_COMMAND_BUSY ∧
      idx.length = Param s 2 &&& 31 ∧
      (∀ (j i : Nat), idx[j]? = some i → hasID secs ((Param s 1 + j) % 256) i = true) ∧
      dataTrace ReadInterrupt ((1 <<< (7 + ((Param s 2 >>> 5) &&& 7))) * (Param s 2 &&& 31)) s1 =
        some (idx.flatMap (sectorData secs)) ∧
      iterate ReadInterrupt ((1 <<< (7 + ((Param s 2 >>> 5) &&& 7))) * (Param s 2 &&& 31)) s1 =
        some u ∧
      u.CommandStatus.SectorsToGo = -1 ∧ u.FDCState.ResultReg = 0 ∧
      ReadInterrupt u = some v ∧ v.FDCState.ResultReg = 0 ∧
      v.FDCState.StatusReg = STATUS_REG_RESULT_FULL ||| STATUS_REG_INTERRUPT_REQUEST ∧
      v.FDCState.DataReg = u.FDCState.DataReg := by
  obtain ⟨p1, p2, p3, p4, p5, p6, p7⟩ :=
    readPositioning_frame { DoSelects s with SectorOverRead := false }
  have hfa := GetTrackPtr_frame _ _ _ _ ht
  have hDa : sa.DiscStatus = s.DiscStatus := by rw [hfa]; exact p4
  have hPa : sa.PositionInTrack ≤ secs.length := by
    rw [hfa]
    show (readPositioning { DoSelects s with SectorOverRead := false }).PositionInTrack ≤ _
    rw [p7]
    split
    · exact Nat.zero_le _
    · exact hpos
  have hta : trackAt sa tp = trackAt s tp := by
    unfold trackAt
    rw [hDa]
  have hL1 : 1 ≤ 1 <<< (7 + ((Param s 2 >>> 5) &&& 7)) := by
    rw [Nat.shiftLeft_eq, Nat.one_mul]
    exact Nat.one_le_two_pow
  obtain ⟨hex0, hgood0⟩ := hall 0 (by omega)
  rw [Nat.add_zero, Nat.mod_eq_of_lt hbyte] at hex0 hgood0
  obtain ⟨i0, sec0, hi0, hsec0, hid0, hh0, hget⟩ := GetSectorPtr_found tp (Param s 1) sa secs
    (by rw [hta]; exact hwf) hPa (by omega) hex0
  have hg0 := hgood0 sec0 (List.mem_iff_getElem?.2 ⟨i0, hsec0⟩) hid0
  have hsat : sectorAt { sa with PositionInTrack := i0 } { Trk := tp, Index := i0 } =
      some sec0 := by
    unfold sectorAt
    rw [show trackAt { sa with PositionInTrack := i0 } tp = trackAt sa tp from rfl, hta, hwf.1]
    exact hsec0
  obtain ⟨s1, e1, c1, o1, d1, q1, st1, _, _⟩ := Read_setup s sa _ tp _ sec0 hsel ht
    (by rw [hta]; exact hr) hget hsat (by rw [hg0.1]; simp)
  rw [hg0.2.1] at c1 o1
  simp only [gt_iff_lt, lt_self_iff_false, if_false, decide_False] at c1 o1
  have hwf1 : TrackWF (trackAt s1 tp) secs := by
    unfold trackAt
    rw [d1]
    exact hwf
  obtain ⟨m, hm⟩ : ∃ m, Param s 2 &&& 31 = m + 1 := ⟨(Param s 2 &&& 31) - 1, by omega⟩
  obtain ⟨u, idx, hlen, hhead, hidx, e2, t2, g2, rr2, _, _, _⟩ := ReadInterrupt_sectors secs tp
    (1 <<< (7 + ((Param s 2 >>> 5) &&& 7))) hL1 hsz m s1 i0 sec0
    (by rw [c1]; dsimp only; rw [hm]; push_cast; rfl) (by rw [c1]) (by rw [c1]) o1 (by rw [c1])
    hwf1 (by rw [q1]; exact Nat.le_of_lt hi0) (by rw [c1]) hsec0 hg0
    (by
      intro j hj1 hjm
      rw [c1]
      dsimp only
      rw [toNat_emod]
      exact hall j (by omega))
  obtain ⟨v, e3, r3, dr3, st3, _, _, _⟩ := ReadInterrupt_pickup u (by rw [g2]; decide)
  refine ⟨s1, u, v, idx, e1, st1, by rw [hlen, hm], ?_, by rw [hm]; exact t2,
    by rw [hm]; exact e2, g2, rr2, e3, by rw [r3, rr2], st3, dr3⟩
  intro j i hji
  cases j with
  | zero =>
    have hk : some i0 = some i := by
      rw [← hhead, List.head?_eq_getElem?]
      exact hji
    simp only [Option.some.injEq] at hk
    subst hk
    rw [Nat.add_zero, Nat.mod_eq_of_lt hbyte]
    exact hh0
  | succ j =>
    have := (hidx (j + 1) i hji).2 (by omega)
    rw [c1] at this
    dsimp only at this
    rw [toNat_emod] at this
    exact this

theorem TrackWF_lookupState (s : State) (h : s.DiscStatus = lookupState.DiscStatus) :
    TrackWF (trackAt s ⟨0, 0, 0⟩) threeSectors := by
  unfold trackAt
  rw [h]
  refine ⟨rfl, rfl, ?_⟩
  decide

/-- C2 (for a sector count of at least 1): a variable-length Read with a drive
selected and the track resolved, on a readable well-formed track of fewer than
256 sectors, with sector count `n ≥ 1` (low five bits of the third parameter)
and sector length `L = 1 <<< (7 + size code)`, when for each `j < n` a sector
with logical ID `(first + j) % 256` exists on the track and every sector with
such an ID has stored error 0, real size `L` and a buffer of `L` bytes: setup
arms the transfer; the next `L × n` ticks load into the data register the
bytes of `n` sectors in order, the `j`-th of which carries the logical ID
`(first + j) % 256`; the transfer then has `SectorsToGo = -1` and result
register 0, and the tick after it leaves result 0 and status
`result_full|interrupt_request` without loading another byte. -/
theorem Read_delivers (s sa : State) (tp : TrackPtr) (secs : List SectorType)
    (hsel : 0 ≤ GetSelectedDrive (DoSelects s))
    (ht : GetTrackPtr (Param s 0)
      (readPositioning { DoSelects s with SectorOverRead := false }) = some (some tp, sa))
    (hr : (trackAt s tp).TrackIsReadable = true)
    (hwf : TrackWF (trackAt s tp) secs) (hsz : secs.length < 256)
    (hpos : s.PositionInTrack ≤ secs.length) (hbyte : Param s 1 < 256)
    (hn : 1 ≤ Param s 2 &&& 31)
    (hall : ∀ j : Nat, j < Param s 2 &&& 31 →
      (∃ sec ∈ secs, sec.IDField.LogicalSector = (Param s 1 + j) % 256) ∧
      ∀ sec ∈ secs, sec.IDField.LogicalSector = (Param s 1 + j) % 256 →
        sec.Error = 0 ∧
        sec.RealSectorSize = ((1 <<< (7 + ((Param s 2 >>> 5) &&& 7)) : Nat) : Int) ∧
        ∃ data, sec.Data = some data ∧ data.length = 1 <<< (7 + ((Param s 2 >>> 5) &&& 7))) :
    ∃ (s1 u v : State) (idx : List Nat),
      DoVarLength_ReadDataCommand s = some s1 ∧
      s1.FDCState.StatusReg = STATUS_REG_COMMAND_BUSY ∧
      idx.length = Param s 2 &&& 31 ∧
      (∀ (j i : Nat), idx[j]? = some i → hasID secs ((Param s 1 + j) % 256) i = true) ∧
      dataTrace ReadInterrupt ((1 <<< (7 + ((Param s 2 >>> 5) &&& 7))) * (Param s 2 &&& 31)) s1 =
        some (idx.flatMap (sectorData secs)) ∧
      iterate ReadInterrupt ((1 <<< (7 + ((Param s 2 >>> 5) &&& 7))) * (Param s 2 &&& 31)) s1 =
        some u ∧
      u.CommandStatus.SectorsToGo = -1 ∧ u.FDCState.ResultReg = 0 ∧
      ReadInterrupt u = some v ∧ v.FDCState.ResultReg = 0 ∧
      v.FDCState.StatusReg = STATUS_REG_RESULT_FULL ||| STATUS_REG_INTERRUPT_REQUEST ∧
      v.FDCState.DataReg = u.FDCState.DataReg :=
  Read_run s sa tp secs hsel ht hr hwf hsz hpos hbyte hn hall

theorem Read_delivers_witness :
    ∃ s1 u, DoVarLength_ReadDataCommand (latched 0x53 [0, 7, 0x01] lookupState) = some s1 ∧
      dataTrace ReadInterrupt 128 s1 = some (List.replicate 128 2) ∧
      iterate ReadInterrupt 128 s1 = some u ∧ u.FDCState.ResultReg = 0 := by
  obtain ⟨s1, u, v, idx, h1, _, h3, h4, h5, h6, _, h8, _⟩ :=
    Read_delivers (latched 0x53 [0, 7, 0x01] lookupState) _ ⟨0, 0, 0⟩ threeSectors
      (by decide) (some_pair_of_get _ (by decide) _ (by decide)) (by decide)
      (TrackWF_lookupState _ rfl) (by decide) (by decide) (by decide) (by decide)
      (by
        intro j hj
        have hj0 : j = 0 := by
          have : (Param (latched 0x53 [0, 7, 0x01] lookupState) 2 &&& 31) = 1 := by decide
          omega
        subst hj0
        refine ⟨⟨mkSector 0 7 1 128 0 (List.replicate 128 2), by simp [threeSectors], by decide⟩,
          ?_⟩
        intro sec hsec hid
        simp only [threeSectors, List.mem_cons, List.mem_singleton, List.not_mem_nil,
          or_false] at hsec
        rcases hsec with rfl | rfl | rfl
        · exact absurd hid (by decide)
        · exact ⟨by decide, by decide, List.replicate 128 2, rfl, by decide⟩
        · exact absurd hid (by decide))
  have hlen : idx.length = 1 := h3
  have hidx : idx = [1] := by
    match idx, hlen with
    | [i], _ =>
      have := h4 0 i rfl
      have hi : i = 1 := by
        have hlt : i < 3 ∨ 3 ≤ i := by omega
        rcases hlt with hlt | hge
        · interval_cases i
          · exact absurd this (by decide)
          · rfl
          · exact absurd this (by decide)
        · have hnone : threeSectors[i]? = none := by
            rw [List.getElem?_eq_none]
            exact hge
          simp [hasID, hnone] at this
      rw [hi]
  refine ⟨s1, u, h1, ?_, h6, h8⟩
  have h5' := h5
  rw [hidx] at h5'
  exact h5'

/-- C2, counterexample: a Read whose count field is 0 delivers data all the
same. On `lookupState` (sector IDs 5, 7, 5 of 128 bytes) the Read of sector 7
with size byte 0x00 loads the 128 bytes of the sector into the data register,
one per tick, then looks up sector 8, which does not exist, and the tick after
posts "sector not found" (0x18) instead of ending with result 0 after no
byte. -/
theorem Read_count_zero :
    ((hostWrites [(0, 0x53), (1, 0), (1, 7), (1, 0x00)] lookupState).bind
      (dataTrace Disc8271_poll_real 128)) = some (List.replicate 128 2) ∧
    ((hostWrites [(0, 0x53), (1, 0), (1, 7), (1, 0x00)] lookupState).bind
      (iterate Disc8271_poll_real 129)).map (fun s =>
        (s.FDCState.ResultReg, s.FDCState.StatusReg)) = some (0x18, 0x18) := by
  refine ⟨?_, ?_⟩ <;> decide

theorem readResultValue_over (E : Nat) (R I : Int) :
    (E = 0 → readResultValue E R I R true = 0x0E) ∧
    (E = 0x20 ∨ E = 0x2E → readResultValue E R I R true = 0x2E) := by
  refine ⟨?_, ?_⟩
  · rintro rfl
    simp [readResultValue, RESULT_REG_SUCCESS, RESULT_REG_DELETED_DATA_FOUND,
      RESULT_REG_DELETED_DATA_CRC_ERROR, RESULT_REG_DATA_CRC_ERROR]
  · rintro (rfl | rfl) <;>
      simp [readResultValue, RESULT_REG_SUCCESS, RESULT_REG_DELETED_DATA_FOUND,
        RESULT_REG_DELETED_DATA_CRC_ERROR, RESULT_REG_DATA_CRC_ERROR]

/-- C3 (amended): a variable-length Read of one sector, with a drive selected,
the track resolved and readable and the sector resolved, whose requested length
`1 <<< (7 + size code)` exceeds the real size `R ≥ 1` of the sector, the sector
holding a buffer of `R` bytes and not being one with stored error 0xE0 and
logical ID 9 (over-reading such a sector is meant to be answered by "sector not
found"): setup sets `SectorOverRead` and the sector length to `R`; the next `R`
ticks load `R` bytes (the stored bytes, unless the sector has stored error 0x0E
and real size equal to its declared size); the transfer then has
`SectorsToGo = -1` and result 0x0E when the stored error is 0 and 0x2E when it
is 0x20 or 0x2E, and the tick after it keeps that result with status
`result_full|interrupt_request`. -/
theorem Read_over_read (s sa sb : State) (tp : TrackPtr) (sp : SectorPtr) (sec : SectorType)
    (data : List Nat)
    (hsel : 0 ≤ GetSelectedDrive (DoSelects s))
    (ht : GetTrackPtr (Param s 0)
      (readPositioning { DoSelects s with SectorOverRead := false }) = some (some tp, sa))
    (hr : (trackAt sa tp).TrackIsReadable = true)
    (hs : GetSectorPtr tp (Param s 1) sa = some (some sp, sb))
    (hsec : sectorAt sb sp = some sec)
    (hd : sec.Data = some data) (hR : sec.RealSectorSize = (data.length : Int))
    (hR1 : 1 ≤ data.length) (hn : Param s 2 &&& 31 = 1)
    (hover : ((1 <<< (7 + ((Param s 2 >>> 5) &&& 7)) : Nat) : Int) > sec.RealSectorSize)
    (hguard : ¬ (sec.Error = 0xE0 ∧ sec.IDField.LogicalSector = 0x09)) :
    ∃ (s1 u v : State) (bytes : List Nat),
      DoVarLength_ReadDataCommand s = some s1 ∧
      s1.SectorOverRead = true ∧ s1.CommandStatus.SectorLength = sec.RealSectorSize ∧
      iterate ReadInterrupt data.length s1 = some u ∧
      dataTrace ReadInterrupt data.length s1 = some bytes ∧ bytes.length = data.length ∧
      (¬ (sec.Error = RESULT_REG_DATA_CRC_ERROR ∧ sec.RealSectorSize = sec.IDSiz) →
        bytes = data) ∧
      u.CommandStatus.SectorsToGo = -1 ∧
      (sec.Error = 0 → u.FDCState.ResultReg = 0x0E) ∧
      (sec.Error = 0x20 ∨ sec.Error = 0x2E → u.FDCState.ResultReg = 0x2E) ∧
      ReadInterrupt u = some v ∧ v.FDCState.ResultReg = u.FDCState.ResultReg ∧
      v.FDCState.StatusReg = STATUS_REG_RESULT_FULL ||| STATUS_REG_INTERRUPT_REQUEST ∧
      v.FDCState.DataReg = u.FDCState.DataReg := by
  obtain ⟨s1, e1, c1, o1, d1, q1, st1, _, _⟩ := Read_setup s sa sb tp sp sec hsel ht hr hs hsec
    (fun h => hguard ⟨h.1, h.2.1⟩)
  simp only [hover, if_true, decide_True] at c1 o1
  have hDb : sb.DiscStatus = s.DiscStatus := by
    rw [GetSectorPtr_frame _ _ _ _ _ hs, GetTrackPtr_frame _ _ _ _ ht]
    exact (readPositioning_frame _).2.2.2.1
  have hcur : currentSector s1 = some sec := by
    unfold currentSector
    rw [c1]
    dsimp only
    unfold sectorAt trackAt
    rw [d1, ← hDb]
    exact hsec
  obtain ⟨u, bytes, e2, t2, l2, c2, _, _, _, rr, _, r2⟩ :=
    ReadInterrupt_sector_done sec data data.length s1 (by rw [c1]; dsimp only; rw [hn]; rfl) hcur
      hd (by rw [c1]) (by rw [c1]; exact hR) hR1 (le_refl _)
  obtain ⟨v, e3, r3, dr3, st3, _, _, _⟩ := ReadInterrupt_pickup u (by rw [c2]; dsimp only; omega)
  rw [o1, ← hR] at rr
  refine ⟨s1, u, v, bytes, e1, o1, by rw [c1], e2, t2, l2, ?_, by rw [c2], ?_, ?_, e3, r3, st3,
    dr3⟩
  · intro hns
    rw [r2 hns, List.take_length]
  · intro hE
    rw [rr]
    exact (readResultValue_over _ _ _).1 hE
  · intro hE
    rw [rr]
    exact (readResultValue_over _ _ _).2 hE

theorem Read_over_read_witness :
    ∃ s1 u, DoVarLength_ReadDataCommand (latched 0x53 [0, 7, 0x21] lookupState) = some s1 ∧
      s1.SectorOverRead = true ∧ iterate ReadInterrupt 128 s1 = some u ∧
      u.FDCState.ResultReg = 0x0E := by
  obtain ⟨s1, u, v, bytes, h1, h2, _, h4, _, _, _, _, h9, _⟩ :=
    Read_over_read (latched 0x53 [0, 7, 0x21] lookupState) _ _ ⟨0, 0, 0⟩ ⟨⟨0, 0, 0⟩, 1⟩
      (mkSector 0 7 1 128 0 (List.replicate 128 2)) (List.replicate 128 2)
      (by decide) (some_pair_of_get _ (by decide) _ (by decide)) (by decide)
      (some_pair_of_get _ (by decide) _ (by decide)) (by decide) rfl (by decide) (by decide)
      (by decide) (by decide) (by decide)
  have hl : (List.replicate 128 2).length = 128 := by decide
  rw [hl] at h4
  exact ⟨s1, u, h1, h2, h4, h9 (by decide)⟩

/-- C3 (as stated, refuted): on `poolState` the host reads sector 0 (256 bytes) to
the end and then asks for 256 bytes of sector 9, whose real size is 128 and
whose stored error is 0xE0. Setup neither sets `SectorOverRead` nor clamps the
sector length: it defers "sector not found", and the next tick posts 0x18
without delivering a byte. -/
theorem Read_over_read_guard :
    (((hostWrites [(0, 0x53), (1, 0), (1, 0), (1, 0x21)] poolState).bind
      (iterate Disc8271_poll_real 257)).bind
      (hostWrites [(0, 0x53), (1, 0), (1, 9), (1, 0x21)])).map (fun s =>
        (s.SectorOverRead, s.CommandStatus.SectorLength, s.CommandStatus.NextInterruptIsErr)) =
      some (false, 256, 0x18) ∧
    ((((hostWrites [(0, 0x53), (1, 0), (1, 0), (1, 0x21)] poolState).bind
      (iterate Disc8271_poll_real 257)).bind
      (hostWrites [(0, 0x53), (1, 0), (1, 9), (1, 0x21)])).bind Disc8271_poll_real).map
      (fun s => (s.FDCState.ResultReg, s.FDCState.StatusReg)) = some (0x18, 0x18) := by
  refine ⟨?_, ?_⟩ <;> decide

/-! ## Repeated lookups and the head position -/

/-- C11 (as the code has it): a Read of the logical ID carried by the sector at
the current head position (the position the previous lookup of that ID left)
resolves to that very sector and leaves the position there, also when another
sector of the track carries the same ID: with a drive selected, the track
resolved, readable and well formed, `PositionInTrack = i` after the
positioning statements and sector `i` carrying the requested ID (stored error
other than 0xE0), setup arms the transfer on the sector at index `i`. -/
theorem Read_same_sector (s sa : State) (tp : TrackPtr) (secs : List SectorType) (i : Nat)
    (sec : SectorType)
    (hsel : 0 ≤ GetSelectedDrive (DoSelects s))
    (ht : GetTrackPtr (Param s 0)
      (readPositioning { DoSelects s with SectorOverRead := false }) = some (some tp, sa))
    (hr : (trackAt s tp).TrackIsReadable = true)
    (hwf : TrackWF (trackAt s tp) secs) (hsz : secs.length < 256)
    (hpos : sa.PositionInTrack = i) (hsec : secs[i]? = some sec)
    (hid : sec.IDField.LogicalSector = Param s 1) (hE : sec.Error ≠ 0xE0) :
    ∃ s1, DoVarLength_ReadDataCommand s = some s1 ∧
      s1.CommandStatus.CurrentSectorPtr = some { Trk := tp, Index := i } ∧
      currentSector s1 = some sec ∧ s1.PositionInTrack = i ∧
      s1.FDCState.StatusReg = STATUS_REG_COMMAND_BUSY := by
  have hfa := GetTrackPtr_frame _ _ _ _ ht
  have hDa : sa.DiscStatus = s.DiscStatus := by
    rw [hfa]
    exact (readPositioning_frame _).2.2.2.1
  have hta : trackAt sa tp = trackAt s tp := by
    unfold trackAt
    rw [hDa]
  have hi : i < secs.length := (List.getElem?_eq_some_iff.1 hsec).1
  have hh : hasID secs (Param s 1) sa.PositionInTrack = true := by
    rw [hpos]
    simp [hasID, hsec, hid]
  have hget := GetSectorPtr_here tp (Param s 1) sa secs (by rw [hta]; exact hwf)
    (by rw [hpos]; exact hi) (by rw [hpos]; omega) hh
  rw [hpos] at hget
  have hsat : sectorAt sa { Trk := tp, Index := i } = some sec := by
    unfold sectorAt
    rw [hta, hwf.1]
    exact hsec
  obtain ⟨s1, e1, c1, _, d1, q1, st1, _, _⟩ := Read_setup s sa sa tp _ sec hsel ht
    (by rw [hta]; exact hr) hget hsat (fun h => hE h.1)
  refine ⟨s1, e1, by rw [c1], ?_, by rw [q1, hpos], st1⟩
  unfold currentSector
  rw [c1]
  dsimp only
  unfold sectorAt trackAt
  rw [d1]
  have := hwf.1
  unfold trackAt at this
  rw [this]
  exact hsec

theorem Read_same_sector_witness :
    ∃ s1, DoVarLength_ReadDataCommand (latched 0x53 [0, 5, 0x01]
        { lookupState with PositionInTrack := 2 }) = some s1 ∧
      s1.CommandStatus.CurrentSectorPtr = some ⟨⟨0, 0, 0⟩, 2⟩ := by
  obtain ⟨s1, h1, h2, _⟩ := Read_same_sector
    (latched 0x53 [0, 5, 0x01] { lookupState with PositionInTrack := 2 }) _ ⟨0, 0, 0⟩
    threeSectors 2 (mkSector 0 5 2 128 0 (List.replicate 128 3)) (by decide)
    (some_pair_of_get _ (by decide) _ (by decide)) (by decide) (TrackWF_lookupState _ rfl)
    (by decide) (by decide) (by decide) (by decide) (by decide)
  exact ⟨s1, h1, h2⟩

/-- C11, counterexample: the FSD image `fsdImage` holds on track 0 three
128-byte sectors with logical IDs 5, 7, 5 and data bytes 1, 2, 3. Loaded into
drive 0 after power-on, two successive Reads of sector 5 (the first run to its
end, nothing else in between) both deliver the 128 bytes of the sector at
index 0; the sector at index 2 is not delivered. -/
theorem Read_twice_same_sector :
    ((LoadFSDDiscImage "a.fsd" 0 (withFile "a.fsd" fsdImage powerOn)).bind
      (hostWrites [(0, 0x53), (1, 0), (1, 5), (1, 0x01)])).bind
      (dataTrace Disc8271_poll_real 128) = some (List.replicate 128 1) ∧
    ((((LoadFSDDiscImage "a.fsd" 0 (withFile "a.fsd" fsdImage powerOn)).bind
      (hostWrites [(0, 0x53), (1, 0), (1, 5), (1, 0x01)])).bind
      (iterate Disc8271_poll_real 129)).bind
      (hostWrites [(0, 0x53), (1, 0), (1, 5), (1, 0x01)])).bind
      (dataTrace Disc8271_poll_real 128) = some (List.replicate 128 1) := by
  refine ⟨?_, ?_⟩ <;> decide

theorem freadBuffer_length (n : Nat) (rd : List Nat) : (freadBuffer n rd).1.length = n := by
  simp only [freadBuffer, List.length_append, List.length_take, List.length_replicate]
  omega

theorem ReadIDInterrupt_mid (t : State) (sec : SectorType)
    (hg : 0 ≤ t.CommandStatus.SectorsToGo) (hcur : currentSector t = some sec)
    (hb0 : 0 ≤ t.CommandStatus.ByteWithinSector) (hb3 : t.CommandStatus.ByteWithinSector < 3) :
    ∃ u, ReadIDInterrupt t = some u ∧
      u.CommandStatus = { t.CommandStatus with
        ByteWithinSector := t.CommandStatus.ByteWithinSector + 1 } ∧
      u.DiscStatus = t.DiscStatus ∧ u.PositionInTrack = t.PositionInTrack ∧
      u.FDCState.DataReg =
        (if t.CommandStatus.ByteWithinSector = 0 then sec.IDField.LogicalTrack
         else if t.CommandStatus.ByteWithinSector = 1 then sec.IDField.HeadNum
         else sec.IDField.LogicalSector) ∧
      u.FDCState.ResultReg = 0 ∧ u.FDCState.StatusReg = 0x8C := by
  have hb : t.CommandStatus.ByteWithinSector = 0 ∨ t.CommandStatus.ByteWithinSector = 1 ∨
      t.CommandStatus.ByteWithinSector = 2 := by omega
  unfold ReadIDInterrupt
  rw [if_neg (by omega)]
  dsimp only
  rw [if_pos (by omega), hcur]
  dsimp only
  rw [if_neg (by simp only [setResult, setCommandStatus, setData]; omega)]
  refine ⟨_, rfl, ?_, ?_, ?_, ?_, ?_, ?_⟩
  · simp [notLastByte, UpdateNMIStatus_eq, setStatus, SetTrigger, setResult, setCommandStatus,
      setData]
  · simp [notLastByte, UpdateNMIStatus_eq, setStatus, SetTrigger, setResult, setCommandStatus,
      setData]
  · simp [notLastByte, UpdateNMIStatus_eq, setStatus, SetTrigger, setResult, setCommandStatus,
      setData]
  · rcases hb with h | h | h <;>
      simp [notLastByte, UpdateNMIStatus_eq, setStatus, SetTrigger, setResult, setCommandStatus,
        setData, h]
  · simp [notLastByte, UpdateNMIStatus_eq, setStatus, SetTrigger, setResult, setCommandStatus,
      setData, RESULT_REG_SUCCESS]
  · simp [notLastByte, UpdateNMIStatus_eq, setStatus, SetTrigger, setResult, setCommandStatus,
      setData, STATUS_REG_COMMAND_BUSY, STATUS_REG_INTERRUPT_REQUEST, STATUS_REG_NON_DMA_MODE]

theorem ReadIDInterrupt_done (t : State) (sec : SectorType)
    (hg : t.CommandStatus.SectorsToGo = 1) (hcur : currentSector t = some sec)
    (hb : t.CommandStatus.ByteWithinSector = 3) :
    ∃ u, ReadIDInterrupt t = some u ∧
      u.CommandStatus = { t.CommandStatus with ByteWithinSector := 0, SectorsToGo := -1 } ∧
      u.DiscStatus = t.DiscStatus ∧ u.PositionInTrack = t.PositionInTrack ∧
      u.FDCState.DataReg = sec.IDField.SectorLength ∧
      u.FDCState.ResultReg = 0 ∧ u.FDCState.StatusReg = 0x8C := by
  unfold ReadIDInterrupt
  rw [if_neg (by omega)]
  dsimp only
  rw [if_pos (by omega), hcur]
  dsimp only
  rw [if_pos (by simp only [setResult, setCommandStatus, setData]; omega)]
  rw [if_neg (by simp only [setResult, setCommandStatus, setData]; omega)]
  refine ⟨_, rfl, ?_, ?_, ?_, ?_, ?_, ?_⟩
  · simp [UpdateNMIStatus_eq, setStatus, SetTrigger, setResult, setCommandStatus, setData]
  · simp [UpdateNMIStatus_eq, setStatus, SetTrigger, setResult, setCommandStatus, setData]
  · simp [UpdateNMIStatus_eq, setStatus, SetTrigger, setResult, setCommandStatus, setData]
  · simp [UpdateNMIStatus_eq, setStatus, SetTrigger, setResult, setCommandStatus, setData, hb]
  · simp [UpdateNMIStatus_eq, setStatus, SetTrigger, setResult, setCommandStatus, setData,
      RESULT_REG_SUCCESS]
  · simp [UpdateNMIStatus_eq, setStatus, SetTrigger, setResult, setCommandStatus, setData,
      STATUS_REG_COMMAND_BUSY, STATUS_REG_INTERRUPT_REQUEST, STATUS_REG_NON_DMA_MODE]

theorem ReadIDInterrupt_next (t : State) (sec : SectorType) (tp : TrackPtr)
    (secs : List SectorType)
    (hg : 1 < t.CommandStatus.SectorsToGo) (hcur : currentSector t = some sec)
    (hb : t.CommandStatus.ByteWithinSector = 3)
    (htp : t.CommandStatus.CurrentTrackPtr = some tp) (hwf : TrackWF (trackAt t tp) secs)
    (hN : secs.length ≤ 256) (hc0 : 0 ≤ t.CommandStatus.CurrentSector)
    (hc : t.CommandStatus.CurrentSector < secs.length) :
    ∃ u, ReadIDInterrupt t = some u ∧
      u.CommandStatus = { t.CommandStatus with
        ByteWithinSector := 0, SectorsToGo := t.CommandStatus.SectorsToGo - 1,
        CurrentSector := (((t.CommandStatus.CurrentSector.toNat + 1) % secs.length : Nat) : Int),
        CurrentSectorPtr :=
          some ⟨tp, (t.CommandStatus.CurrentSector.toNat + 1) % secs.length⟩ } ∧
      u.DiscStatus = t.DiscStatus ∧
      u.PositionInTrack = (t.CommandStatus.CurrentSector.toNat + 1) % secs.length ∧
      u.FDCState.DataReg = sec.IDField.SectorLength ∧
      u.FDCState.ResultReg = 0 ∧ u.FDCState.StatusReg = 0x8C := by
  obtain ⟨hs, hn, hrec⟩ := hwf
  have hNpos : 0 < secs.length := by omega
  have hmod : (t.CommandStatus.CurrentSector.toNat + 1) % secs.length < secs.length :=
    Nat.mod_lt _ hNpos
  -- the value of CurrentSector after the increment and the wrap
  have hnext : (if t.CommandStatus.CurrentSector + 1 = (secs.length : Int) then (0 : Int)
      else t.CommandStatus.CurrentSector + 1) =
      (((t.CommandStatus.CurrentSector.toNat + 1) % secs.length : Nat) : Int) := by
    split
    · rename_i h
      have : t.CommandStatus.CurrentSector.toNat + 1 = secs.length := by omega
      rw [this, Nat.mod_self]
      rfl
    · rename_i h
      have hlt : t.CommandStatus.CurrentSector.toNat + 1 < secs.length := by omega
      rw [Nat.mod_eq_of_lt hlt]
      omega
  unfold ReadIDInterrupt
  rw [if_neg (by omega)]
  dsimp only
  rw [if_pos (by omega), hcur]
  dsimp only
  rw [if_pos (by simp only [setResult, setCommandStatus, setData]; omega)]
  rw [if_pos (by simp only [setResult, setCommandStatus, setData]; omega)]
  simp only [setResult, setCommandStatus, setData, htp]
  unfold trackAt at hs hn
  simp only [trackAt, hn]
  by_cases hw : t.CommandStatus.CurrentSector + 1 = (secs.length : Int)
  · have hz : (t.CommandStatus.CurrentSector.toNat + 1) % secs.length = 0 := by
      have : t.CommandStatus.CurrentSector.toNat + 1 = secs.length := by omega
      rw [this, Nat.mod_self]
    simp only [hw, if_true]
    have hget : secs[0]? = some secs[0] := List.getElem?_eq_getElem hNpos
    have hr0 : (secs[0]).RecordNum = 0 := hrec 0 hNpos
    simp only [GetSectorPtrForTrackID, trackAt, hs, Int.zero_emod, Int.toNat_zero, hget, hr0]
    refine ⟨_, rfl, ?_, ?_, ?_, ?_, ?_, ?_⟩ <;>
      simp [notLastByte, UpdateNMIStatus_eq, setStatus, SetTrigger, hz, hb, RESULT_REG_SUCCESS,
        STATUS_REG_COMMAND_BUSY, STATUS_REG_INTERRUPT_REQUEST, STATUS_REG_NON_DMA_MODE]
  · have hlt : t.CommandStatus.CurrentSector.toNat + 1 < secs.length := by omega
    have hz : (t.CommandStatus.CurrentSector.toNat + 1) % secs.length =
        t.CommandStatus.CurrentSector.toNat + 1 := Nat.mod_eq_of_lt hlt
    have hpos : ((t.CommandStatus.CurrentSector + 1) % 256).toNat =
        t.CommandStatus.CurrentSector.toNat + 1 := by omega
    simp only [hw, if_false]
    have hget : secs[t.CommandStatus.CurrentSector.toNat + 1]? =
        some secs[t.CommandStatus.CurrentSector.toNat + 1] := List.getElem?_eq_getElem hlt
    have hr0 : (secs[t.CommandStatus.CurrentSector.toNat + 1]).RecordNum =
        t.CommandStatus.CurrentSector.toNat + 1 := hrec _ hlt
    simp only [GetSectorPtrForTrackID, trackAt, hs, hpos, hget, hr0]
    have hci : t.CommandStatus.CurrentSector + 1 =
        ((t.CommandStatus.CurrentSector.toNat + 1 : Nat) : Int) := by omega
    refine ⟨_, rfl, ?_, ?_, ?_, ?_, ?_, ?_⟩ <;>
      simp [notLastByte, UpdateNMIStatus_eq, setStatus, SetTrigger, hz, hb, RESULT_REG_SUCCESS,
        STATUS_REG_COMMAND_BUSY, STATUS_REG_INTERRUPT_REQUEST, STATUS_REG_NON_DMA_MODE, hci]

theorem idFieldAt_eq (secs : List SectorType) (i : Nat) (sec : SectorType)
    (h : secs[i]? = some sec) :
    idFieldAt secs i = [sec.IDField.LogicalTrack, sec.IDField.HeadNum,
      sec.IDField.LogicalSector, sec.IDField.SectorLength] := by
  simp [idFieldAt, h]

/-- The first three ticks of an ID field. -/
theorem ReadID_three (t : State) (sec : SectorType)
    (hg : 0 ≤ t.CommandStatus.SectorsToGo) (hcur : currentSector t = some sec)
    (hb : t.CommandStatus.ByteWithinSector = 0) :
    ∃ u, iterate ReadIDInterrupt 3 t = some u ∧
      dataTrace ReadIDInterrupt 3 t = some [sec.IDField.LogicalTrack, sec.IDField.HeadNum,
        sec.IDField.LogicalSector] ∧
      u.CommandStatus = { t.CommandStatus with ByteWithinSector := 3 } ∧
      u.DiscStatus = t.DiscStatus ∧ u.PositionInTrack = t.PositionInTrack := by
  obtain ⟨u1, e1, c1, d1, p1, r1, _, _⟩ := ReadIDInterrupt_mid t sec hg hcur (by omega) (by omega)
  have hcur1 : currentSector u1 = some sec := by
    rw [currentSector_congr t u1 d1 (by rw [c1]), hcur]
  obtain ⟨u2, e2, c2, d2, p2, r2, _, _⟩ := ReadIDInterrupt_mid u1 sec (by rw [c1]; exact hg) hcur1
    (by rw [c1]; dsimp only; omega) (by rw [c1]; dsimp only; omega)
  have hcur2 : currentSector u2 = some sec := by
    rw [currentSector_congr u1 u2 d2 (by rw [c2]), hcur1]
  obtain ⟨u3, e3, c3, d3, p3, r3, _, _⟩ := ReadIDInterrupt_mid u2 sec
    (by rw [c2, c1]; exact hg) hcur2
    (by rw [c2, c1]; dsimp only; omega) (by rw [c2, c1]; dsimp only; omega)
  rw [hb] at r1
  rw [c1, hb] at r2
  rw [c2, c1, hb] at r3
  simp only [if_true] at r1
  norm_num at r2 r3
  refine ⟨u3, ?_, ?_, ?_, by rw [d3, d2, d1], by rw [p3, p2, p1]⟩
  · simp [iterate, e1, e2, e3]
  · simp [dataTrace, e1, e2, e3, r1, r2, r3]
  · rw [c3, c2, c1, hb]
    simp

/-- The four ticks of the last ID field of a Read ID. -/
theorem ReadID_field_done (t : State) (sec : SectorType)
    (hg : t.CommandStatus.SectorsToGo = 1) (hcur : currentSector t = some sec)
    (hb : t.CommandStatus.ByteWithinSector = 0) :
    ∃ u, iterate ReadIDInterrupt 4 t = some u ∧
      dataTrace ReadIDInterrupt 4 t = some [sec.IDField.LogicalTrack, sec.IDField.HeadNum,
        sec.IDField.LogicalSector, sec.IDField.SectorLength] ∧
      u.CommandStatus = { t.CommandStatus with ByteWithinSector := 0, SectorsToGo := -1 } ∧
      u.DiscStatus = t.DiscStatus ∧ u.PositionInTrack = t.PositionInTrack ∧
      u.FDCState.ResultReg = 0 ∧ u.FDCState.StatusReg = 0x8C := by
  obtain ⟨u3, e3, t3, c3, d3, p3⟩ := ReadID_three t sec (by omega) hcur hb
  have hcur3 : currentSector u3 = some sec := by
    rw [currentSector_congr t u3 d3 (by rw [c3]), hcur]
  obtain ⟨u, e4, c4, d4, p4, r4, rr, st⟩ := ReadIDInterrupt_done u3 sec (by rw [c3]; exact hg)
    hcur3 (by rw [c3])
  have hit : iterate ReadIDInterrupt 1 u3 = some u := by simp [iterate, e4]
  have hdt : dataTrace ReadIDInterrupt 1 u3 = some [u.FDCState.DataReg] := by
    simp [dataTrace, e4]
  refine ⟨u, ?_, ?_, by rw [c4, c3], by rw [d4, d3], by rw [p4, p3], rr, st⟩
  · rw [show 4 = 3 + 1 from rfl, iterate_add, e3]
    exact hit
  · rw [show 4 = 3 + 1 from rfl, dataTrace_add _ _ _ _ _ _ _ e3 t3 hdt, r4]
    rfl

/-- The four ticks of an ID field that is not the last: the next sector of the
track, in physical order, becomes the current one. -/
theorem ReadID_field_next (t : State) (sec : SectorType) (tp : TrackPtr)
    (secs : List SectorType)
    (hg : 1 < t.CommandStatus.SectorsToGo) (hcur : currentSector t = some sec)
    (hb : t.CommandStatus.ByteWithinSector = 0)
    (htp : t.CommandStatus.CurrentTrackPtr = some tp) (hwf : TrackWF (trackAt t tp) secs)
    (hN : secs.length ≤ 256) (hc0 : 0 ≤ t.CommandStatus.CurrentSector)
    (hc : t.CommandStatus.CurrentSector < secs.length) :
    ∃ u, iterate ReadIDInterrupt 4 t = some u ∧
      dataTrace ReadIDInterrupt 4 t = some [sec.IDField.LogicalTrack, sec.IDField.HeadNum,
        sec.IDField.LogicalSector, sec.IDField.SectorLength] ∧
      u.CommandStatus = { t.CommandStatus with
        ByteWithinSector := 0, SectorsToGo := t.CommandStatus.SectorsToGo - 1,
        CurrentSector := (((t.CommandStatus.CurrentSector.toNat + 1) % secs.length : Nat) : Int),
        CurrentSectorPtr :=
          some ⟨tp, (t.CommandStatus.CurrentSector.toNat + 1) % secs.length⟩ } ∧
      u.DiscStatus = t.DiscStatus ∧
      u.PositionInTrack = (t.CommandStatus.CurrentSector.toNat + 1) % secs.length := by
  obtain ⟨u3, e3, t3, c3, d3, p3⟩ := ReadID_three t sec (by omega) hcur hb
  have hcur3 : currentSector u3 = some sec := by
    rw [currentSector_congr t u3 d3 (by rw [c3]), hcur]
  have hwf3 : TrackWF (trackAt u3 tp) secs := by
    unfold trackAt
    rw [d3]
    exact hwf
  obtain ⟨u, e4, c4, d4, p4, r4, _, _⟩ := ReadIDInterrupt_next u3 sec tp secs
    (by rw [c3]; exact hg) hcur3 (by rw [c3]) (by rw [c3]; exact htp) hwf3 hN
    (by rw [c3]; exact hc0) (by rw [c3]; exact hc)
  have hit : iterate ReadIDInterrupt 1 u3 = some u := by simp [iterate, e4]
  have hdt : dataTrace ReadIDInterrupt 1 u3 = some [u.FDCState.DataReg] := by
    simp [dataTrace, e4]
  refine ⟨u, ?_, ?_, by rw [c4, c3], by rw [d4, d3], by rw [p4, c3]⟩
  · rw [show 4 = 3 + 1 from rfl, iterate_add, e3]
    exact hit
  · rw [show 4 = 3 + 1 from rfl, dataTrace_add _ _ _ _ _ _ _ e3 t3 hdt, r4]
    rfl

/-- The ticks of a Read ID of `m + 1` fields on a well-formed track, starting at
the first byte of the field of the sector at index `c`. -/
theorem ReadID_fields (secs : List SectorType) (tp : TrackPtr) (hN : secs.length ≤ 256) :
    ∀ (m : Nat) (t : State) (c : Nat),
    t.CommandStatus.SectorsToGo = (m : Int) + 1 → t.CommandStatus.ByteWithinSector = 0 →
    t.CommandStatus.CurrentTrackPtr = some tp → TrackWF (trackAt t tp) secs →
    t.CommandStatus.CurrentSector = (c : Int) → c < secs.length →
    t.CommandStatus.CurrentSectorPtr = some { Trk := tp, Index := c } →
    t.PositionInTrack = c →
    ∃ u : State, iterate ReadIDInterrupt (4 * (m + 1)) t = some u ∧
      dataTrace ReadIDInterrupt (4 * (m + 1)) t =
        some ((List.range (m + 1)).flatMap (fun k => idFieldAt secs ((c + k) % secs.length))) ∧
      (∀ k : Nat, k ≤ m → ∃ w, iterate ReadIDInterrupt (4 * k) t = some w ∧
        w.PositionInTrack = (c + k) % secs.length) ∧
      u.PositionInTrack = (c + m) % secs.length ∧
      u.CommandStatus.SectorsToGo = -1 ∧ u.FDCState.ResultReg = 0 ∧
      u.FDCState.StatusReg = 0x8C ∧ u.DiscStatus = t.DiscStatus := by
  intro m
  induction m with
  | zero =>
    intro t c hg hb htp hwf hc hcN hptr hpos
    have hsec : secs[c]? = some secs[c] := List.getElem?_eq_getElem hcN
    have hcur : currentSector t = some secs[c] := by
      rw [currentSector_eq t tp c secs hwf hptr, hsec]
    obtain ⟨u, e, tr, cs, d, p, rr, st⟩ := ReadID_field_done t secs[c] (by simpa using hg) hcur hb
    refine ⟨u, e, ?_, ?_, ?_, by rw [cs], rr, st, d⟩
    · rw [show 4 * (0 + 1) = 4 from rfl, tr]
      simp [List.range_succ, idFieldAt_eq secs c _ hsec, Nat.mod_eq_of_lt hcN]
    · intro k hk
      have hk0 : k = 0 := by omega
      subst hk0
      exact ⟨t, rfl, by rw [hpos, Nat.add_zero, Nat.mod_eq_of_lt hcN]⟩
    · rw [p, hpos, Nat.add_zero, Nat.mod_eq_of_lt hcN]
  | succ m ih =>
    intro t c hg hb htp hwf hc hcN hptr hpos
    have hsec : secs[c]? = some secs[c] := List.getElem?_eq_getElem hcN
    have hcur : currentSector t = some secs[c] := by
      rw [currentSector_eq t tp c secs hwf hptr, hsec]
    obtain ⟨u1, e1, tr1, cs1, d1, p1⟩ := ReadID_field_next t secs[c] tp secs
      (by rw [hg]; push_cast; omega) hcur hb htp hwf hN (by rw [hc]; omega)
      (by rw [hc]; exact_mod_cast hcN)
    have hcn : t.CommandStatus.CurrentSector.toNat = c := by rw [hc]; rfl
    rw [hcn] at cs1 p1
    have hlt : (c + 1) % secs.length < secs.length := Nat.mod_lt _ (by omega)
    have hwf1 : TrackWF (trackAt u1 tp) secs := by
      unfold trackAt
      rw [d1]
      exact hwf
    obtain ⟨u, e2, tr2, pos2, p2, g2, rr2, st2, d2⟩ := ih u1 ((c + 1) % secs.length)
      (by rw [cs1]; dsimp only; rw [hg]; push_cast; omega) (by rw [cs1])
      (by rw [cs1]; exact htp) hwf1 (by rw [cs1]) hlt (by rw [cs1]) p1
    have hmod : ∀ k : Nat, ((c + 1) % secs.length + k) % secs.length =
        (c + (k + 1)) % secs.length := by
      intro k
      rw [Nat.mod_add_mod]
      congr 1
      omega
    refine ⟨u, ?_, ?_, ?_, ?_, g2, rr2, st2, by rw [d2, d1]⟩
    · rw [show 4 * (m + 1 + 1) = 4 + 4 * (m + 1) by ring, iterate_add, e1]
      exact e2
    · rw [show 4 * (m + 1 + 1) = 4 + 4 * (m + 1) by ring,
        dataTrace_add _ _ _ _ _ _ _ e1 tr1 tr2]
      rw [List.range_succ_eq_map (m + 1), List.flatMap_cons, List.flatMap_map]
      simp only [Function.comp, hmod]
      have e0 : idFieldAt secs ((c + 0) % secs.length) = [(secs[c]).IDField.LogicalTrack,
          (secs[c]).IDField.HeadNum, (secs[c]).IDField.LogicalSector,
          (secs[c]).IDField.SectorLength] := by
        rw [Nat.add_zero, Nat.mod_eq_of_lt hcN]
        exact idFieldAt_eq secs c _ hsec
      rw [e0]
    · intro k hk
      cases k with
      | zero => exact ⟨t, rfl, by rw [hpos, Nat.add_zero, Nat.mod_eq_of_lt hcN]⟩
      | succ k =>
        obtain ⟨w, ew, pw⟩ := pos2 k (by omega)
        refine ⟨w, ?_, by rw [pw, hmod]⟩
        rw [show 4 * (k + 1) = 4 + 4 * k by ring, iterate_add, e1]
        exact ew
    · rw [p2, hmod]

/-- The state `DoReadIDCommand` leaves when the drive is selected and the track
has a sector array. -/
theorem ReadID_setup (s sa : State) (tp : TrackPtr) (secs : List SectorType)
    (hsel : 0 ≤ GetSelectedDrive (DoSelects s))
    (ht : GetTrackPtrPhysical (Param s 0) { DoSelects s with FSDPhysicalTrack := Param s 0 } =
      (some tp, sa))
    (hwf : TrackWF (trackAt s tp) secs) (hN1 : 1 ≤ secs.length) :
    ∃ s1, DoReadIDCommand s = some s1 ∧
      s1.CommandStatus = { s.CommandStatus with
        TrackAddr := (Param s 0 : Int), CurrentSector := 0,
        SectorsToGo := if Param s 2 = 0 then 0x20 else (Param s 2 : Int),
        CurrentSectorPtr := some ⟨tp, 0⟩, CurrentTrackPtr := some tp, ByteWithinSector := 0 } ∧
      s1.DiscStatus = s.DiscStatus ∧ s1.PositionInTrack = 0 ∧
      s1.FDCState.StatusReg = STATUS_REG_COMMAND_BUSY := by
  have hnot : ¬ GetSelectedDrive (DoSelects s) < 0 := by omega
  have hsa : sa = { DoSelects s with PositionInTrack := 0, FSDPhysicalTrack := Param s 0 } := by
    unfold GetTrackPtrPhysical at ht
    dsimp only at ht
    rw [if_neg (by exact hnot)] at ht
    exact (Prod.mk.inj ht).2.symm
  have hD : sa.DiscStatus = s.DiscStatus := by rw [hsa]; rfl
  have hP : sa.PositionInTrack = 0 := by rw [hsa]
  have h0 : secs[0]? = some secs[0] := List.getElem?_eq_getElem (by omega)
  have hrec : (secs[0]).RecordNum = 0 := hwf.2.2 0 (by omega)
  have hta : trackAt sa tp = trackAt s tp := by
    unfold trackAt
    rw [hD]
  unfold DoReadIDCommand
  dsimp only [DoLoadHead]
  rw [if_neg hnot]
  rw [show Param (DoSelects s) 0 = Param s 0 from rfl, ht]
  dsimp only
  have hg : GetSectorPtrForTrackID tp
      (setCommandStatus (fun c => { c with CurrentTrackPtr := some tp }) sa) =
      some (some ⟨tp, 0⟩) := by
    unfold GetSectorPtrForTrackID
    rw [show trackAt (setCommandStatus (fun c => { c with CurrentTrackPtr := some tp }) sa) tp =
      trackAt s tp from hta, hwf.1]
    dsimp only
    rw [show (setCommandStatus (fun c => { c with CurrentTrackPtr := some tp })
      sa).PositionInTrack = 0 from hP, h0]
    dsimp only
    rw [hrec]
  rw [hg]
  dsimp only
  have hPa : sa.FDCState.Params = s.FDCState.Params := by rw [hsa]; rfl
  have hCa : sa.CommandStatus = s.CommandStatus := by rw [hsa]; rfl
  by_cases h2 : Param s 2 = 0
  · have h2u := h2
    simp only [Param] at h2u
    rw [if_pos h2]
    refine ⟨_, rfl, ?_, ?_, ?_, ?_⟩
    · simp [UpdateNMIStatus_eq, setStatus, SetTrigger, setCommandStatus, Param, hPa, hCa, h2u]
    · simp [UpdateNMIStatus_eq, setStatus, SetTrigger, setCommandStatus, Param, hPa, hCa, h2u, hD]
    · simp [UpdateNMIStatus_eq, setStatus, SetTrigger, setCommandStatus, Param, hPa, hCa, h2u, hP]
    · simp [UpdateNMIStatus_eq, setStatus, SetTrigger, setCommandStatus, Param, hPa, hCa, h2u]
  · have h2u := h2
    simp only [Param] at h2u
    rw [if_neg h2]
    refine ⟨_, rfl, ?_, ?_, ?_, ?_⟩
    · simp [UpdateNMIStatus_eq, setStatus, SetTrigger, setCommandStatus, Param, hPa, hCa, h2u]
    · simp [UpdateNMIStatus_eq, setStatus, SetTrigger, setCommandStatus, Param, hPa, hCa, h2u, hD]
    · simp [UpdateNMIStatus_eq, setStatus, SetTrigger, setCommandStatus, Param, hPa, hCa, h2u, hP]
    · simp [UpdateNMIStatus_eq, setStatus, SetTrigger, setCommandStatus, Param, hPa, hCa, h2u]

theorem ReadIDInterrupt_pickup (t : State) (h : t.CommandStatus.SectorsToGo < 0) :
    ∃ v, ReadIDInterrupt t = some v ∧ v.FDCState.ResultReg = t.FDCState.ResultReg ∧
      v.FDCState.DataReg = t.FDCState.DataReg ∧
      v.FDCState.StatusReg = STATUS_REG_RESULT_FULL ||| STATUS_REG_INTERRUPT_REQUEST ∧
      v.PositionInTrack = t.PositionInTrack := by
  unfold ReadIDInterrupt
  rw [if_pos h]
  refine ⟨_, rfl, ?_, ?_, ?_, ?_⟩ <;>
    simp [pickUpResult, UpdateNMIStatus_eq, setStatus]

/-- The run of a Read ID on a well-formed track of `N ≥ 1` sectors. -/
theorem ReadID_run (s sa : State) (tp : TrackPtr) (secs : List SectorType)
    (hsel : 0 ≤ GetSelectedDrive (DoSelects s))
    (ht : GetTrackPtrPhysical (Param s 0) { DoSelects s with FSDPhysicalTrack := Param s 0 } =
      (some tp, sa))
    (hwf : TrackWF (trackAt s tp) secs) (hN1 : 1 ≤ secs.length) (hN : secs.length ≤ 256) :
    ∃ (s1 u v : State), DoReadIDCommand s = some s1 ∧
      s1.FDCState.StatusReg = STATUS_REG_COMMAND_BUSY ∧
      dataTrace ReadIDInterrupt (4 * (if Param s 2 = 0 then 0x20 else Param s 2)) s1 =
        some ((List.range (if Param s 2 = 0 then 0x20 else Param s 2)).flatMap
          (fun k => idFieldAt secs (k % secs.length))) ∧
      (∀ k : Nat, k < (if Param s 2 = 0 then 0x20 else Param s 2) →
        ∃ w, iterate ReadIDInterrupt (4 * k) s1 = some w ∧
          w.PositionInTrack = k % secs.length) ∧
      iterate ReadIDInterrupt (4 * (if Param s 2 = 0 then 0x20 else Param s 2)) s1 = some u ∧
      u.PositionInTrack = ((if Param s 2 = 0 then 0x20 else Param s 2) - 1) % secs.length ∧
      u.CommandStatus.SectorsToGo = -1 ∧ u.FDCState.ResultReg = 0 ∧
      ReadIDInterrupt u = some v ∧ v.FDCState.ResultReg = 0 ∧
      v.FDCState.StatusReg = STATUS_REG_RESULT_FULL ||| STATUS_REG_INTERRUPT_REQUEST ∧
      v.PositionInTrack = ((if Param s 2 = 0 then 0x20 else Param s 2) - 1) % secs.length := by
  obtain ⟨s1, e1, c1, d1, p1, st1⟩ := ReadID_setup s sa tp secs hsel ht hwf hN1
  have hwf1 : TrackWF (trackAt s1 tp) secs := by
    unfold trackAt
    rw [d1]
    exact hwf
  generalize hn : (if Param s 2 = 0 then 0x20 else Param s 2) = n at *
  have hn1 : 1 ≤ n := by
    rw [← hn]
    split <;> omega
  obtain ⟨m, rfl⟩ : ∃ m, n = m + 1 := ⟨n - 1, by omega⟩
  have hstg : s1.CommandStatus.SectorsToGo = (m : Int) + 1 := by
    rw [c1]
    dsimp only
    by_cases h2 : Param s 2 = 0
    · rw [if_pos h2] at hn ⊢
      omega
    · rw [if_neg h2] at hn ⊢
      omega
  obtain ⟨u, e2, tr, pos, p2, g2, rr, st2, d2⟩ := ReadID_fields secs tp hN m s1 0 hstg
    (by rw [c1]) (by rw [c1]) hwf1 (by rw [c1]; rfl) (by omega) (by rw [c1]) p1
  obtain ⟨v, ev, vr, vd, vs, vp⟩ := ReadIDInterrupt_pickup u (by rw [g2]; decide)
  refine ⟨s1, u, v, e1, st1, ?_, ?_, e2, ?_, g2, rr, ev, by rw [vr, rr], vs, ?_⟩
  · rw [tr]
    simp only [Nat.zero_add]
  · intro k hk
    obtain ⟨w, ew, pw⟩ := pos k (by omega)
    exact ⟨w, ew, by rw [pw, Nat.zero_add]⟩
  · rw [p2, Nat.zero_add, Nat.add_sub_cancel]
  · rw [vp, p2, Nat.zero_add, Nat.add_sub_cancel]

/-- C20 (with the position stated per field): Read ID with a drive selected, on
a well-formed track of `1 ≤ N ≤ 256` sectors, with field count `n` taken from
the third parameter (0 meaning 0x20): setup arms the transfer; the next `4 × n`
ticks load into the data register the ID fields (logical track, head, logical
sector, size code) of the sectors at the physical indices `k % N`, for
`k = 0 … n - 1`; `PositionInTrack` is `k % N` when field `k` begins, and
`(n - 1) % N` after the last field and after the tick that makes the result
available; the command ends with result 0 and status
`result_full|interrupt_request`. -/
theorem ReadID_delivers (s sa : State) (tp : TrackPtr) (secs : List SectorType)
    (hsel : 0 ≤ GetSelectedDrive (DoSelects s))
    (ht : GetTrackPtrPhysical (Param s 0) { DoSelects s with FSDPhysicalTrack := Param s 0 } =
      (some tp, sa))
    (hwf : TrackWF (trackAt s tp) secs) (hN1 : 1 ≤ secs.length) (hN : secs.length ≤ 256) :
    ∃ (s1 u v : State), DoReadIDCommand s = some s1 ∧
      s1.FDCState.StatusReg = STATUS_REG_COMMAND_BUSY ∧
      dataTrace ReadIDInterrupt (4 * (if Param s 2 = 0 then 0x20 else Param s 2)) s1 =
        some ((List.range (if Param s 2 = 0 then 0x20 else Param s 2)).flatMap
          (fun k => idFieldAt secs (k % secs.length))) ∧
      (∀ k : Nat, k < (if Param s 2 = 0 then 0x20 else Param s 2) →
        ∃ w, iterate ReadIDInterrupt (4 * k) s1 = some w ∧
          w.PositionInTrack = k % secs.length) ∧
      iterate ReadIDInterrupt (4 * (if Param s 2 = 0 then 0x20 else Param s 2)) s1 = some u ∧
      u.PositionInTrack = ((if Param s 2 = 0 then 0x20 else Param s 2) - 1) % secs.length ∧
      u.CommandStatus.SectorsToGo = -1 ∧ u.FDCState.ResultReg = 0 ∧
      ReadIDInterrupt u = some v ∧ v.FDCState.ResultReg = 0 ∧
      v.FDCState.StatusReg = STATUS_REG_RESULT_FULL ||| STATUS_REG_INTERRUPT_REQUEST ∧
      v.PositionInTrack = ((if Param s 2 = 0 then 0x20 else Param s 2) - 1) % secs.length :=
  ReadID_run s sa tp secs hsel ht hwf hN1 hN

theorem ReadID_delivers_witness :
    ∃ s1, DoReadIDCommand (latched 0x5B [0, 0, 4] lookupState) = some s1 ∧
      dataTrace ReadIDInterrupt 16 s1 =
        some [0, 0, 5, 1, 0, 0, 7, 1, 0, 0, 5, 1, 0, 0, 5, 1] := by
  obtain ⟨s1, u, v, h1, _, h3, _⟩ :=
    ReadID_delivers (latched 0x5B [0, 0, 4] lookupState)
      (GetTrackPtrPhysical 0 { DoSelects (latched 0x5B [0, 0, 4] lookupState) with
        FSDPhysicalTrack := 0 }).2 ⟨0, 0, 0⟩ threeSectors
      (by decide) (Prod.ext (by decide) rfl) (TrackWF_lookupState _ rfl) (by decide) (by decide)
  exact ⟨s1, h1, h3⟩

/-- C20, counterexample to "position_in_track advances by one per field": on
`lookupState` (three sectors per track) a Read ID of one field delivers the
four bytes of the field of the sector at index 0 and ends with result 0 and
`PositionInTrack = 0`, not 1; a Read ID of two fields ends with
`PositionInTrack = 1`, not 2. The position advances between fields, not after
the last one. -/
theorem ReadID_position_after_last :
    ((hostWrites [(0, 0x5B), (1, 0), (1, 0), (1, 1)] lookupState).bind
      (dataTrace Disc8271_poll_real 4)) = some [0, 0, 5, 1] ∧
    ((hostWrites [(0, 0x5B), (1, 0), (1, 0), (1, 1)] lookupState).bind
      (iterate Disc8271_poll_real 5)).map (fun s =>
        (s.FDCState.ResultReg, s.FDCState.StatusReg, s.PositionInTrack)) = some (0, 0x18, 0) ∧
    ((hostWrites [(0, 0x5B), (1, 0), (1, 0), (1, 2)] lookupState).bind
      (iterate Disc8271_poll_real 9)).map (fun s =>
        (s.FDCState.ResultReg, s.FDCState.StatusReg, s.PositionInTrack)) = some (0, 0x18, 1) := by
  refine ⟨?_, ?_, ?_⟩ <;> decide

/-! ## Error codes of a failed track resolution -/

theorem DoErr_fields (e : Nat) (s : State) :
    (DoErr e s).CommandStatus.NextInterruptIsErr = e ∧
    (DoErr e s).FDCState.StatusReg = STATUS_REG_COMMAND_BUSY ∧
    (DoErr e s).CommandStatus.CurrentTrackPtr = s.CommandStatus.CurrentTrackPtr ∧
    (DoErr e s).Disc8271Trigger = some (s.TotalCycles + 50) ∧
    (DoErr e s).NMIFloppy = false := by
  refine ⟨?_, ?_, ?_, ?_, ?_⟩ <;>
    simp [DoErr, UpdateNMIStatus_eq, setStatus, SetTrigger, STATUS_REG_COMMAND_BUSY,
      STATUS_REG_INTERRUPT_REQUEST, (by decide : (128 : Nat) &&& 8 = 0)]

theorem read128ResultValue_eq_table (E : Nat) (R L : Int) (O : Bool) :
    read128ResultValue E R L O = read128Table E R L O := by
  unfold read128ResultValue read128Table
  simp only [RESULT_REG_SUCCESS, RESULT_REG_DATA_CRC_ERROR, RESULT_REG_DELETED_DATA_CRC_ERROR]
  by_cases h0 : E = 0
  · subst h0; cases O <;> simp
  by_cases h20 : E = 0x20
  · subst h20; cases O <;> simp
  by_cases he1 : E = 0xE1
  · subst he1; cases O <;> simp <;> split_ifs <;> simp_all
  cases O <;> simp [h0, h20, he1]

/-- C32 (with the table of the 128-byte tick): a `Read128Interrupt` tick of a
transfer in progress on the sector the transfer state designates leaves in the
result register the value of `read128Table` for the sector's stored error and
real size, the sector length of the transfer and the over-read flag; the tick
returns whenever the byte index is inside the sector's buffer and the current
track is well formed. That value is the one the read decision table gives when
the over-read flag is clear, the stored error is not 0xE0 and the sector is not
one with stored error 0x2E whose declared ID size is the sector length. -/
theorem Read128Interrupt_result (s : State) (sec : SectorType)
    (hgo : 0 ≤ s.CommandStatus.SectorsToGo) (hsec : currentSector s = some sec) :
    (∀ s', Read128Interrupt s = some s' →
      s'.FDCState.ResultReg =
        read128Table sec.Error sec.RealSectorSize s.CommandStatus.SectorLength
          s.SectorOverRead) ∧
    (∀ data tp secs, sec.Data = some data → 0 ≤ s.CommandStatus.ByteWithinSector →
      s.CommandStatus.ByteWithinSector < data.length →
      s.CommandStatus.CurrentTrackPtr = some tp → TrackWF (trackAt s tp) secs →
      s.PositionInTrack ≤ secs.length → s.PositionInTrack < 256 →
      ∃ s', Read128Interrupt s = some s') ∧
    (s.SectorOverRead = false → sec.Error ≠ 0xE0 →
      ¬ (sec.Error = 0x2E ∧ sec.IDSiz = s.CommandStatus.SectorLength) →
      read128Table sec.Error sec.RealSectorSize s.CommandStatus.SectorLength s.SectorOverRead =
        readResultTable sec.Error sec.RealSectorSize sec.IDSiz s.CommandStatus.SectorLength
          s.SectorOverRead) := by
  refine ⟨?_, ?_, ?_⟩
  · intro s' h
    unfold Read128Interrupt at h
    simp only [show ¬ s.CommandStatus.SectorsToGo < 0 by omega, if_false] at h
    cases hl : loadDataByte s with
    | none => simp [hl] at h
    | some x =>
      obtain ⟨sec1, s1⟩ := x
      simp only [hl] at h
      have hsec1 : sec1 = sec ∧ s1.CommandStatus.SectorLength = s.CommandStatus.SectorLength ∧
          s1.SectorOverRead = s.SectorOverRead := by
        unfold loadDataByte at hl
        rw [hsec] at hl
        dsimp only at hl
        split at hl
        · simp at hl
        · split at hl
          · split at hl
            · simp at hl
            · simp at hl
              obtain ⟨h1, h2⟩ := hl
              subst h1 h2
              simp [setCommandStatus, setData]
          · simp at hl
      obtain ⟨e1, e2, e3⟩ := hsec1
      subst e1
      rw [(sectorRead_regs _ _ h).1]
      show read128ResultValue _ _ _ _ = _
      rw [read128ResultValue_eq_table, e2, e3]
  · intro data tp secs hd h0 hlt htp hwf hp hb
    unfold Read128Interrupt
    simp only [show ¬ s.CommandStatus.SectorsToGo < 0 by omega, if_false,
      loadDataByte_eq s sec data hsec hd h0 hlt]
    apply sectorRead_isSome _ tp secs
    · simpa [read128Result, setResult, setCommandStatus, setData] using htp
    · simpa [read128Result, setResult, setCommandStatus, setData, trackAt] using hwf
    · simpa [read128Result, setResult, setCommandStatus, setData] using hp
    · simpa [read128Result, setResult, setCommandStatus, setData] using hb
  · intro hO hE0 h2E
    rw [hO]
    unfold read128Table readResultTable
    by_cases h0 : sec.Error = 0
    · simp [h0]
    by_cases h20 : sec.Error = 0x20
    · simp [h20]
    by_cases h2e : sec.Error = 0x2E
    · have hI : ¬ sec.IDSiz = s.CommandStatus.SectorLength := fun h => h2E ⟨h2e, h⟩
      simp [h2e, hI]
    by_cases he1 : sec.Error = 0xE1
    · simp [he1]
    by_cases h0e : sec.Error = 0x0E
    · simp [h0e]
    simp [h0, h20, h2e, he1, hE0, h0e]

theorem Read128Interrupt_result_witness :
    ∃ s', Read128Interrupt readState = some s' ∧ s'.FDCState.ResultReg = 0 := by
  have h := Read128Interrupt_result readState (mkSector 0 5 0 128 0 (List.replicate 128 1))
    (by decide) rfl
  obtain ⟨s', hs'⟩ := h.2.1 (List.replicate 128 1) ⟨0, 0, 0⟩ threeSectors rfl (by decide)
    (by decide) rfl ⟨rfl, rfl, by decide⟩ (by decide) (by decide)
  exact ⟨s', hs', (h.1 s' hs').trans (by decide)⟩

/-- C32, counterexample: on a 128-byte sector with stored error 0xE0 the
128-byte Read (0x56) leaves 0xE0 in the result register after its first tick
and posts it at the end, where the read decision table gives 0x00 for the same
inputs (error 0xE0, real and declared size 128, length 128, no over-read), and
the variable-length Read (0x53) of the same sector ends with result 0x00. -/
theorem Read128_differs_on_E0 :
    ((hostWrites [(0, 0x56), (1, 0), (1, 0)] errorE0State).bind Disc8271_poll_real).map
      (fun s => (s.FDCState.ResultReg, s.CommandStatus.SectorLength, s.SectorOverRead)) =
      some (0xE0, 128, false) ∧
    ((hostWrites [(0, 0x56), (1, 0), (1, 0)] errorE0State).bind
      (iterate Disc8271_poll_real 129)).map
      (fun s => (s.FDCState.ResultReg, s.FDCState.StatusReg)) = some (0xE0, 0x18) ∧
    readResultTable 0xE0 128 128 128 false = 0x00 ∧
    ((hostWrites [(0, 0x53), (1, 0), (1, 0), (1, 0x01)] errorE0State).bind
      (iterate Disc8271_poll_real 129)).map
      (fun s => (s.FDCState.ResultReg, s.FDCState.StatusReg)) = some (0x00, 0x18) := by
  refine ⟨?_, ?_, ?_, ?_⟩ <;> decide

/-! ## Reads past a sector buffer -/

/-- C35, failing run: the FSD image `mixedImage` (track 0 with logical sector 0
of 256 bytes and logical sector 1 of 128 bytes) is loaded into drive 0 and a
variable-length Read of two sectors of 256 bytes from sector 0 is issued. The
length is clamped against the first sector only. After 384 ticks the transfer
is inside the second sector with byte index 128, sector length 256, and the
current sector has real size 128 and a buffer of 128 bytes; the next tick
indexes the buffer at 128, outside it, and does not return normally. -/
theorem Read_past_second_sector :
    (((LoadFSDDiscImage "m.fsd" 0 (withFile "m.fsd" mixedImage powerOn)).bind
      (hostWrites [(0, 0x53), (1, 0), (1, 0), (1, 0x22)])).bind
      (iterate Disc8271_poll_real 384)).map (fun s =>
        (s.CommandStatus.ByteWithinSector, s.CommandStatus.SectorLength,
         s.CommandStatus.SectorsToGo,
         ((currentSector s).map (fun sec => sec.IDField.LogicalSector)).getD 0,
         ((currentSector s).map (fun sec => sec.RealSectorSize)).getD 0,
         (((currentSector s).bind (fun sec => sec.Data)).getD []).length)) =
      some (128, 256, 1, 1, 128, 128) ∧
    (((LoadFSDDiscImage "m.fsd" 0 (withFile "m.fsd" mixedImage powerOn)).bind
      (hostWrites [(0, 0x53), (1, 0), (1, 0), (1, 0x22)])).bind
      (iterate Disc8271_poll_real 385)).isSome = false := by
  refine ⟨?_, ?_⟩ <;> decide

/-! ## The status after a read tick -/

theorem sectorRead_cases (t s' : State) (h : sectorRead t = some s') :
    ((s'.CommandStatus.CurrentSectorPtr ≠ none ∨
        s'.CommandStatus.CurrentSectorPtr = t.CommandStatus.CurrentSectorPtr) ∧
      (s'.FDCState.StatusReg = 0x8C ∨ s'.FDCState.StatusReg = 0x9C) ∧
      s'.NMIFloppy = true) ∨
    (s'.CommandStatus.CurrentSectorPtr = none ∧ s'.FDCState.StatusReg = 0x80 ∧
      s'.NMIFloppy = false ∧
      s'.CommandStatus.NextInterruptIsErr = RESULT_REG_SECTOR_NOT_FOUND ∧
      t.CommandStatus.SectorLength ≤ t.CommandStatus.ByteWithinSector ∧
      t.CommandStatus.SectorsToGo ≠ 1) := by
  unfold sectorRead at h
  dsimp only at h
  split at h
  · rename_i hge
    split at h
    · rename_i hne
      split at h
      · simp at h
      · rename_i t2 hn
        split at h
        · rename_i hnone
          simp only [Option.some.injEq] at h
          subst h
          right
          refine ⟨?_, ?_, ?_, ?_, hge, ?_⟩
          · simpa [DoErr, UpdateNMIStatus_eq, setStatus, SetTrigger] using hnone
          · exact (DoErr_fields _ _).2.1
          · exact (DoErr_fields _ _).2.2.2.2
          · exact (DoErr_fields _ _).1
          · simp only [setCommandStatus, ne_eq] at hne
            omega
        · rename_i hsome
          simp only [Option.some.injEq] at h
          subst h
          left
          refine ⟨Or.inl ?_, Or.inl ?_, ?_⟩
          · simpa [notLastByte, UpdateNMIStatus_eq, setStatus, SetTrigger] using hsome
          · simp [notLastByte, UpdateNMIStatus_eq, setStatus, SetTrigger, STATUS_REG_COMMAND_BUSY,
              STATUS_REG_INTERRUPT_REQUEST, STATUS_REG_NON_DMA_MODE]
          · simp [notLastByte, UpdateNMIStatus_eq, setStatus, SetTrigger, STATUS_REG_COMMAND_BUSY,
              STATUS_REG_INTERRUPT_REQUEST, STATUS_REG_NON_DMA_MODE]
    · simp only [Option.some.injEq] at h
      subst h
      left
      refine ⟨Or.inr ?_, Or.inr ?_, ?_⟩
      · simp [UpdateNMIStatus_eq, setStatus, SetTrigger, setCommandStatus]
      · simp [UpdateNMIStatus_eq, setStatus, SetTrigger, setCommandStatus, STATUS_REG_COMMAND_BUSY,
          STATUS_REG_INTERRUPT_REQUEST, STATUS_REG_NON_DMA_MODE, STATUS_REG_RESULT_FULL]
      · simp [UpdateNMIStatus_eq, setStatus, SetTrigger, setCommandStatus, STATUS_REG_COMMAND_BUSY,
          STATUS_REG_INTERRUPT_REQUEST, STATUS_REG_NON_DMA_MODE, STATUS_REG_RESULT_FULL]
  · simp only [Option.some.injEq] at h
    subst h
    left
    refine ⟨Or.inr ?_, Or.inl ?_, ?_⟩
    · simp [notLastByte, UpdateNMIStatus_eq, setStatus, SetTrigger]
    · simp [notLastByte, UpdateNMIStatus_eq, setStatus, SetTrigger, STATUS_REG_COMMAND_BUSY,
        STATUS_REG_INTERRUPT_REQUEST, STATUS_REG_NON_DMA_MODE]
    · simp [notLastByte, UpdateNMIStatus_eq, setStatus, SetTrigger, STATUS_REG_COMMAND_BUSY,
        STATUS_REG_INTERRUPT_REQUEST, STATUS_REG_NON_DMA_MODE]

/-- C36 (with the exception): a `ReadInterrupt` tick of a transfer in progress
that returns has loaded a byte of the current sector. Either the sector
pointer is still set afterwards, and then the status register is 0x8C
(`command_busy|interrupt_request|non_dma_mode`) or 0x9C (the same with
`result_full`) and the NMI bit is set; or the byte completed a sector that was
not the last of the transfer and the lookup of the next logical sector found
nothing, and then the sector pointer is null, the status register is
`command_busy` alone (0x80), the NMI bit is clear and `sector_not_found` is
deferred: the byte just loaded is not signalled. -/
theorem ReadInterrupt_signals (s s' : State) (hgo : 0 ≤ s.CommandStatus.SectorsToGo)
    (h : ReadInterrupt s = some s') :
    (s'.CommandStatus.CurrentSectorPtr ≠ none ∧
      (s'.FDCState.StatusReg = 0x8C ∨ s'.FDCState.StatusReg = 0x9C) ∧
      s'.NMIFloppy = true) ∨
    (s'.CommandStatus.CurrentSectorPtr = none ∧ s'.FDCState.StatusReg = 0x80 ∧
      s'.NMIFloppy = false ∧
      s'.CommandStatus.NextInterruptIsErr = RESULT_REG_SECTOR_NOT_FOUND ∧
      s.CommandStatus.SectorLength ≤ s.CommandStatus.ByteWithinSector + 1 ∧
      s.CommandStatus.SectorsToGo ≠ 1) := by
  unfold ReadInterrupt at h
  simp only [show ¬ s.CommandStatus.SectorsToGo < 0 by omega, if_false] at h
  cases hl : loadDataByte s with
  | none => simp [hl] at h
  | some x =>
    obtain ⟨sec1, s1⟩ := x
    simp only [hl] at h
    have hs1 : s1.CommandStatus = { s.CommandStatus with
        ByteWithinSector := s.CommandStatus.ByteWithinSector + 1 } ∧
        s.CommandStatus.CurrentSectorPtr ≠ none := by
      unfold loadDataByte currentSector at hl
      split at hl
      · simp at hl
      · rename_i sec hcur
        split at hcur
        · simp at hcur
        · rename_i p hp
          split at hl
          · simp at hl
          · split at hl
            · split at hl
              · simp at hl
              · simp at hl
                obtain ⟨_, h2⟩ := hl
                subst h2
                exact ⟨by simp [setCommandStatus, setData], by rw [hp]; simp⟩
            · simp at hl
    obtain ⟨hc1, hptr⟩ := hs1
    obtain ⟨hc, _, _⟩ := readResult_frame sec1 s1
    rcases sectorRead_cases _ _ h with ⟨hp, hst, hn⟩ | ⟨hp, hst, hn, he, hlen, hg⟩
    · left
      refine ⟨?_, hst, hn⟩
      rcases hp with hp | hp
      · exact hp
      · rw [hp, hc, hc1]
        exact hptr
    · right
      rw [hc, hc1] at hlen hg
      exact ⟨hp, hst, hn, he, hlen, hg⟩

theorem ReadInterrupt_signals_witness :
    ∃ s', ReadInterrupt readState = some s' ∧ s'.FDCState.StatusReg = 0x8C := by
  refine ⟨(ReadInterrupt readState).get (by decide), (Option.some_get _).symm, ?_⟩
  rcases ReadInterrupt_signals readState ((ReadInterrupt readState).get (by decide)) (by decide)
    (Option.some_get _).symm with ⟨_, h | h, _⟩ | ⟨h, _⟩
  · exact h
  · exact absurd h (by decide)
  · exact absurd h (by decide)

/-- C36, counterexample: on `rampState` (one 128-byte sector with logical ID 0
and data 0, 1, …, 127 on every track) a Read of two sectors of 128 bytes from
sector 0 delivers the first 127 bytes with status 0x8C; the 128th tick loads
the last byte, 127, into the data register and, sector 1 not existing, leaves
status 0x80 with the NMI bit clear, so the byte is not signalled; the tick
after posts `sector_not_found`. -/
theorem Read_last_byte_unsignalled :
    ((hostWrites [(0, 0x53), (1, 0), (1, 0), (1, 0x02)] rampState).bind
      (iterate Disc8271_poll_real 127)).map (fun s =>
        (s.FDCState.DataReg, s.FDCState.StatusReg, s.NMIFloppy)) = some (126, 0x8C, true) ∧
    ((hostWrites [(0, 0x53), (1, 0), (1, 0), (1, 0x02)] rampState).bind
      (iterate Disc8271_poll_real 128)).map (fun s =>
        (s.FDCState.DataReg, s.FDCState.StatusReg, s.NMIFloppy)) = some (127, 0x80, false) ∧
    ((hostWrites [(0, 0x53), (1, 0), (1, 0), (1, 0x02)] rampState).bind
      (iterate Disc8271_poll_real 129)).map (fun s =>
        (s.FDCState.DataReg, s.FDCState.ResultReg, s.FDCState.StatusReg)) =
      some (127, 0x18, 0x18) := by
  refine ⟨?_, ?_, ?_⟩ <;> decide

/-! ## The ID fields the simple loaders create -/

/-- C39, failing input: every sector the sector loop of the SSD and DSD loaders
creates has logical track, head and logical sector as passed, record number
its index, real size 256 and error 0, but its size code is 0, not 1: the
assignment `IDField.SectorLength = 256` stores 256 in an `unsigned char`. A
Read ID on track 0 of an SSD image loaded into drive 0 delivers size code 0 in
every field. -/
theorem simple_loader_size_code :
    (∀ (T H n start : Nat) (rd : List Nat) (i : Nat) (sec : SectorType),
      (loadSimpleSectors T H n start rd).1[i]? = some sec →
        sec.IDField.SectorLength = 0 ∧ sec.IDField.LogicalTrack = T % 256 ∧
        sec.IDField.HeadNum = H % 256 ∧ sec.IDField.LogicalSector = (start + i) % 256 ∧
        sec.RecordNum = (start + i) % 256 ∧ sec.RealSectorSize = 256 ∧ sec.Error = 0) ∧
    (((LoadSimpleDiscImage "a.ssd" 0 0 80 (withFile "a.ssd" dsdImage powerOn)).bind
      (hostWrites [(0, 0x5B), (1, 0), (1, 0), (1, 2)])).bind
      (dataTrace Disc8271_poll_real 8)) = some [0, 0, 0, 0, 0, 0, 1, 0] ∧
    (((LoadSimpleDSDiscImage "a.dsd" 0 80 (withFile "a.dsd" dsdImage powerOn)).bind
      (hostWrites [(0, 0x5B), (1, 0), (1, 0), (1, 2)])).bind
      (dataTrace Disc8271_poll_real 8)) = some [0, 0, 0, 0, 0, 0, 1, 0] := by
  refine ⟨?_, by decide, by decide⟩
  intro T H n
  induction n with
  | zero =>
    intro start rd i sec h
    simp [loadSimpleSectors] at h
  | succ n ih =>
    intro start rd i sec h
    unfold loadSimpleSectors at h
    dsimp only at h
    cases i with
    | zero =>
      simp only [List.getElem?_cons_zero, Option.some.injEq] at h
      subst h
      simp [RESULT_REG_SUCCESS]
    | succ i =>
      simp only [List.getElem?_cons_succ] at h
      have := ih (start + 1) _ i sec h
      rw [show start + (i + 1) = start + 1 + i by omega]
      exact this

/-! ## Special registers: write then read -/

theorem testBit_255 (i : Nat) : Nat.testBit 255 i = decide (i < 8) :=
  Nat.testBit_two_pow_sub_one 8 i

theorem testBit_of_byte (v i : Nat) (hv : v < 256) (hi : 8 ≤ i) : v.testBit i = false := by
  apply Nat.testBit_lt_two_pow
  have : 2 ^ 8 ≤ 2 ^ i := Nat.pow_le_pow_right (by decide) hi
  omega

theorem scanCount_msb (sc v : Nat) (hv : v < 256) :
    ((((sc &&& 0xff) ||| (v <<< 8)) >>> 8) &&& 0xff) = v := by
  apply Nat.eq_of_testBit_eq
  intro i
  rw [Nat.testBit_and, Nat.testBit_shiftRight, Nat.testBit_or, Nat.testBit_and,
    Nat.testBit_shiftLeft, testBit_255, testBit_255]
  by_cases hi : i < 8
  · have h1 : ¬ 8 + i < 8 := by omega
    have h2 : 8 + i ≥ 8 := by omega
    simp [hi, h1, h2]
  · simp [hi, testBit_of_byte v i hv (by omega)]

theorem scanCount_lsb (sc v : Nat) (hv : v < 256) :
    (((sc &&& 0xff00) ||| v) &&& 0xff) = v := by
  apply Nat.eq_of_testBit_eq
  intro i
  rw [Nat.testBit_and, Nat.testBit_or, Nat.testBit_and,
    show (0xff00 : Nat) = 255 <<< 8 from rfl, Nat.testBit_shiftLeft, testBit_255, testBit_255]
  by_cases hi : i < 8
  · have : ¬ i ≥ 8 := by omega
    simp [hi, this]
  · simp [hi, testBit_of_byte v i hv (by omega)]

/-- C37 (with the drive-control output port excepted): Write Special Register
with register `r` and byte `v`, followed by Read Special Register of `r` under
any command byte `c2`, returns, sets `result_full` and leaves in the result
register `v` for the scan sector, scan count LSB and MSB, mode, current-track,
drive-control input port and bad-track registers; for the drive-control output
port (0x23) it leaves `v` with bits 6 and 7 replaced by the drive-select bits
of the read command byte, which `DoSelects` writes into the port before the
register is read. -/
theorem special_write_then_read (s : State) (c2 r v : Nat) (p : Nat → Nat)
    (hr : Param s 0 = r) (hv : Param s 1 = v) (hv256 : v < 256) (hp : p 0 = r)
    (hmem : r ∈ [0x06, 0x13, 0x14, 0x17, 0x12, 0x1A, 0x23, 0x22, 0x10, 0x11, 0x18, 0x19]) :
    ∃ s1 s2, DoWriteSpecialCommand s = some s1 ∧
      DoReadSpecialCommand (setFDC (fun f => { f with Command := c2, Params := p }) s1) =
        some s2 ∧
      resultFull s2 = true ∧
      s2.FDCState.ResultReg =
        if r = 0x23 then
          ((v &&& 0x3f) ||| (if c2 &&& 0x40 ≠ 0 then 0x40 else 0)) |||
            (if c2 &&& 0x80 ≠ 0 then 0x80 else 0)
        else v := by
  have hr0 : Param (DoSelects s) 0 = r := hr
  have hv1 : Param (DoSelects s) 1 = v := hv
  simp only [List.mem_cons, List.mem_singleton, List.not_mem_nil, or_false] at hmem
  rcases hmem with h | h | h | h | h | h | h | h | h | h | h | h <;> subst h
  all_goals
    unfold DoWriteSpecialCommand DoReadSpecialCommand
    simp only [hr0, hv1]
    simp [SPECIAL_REG_SCAN_SECTOR_NUMBER, SPECIAL_REG_SCAN_COUNT_MSB,
      SPECIAL_REG_SCAN_COUNT_LSB, SPECIAL_REG_SURFACE_0_CURRENT_TRACK,
      SPECIAL_REG_SURFACE_1_CURRENT_TRACK, SPECIAL_REG_MODE_REGISTER,
      SPECIAL_REG_DRIVE_CONTROL_OUTPUT_PORT, SPECIAL_REG_DRIVE_CONTROL_INPUT_PORT,
      SPECIAL_REG_SURFACE_0_BAD_TRACK_1, SPECIAL_REG_SURFACE_0_BAD_TRACK_2,
      SPECIAL_REG_SURFACE_1_BAD_TRACK_1, SPECIAL_REG_SURFACE_1_BAD_TRACK_2,
      Param, setFDC, DoSelects, hp, resultFull, UpdateNMIStatus_eq, setStatus, setResult,
      STATUS_REG_RESULT_FULL, scanCount_msb _ _ hv256, scanCount_lsb _ _ hv256,
      (by decide : Nat.testBit 16 4 = true)]
    try (split_ifs <;> simp)

theorem special_write_then_read_witness :
    ∃ s1 s2, DoWriteSpecialCommand (latched 0x3A [0x17, 0xC1] powerOn) = some s1 ∧
      DoReadSpecialCommand (latched 0x7D [0x17] s1) = some s2 ∧
      s2.FDCState.ResultReg = 0xC1 := by
  obtain ⟨s1, s2, h1, h2, _, h4⟩ := special_write_then_read (latched 0x3A [0x17, 0xC1] powerOn)
    0x7D 0x17 0xC1 (fun i => [0x17].getD i 0) rfl rfl (by decide) rfl (by decide)
  exact ⟨s1, s2, h1, h2, h4⟩

/-- C37, counterexample: Write Special Register (0x3A) of the drive-control
output port (0x23) with 0xC5, followed by Read Special Register (0x3D, no drive
select bit) of the same register, leaves 0x05 in the result register, and
read with command byte 0x7D (drive 0 selected) leaves 0x45; the mode register
(0x17) written with 0xC5 reads back 0xC5. -/
theorem output_port_read_back :
    (hostWrites [(0, 0x3A), (1, 0x23), (1, 0xC5), (0, 0x3D), (1, 0x23)] powerOn).map
      (fun s => (s.FDCState.ResultReg, resultFull s)) = some (0x05, true) ∧
    (hostWrites [(0, 0x3A), (1, 0x23), (1, 0xC5), (0, 0x7D), (1, 0x23)] powerOn).map
      (fun s => (s.FDCState.ResultReg, resultFull s)) = some (0x45, true) ∧
    (hostWrites [(0, 0x3A), (1, 0x17), (1, 0xC5), (0, 0x3D), (1, 0x17)] powerOn).map
      (fun s => (s.FDCState.ResultReg, resultFull s)) = some (0xC5, true) := by
  refine ⟨?_, ?_, ?_⟩ <;> decide

/-! ## Invariants of the register interface -/

theorem GetTrackPtr_kept (id : Nat) (s s' : State) (r : Option TrackPtr)
    (h : GetTrackPtr id s = some (r, s')) :
    s'.FDCState = s.FDCState ∧ s'.NMIFloppy = s.NMIFloppy := by
  rw [GetTrackPtr_frame _ _ _ _ h]
  exact ⟨rfl, rfl⟩

theorem GetSectorPtr_kept (tp : TrackPtr) (id : Nat) (s s' : State) (r : Option SectorPtr)
    (h : GetSectorPtr tp id s = some (r, s')) :
    s'.FDCState = s.FDCState ∧ s'.NMIFloppy = s.NMIFloppy := by
  rw [GetSectorPtr_frame _ _ _ _ _ h]
  exact ⟨rfl, rfl⟩

theorem nextSectorPtr_kept (s s' : State) (h : nextSectorPtr s = some s') :
    s'.FDCState = s.FDCState ∧ s'.NMIFloppy = s.NMIFloppy := by
  unfold nextSectorPtr at h
  split at h
  · simp at h
  · split at h
    · simp at h
    · rename_i heq
      simp only [Option.some.injEq] at h
      subst h
      obtain ⟨a, b⟩ := GetSectorPtr_kept _ _ _ _ _ heq
      exact ⟨a, b⟩

theorem SaveTrackImage_kept (d hd : Nat) (t : Int) (s s' : State) (b : Bool)
    (h : SaveTrackImage d hd t s = some (b, s')) :
    s'.FDCState = s.FDCState ∧ s'.NMIFloppy = s.NMIFloppy := by
  unfold SaveTrackImage at h
  dsimp only at h
  split at h
  · simp only [Option.some.injEq, Prod.mk.injEq] at h
    rw [← h.2]
    exact ⟨rfl, rfl⟩
  · split at h
    · simp at h
    · simp only [Option.some.injEq, Prod.mk.injEq] at h
      rw [← h.2]
      exact ⟨rfl, rfl⟩

theorem NMIok_update (s : State) : NMIok (UpdateNMIStatus s) := by
  simp [NMIok, UpdateNMIStatus_eq]

theorem NMIok_DoErr (e : Nat) (s : State) : NMIok (DoErr e s) := NMIok_update _

theorem NMIok_congr (s s' : State) (h1 : s'.FDCState.StatusReg = s.FDCState.StatusReg)
    (h2 : s'.NMIFloppy = s.NMIFloppy) : NMIok s' ↔ NMIok s := by
  unfold NMIok
  rw [h1, h2]

theorem NMIok_setCommandStatus (f : CommandStatusType → CommandStatusType) (s : State) :
    NMIok (setCommandStatus f s) ↔ NMIok s := NMIok_congr _ _ rfl rfl

theorem NMIok_SetTrigger (v : Int) (s : State) : NMIok (SetTrigger v s) ↔ NMIok s :=
  NMIok_congr _ _ rfl rfl

theorem NMIok_setResult (v : Nat) (s : State) : NMIok (setResult v s) ↔ NMIok s :=
  NMIok_congr _ _ rfl rfl

theorem NMIok_setData (v : Nat) (s : State) : NMIok (setData v s) ↔ NMIok s :=
  NMIok_congr _ _ rfl rfl

theorem NMIok_notLastByte (v : Int) (s : State) : NMIok (notLastByte v s) :=
  (NMIok_SetTrigger _ _).2 (NMIok_update _)

theorem NMIok_pickUpResult (s : State) : NMIok (pickUpResult s) := NMIok_update _

theorem ite_FDCState (c : Prop) [Decidable c] (a b : State) (h : a.FDCState = b.FDCState) :
    (if c then a else b).FDCState = b.FDCState := by
  split
  · exact h
  · rfl

theorem GetTrackPtrPhysical_FDCState (id : Nat) (s : State) :
    (GetTrackPtrPhysical id s).2.FDCState = s.FDCState := by
  unfold GetTrackPtrPhysical
  dsimp only
  split <;> rfl

theorem DoErr_pc (e : Nat) (s : State) :
    (DoErr e s).FDCState.CurrentParam = s.FDCState.CurrentParam ∧
    (DoErr e s).FDCState.CommandParamCount = s.FDCState.CommandParamCount := by
  constructor <;> simp [DoErr, UpdateNMIStatus_eq, setStatus, SetTrigger]

theorem setCommandStatus_pc (f : CommandStatusType → CommandStatusType) (s : State) :
    (setCommandStatus f s).FDCState.CurrentParam = s.FDCState.CurrentParam ∧
    (setCommandStatus f s).FDCState.CommandParamCount = s.FDCState.CommandParamCount := by
  exact ⟨rfl, rfl⟩

theorem setStatus_pc (v : Nat) (s : State) :
    (setStatus v s).FDCState.CurrentParam = s.FDCState.CurrentParam ∧
    (setStatus v s).FDCState.CommandParamCount = s.FDCState.CommandParamCount := by
  exact ⟨rfl, rfl⟩

theorem setResult_pc (v : Nat) (s : State) :
    (setResult v s).FDCState.CurrentParam = s.FDCState.CurrentParam ∧
    (setResult v s).FDCState.CommandParamCount = s.FDCState.CommandParamCount := by
  exact ⟨rfl, rfl⟩

theorem setData_pc (v : Nat) (s : State) :
    (setData v s).FDCState.CurrentParam = s.FDCState.CurrentParam ∧
    (setData v s).FDCState.CommandParamCount = s.FDCState.CommandParamCount := by
  exact ⟨rfl, rfl⟩

theorem SetTrigger_pc (v : Int) (s : State) :
    (SetTrigger v s).FDCState.CurrentParam = s.FDCState.CurrentParam ∧
    (SetTrigger v s).FDCState.CommandParamCount = s.FDCState.CommandParamCount := by
  exact ⟨rfl, rfl⟩

theorem notLastByte_pc (v : Int) (s : State) :
    (notLastByte v s).FDCState.CurrentParam = s.FDCState.CurrentParam ∧
    (notLastByte v s).FDCState.CommandParamCount = s.FDCState.CommandParamCount := by
  constructor <;> simp [notLastByte, UpdateNMIStatus_eq, setStatus, SetTrigger]

theorem setCurrentTrack_pc (d : Int) (v : Nat) (s : State) :
    (setCurrentTrack d v s).FDCState.CurrentParam = s.FDCState.CurrentParam ∧
    (setCurrentTrack d v s).FDCState.CommandParamCount = s.FDCState.CommandParamCount := by
  unfold setCurrentTrack
  split <;> exact ⟨rfl, rfl⟩

theorem setSectorData_pc (p : SectorPtr) (l : List Nat) (s : State) :
    (setSectorData p l s).FDCState.CurrentParam = s.FDCState.CurrentParam ∧
    (setSectorData p l s).FDCState.CommandParamCount = s.FDCState.CommandParamCount := by
  exact ⟨rfl, rfl⟩

theorem UpdateNMIStatus_pc (s : State) :
    (UpdateNMIStatus s).FDCState.CurrentParam = s.FDCState.CurrentParam ∧
    (UpdateNMIStatus s).FDCState.CommandParamCount = s.FDCState.CommandParamCount := by
  constructor <;> simp [UpdateNMIStatus_eq]

theorem pickUpResult_pc (s : State) :
    (pickUpResult s).FDCState.CurrentParam = s.FDCState.CurrentParam ∧
    (pickUpResult s).FDCState.CommandParamCount = s.FDCState.CommandParamCount := by
  constructor <;> simp [pickUpResult, UpdateNMIStatus_eq, setStatus]

theorem latchVarLength_pc (s : State) :
    (latchVarLength s).FDCState.CurrentParam = s.FDCState.CurrentParam ∧
    (latchVarLength s).FDCState.CommandParamCount = s.FDCState.CommandParamCount := by
  exact ⟨rfl, rfl⟩

theorem DoSelects_pc (s : State) :
    (DoSelects s).FDCState.CurrentParam = s.FDCState.CurrentParam ∧
    (DoSelects s).FDCState.CommandParamCount = s.FDCState.CommandParamCount := by
  exact ⟨rfl, rfl⟩

theorem readPositioning_pc (s : State) :
    (readPositioning s).FDCState.CurrentParam = s.FDCState.CurrentParam ∧
    (readPositioning s).FDCState.CommandParamCount = s.FDCState.CommandParamCount := by
  exact ⟨rfl, rfl⟩

theorem ClearTrigger_pc (s : State) :
    (ClearTrigger s).FDCState.CurrentParam = s.FDCState.CurrentParam ∧
    (ClearTrigger s).FDCState.CommandParamCount = s.FDCState.CommandParamCount := by
  exact ⟨rfl, rfl⟩

theorem DriveHeadScheduleUnload_pc (s : State) :
    (DriveHeadScheduleUnload s).FDCState.CurrentParam = s.FDCState.CurrentParam ∧
    (DriveHeadScheduleUnload s).FDCState.CommandParamCount = s.FDCState.CommandParamCount := by
  unfold DriveHeadScheduleUnload
  split <;> exact ⟨rfl, rfl⟩

theorem cancelHeadUnload_pc (s : State) :
    (cancelHeadUnload s).FDCState.CurrentParam = s.FDCState.CurrentParam ∧
    (cancelHeadUnload s).FDCState.CommandParamCount = s.FDCState.CommandParamCount := by
  unfold cancelHeadUnload
  split <;> exact ⟨rfl, rfl⟩

theorem DoVarLength_WriteDataCommand_kept (s s' : State)
    (h : DoVarLength_WriteDataCommand s = some s') : regsKept s s' := by
  unfold DoVarLength_WriteDataCommand at h
  dsimp only at h
  repeat' split at h
  all_goals first
    | (simp at h; done)
    | (simp only [Option.some.injEq] at h
       subst h
       try have hA := (GetTrackPtr_kept _ _ _ _ (by assumption)).1
       try have hB := (GetSectorPtr_kept _ _ _ _ _ (by assumption)).1
       refine ⟨?_, ?_, fun _ => ?_⟩
       · simp only [DoLoadHead, ite_FDCState, GetTrackPtrPhysical_FDCState, DoErr_pc, setCommandStatus_pc, setStatus_pc, setResult_pc, setData_pc, SetTrigger_pc, notLastByte_pc, setCurrentTrack_pc, setSectorData_pc, UpdateNMIStatus_pc, pickUpResult_pc, latchVarLength_pc, DoSelects_pc, readPositioning_pc, ClearTrigger_pc, DriveHeadScheduleUnload_pc, cancelHeadUnload_pc, *]
       · simp only [DoLoadHead, ite_FDCState, GetTrackPtrPhysical_FDCState, DoErr_pc, setCommandStatus_pc, setStatus_pc, setResult_pc, setData_pc, SetTrigger_pc, notLastByte_pc, setCurrentTrack_pc, setSectorData_pc, UpdateNMIStatus_pc, pickUpResult_pc, latchVarLength_pc, DoSelects_pc, readPositioning_pc, ClearTrigger_pc, DriveHeadScheduleUnload_pc, cancelHeadUnload_pc, *]
       · simp only [NMIok_update, NMIok_DoErr, NMIok_setCommandStatus, NMIok_SetTrigger, NMIok_setResult, NMIok_setData, NMIok_notLastByte, NMIok_pickUpResult])

theorem DoVarLength_ReadDataCommand_kept (s s' : State)
    (h : DoVarLength_ReadDataCommand s = some s') : regsKept s s' := by
  unfold DoVarLength_ReadDataCommand at h
  dsimp only at h
  repeat' split at h
  all_goals first
    | (simp at h; done)
    | (simp only [Option.some.injEq] at h
       subst h
       try have hA := (GetTrackPtr_kept _ _ _ _ (by assumption)).1
       try have hB := (GetSectorPtr_kept _ _ _ _ _ (by assumption)).1
       refine ⟨?_, ?_, fun _ => ?_⟩
       · simp only [DoLoadHead, ite_FDCState, GetTrackPtrPhysical_FDCState, DoErr_pc, setCommandStatus_pc, setStatus_pc, setResult_pc, setData_pc, SetTrigger_pc, notLastByte_pc, setCurrentTrack_pc, setSectorData_pc, UpdateNMIStatus_pc, pickUpResult_pc, latchVarLength_pc, DoSelects_pc, readPositioning_pc, ClearTrigger_pc, DriveHeadScheduleUnload_pc, cancelHeadUnload_pc, *]
       · simp only [DoLoadHead, ite_FDCState, GetTrackPtrPhysical_FDCState, DoErr_pc, setCommandStatus_pc, setStatus_pc, setResult_pc, setData_pc, SetTrigger_pc, notLastByte_pc, setCurrentTrack_pc, setSectorData_pc, UpdateNMIStatus_pc, pickUpResult_pc, latchVarLength_pc, DoSelects_pc, readPositioning_pc, ClearTrigger_pc, DriveHeadScheduleUnload_pc, cancelHeadUnload_pc, *]
       · simp only [NMIok_update, NMIok_DoErr, NMIok_setCommandStatus, NMIok_SetTrigger, NMIok_setResult, NMIok_setData, NMIok_notLastByte, NMIok_pickUpResult])

theorem Do128ByteSR_ReadDataAndDeldCommand_kept (s s' : State)
    (h : Do128ByteSR_ReadDataAndDeldCommand s = some s') : regsKept s s' := by
  unfold Do128ByteSR_ReadDataAndDeldCommand at h
  dsimp only at h
  repeat' split at h
  all_goals first
    | (simp at h; done)
    | (simp only [Option.some.injEq] at h
       subst h
       try have hA := (GetTrackPtr_kept _ _ _ _ (by assumption)).1
       try have hB := (GetSectorPtr_kept _ _ _ _ _ (by assumption)).1
       refine ⟨?_, ?_, fun _ => ?_⟩
       · simp only [DoLoadHead, ite_FDCState, GetTrackPtrPhysical_FDCState, DoErr_pc, setCommandStatus_pc, setStatus_pc, setResult_pc, setData_pc, SetTrigger_pc, notLastByte_pc, setCurrentTrack_pc, setSectorData_pc, UpdateNMIStatus_pc, pickUpResult_pc, latchVarLength_pc, DoSelects_pc, readPositioning_pc, ClearTrigger_pc, DriveHeadScheduleUnload_pc, cancelHeadUnload_pc, *]
       · simp only [DoLoadHead, ite_FDCState, GetTrackPtrPhysical_FDCState, DoErr_pc, setCommandStatus_pc, setStatus_pc, setResult_pc, setData_pc, SetTrigger_pc, notLastByte_pc, setCurrentTrack_pc, setSectorData_pc, UpdateNMIStatus_pc, pickUpResult_pc, latchVarLength_pc, DoSelects_pc, readPositioning_pc, ClearTrigger_pc, DriveHeadScheduleUnload_pc, cancelHeadUnload_pc, *]
       · simp only [NMIok_update, NMIok_DoErr, NMIok_setCommandStatus, NMIok_SetTrigger, NMIok_setResult, NMIok_setData, NMIok_notLastByte, NMIok_pickUpResult])

theorem DoReadIDCommand_kept (s s' : State)
    (h : DoReadIDCommand s = some s') : regsKept s s' := by
  unfold DoReadIDCommand at h
  dsimp only at h
  repeat' split at h
  all_goals first
    | (simp at h; done)
    | (simp only [Option.some.injEq] at h
       subst h
       try have hA := (GetTrackPtr_kept _ _ _ _ (by assumption)).1
       try have hB := (GetSectorPtr_kept _ _ _ _ _ (by assumption)).1
       refine ⟨?_, ?_, fun _ => ?_⟩
       · simp only [DoLoadHead, ite_FDCState, GetTrackPtrPhysical_FDCState, DoErr_pc, setCommandStatus_pc, setStatus_pc, setResult_pc, setData_pc, SetTrigger_pc, notLastByte_pc, setCurrentTrack_pc, setSectorData_pc, UpdateNMIStatus_pc, pickUpResult_pc, latchVarLength_pc, DoSelects_pc, readPositioning_pc, ClearTrigger_pc, DriveHeadScheduleUnload_pc, cancelHeadUnload_pc, *]
       · simp only [DoLoadHead, ite_FDCState, GetTrackPtrPhysical_FDCState, DoErr_pc, setCommandStatus_pc, setStatus_pc, setResult_pc, setData_pc, SetTrigger_pc, notLastByte_pc, setCurrentTrack_pc, setSectorData_pc, UpdateNMIStatus_pc, pickUpResult_pc, latchVarLength_pc, DoSelects_pc, readPositioning_pc, ClearTrigger_pc, DriveHeadScheduleUnload_pc, cancelHeadUnload_pc, *]
       · simp only [NMIok_update, NMIok_DoErr, NMIok_setCommandStatus, NMIok_SetTrigger, NMIok_setResult, NMIok_setData, NMIok_notLastByte, NMIok_pickUpResult])

theorem DoVarLength_VerifyDataAndDeldCommand_kept (s s' : State)
    (h : DoVarLength_VerifyDataAndDeldCommand s = some s') : regsKept s s' := by
  unfold DoVarLength_VerifyDataAndDeldCommand at h
  dsimp only at h
  repeat' split at h
  all_goals first
    | (simp at h; done)
    | (simp only [Option.some.injEq] at h
       subst h
       try have hA := (GetTrackPtr_kept _ _ _ _ (by assumption)).1
       try have hB := (GetSectorPtr_kept _ _ _ _ _ (by assumption)).1
       refine ⟨?_, ?_, fun _ => ?_⟩
       · simp only [DoLoadHead, ite_FDCState, GetTrackPtrPhysical_FDCState, DoErr_pc, setCommandStatus_pc, setStatus_pc, setResult_pc, setData_pc, SetTrigger_pc, notLastByte_pc, setCurrentTrack_pc, setSectorData_pc, UpdateNMIStatus_pc, pickUpResult_pc, latchVarLength_pc, DoSelects_pc, readPositioning_pc, ClearTrigger_pc, DriveHeadScheduleUnload_pc, cancelHeadUnload_pc, *]
       · simp only [DoLoadHead, ite_FDCState, GetTrackPtrPhysical_FDCState, DoErr_pc, setCommandStatus_pc, setStatus_pc, setResult_pc, setData_pc, SetTrigger_pc, notLastByte_pc, setCurrentTrack_pc, setSectorData_pc, UpdateNMIStatus_pc, pickUpResult_pc, latchVarLength_pc, DoSelects_pc, readPositioning_pc, ClearTrigger_pc, DriveHeadScheduleUnload_pc, cancelHeadUnload_pc, *]
       · simp only [NMIok_update, NMIok_DoErr, NMIok_setCommandStatus, NMIok_SetTrigger, NMIok_setResult, NMIok_setData, NMIok_notLastByte, NMIok_pickUpResult])

theorem DoFormatCommand_kept (s s' : State)
    (h : DoFormatCommand s = some s') : regsKept s s' := by
  unfold DoFormatCommand at h
  dsimp only at h
  repeat' split at h
  all_goals first
    | (simp at h; done)
    | (simp only [Option.some.injEq] at h
       subst h
       try have hA := (GetTrackPtr_kept _ _ _ _ (by assumption)).1
       try have hB := (GetSectorPtr_kept _ _ _ _ _ (by assumption)).1
       refine ⟨?_, ?_, fun _ => ?_⟩
       · simp only [DoLoadHead, ite_FDCState, GetTrackPtrPhysical_FDCState, DoErr_pc, setCommandStatus_pc, setStatus_pc, setResult_pc, setData_pc, SetTrigger_pc, notLastByte_pc, setCurrentTrack_pc, setSectorData_pc, UpdateNMIStatus_pc, pickUpResult_pc, latchVarLength_pc, DoSelects_pc, readPositioning_pc, ClearTrigger_pc, DriveHeadScheduleUnload_pc, cancelHeadUnload_pc, *]
       · simp only [DoLoadHead, ite_FDCState, GetTrackPtrPhysical_FDCState, DoErr_pc, setCommandStatus_pc, setStatus_pc, setResult_pc, setData_pc, SetTrigger_pc, notLastByte_pc, setCurrentTrack_pc, setSectorData_pc, UpdateNMIStatus_pc, pickUpResult_pc, latchVarLength_pc, DoSelects_pc, readPositioning_pc, ClearTrigger_pc, DriveHeadScheduleUnload_pc, cancelHeadUnload_pc, *]
       · simp only [NMIok_update, NMIok_DoErr, NMIok_setCommandStatus, NMIok_SetTrigger, NMIok_setResult, NMIok_setData, NMIok_notLastByte, NMIok_pickUpResult])

theorem DoSeekCommand_kept (s s' : State)
    (h : DoSeekCommand s = some s') : regsKept s s' := by
  unfold DoSeekCommand at h
  dsimp only at h
  repeat' split at h
  all_goals first
    | (simp at h; done)
    | (simp only [Option.some.injEq] at h
       subst h
       try have hA := (GetTrackPtr_kept _ _ _ _ (by assumption)).1
       try have hB := (GetSectorPtr_kept _ _ _ _ _ (by assumption)).1
       refine ⟨?_, ?_, fun _ => ?_⟩
       · simp only [DoLoadHead, ite_FDCState, GetTrackPtrPhysical_FDCState, DoErr_pc, setCommandStatus_pc, setStatus_pc, setResult_pc, setData_pc, SetTrigger_pc, notLastByte_pc, setCurrentTrack_pc, setSectorData_pc, UpdateNMIStatus_pc, pickUpResult_pc, latchVarLength_pc, DoSelects_pc, readPositioning_pc, ClearTrigger_pc, DriveHeadScheduleUnload_pc, cancelHeadUnload_pc, *]
       · simp only [DoLoadHead, ite_FDCState, GetTrackPtrPhysical_FDCState, DoErr_pc, setCommandStatus_pc, setStatus_pc, setResult_pc, setData_pc, SetTrigger_pc, notLastByte_pc, setCurrentTrack_pc, setSectorData_pc, UpdateNMIStatus_pc, pickUpResult_pc, latchVarLength_pc, DoSelects_pc, readPositioning_pc, ClearTrigger_pc, DriveHeadScheduleUnload_pc, cancelHeadUnload_pc, *]
       · simp only [NMIok_update, NMIok_DoErr, NMIok_setCommandStatus, NMIok_SetTrigger, NMIok_setResult, NMIok_setData, NMIok_notLastByte, NMIok_pickUpResult])

theorem DoReadDriveStatusCommand_kept (s s' : State)
    (h : DoReadDriveStatusCommand s = some s') : regsKept s s' := by
  unfold DoReadDriveStatusCommand at h
  simp only [Option.some.injEq] at h
  subst h
  refine ⟨?_, ?_, fun _ => NMIok_update _⟩ <;> simp [UpdateNMIStatus_eq, setStatus, setResult]

theorem ite_kept (c : Prop) [Decidable c] (a b : Option State) (s s' : State)
    (ha : a = some s' → regsKept s s') (hb : b = some s' → regsKept s s')
    (h : (if c then a else b) = some s') : regsKept s s' := by
  split at h
  · exact ha h
  · exact hb h

theorem regsKept_of_fields (s s' : State)
    (h1 : s'.FDCState.CurrentParam = s.FDCState.CurrentParam)
    (h2 : s'.FDCState.CommandParamCount = s.FDCState.CommandParamCount)
    (h3 : s'.FDCState.StatusReg = s.FDCState.StatusReg) (h4 : s'.NMIFloppy = s.NMIFloppy) :
    regsKept s s' := by
  refine ⟨h1, h2, ?_⟩
  intro h
  unfold NMIok at h ⊢
  rw [h3, h4]
  exact h

theorem DoSpecifyCommand_kept (s s' : State)
    (h : DoSpecifyCommand s = some s') : regsKept s s' := by
  unfold DoSpecifyCommand at h
  repeat' split at h
  all_goals
    simp only [Option.some.injEq] at h
    subst h
    exact regsKept_of_fields _ _ rfl rfl rfl rfl

theorem DoWriteSpecialCommand_kept (s s' : State)
    (h : DoWriteSpecialCommand s = some s') : regsKept s s' := by
  unfold DoWriteSpecialCommand at h
  dsimp only at h
  revert h
  repeat' (first
    | (intro h
       simp only [Option.some.injEq] at h
       subst h
       exact regsKept_of_fields _ _ rfl rfl rfl rfl)
    | apply ite_kept)

theorem DoReadSpecialCommand_kept (s s' : State)
    (h : DoReadSpecialCommand s = some s') : regsKept s s' := by
  unfold DoReadSpecialCommand at h
  dsimp only at h
  split at h
  · simp only [Option.some.injEq] at h
    subst h
    exact regsKept_of_fields _ _ rfl rfl rfl rfl
  · simp only [Option.some.injEq] at h
    subst h
    refine ⟨?_, ?_, fun _ => NMIok_update _⟩ <;>
      simp [UpdateNMIStatus_eq, setStatus, setResult, DoSelects]

theorem callToCall_kept (f : CommandFunc) (s s' : State) (h : callToCall f s = some s') :
    regsKept s s' := by
  cases f <;> simp only [callToCall] at h
  case DoVarLength_WriteDataCommand => exact DoVarLength_WriteDataCommand_kept _ _ h
  case DoVarLength_ReadDataCommand => exact DoVarLength_ReadDataCommand_kept _ _ h
  case Do128ByteSR_ReadDataAndDeldCommand => exact Do128ByteSR_ReadDataAndDeldCommand_kept _ _ h
  case DoVarLength_ReadDataAndDeldCommand => exact DoVarLength_ReadDataCommand_kept _ _ h
  case DoReadIDCommand => exact DoReadIDCommand_kept _ _ h
  case DoVarLength_VerifyDataAndDeldCommand => exact DoVarLength_VerifyDataAndDeldCommand_kept _ _ h
  case DoFormatCommand => exact DoFormatCommand_kept _ _ h
  case DoSeekCommand => exact DoSeekCommand_kept _ _ h
  case DoReadDriveStatusCommand => exact DoReadDriveStatusCommand_kept _ _ h
  case DoSpecifyCommand => exact DoSpecifyCommand_kept _ _ h
  case DoWriteSpecialCommand => exact DoWriteSpecialCommand_kept _ _ h
  case DoReadSpecialCommand => exact DoReadSpecialCommand_kept _ _ h
  all_goals
    simp only [DoVarLength_ScanDataCommand, DoVarLength_ScanDataAndDeldCommand,
      Do128ByteSR_WriteDataCommand, Do128ByteSR_WriteDeletedDataCommand,
      DoVarLength_WriteDeletedDataCommand, Do128ByteSR_ReadDataCommand,
      Do128ByteSR_VerifyDataAndDeldCommand, DoBadCommand, NotImp, Option.some.injEq] at h
    subst h
    exact regsKept_of_fields _ _ rfl rfl rfl rfl

theorem regsKept_trans (a b c : State) (h1 : regsKept a b) (h2 : regsKept b c) :
    regsKept a c :=
  ⟨h2.1.trans h1.1, h2.2.1.trans h1.2.1, fun h => h2.2.2 (h1.2.2 h)⟩

theorem regsKept_refl (s : State) : regsKept s s := ⟨rfl, rfl, fun h => h⟩

theorem sectorRead_kept (s s' : State) (h : sectorRead s = some s') : regsKept s s' := by
  unfold sectorRead at h
  dsimp only at h
  repeat' split at h
  all_goals first
    | (simp at h; done)
    | (simp only [Option.some.injEq] at h
       subst h
       try have hN := (nextSectorPtr_kept _ _ (by assumption)).1
       refine ⟨?_, ?_, fun _ => ?_⟩
       · simp only [DoErr_pc, setCommandStatus_pc, setStatus_pc, setResult_pc, setData_pc, SetTrigger_pc, notLastByte_pc, setCurrentTrack_pc, setSectorData_pc, UpdateNMIStatus_pc, pickUpResult_pc, latchVarLength_pc, DoSelects_pc, readPositioning_pc, ClearTrigger_pc, DriveHeadScheduleUnload_pc, cancelHeadUnload_pc, *]
       · simp only [DoErr_pc, setCommandStatus_pc, setStatus_pc, setResult_pc, setData_pc, SetTrigger_pc, notLastByte_pc, setCurrentTrack_pc, setSectorData_pc, UpdateNMIStatus_pc, pickUpResult_pc, latchVarLength_pc, DoSelects_pc, readPositioning_pc, ClearTrigger_pc, DriveHeadScheduleUnload_pc, cancelHeadUnload_pc, *]
       · simp only [NMIok_update, NMIok_DoErr, NMIok_setCommandStatus, NMIok_SetTrigger, NMIok_setResult, NMIok_setData, NMIok_notLastByte, NMIok_pickUpResult])

theorem sectorWritten_kept (after : Int) (s s' : State) (h : sectorWritten after s = some s') :
    regsKept s s' := by
  unfold sectorWritten at h
  dsimp only at h
  repeat' split at h
  all_goals first
    | (simp at h; done)
    | (simp only [Option.some.injEq] at h
       subst h
       try have hN := (nextSectorPtr_kept _ _ (by assumption)).1
       try have hS := (SaveTrackImage_kept _ _ _ _ _ _ (by assumption)).1
       refine ⟨?_, ?_, fun _ => ?_⟩
       · simp only [DoErr_pc, setCommandStatus_pc, setStatus_pc, setResult_pc, setData_pc, SetTrigger_pc, notLastByte_pc, setCurrentTrack_pc, setSectorData_pc, UpdateNMIStatus_pc, pickUpResult_pc, latchVarLength_pc, DoSelects_pc, readPositioning_pc, ClearTrigger_pc, DriveHeadScheduleUnload_pc, cancelHeadUnload_pc, *]
       · simp only [DoErr_pc, setCommandStatus_pc, setStatus_pc, setResult_pc, setData_pc, SetTrigger_pc, notLastByte_pc, setCurrentTrack_pc, setSectorData_pc, UpdateNMIStatus_pc, pickUpResult_pc, latchVarLength_pc, DoSelects_pc, readPositioning_pc, ClearTrigger_pc, DriveHeadScheduleUnload_pc, cancelHeadUnload_pc, *]
       · simp only [NMIok_update, NMIok_DoErr, NMIok_setCommandStatus, NMIok_SetTrigger, NMIok_setResult, NMIok_setData, NMIok_notLastByte, NMIok_pickUpResult])

theorem loadDataByte_kept (s s1 : State) (sec : SectorType)
    (h : loadDataByte s = some (sec, s1)) : regsKept s s1 := by
  unfold loadDataByte at h
  repeat' split at h
  all_goals first
    | (simp at h; done)
    | (simp only [Option.some.injEq, Prod.mk.injEq] at h
       obtain ⟨_, h2⟩ := h
       subst h2
       exact regsKept_of_fields _ _ rfl rfl rfl rfl)

theorem readResult_kept (sec : SectorType) (s : State) : regsKept s (readResult sec s) := by
  unfold readResult
  dsimp only
  split <;> exact regsKept_of_fields _ _ rfl rfl rfl rfl

theorem pickUpResult_kept (s : State) : regsKept s (pickUpResult s) :=
  ⟨(pickUpResult_pc s).1, (pickUpResult_pc s).2, fun _ => NMIok_pickUpResult s⟩

theorem notLastByte_kept (v : Int) (s : State) : regsKept s (notLastByte v s) :=
  ⟨(notLastByte_pc v s).1, (notLastByte_pc v s).2, fun _ => NMIok_notLastByte v s⟩

theorem ReadInterrupt_kept (s s' : State) (h : ReadInterrupt s = some s') : regsKept s s' := by
  unfold ReadInterrupt at h
  split at h
  · simp only [Option.some.injEq] at h
    subst h
    exact pickUpResult_kept s
  · split at h
    · simp at h
    · rename_i sec s1 hl
      exact regsKept_trans _ _ _ (loadDataByte_kept _ _ _ hl)
        (regsKept_trans _ _ _ (readResult_kept sec s1) (sectorRead_kept _ _ h))

theorem Read128Interrupt_kept (s s' : State) (h : Read128Interrupt s = some s') :
    regsKept s s' := by
  unfold Read128Interrupt at h
  split at h
  · simp only [Option.some.injEq] at h
    subst h
    exact pickUpResult_kept s
  · split at h
    · simp at h
    · rename_i sec s1 hl
      refine regsKept_trans _ _ _ (loadDataByte_kept _ _ _ hl)
        (regsKept_trans _ _ _ ?_ (sectorRead_kept _ _ h))
      exact regsKept_of_fields _ _ rfl rfl rfl rfl

theorem WriteInterrupt_kept (s s' : State) (h : WriteInterrupt s = some s') : regsKept s s' := by
  unfold WriteInterrupt at h
  split at h
  · simp only [Option.some.injEq] at h
    subst h
    exact pickUpResult_kept s
  · dsimp only at h
    split at h
    · simp at h
    · rename_i s1 hst
      have h1 : regsKept s s1 := by
        repeat' split at hst
        all_goals first
          | (simp at hst; done)
          | (simp only [Option.some.injEq] at hst
             subst hst
             exact regsKept_of_fields _ _ rfl rfl rfl rfl)
      split at h
      · refine regsKept_trans _ _ _ h1 (regsKept_trans _ _ _ ?_ (sectorWritten_kept _ _ _ h))
        exact regsKept_of_fields _ _ rfl rfl rfl rfl
      · simp only [Option.some.injEq] at h
        subst h
        refine regsKept_trans _ _ _ h1 (regsKept_trans _ _ _ ?_ (notLastByte_kept _ _))
        exact regsKept_of_fields _ _ rfl rfl rfl rfl

theorem FormatInterrupt_kept (s s' : State) (h : FormatInterrupt s = some s') :
    regsKept s s' := by
  unfold FormatInterrupt at h
  split at h
  · simp only [Option.some.injEq] at h
    subst h
    exact pickUpResult_kept s
  · dsimp only at h
    have h0 : regsKept s (setResult RESULT_REG_SUCCESS
        (if (!s.CommandStatus.FirstWriteInt) = true then
          setCommandStatus (fun c => { c with ByteWithinSector := c.ByteWithinSector + 1 }) s
         else setCommandStatus (fun c => { c with FirstWriteInt := false }) s)) := by
      split <;> exact regsKept_of_fields _ _ rfl rfl rfl rfl
    generalize (setResult RESULT_REG_SUCCESS
        (if (!s.CommandStatus.FirstWriteInt) = true then
          setCommandStatus (fun c => { c with ByteWithinSector := c.ByteWithinSector + 1 }) s
         else setCommandStatus (fun c => { c with FirstWriteInt := false }) s)) = t at h h0
    repeat' split at h
    all_goals first
      | (simp at h; done)
      | (refine regsKept_trans _ _ _ h0 (regsKept_trans _ _ _ ?_ (sectorWritten_kept _ _ _ h))
         exact regsKept_of_fields _ _ rfl rfl rfl rfl)
      | (simp only [Option.some.injEq] at h
         subst h
         exact regsKept_trans _ _ _ h0 (notLastByte_kept _ _))

theorem ReadIDInterrupt_kept (s s' : State) (h : ReadIDInterrupt s = some s') :
    regsKept s s' := by
  unfold ReadIDInterrupt at h
  split at h
  · simp only [Option.some.injEq] at h
    subst h
    exact pickUpResult_kept s
  · dsimp only at h
    split at h
    · simp at h
    · rename_i s1 hst
      have h1 : regsKept s s1 := by
        repeat' split at hst
        all_goals first
          | (simp at hst; done)
          | (simp only [Option.some.injEq] at hst
             subst hst
             exact regsKept_of_fields _ _ rfl rfl rfl rfl)
      obtain ⟨a1, a2, _⟩ := h1
      repeat' split at h
      all_goals first
        | (simp at h; done)
        | (simp only [Option.some.injEq] at h
           subst h
           refine ⟨?_, ?_, fun _ => ?_⟩
           · simp only [DoErr_pc, setCommandStatus_pc, setStatus_pc, setResult_pc, setData_pc, SetTrigger_pc, notLastByte_pc, setCurrentTrack_pc, setSectorData_pc, UpdateNMIStatus_pc, pickUpResult_pc, latchVarLength_pc, DoSelects_pc, readPositioning_pc, ClearTrigger_pc, DriveHeadScheduleUnload_pc, cancelHeadUnload_pc, ite_FDCState, a1]
           · simp only [DoErr_pc, setCommandStatus_pc, setStatus_pc, setResult_pc, setData_pc, SetTrigger_pc, notLastByte_pc, setCurrentTrack_pc, setSectorData_pc, UpdateNMIStatus_pc, pickUpResult_pc, latchVarLength_pc, DoSelects_pc, readPositioning_pc, ClearTrigger_pc, DriveHeadScheduleUnload_pc, cancelHeadUnload_pc, ite_FDCState, a2]
           · simp only [NMIok_update, NMIok_DoErr, NMIok_setCommandStatus, NMIok_SetTrigger, NMIok_setResult, NMIok_setData, NMIok_notLastByte, NMIok_pickUpResult])

theorem callIntHandler_kept (f : IntFunc) (s s' : State) (h : callIntHandler f s = some s') :
    regsKept s s' := by
  cases f <;> simp only [callIntHandler] at h
  · exact WriteInterrupt_kept _ _ h
  · exact ReadInterrupt_kept _ _ h
  · exact Read128Interrupt_kept _ _ h
  · exact ReadIDInterrupt_kept _ _ h
  · simp only [VerifyInterrupt, Option.some.injEq] at h
    subst h
    exact ⟨by simp only [DoErr_pc, setCommandStatus_pc, setStatus_pc, setResult_pc, setData_pc, SetTrigger_pc, notLastByte_pc, setCurrentTrack_pc, setSectorData_pc, UpdateNMIStatus_pc, pickUpResult_pc, latchVarLength_pc, DoSelects_pc, readPositioning_pc, ClearTrigger_pc, DriveHeadScheduleUnload_pc, cancelHeadUnload_pc], by simp only [DoErr_pc, setCommandStatus_pc, setStatus_pc, setResult_pc, setData_pc, SetTrigger_pc, notLastByte_pc, setCurrentTrack_pc, setSectorData_pc, UpdateNMIStatus_pc, pickUpResult_pc, latchVarLength_pc, DoSelects_pc, readPositioning_pc, ClearTrigger_pc, DriveHeadScheduleUnload_pc, cancelHeadUnload_pc],
      fun _ => (NMIok_setResult _ _).2 (NMIok_update _)⟩
  · exact FormatInterrupt_kept _ _ h
  · simp only [SeekInterrupt, Option.some.injEq] at h
    subst h
    exact ⟨by simp only [DoErr_pc, setCommandStatus_pc, setStatus_pc, setResult_pc, setData_pc, SetTrigger_pc, notLastByte_pc, setCurrentTrack_pc, setSectorData_pc, UpdateNMIStatus_pc, pickUpResult_pc, latchVarLength_pc, DoSelects_pc, readPositioning_pc, ClearTrigger_pc, DriveHeadScheduleUnload_pc, cancelHeadUnload_pc], by simp only [DoErr_pc, setCommandStatus_pc, setStatus_pc, setResult_pc, setData_pc, SetTrigger_pc, notLastByte_pc, setCurrentTrack_pc, setSectorData_pc, UpdateNMIStatus_pc, pickUpResult_pc, latchVarLength_pc, DoSelects_pc, readPositioning_pc, ClearTrigger_pc, DriveHeadScheduleUnload_pc, cancelHeadUnload_pc],
      fun _ => (NMIok_setResult _ _).2 (NMIok_update _)⟩

theorem DriveHeadMotorUpdate_fields (s : State) :
    (DriveHeadMotorUpdate s).2.FDCState.CurrentParam = s.FDCState.CurrentParam ∧
    (DriveHeadMotorUpdate s).2.FDCState.CommandParamCount = s.FDCState.CommandParamCount ∧
    (DriveHeadMotorUpdate s).2.FDCState.StatusReg = s.FDCState.StatusReg ∧
    (DriveHeadMotorUpdate s).2.NMIFloppy = s.NMIFloppy := by
  unfold DriveHeadMotorUpdate
  dsimp only
  repeat' split
  all_goals simp [setFDC, SetTrigger]

theorem DriveHeadMotorUpdate_kept (s : State) : regsKept s (DriveHeadMotorUpdate s).2 :=
  regsKept_of_fields _ _ (DriveHeadMotorUpdate_fields s).1 (DriveHeadMotorUpdate_fields s).2.1
    (DriveHeadMotorUpdate_fields s).2.2.1 (DriveHeadMotorUpdate_fields s).2.2.2

theorem DriveHeadScheduleUnload_kept (s : State) : regsKept s (DriveHeadScheduleUnload s) := by
  unfold DriveHeadScheduleUnload
  split <;> exact regsKept_of_fields _ _ rfl rfl rfl rfl

theorem cancelHeadUnload_kept (s : State) :
    regsKept s (cancelHeadUnload s) ∧ (cancelHeadUnload s).FDCState = s.FDCState := by
  unfold cancelHeadUnload
  split <;> exact ⟨regsKept_of_fields _ _ rfl rfl rfl rfl, rfl⟩

theorem CommandPtrFromNumberLoop_mem (v : Nat) : ∀ (l : List PrimaryCommandLookupType)
    (e : PrimaryCommandLookupType), CommandPtrFromNumberLoop v l = some e → e ∈ l := by
  intro l
  induction l with
  | nil =>
    intro e h
    simp [CommandPtrFromNumberLoop] at h
  | cons a l ih =>
    intro e h
    unfold CommandPtrFromNumberLoop at h
    split at h
    · exact List.mem_cons_of_mem _ (ih e h)
    · simp only [Option.some.injEq] at h
      subst h
      exact List.mem_cons_self _ _

theorem NParams_bounds (v : Nat) (e : PrimaryCommandLookupType)
    (h : CommandPtrFromNumber v = some e) : 0 ≤ e.NParams ∧ e.NParams ≤ 5 := by
  have hall : ∀ e ∈ PrimaryCommandLookup, 0 ≤ e.NParams ∧ e.NParams ≤ 5 := by decide
  exact hall e (CommandPtrFromNumberLoop_mem v _ e h)

theorem handlerEntry_kept (s : State) :
    NMIok (handlerEntry s) ∧
    (handlerEntry s).FDCState.CurrentParam = s.FDCState.CurrentParam ∧
    (handlerEntry s).FDCState.CommandParamCount = s.FDCState.CommandParamCount := by
  refine ⟨NMIok_update _, ?_, ?_⟩ <;> simp [handlerEntry, UpdateNMIStatus_eq, setStatus]

theorem CommandRegWrite_keeps (v : Nat) (s s' : State) (h : CommandRegWrite v s = some s') :
    NMIok s' ∧ ParamOK s' := by
  unfold CommandRegWrite at h
  split at h
  · simp at h
  · rename_i ptr hptr
    obtain ⟨b0, b5⟩ := NParams_bounds v ptr hptr
    dsimp only at h
    split at h
    · obtain ⟨k1, k2, k3⟩ := callToCall_kept _ _ _ h
      obtain ⟨e1, e2, e3⟩ := handlerEntry_kept (UpdateNMIStatus (setStatus
        ((setFDC (fun f => { f with
          Command := v, CommandParamCount := ptr.NParams, CurrentParam := 0 }) s).FDCState.StatusReg |||
          (STATUS_REG_COMMAND_BUSY ||| STATUS_REG_RESULT_FULL))
        (setFDC (fun f => { f with
          Command := v, CommandParamCount := ptr.NParams, CurrentParam := 0 }) s)))
      refine ⟨k3 e1, ?_⟩
      unfold ParamOK
      rw [k1, k2, e2, e3]
      simp only [UpdateNMIStatus_pc, setStatus_pc]
      exact ⟨le_refl _, b0, b5⟩
    · simp only [Option.some.injEq] at h
      subst h
      refine ⟨NMIok_update _, ?_⟩
      unfold ParamOK
      simp only [UpdateNMIStatus_pc, setStatus_pc]
      exact ⟨le_refl _, b0, b5⟩

theorem storeParam_kept (v : Nat) (s : State) :
    NMIok (storeParam v s) ∧
    (storeParam v s).FDCState.CurrentParam = s.FDCState.CurrentParam + 1 ∧
    (storeParam v s).FDCState.CommandParamCount = s.FDCState.CommandParamCount := by
  refine ⟨NMIok_update _, ?_, ?_⟩ <;> simp [storeParam, UpdateNMIStatus_eq, setStatus, setFDC]

theorem ParamRegWrite_keeps (v : Nat) (s s' : State) (h : ParamRegWrite v s = some s') :
    (NMIok s → NMIok s') ∧ (ParamOK s → ParamOK s') := by
  obtain ⟨q1, q2, q3⟩ := storeParam_kept v s
  unfold ParamRegWrite at h
  split at h
  · simp only [Option.some.injEq] at h
    subst h
    exact ⟨fun h => h, fun h => h⟩
  · rename_i hlt
    split at h
    · simp at h
    · dsimp only at h
      split at h
      · split at h
        · simp at h
        · obtain ⟨k1, k2, k3⟩ := callToCall_kept _ _ _ h
          obtain ⟨e1, e2, e3⟩ := handlerEntry_kept (storeParam v s)
          refine ⟨fun _ => k3 e1, ?_⟩
          rintro ⟨p0, p1, p5⟩
          unfold ParamOK
          rw [k1, k2, e2, e3, q2, q3]
          omega
      · simp only [Option.some.injEq] at h
        subst h
        refine ⟨fun _ => q1, ?_⟩
        rintro ⟨p0, p1, p5⟩
        unfold ParamOK
        rw [q2, q3]
        omega

theorem Disc8271Reset_keeps (s : State) :
    NMIok (Disc8271Reset s) ∧ ParamOK (Disc8271Reset s) := by
  have key : (Disc8271Reset s).FDCState.StatusReg = 0 ∧ (Disc8271Reset s).NMIFloppy = false ∧
      (Disc8271Reset s).FDCState.CurrentParam = 0 ∧
      (Disc8271Reset s).FDCState.CommandParamCount = 0 := by
    unfold Disc8271Reset
    dsimp only
    split <;> split <;>
      simp [DriveHeadMotorUpdate, InitDiscStore, ClearTrigger, setFDC, UpdateNMIStatus_eq,
        setStatus, setResult, RESULT_REG_SUCCESS, STATUS_REG_INTERRUPT_REQUEST]
  obtain ⟨a, b, c, d⟩ := key
  refine ⟨?_, ?_⟩
  · unfold NMIok
    rw [a, b]
    decide
  · unfold ParamOK
    rw [c, d]
    decide

theorem ParamOK_of_kept (s s' : State) (h : regsKept s s') (hp : ParamOK s) : ParamOK s' := by
  unfold ParamOK
  rw [h.1, h.2.1]
  exact hp

theorem ParamOK_of_pc (s s' : State)
    (h1 : s'.FDCState.CurrentParam = s.FDCState.CurrentParam)
    (h2 : s'.FDCState.CommandParamCount = s.FDCState.CommandParamCount) (hp : ParamOK s) :
    ParamOK s' := by
  unfold ParamOK
  rw [h1, h2]
  exact hp

theorem fin_keeps (t : State) :
    (NMIok t → NMIok (DriveHeadScheduleUnload t)) ∧
    (ParamOK t → ParamOK (DriveHeadScheduleUnload t)) :=
  ⟨(DriveHeadScheduleUnload_kept t).2.2, ParamOK_of_kept _ _ (DriveHeadScheduleUnload_kept t)⟩

theorem Disc8271Write_keeps (a : Int) (v : Nat) (s s' : State)
    (h : Disc8271Write a v s = some s') :
    (NMIok s → NMIok s') ∧ (ParamOK s → ParamOK s') := by
  unfold Disc8271Write at h
  split at h
  · simp only [Option.some.injEq] at h
    subst h
    exact ⟨fun h => h, fun h => h⟩
  · dsimp only at h
    obtain ⟨kc, _⟩ := cancelHeadUnload_kept s
    rw [Option.map_eq_some'] at h
    obtain ⟨t, ht, rfl⟩ := h
    have key : (NMIok s → NMIok t) ∧ (ParamOK s → ParamOK t) := by
      split at ht
      · exact ⟨fun _ => (CommandRegWrite_keeps _ _ _ ht).1,
          fun _ => (CommandRegWrite_keeps _ _ _ ht).2⟩
      · split at ht
        · exact ⟨fun h => (ParamRegWrite_keeps _ _ _ ht).1 (kc.2.2 h),
            fun h => (ParamRegWrite_keeps _ _ _ ht).2 (ParamOK_of_kept _ _ kc h)⟩
        · split at ht
          · simp only [Option.some.injEq] at ht
            subst ht
            exact ⟨fun _ => (Disc8271Reset_keeps _).1, fun _ => (Disc8271Reset_keeps _).2⟩
          · split at ht
            · simp only [Option.some.injEq] at ht
              subst ht
              refine ⟨fun _ => (NMIok_setData _ _).2 (NMIok_update _), fun h => ?_⟩
              exact ParamOK_of_pc (cancelHeadUnload s) _ (by simp only [setData_pc, setResult_pc, setCommandStatus_pc, UpdateNMIStatus_pc, setStatus_pc]) (by simp only [setData_pc, setResult_pc, setCommandStatus_pc, UpdateNMIStatus_pc, setStatus_pc])
                (ParamOK_of_kept _ _ kc h)
            · simp only [Option.some.injEq] at ht
              subst ht
              exact ⟨kc.2.2, ParamOK_of_kept _ _ kc⟩
    exact ⟨fun h => (fin_keeps t).1 (key.1 h), fun h => (fin_keeps t).2 (key.2 h)⟩

theorem Disc8271Read_keeps (a : Int) (s : State) :
    (NMIok s → NMIok (Disc8271Read a s).2) ∧ (ParamOK s → ParamOK (Disc8271Read a s).2) := by
  unfold Disc8271Read
  split
  · exact ⟨fun h => h, fun h => h⟩
  · split
    · exact ⟨fun h => h, fun h => h⟩
    · split
      · refine ⟨fun _ => (NMIok_setResult _ _).2 (NMIok_update _), fun hp => ?_⟩
        exact ParamOK_of_pc s _ (by dsimp only; simp only [setData_pc, setResult_pc, setCommandStatus_pc, UpdateNMIStatus_pc, setStatus_pc]) (by dsimp only; simp only [setData_pc, setResult_pc, setCommandStatus_pc, UpdateNMIStatus_pc, setStatus_pc]) hp
      · split
        · refine ⟨fun _ => NMIok_update _, fun hp => ?_⟩
          exact ParamOK_of_pc s _ (by dsimp only; simp only [setData_pc, setResult_pc, setCommandStatus_pc, UpdateNMIStatus_pc, setStatus_pc]) (by dsimp only; simp only [setData_pc, setResult_pc, setCommandStatus_pc, UpdateNMIStatus_pc, setStatus_pc]) hp
        · exact ⟨fun h => h, fun h => h⟩

theorem poll_keeps (s s' : State) (h : Disc8271_poll_real s = some s') :
    (NMIok s → NMIok s') ∧ (ParamOK s → ParamOK s') := by
  unfold Disc8271_poll_real at h
  dsimp only at h
  have km := DriveHeadMotorUpdate_kept (ClearTrigger s)
  have kc : regsKept s (ClearTrigger s) := regsKept_of_fields _ _ rfl rfl rfl rfl
  have kt := regsKept_trans _ _ _ kc km
  split at h
  · simp only [Option.some.injEq] at h
    subst h
    exact ⟨kt.2.2, ParamOK_of_kept _ _ kt⟩
  · rw [Option.map_eq_some'] at h
    obtain ⟨t, ht, rfl⟩ := h
    have hp1 : ParamOK s → ParamOK (DriveHeadMotorUpdate (ClearTrigger s)).2 :=
      ParamOK_of_kept _ _ kt
    generalize (DriveHeadMotorUpdate (ClearTrigger s)).2 = m at ht hp1
    have hp2 : ParamOK s → ParamOK (UpdateNMIStatus (setStatus
        (m.FDCState.StatusReg ||| STATUS_REG_INTERRUPT_REQUEST) m)) :=
      fun h => ParamOK_of_pc m _ (by simp only [setData_pc, setResult_pc, setCommandStatus_pc, UpdateNMIStatus_pc, setStatus_pc]) (by simp only [setData_pc, setResult_pc, setCommandStatus_pc, UpdateNMIStatus_pc, setStatus_pc]) (hp1 h)
    have hn2 : NMIok (UpdateNMIStatus (setStatus
        (m.FDCState.StatusReg ||| STATUS_REG_INTERRUPT_REQUEST) m)) := NMIok_update _
    generalize (UpdateNMIStatus (setStatus
        (m.FDCState.StatusReg ||| STATUS_REG_INTERRUPT_REQUEST) m)) = u at ht hp2 hn2
    have key : NMIok t ∧ (ParamOK s → ParamOK t) := by
      split at ht
      · simp only [Option.some.injEq] at ht
        subst ht
        refine ⟨(NMIok_setCommandStatus _ _).2 (NMIok_update _), fun h => ?_⟩
        exact ParamOK_of_pc u _ (by simp only [setData_pc, setResult_pc, setCommandStatus_pc, UpdateNMIStatus_pc, setStatus_pc]) (by simp only [setData_pc, setResult_pc, setCommandStatus_pc, UpdateNMIStatus_pc, setStatus_pc]) (hp2 h)
      · split at ht
        · simp at ht
        · split at ht
          · simp only [Option.some.injEq] at ht
            subst ht
            exact ⟨hn2, hp2⟩
          · have k := callIntHandler_kept _ _ _ ht
            exact ⟨k.2.2 hn2, fun h => ParamOK_of_kept _ _ k (hp2 h)⟩
    exact ⟨fun _ => (fin_keeps t).1 key.1, fun h => (fin_keeps t).2 (key.2 h)⟩

/-- C34: the agreement of the floppy NMI bit with the `interrupt_request` bit of
the status register is established by `Disc8271Reset` from any state and is
kept by every entry point: when it holds before a host read, a host write or a
tick, it holds when the entry point has returned. -/
theorem NMI_follows_interrupt_request (s : State) (h0 : NMIok s) :
    (∀ a, NMIok (Disc8271Read a s).2) ∧
    (∀ a v s', Disc8271Write a v s = some s' → NMIok s') ∧
    (∀ s', Disc8271_poll_real s = some s' → NMIok s') ∧
    (∀ t, NMIok (Disc8271Reset t)) :=
  ⟨fun a => (Disc8271Read_keeps a s).1 h0,
   fun a v s' h => (Disc8271Write_keeps a v s s' h).1 h0,
   fun s' h => (poll_keeps s s' h).1 h0,
   fun t => (Disc8271Reset_keeps t).1⟩

theorem NMI_follows_interrupt_request_witness :
    NMIok powerOn ∧ NMIok (Disc8271Read 1 powerOn).2 ∧
    ∀ s', Disc8271Write 0 0x6C powerOn = some s' → NMIok s' :=
  ⟨by unfold NMIok; decide,
   (NMI_follows_interrupt_request powerOn (by unfold NMIok; decide)).1 1,
   (NMI_follows_interrupt_request powerOn (by unfold NMIok; decide)).2.1 0 0x6C⟩

/-- C40: the bounds `0 ≤ CurrentParam ≤ CommandParamCount ≤ 5` hold after
`Disc8271Reset` from any state and are kept by every host read, host write and
tick that returns. Under the bounds, a parameter that `ParamRegWrite` stores
goes to an index from 0 to 4 of the 16-byte buffer, and a parameter write
arriving when no parameter is expected returns and leaves the controller
registers, among them the parameter buffer and the status register, as they
were. -/
theorem param_counters_bounded (s : State) (hp : ParamOK s) :
    (∀ a, ParamOK (Disc8271Read a s).2) ∧
    (∀ a v s', Disc8271Write a v s = some s' → ParamOK s') ∧
    (∀ s', Disc8271_poll_real s = some s' → ParamOK s') ∧
    (∀ t, ParamOK (Disc8271Reset t)) ∧
    (s.FDCState.CurrentParam < s.FDCState.CommandParamCount →
      0 ≤ s.FDCState.CurrentParam ∧ s.FDCState.CurrentParam.toNat < 5) ∧
    (s.FDCState.CommandParamCount ≤ s.FDCState.CurrentParam →
      ∀ v, ParamRegWrite v s = some s) ∧
    (s.FDCState.CommandParamCount ≤ s.FDCState.CurrentParam → s.Disc8271Enabled = true →
      ∀ v, ∃ s', Disc8271Write 1 v s = some s' ∧ s'.FDCState = s.FDCState) := by
  refine ⟨fun a => (Disc8271Read_keeps a s).2 hp,
    fun a v s' h => (Disc8271Write_keeps a v s s' h).2 hp,
    fun s' h => (poll_keeps s s' h).2 hp,
    fun t => (Disc8271Reset_keeps t).2, ?_, ?_, ?_⟩
  · intro hlt
    obtain ⟨p0, p1, p5⟩ := hp
    exact ⟨p0, by omega⟩
  · intro hge v
    unfold ParamRegWrite
    rw [if_pos hge]
  · intro hge hen v
    have hc := (cancelHeadUnload_kept s).2
    refine ⟨DriveHeadScheduleUnload (cancelHeadUnload s), ?_, ?_⟩
    · unfold Disc8271Write
      rw [hen]
      simp only [Bool.not_true, Bool.false_eq_true, if_false]
      have : ParamRegWrite v (cancelHeadUnload s) = some (cancelHeadUnload s) := by
        unfold ParamRegWrite
        rw [if_pos (by rw [hc]; exact hge)]
      simp [this]
    · rw [(DriveHeadScheduleUnload_frame _).2.1, hc]

theorem param_counters_bounded_witness :
    ParamOK powerOn ∧ ParamOK (Disc8271Read 1 powerOn).2 ∧
    ∃ s', Disc8271Write 1 7 powerOn = some s' ∧ s'.FDCState = powerOn.FDCState :=
  ⟨by unfold ParamOK; decide,
   (param_counters_bounded powerOn (by unfold ParamOK; decide)).1 1,
   (param_counters_bounded powerOn (by unfold ParamOK; decide)).2.2.2.2.2.2
     (by decide) (by decide) 7⟩

/-! ## Write setup against Read setup -/

theorem GetTrackPtr_lookEq (id : Nat) (a b : State) (h : lookEq a b) :
    (GetTrackPtr id a = none → GetTrackPtr id b = none) ∧
    ∀ r a', GetTrackPtr id a = some (r, a') →
      ∃ b', GetTrackPtr id b = some (r, b') ∧ lookEq a' b' := by
  obtain ⟨hd, h0, h1, hport, hpar, hcs, hph, hlo, hpos⟩ := h
  have hsel : GetSelectedDrive a = GetSelectedDrive b := by
    unfold GetSelectedDrive
    rw [h0, h1]
  have hhead : CURRENT_HEAD a = CURRENT_HEAD b := by
    unfold CURRENT_HEAD
    rw [hport]
  unfold GetTrackPtr
  dsimp only
  rw [hsel, hhead, hd, hph]
  split
  · refine ⟨fun h => by simp at h, ?_⟩
    intro r a' h
    simp only [Option.some.injEq, Prod.mk.injEq] at h
    obtain ⟨rfl, rfl⟩ := h
    exact ⟨b, rfl, hd, h0, h1, hport, hpar, hcs, hph, hlo, hpos⟩
  · split
    · exact ⟨fun _ => rfl, fun r a' h => by simp at h⟩
    · refine ⟨fun h => by simp at h, ?_⟩
      intro r a' h
      simp only [Option.some.injEq, Prod.mk.injEq] at h
      obtain ⟨rfl, rfl⟩ := h
      exact ⟨b, rfl, hd, h0, h1, hport, hpar, hcs, hph, hlo, hpos⟩
    · refine ⟨fun h => by simp at h, ?_⟩
      intro r a' h
      simp only [Option.some.injEq, Prod.mk.injEq] at h
      obtain ⟨rfl, rfl⟩ := h
      exact ⟨_, rfl, rfl, h0, h1, hport, hpar, hcs, rfl, hlo, hpos⟩

theorem GetSectorPtr_lookEq (tp : TrackPtr) (id : Nat) (a b : State) (h : lookEq a b) :
    (GetSectorPtr tp id a = none → GetSectorPtr tp id b = none) ∧
    ∀ r a', GetSectorPtr tp id a = some (r, a') →
      ∃ b', GetSectorPtr tp id b = some (r, b') ∧ lookEq a' b' := by
  obtain ⟨hd, h0, h1, hport, hpar, hcs, hph, hlo, hpos⟩ := h
  have ht : trackAt a tp = trackAt b tp := by
    unfold trackAt
    rw [hd]
  unfold GetSectorPtr
  rw [ht, hpos]
  split
  · exact ⟨fun _ => rfl, fun r a' h => by simp at h⟩
  · refine ⟨fun h => by simp at h, ?_⟩
    intro r a' h
    simp only [Option.some.injEq, Prod.mk.injEq] at h
    obtain ⟨rfl, rfl⟩ := h
    exact ⟨_, rfl, hd, h0, h1, hport, hpar, hcs, hph, hlo, rfl⟩

theorem lookEq_setCommandStatus (f : CommandStatusType → CommandStatusType) (a b : State)
    (h : lookEq a b) : lookEq (setCommandStatus f a) (setCommandStatus f b) := by
  obtain ⟨hd, h0, h1, hport, hpar, hcs, hph, hlo, hpos⟩ := h
  refine ⟨hd, h0, h1, hport, hpar, ?_, hph, hlo, hpos⟩
  show f a.CommandStatus = f b.CommandStatus
  rw [hcs]

theorem setCurrentTrack_lookEq (d : Int) (v : Nat) (s : State) :
    lookEq (setCurrentTrack d v s) s ∧ (setCurrentTrack d v s).UsingSpecial = s.UsingSpecial ∧
    (setCurrentTrack d v s).DRDSC = s.DRDSC := by
  unfold setCurrentTrack
  split <;> exact ⟨⟨rfl, rfl, rfl, rfl, rfl, rfl, rfl, rfl, rfl⟩, rfl, rfl⟩

theorem readPositioning_positioned (s : State) (hphys : s.FSDPhysicalTrack = Param s 0)
    (hlog : s.FSDLogicalTrack = Param s 0) :
    (readPositioning s).FSDPhysicalTrack = Param s 0 ∧
    (readPositioning s).FSDLogicalTrack = Param s 0 ∧
    (readPositioning s).PositionInTrack = s.PositionInTrack ∧
    (readPositioning s).UsingSpecial = false ∧ (readPositioning s).DRDSC = 0 := by
  have h0 : (readPositioning s).FSDPhysicalTrack =
      if (if s.DRDSC > 1 then 0
          else if (!s.UsingSpecial) = true then Param s 0 else s.FSDPhysicalTrack) = 0
      then Param s 0
      else (if s.DRDSC > 1 then 0
          else if (!s.UsingSpecial) = true then Param s 0 else s.FSDPhysicalTrack) := rfl
  have h1 : (readPositioning s).FSDPhysicalTrack = Param s 0 := by
    rw [h0, hphys, ite_self]
    by_cases hD : s.DRDSC > 1
    · rw [if_pos hD, if_pos rfl]
    · rw [if_neg hD, ite_self]
  have h3 : (readPositioning s).PositionInTrack =
      if s.FSDLogicalTrack ≠ Param s 0 then 0 else s.PositionInTrack := rfl
  have h2 : (readPositioning s).UsingSpecial =
      if (readPositioning s).FSDLogicalTrack = (readPositioning s).FSDPhysicalTrack then false
      else s.UsingSpecial := rfl
  refine ⟨h1, rfl, ?_, ?_, rfl⟩
  · rw [h3, if_neg (fun h => h hlog)]
  · rw [h2, h1]
    exact if_pos rfl

/-- C33 (for a state already positioned on the track): with a drive selected,
the disc writable, the track Read setup selects readable and `FSDPhysicalTrack` and
`FSDLogicalTrack` both equal to the track parameter, whenever the
variable-length Read setup returns, Write Data setup returns too and the two
leave the same track pointer, sector pointer, physical track, logical track
and position in track; Read setup leaves `UsingSpecial` false and `DRDSC` 0,
Write setup leaves both as they were. -/
theorem Write_setup_against_Read (s r : State)
    (hsel : 0 ≤ GetSelectedDrive (DoSelects s))
    (hwr : ((DoSelects s).DiscStatus (GetSelectedDrive (DoSelects s)).toNat).Writeable = true)
    (hread : ∀ tp, r.CommandStatus.CurrentTrackPtr = some tp →
      (trackAt s tp).TrackIsReadable = true)
    (hphys : s.FSDPhysicalTrack = Param s 0) (hlog : s.FSDLogicalTrack = Param s 0)
    (hr : DoVarLength_ReadDataCommand s = some r) :
    ∃ w, DoVarLength_WriteDataCommand s = some w ∧
      r.CommandStatus.CurrentTrackPtr = w.CommandStatus.CurrentTrackPtr ∧
      r.CommandStatus.CurrentSectorPtr = w.CommandStatus.CurrentSectorPtr ∧
      r.FSDPhysicalTrack = w.FSDPhysicalTrack ∧ r.FSDLogicalTrack = w.FSDLogicalTrack ∧
      r.PositionInTrack = w.PositionInTrack ∧
      r.UsingSpecial = false ∧ r.DRDSC = 0 ∧
      w.UsingSpecial = s.UsingSpecial ∧ w.DRDSC = s.DRDSC := by
  have hnot : ¬ GetSelectedDrive (DoSelects s) < 0 := by omega
  have hnw : ¬ ((!((DoSelects s).DiscStatus (GetSelectedDrive (DoSelects s)).toNat).Writeable)
      = true) := by
    rw [hwr]
    decide
  obtain ⟨q1, q2, q3, q4, q5⟩ := readPositioning_positioned
    { DoSelects s with SectorOverRead := false } hphys hlog
  obtain ⟨p1, p2, p3, p4, p5, p6, p7⟩ :=
    readPositioning_frame { DoSelects s with SectorOverRead := false }
  obtain ⟨⟨w1, w2, w3, w4, w5, w6, w7, w8, w9⟩, wU, wD⟩ :=
    setCurrentTrack_lookEq (GetSelectedDrive (DoSelects s)) (Param s 0) (DoSelects s)
  have hLE : lookEq (readPositioning { DoSelects s with SectorOverRead := false })
      (setCurrentTrack (GetSelectedDrive (DoSelects s)) (Param s 0) (DoSelects s)) := by
    refine ⟨?_, ?_, ?_, ?_, ?_, ?_, ?_, ?_, ?_⟩
    · rw [p4, w1]
    · rw [p2, w2]
    · rw [p2, w3]
    · rw [p2, w4]
    · rw [p2, w5]
    · rw [p3, w6]
    · rw [q1, w7]; exact hphys.symm
    · rw [q2, w8]; exact hlog.symm
    · rw [q3, w9]
  unfold DoVarLength_ReadDataCommand at hr
  dsimp only [DoLoadHead] at hr
  rw [if_neg (by exact hnot)] at hr
  rw [show (readPositioning { DoSelects s with SectorOverRead := false }).FSDLogicalTrack =
    Param s 0 from rfl] at hr
  unfold DoVarLength_WriteDataCommand
  dsimp only [DoLoadHead]
  rw [if_neg hnot, if_neg hnw, Param_setCurrentTrack,
    show Param (DoSelects s) 0 = Param s 0 from rfl]
  obtain ⟨tnone, tsome⟩ := GetTrackPtr_lookEq (Param s 0) _ _ hLE
  cases hT : GetTrackPtr (Param s 0) (readPositioning { DoSelects s with SectorOverRead := false })
    with
  | none =>
    rw [hT] at hr
    simp at hr
  | some x =>
    obtain ⟨tpo, sa⟩ := x
    obtain ⟨sa', hT', hLEa⟩ := tsome tpo sa hT
    rw [hT] at hr
    rw [hT']
    dsimp only at hr ⊢
    have fa := GetTrackPtr_frame _ _ _ _ hT
    have fa' := GetTrackPtr_frame _ _ _ _ hT'
    have aU : sa.UsingSpecial = false := by rw [fa]; exact q4
    have aD : sa.DRDSC = 0 := by rw [fa]; exact q5
    have aL : sa.FSDLogicalTrack = Param s 0 := by rw [fa]; exact q2
    have aDisc : sa.DiscStatus = s.DiscStatus := by rw [fa]; exact p4
    have aU' : sa'.UsingSpecial = s.UsingSpecial := by rw [fa']; exact wU
    have aD' : sa'.DRDSC = s.DRDSC := by rw [fa']; exact wD
    obtain ⟨aDs, aS0, aS1, aPort, aPar, aC, aP, aLg, aPos⟩ := hLEa
    cases tpo with
    | none =>
      simp only [Option.some.injEq] at hr
      subst hr
      refine ⟨_, rfl, ?_, ?_, ?_, ?_, ?_, ?_, ?_, ?_, ?_⟩ <;>
        simp [DoErr, UpdateNMIStatus_eq, setStatus, SetTrigger, setCommandStatus, aC, aP, aLg,
          aPos, aU, aD, aU', aD']
    | some tp =>
      dsimp only at hr ⊢
      have hrd : (trackAt (setCommandStatus (fun c => { c with CurrentTrackPtr := some tp }) sa)
          tp).TrackIsReadable = true := by
        have hta : trackAt (setCommandStatus (fun c => { c with CurrentTrackPtr := some tp }) sa)
            tp = trackAt s tp := by
          show (sa.DiscStatus tp.Drive).Tracks tp.Head tp.Track = _
          rw [aDisc]
          rfl
        by_cases hrd0 : (trackAt (setCommandStatus (fun c => { c with
            CurrentTrackPtr := some tp }) sa) tp).TrackIsReadable = true
        · exact hrd0
        · rw [Bool.not_eq_true] at hrd0
          rw [hrd0] at hr
          simp only [Bool.not_false, if_true, Option.some.injEq] at hr
          rw [hta]
          apply hread
          rw [← hr]
          simp [DoErr, UpdateNMIStatus_eq, setStatus, SetTrigger, setCommandStatus]
      rw [hrd] at hr
      simp only [Bool.not_true, Bool.false_eq_true, if_false] at hr
      have hLEc := lookEq_setCommandStatus (fun c => { c with CurrentTrackPtr := some tp }) sa sa'
        ⟨aDs, aS0, aS1, aPort, aPar, aC, aP, aLg, aPos⟩
      rw [show Param (setCommandStatus (fun c => { c with CurrentTrackPtr := some tp }) sa) 1 =
        Param sa 1 from rfl] at hr
      have hpar1 : Param sa' 1 = Param sa 1 := by
        unfold Param
        rw [aPar]
      obtain ⟨_, ssome⟩ := GetSectorPtr_lookEq tp (Param sa 1) _ _ hLEc
      rw [show Param (setCommandStatus (fun c => { c with CurrentTrackPtr := some tp }) sa') 1 =
        Param sa' 1 from rfl, hpar1]
      cases hS : GetSectorPtr tp (Param sa 1)
          (setCommandStatus (fun c => { c with CurrentTrackPtr := some tp }) sa) with
      | none =>
        rw [hS] at hr
        simp at hr
      | some y =>
        obtain ⟨spo, sb⟩ := y
        obtain ⟨sb', hS', hLEb⟩ := ssome spo sb hS
        rw [hS] at hr
        rw [hS']
        dsimp only at hr ⊢
        have fb := GetSectorPtr_frame _ _ _ _ _ hS
        have fb' := GetSectorPtr_frame _ _ _ _ _ hS'
        have bU : sb.UsingSpecial = false := by rw [fb]; exact aU
        have bD : sb.DRDSC = 0 := by rw [fb]; exact aD
        have bU' : sb'.UsingSpecial = s.UsingSpecial := by rw [fb']; exact aU'
        have bD' : sb'.DRDSC = s.DRDSC := by rw [fb']; exact aD'
        obtain ⟨_, _, _, _, _, bC, bP, bLg, bPos⟩ := hLEb
        cases spo with
        | none =>
          simp only [Option.some.injEq] at hr
          subst hr
          refine ⟨_, rfl, ?_, ?_, ?_, ?_, ?_, ?_, ?_, ?_, ?_⟩ <;>
            simp [DoErr, UpdateNMIStatus_eq, setStatus, SetTrigger, setCommandStatus, bC, bP, bLg,
              bPos, bU, bD, bU', bD']
        | some sp =>
          simp only [ValidateSector, if_true] at hr ⊢
          split at hr
          · simp at hr
          · split at hr
            · simp only [Option.some.injEq] at hr
              subst hr
              refine ⟨_, rfl, ?_, ?_, ?_, ?_, ?_, ?_, ?_, ?_, ?_⟩ <;>
                simp [DoErr, UpdateNMIStatus_eq, setStatus, SetTrigger, setCommandStatus,
                  latchVarLength, bC, bP, bLg, bPos, bU, bD, bU', bD']
            · simp only [Option.some.injEq] at hr
              subst hr
              refine ⟨_, rfl, ?_, ?_, ?_, ?_, ?_, ?_, ?_, ?_, ?_⟩ <;>
                (try split) <;>
                  simp [DoErr, UpdateNMIStatus_eq, setStatus, SetTrigger, setCommandStatus,
                    latchVarLength, bC, bP, bLg, bPos, bU, bD, bU', bD']

theorem Write_setup_against_Read_witness :
    ∃ w, DoVarLength_WriteDataCommand (latched 0x53 [0, 7, 0x01] (writableDrive0 lookupState)) =
        some w ∧
      w.CommandStatus.CurrentSectorPtr = some ⟨⟨0, 0, 0⟩, 1⟩ ∧ w.PositionInTrack = 1 := by
  obtain ⟨w, h1, _, h3, _, _, h6, _⟩ := Write_setup_against_Read
    (latched 0x53 [0, 7, 0x01] (writableDrive0 lookupState))
    ((DoVarLength_ReadDataCommand (latched 0x53 [0, 7, 0x01] (writableDrive0 lookupState))).get
      (by decide))
    (by decide) (by decide)
    (by
      intro tp htp
      have h0 : tp = ⟨0, 0, 0⟩ := by
        have h2 : ((DoVarLength_ReadDataCommand (latched 0x53 [0, 7, 0x01]
            (writableDrive0 lookupState))).get (by decide)).CommandStatus.CurrentTrackPtr =
            some ⟨0, 0, 0⟩ := by decide
        rw [h2] at htp
        exact (Option.some.inj htp).symm
      subst h0
      decide)
    (by decide) (by decide) (Option.some_get _).symm
  refine ⟨w, h1, ?_, ?_⟩
  · rw [← h3]
    decide
  · rw [← h6]
    decide

/-- C33, counterexample: an SSD image is loaded into drive 0, the drive made
writable, and the controller is at physical track 0 (state after reset). The
variable-length Read of track 2 sector 0 selects physical track 2 and leaves
physical and logical track 2; Write Data with the same parameters searches
physical tracks 0 and 1 only, finds no track with logical number 2, fails with
`sector_not_found` and leaves physical track 0 and logical track 0. -/
theorem Write_setup_not_positioned :
    (((LoadSimpleDiscImage "a.ssd" 0 0 80 (withFile "a.ssd" dsdImage powerOn)).map
      writableDrive0).bind (hostWrites [(0, 0x53), (1, 2), (1, 0), (1, 0x21)])).map (fun s =>
        (s.CommandStatus.CurrentTrackPtr.isSome, s.CommandStatus.NextInterruptIsErr,
         s.FSDPhysicalTrack, s.FSDLogicalTrack)) = some (true, 0, 2, 2) ∧
    (((LoadSimpleDiscImage "a.ssd" 0 0 80 (withFile "a.ssd" dsdImage powerOn)).map
      writableDrive0).bind (hostWrites [(0, 0x4B), (1, 2), (1, 0), (1, 0x21)])).map (fun s =>
        (s.CommandStatus.CurrentTrackPtr.isSome, s.CommandStatus.NextInterruptIsErr,
         s.FSDPhysicalTrack, s.FSDLogicalTrack)) = some (false, 0x18, 0, 0) := by
  refine ⟨?_, ?_⟩ <;> decide

/-! ## Track write-back -/

theorem extendFile_true : ∀ (n : Nat) (fs : FileSys) (c : List Nat) (fs' : FileSys)
    (c' : List Nat), extendFile n fs c = (true, fs', c') → c' = c ++ List.replicate n 0 := by
  intro n
  induction n with
  | zero =>
    intro fs c fs' c' h
    simp only [extendFile, Prod.mk.injEq] at h
    simp [← h.2.2]
  | succ n ih =>
    intro fs c fs' c' h
    unfold extendFile at h
    simp only [ioCall] at h
    split at h
    · rw [ih _ _ _ _ h, List.replicate_succ, List.append_assoc]
      rfl
    · simp at h

theorem take_drop_three (A B C : List Nat) (k : Nat) :
    (A ++ B ++ C).take (A.length + B.length) = A ++ B ∧
    (A ++ B ++ C).drop (A.length + B.length + k) = C.drop k := by
  constructor
  · rw [← List.length_append]
    exact List.take_left' rfl
  · rw [← List.length_append, List.drop_append]

theorem writeSectors_true (secs : List SectorType) : ∀ (n cur pos : Nat) (fs : FileSys)
    (c : List Nat) (fs' : FileSys) (c' : List Nat),
    writeSectors (some secs) n cur pos fs c = some (true, fs', c') → pos ≤ c.length →
    c' = c.take pos ++ trackBytes secs cur n ++ c.drop (pos + 256 * n) ∧
    (trackBytes secs cur n).length = 256 * n ∧
    ∀ k, k < n → 256 ≤ (sectorData secs (cur + k)).length := by
  intro n
  induction n with
  | zero =>
    intro cur pos fs c fs' c' h hp
    simp only [writeSectors, Option.some.injEq, Prod.mk.injEq] at h
    simp [trackBytes, ← h.2.2]
  | succ n ih =>
    intro cur pos fs c fs' c' h hp
    unfold writeSectors at h
    dsimp only at h
    split at h
    · simp at h
    · rename_i sec hsec
      split at h
      · simp at h
      · rename_i data hdata
        split at h
        · simp at h
        · rename_i hlen
          simp only [ioCall] at h
          split at h
          · have hsd : sectorData secs cur = data := sectorData_eq secs cur sec data hsec hdata
            have hl1 : (c.take pos).length = pos := by
              rw [List.length_take]
              omega
            have hl2 : (data.take 256).length = 256 := by
              rw [List.length_take]
              omega
            obtain ⟨e1, e2, e3⟩ := ih (cur + 1) (pos + 256) _ _ _ _ h (by
              simp only [List.length_append, hl1, hl2]
              omega)
            obtain ⟨t1, t2⟩ := take_drop_three (c.take pos) (data.take 256)
              (c.drop (pos + 256)) (256 * n)
            rw [hl1, hl2] at t1 t2
            have htb : trackBytes secs cur (n + 1) = data.take 256 ++ trackBytes secs (cur + 1) n := by
              unfold trackBytes
              rw [List.range'_succ, List.flatMap_cons, hsd]
            refine ⟨?_, ?_, ?_⟩
            · rw [e1, t1, t2, htb, List.drop_drop]
              simp only [List.append_assoc]
              congr 3
              congr 1
              omega
            · rw [htb, List.length_append, hl2, e2]
              omega
            · intro k hk
              cases k with
              | zero =>
                rw [Nat.add_zero, hsd]
                omega
              | succ k =>
                have := e3 k (by omega)
                rw [show cur + (k + 1) = cur + 1 + k by omega]
                exact this
          · simp at h

theorem SaveTrackImage_true (d hd : Nat) (t : Int) (s s' : State) (content : List Nat)
    (hf : s.FS.Files (s.DiscStatus d).FileName = some content)
    (h : SaveTrackImage d hd t s = some (true, s')) :
    0 ≤ saveOffset (s.DiscStatus d).NumHeads hd t ∧ 0 ≤ t ∧
    ∃ (fs1 fs2 fs3 : FileSys) (c2 : List Nat),
      writeSectors ((s.DiscStatus d).Tracks hd t.toNat).Sectors 10 0
        (saveOffset (s.DiscStatus d).NumHeads hd t).toNat fs1
        (content ++ List.replicate
          (saveOffset (s.DiscStatus d).NumHeads hd t - content.length).toNat 0) =
        some (true, fs2, c2) ∧
      s' = { s with FS := { fs3 with Files := fun name =>
        if name = (s.DiscStatus d).FileName then some c2 else fs3.Files name } } := by
  have hoff : saveOffset (s.DiscStatus d).NumHeads hd t =
      if (s.DiscStatus d).NumHeads ≠ 0 then ((s.DiscStatus d).NumHeads * t + hd) * 2560
      else (t + hd * TRACKS_PER_DRIVE) * 2560 := rfl
  unfold SaveTrackImage at h
  simp only [hf, ioCall, ← hoff] at h
  generalize saveOffset (s.DiscStatus d).NumHeads hd t = off at h ⊢
  by_cases b1 : (!s.FS.IOFail s.FS.IOCalls) = true
  · simp only [b1, if_true] at h
    by_cases b2 : (!s.FS.IOFail (s.FS.IOCalls + 1)) = true
    · simp only [b2, if_true] at h
      generalize he : extendFile _ _ _ = e at h
      obtain ⟨ok, fs1, c1⟩ := e
      dsimp only at h
      cases ok with
      | false => simp at h
      | true =>
        have hc1 := extendFile_true _ _ _ _ _ he
        simp only [if_true] at h
        by_cases b3 : (!fs1.IOFail fs1.IOCalls) = true ∧ 0 ≤ off
        · rw [if_pos b3] at h
          by_cases ht : t < 0
          · rw [if_pos ht] at h
            simp at h
          · rw [if_neg ht] at h
            cases hw : writeSectors ((s.DiscStatus d).Tracks hd t.toNat).Sectors 10 0 off.toNat
                { Files := fs1.Files, IOFail := fs1.IOFail, IOCalls := fs1.IOCalls + 1 } c1 with
            | none =>
              rw [hw] at h
              simp at h
            | some x =>
              obtain ⟨okw, fs2, c2⟩ := x
              rw [hw] at h
              simp only [Option.some.injEq, Prod.mk.injEq, Bool.and_eq_true] at h
              obtain ⟨⟨hok, _⟩, hs'⟩ := h
              subst hok
              rw [hc1] at hw
              exact ⟨b3.2, by omega, _, fs2,
                { Files := fs2.Files, IOFail := fs2.IOFail, IOCalls := fs2.IOCalls + 1 }, c2, hw,
                hs'.symm⟩
        · rw [if_neg b3] at h
          simp at h
    · simp [b2] at h
  · simp [b1] at h

theorem trackBytes_index (secs : List SectorType) : ∀ (n cur : Nat),
    (∀ k, k < n → 256 ≤ (sectorData secs (cur + k)).length) →
    ∀ i, i < 256 * n →
      (trackBytes secs cur n)[i]? = (sectorData secs (cur + i / 256))[i % 256]? := by
  intro n
  induction n with
  | zero =>
    intro cur _ i hi
    omega
  | succ n ih =>
    intro cur hlen i hi
    have htb : trackBytes secs cur (n + 1) =
        (sectorData secs cur).take 256 ++ trackBytes secs (cur + 1) n := by
      unfold trackBytes
      rw [List.range'_succ, List.flatMap_cons]
    have h0 := hlen 0 (by omega)
    rw [Nat.add_zero] at h0
    have hl : ((sectorData secs cur).take 256).length = 256 := by
      rw [List.length_take]
      omega
    rw [htb]
    by_cases hlt : i < 256
    · rw [List.getElem?_append_left (by rw [hl]; exact hlt), List.getElem?_take_of_lt hlt,
        Nat.div_eq_of_lt hlt, Nat.mod_eq_of_lt hlt, Nat.add_zero]
    · rw [List.getElem?_append_right (by rw [hl]; omega), hl,
        ih (cur + 1) (fun k hk => by
          have := hlen (k + 1) (by omega)
          rw [show cur + 1 + k = cur + (k + 1) by omega]
          exact this) (i - 256) (by omega)]
      have e1 : cur + 1 + (i - 256) / 256 = cur + i / 256 := by omega
      have e2 : (i - 256) % 256 = i % 256 := by omega
      rw [e1, e2]

theorem splice_index (B T : List Nat) (off : Nat) (hoff : off ≤ B.length) :
    (∀ i, i < T.length → (B.take off ++ T ++ B.drop (off + T.length))[off + i]? = T[i]?) ∧
    (∀ j, j < off → (B.take off ++ T ++ B.drop (off + T.length))[j]? = B[j]?) ∧
    (∀ j, off + T.length ≤ j →
      (B.take off ++ T ++ B.drop (off + T.length))[j]? = B[j]?) ∧
    (B.take off ++ T ++ B.drop (off + T.length)).length = max B.length (off + T.length) := by
  have hl : (B.take off).length = off := by
    rw [List.length_take]
    omega
  refine ⟨?_, ?_, ?_, ?_⟩
  · intro i hi
    rw [List.append_assoc, List.getElem?_append_right (by rw [hl]; omega), hl,
      Nat.add_sub_cancel_left, List.getElem?_append_left hi]
  · intro j hj
    rw [List.append_assoc, List.getElem?_append_left (by rw [hl]; exact hj),
      List.getElem?_take_of_lt hj]
  · intro j hj
    rw [List.getElem?_append_right (by rw [List.length_append, hl]; exact hj),
      List.length_append, hl, List.getElem?_drop]
    congr 1
    omega
  · simp only [List.length_append, hl, List.length_drop]
    omega

/-- C17: when `SaveTrackImage` for head `hd` of track `t` of drive `d` returns
success on a backing file `content` of length `F`, the offset it used is
`(h × t + hd) × 2560` for a heads-code `h ≠ 0` and `(t + hd × 80) × 2560` for
`h = 0`; the offset and the track number are not negative; the track has a
sector array whose first ten buffers hold at least 256 bytes; the file
afterwards has length `max F (offset + 2560)`; byte `offset + i`, for
`i < 2560`, is byte `i % 256` of the buffer of sector `i / 256`; every byte
below `F` outside `[offset, offset + 2560)` is unchanged; and every byte from
`F` up to the offset is zero. -/
theorem SaveTrackImage_effect (d hd : Nat) (t : Int) (s s' : State) (content : List Nat)
    (hf : s.FS.Files (s.DiscStatus d).FileName = some content)
    (h : SaveTrackImage d hd t s = some (true, s')) :
    ((s.DiscStatus d).NumHeads ≠ 0 → saveOffset (s.DiscStatus d).NumHeads hd t =
      ((s.DiscStatus d).NumHeads * t + hd) * 2560) ∧
    ((s.DiscStatus d).NumHeads = 0 → saveOffset (s.DiscStatus d).NumHeads hd t =
      (t + hd * 80) * 2560) ∧
    0 ≤ saveOffset (s.DiscStatus d).NumHeads hd t ∧ 0 ≤ t ∧
    ∃ (secs : List SectorType) (content' : List Nat),
      ((s.DiscStatus d).Tracks hd t.toNat).Sectors = some secs ∧
      (∀ k, k < 10 → 256 ≤ (sectorData secs k).length) ∧
      s'.FS.Files (s.DiscStatus d).FileName = some content' ∧
      content'.length =
        max content.length ((saveOffset (s.DiscStatus d).NumHeads hd t).toNat + 2560) ∧
      (∀ i, i < 2560 →
        content'[(saveOffset (s.DiscStatus d).NumHeads hd t).toNat + i]? =
          (sectorData secs (i / 256))[i % 256]?) ∧
      (∀ j, j < content.length →
        (j < (saveOffset (s.DiscStatus d).NumHeads hd t).toNat ∨
          (saveOffset (s.DiscStatus d).NumHeads hd t).toNat + 2560 ≤ j) →
        content'[j]? = content[j]?) ∧
      (∀ j, content.length ≤ j → j < (saveOffset (s.DiscStatus d).NumHeads hd t).toNat →
        content'[j]? = some 0) := by
  obtain ⟨h0, ht, fs1, fs2, fs3, c2, hw, hs'⟩ := SaveTrackImage_true d hd t s s' content hf h
  refine ⟨fun hn => by simp [saveOffset, hn], fun hn => by simp [saveOffset, hn, TRACKS_PER_DRIVE],
    h0, ht, ?_⟩
  generalize saveOffset (s.DiscStatus d).NumHeads hd t = offI at h0 hw ⊢
  obtain ⟨off, rfl⟩ : ∃ off : Nat, offI = (off : Int) := ⟨offI.toNat, by omega⟩
  simp only [Int.toNat_ofNat] at hw ⊢
  have hsub : ((off : Int) - (content.length : Int)).toNat = off - content.length := by omega
  rw [hsub] at hw
  cases hS : ((s.DiscStatus d).Tracks hd t.toNat).Sectors with
  | none =>
    rw [hS] at hw
    simp [writeSectors] at hw
  | some secs =>
    rw [hS] at hw
    have hB : off ≤ (content ++ List.replicate (off - content.length) 0).length := by
      simp only [List.length_append, List.length_replicate]
      omega
    obtain ⟨e1, e2, e3⟩ := writeSectors_true secs 10 0 off _ _ _ _ hw hB
    have hfile : s'.FS.Files (s.DiscStatus d).FileName = some c2 := by
      rw [hs']
      simp
    obtain ⟨x1, x2, x3, x4⟩ := splice_index (content ++ List.replicate (off - content.length) 0)
      (trackBytes secs 0 10) off hB
    rw [e2] at x1 x2 x3 x4
    rw [show 256 * 10 = 2560 from rfl] at e1 x1 x3 x4
    rw [← e1] at x1 x2 x3 x4
    refine ⟨secs, c2, rfl, ?_, hfile, ?_, ?_, ?_, ?_⟩
    · intro k hk
      have := e3 k hk
      rwa [Nat.zero_add] at this
    · rw [x4]
      simp only [List.length_append, List.length_replicate]
      omega
    · intro i hi
      rw [x1 i hi, trackBytes_index secs 10 0 e3 i (by omega), Nat.zero_add]
    · intro j hj hcase
      rcases hcase with hlt | hge
      · rw [x2 j hlt, List.getElem?_append_left hj]
      · rw [x3 j hge, List.getElem?_append_left hj]
    · intro j hj hlt
      rw [x2 j hlt, List.getElem?_append_right hj, List.getElem?_replicate]
      rw [if_pos (by omega)]

theorem SaveTrackImage_effect_witness :
    ∃ (s' : State) (content' : List Nat),
      SaveTrackImage 0 0 0 ((LoadSimpleDiscImage "a.ssd" 0 0 80
        (withFile "a.ssd" dsdImage powerOn)).get (by decide)) = some (true, s') ∧
      s'.FS.Files "a.ssd" = some content' ∧ content'.length = 2560 ∧
      content'[0]? = some 7 ∧ content'[4]? = some 0 := by
  have h := some_pair_of_get (SaveTrackImage 0 0 0 ((LoadSimpleDiscImage "a.ssd" 0 0 80
    (withFile "a.ssd" dsdImage powerOn)).get (by decide))) (by decide) true (by decide)
  obtain ⟨_, _, _, _, secs, content', h1, _, h3, h4, h5, _, _⟩ :=
    SaveTrackImage_effect 0 0 0 _ _ dsdImage (by decide) h
  have hsecs : secs = (loadSimpleSectors 0 0 10 0 dsdImage).1 :=
    Option.some.inj (h1.symm.trans (by decide))
  refine ⟨_, content', h, h3, ?_, ?_, ?_⟩
  · rw [h4]
    decide
  · have := h5 0 (by decide)
    rw [hsecs] at this
    exact this.trans (by decide)
  · have := h5 4 (by decide)
    rw [hsecs] at this
    exact this.trans (by decide)

/-! ## What the simple loaders put in the store -/

theorem loadSimpleSectors_data (T H : Nat) : ∀ (n start : Nat) (rd : List Nat),
    (loadSimpleSectors T H n start rd).2 = rd.drop (256 * n) ∧
    ∀ i, i < n → sectorData (loadSimpleSectors T H n start rd).1 i =
      (freadBuffer 256 (rd.drop (256 * i))).1 := by
  intro n
  induction n with
  | zero =>
    intro start rd
    simp [loadSimpleSectors]
  | succ n ih =>
    intro start rd
    unfold loadSimpleSectors
    dsimp only
    obtain ⟨e1, e2⟩ := ih (start + 1) (freadBuffer 256 rd).2
    have hd : (freadBuffer 256 rd).2 = rd.drop 256 := rfl
    refine ⟨?_, ?_⟩
    · rw [e1, hd, List.drop_drop]
      congr 1
      omega
    · intro i hi
      cases i with
      | zero => simp [sectorData]
      | succ i =>
        have := e2 i (by omega)
        rw [hd, List.drop_drop] at this
        rw [show 256 * (i + 1) = 256 + 256 * i by omega]
        rw [← this]
        simp only [sectorData, List.getElem?_cons_succ]
        rfl

theorem loadSimpleTrack_eq (d hd t H : Nat) (rd rd' : List Nat) (s s' : State)
    (h : loadSimpleTrack d hd t H rd s = some (rd', s')) :
    rd' = rd.drop 2560 ∧ s' = setTrack d hd t (simpleTrack t H rd) s := by
  unfold loadSimpleTrack at h
  split at h
  · simp only [Option.some.injEq, Prod.mk.injEq] at h
    obtain ⟨h1, h2⟩ := h
    refine ⟨?_, h2.symm⟩
    rw [← h1, (loadSimpleSectors_data t H 10 0 rd).1]
  · simp at h

theorem loadSimpleTracks_eq (d hd H : Nat) : ∀ (n T0 : Nat) (rd rd' : List Nat) (s s' : State),
    loadSimpleTracks d hd H n T0 rd s = some (rd', s') →
    rd' = rd.drop (2560 * n) ∧ s'.FS = s.FS ∧
    (∀ d', (s'.DiscStatus d').FileName = (s.DiscStatus d').FileName ∧
      (s'.DiscStatus d').NumHeads = (s.DiscStatus d').NumHeads) ∧
    ∀ h t, (s'.DiscStatus d).Tracks h t =
      if h = hd ∧ T0 ≤ t ∧ t < T0 + n then simpleTrack t H (rd.drop (2560 * (t - T0)))
      else (s.DiscStatus d).Tracks h t := by
  intro n
  induction n with
  | zero =>
    intro T0 rd rd' s s' h
    simp only [loadSimpleTracks, Option.some.injEq, Prod.mk.injEq] at h
    obtain ⟨rfl, rfl⟩ := h
    refine ⟨by simp, rfl, fun _ => ⟨rfl, rfl⟩, ?_⟩
    intro h t
    rw [if_neg (by omega)]
  | succ n ih =>
    intro T0 rd rd' s s' h
    unfold loadSimpleTracks at h
    cases ht : loadSimpleTrack d hd T0 H rd s with
    | none =>
      rw [ht] at h
      simp at h
    | some x =>
      obtain ⟨rd1, s1⟩ := x
      rw [ht] at h
      dsimp only at h
      obtain ⟨r1, e1⟩ := loadSimpleTrack_eq _ _ _ _ _ _ _ _ ht
      obtain ⟨r2, f2, m2, t2⟩ := ih _ _ _ _ _ h
      subst r1 e1
      refine ⟨?_, ?_, ?_, ?_⟩
      · rw [r2, List.drop_drop]
        congr 1
        omega
      · rw [f2]
        rfl
      · intro d'
        rw [(m2 d').1, (m2 d').2]
        unfold setTrack setDisc
        dsimp only
        split <;> exact ⟨rfl, rfl⟩
      · intro h t
        rw [t2 h t]
        by_cases c1 : h = hd ∧ T0 + 1 ≤ t ∧ t < T0 + 1 + n
        · rw [if_pos c1, if_pos (by omega), List.drop_drop]
          congr 2
          omega
        · rw [if_neg c1]
          by_cases c2 : h = hd ∧ t = T0
          · rw [if_pos (by omega)]
            obtain ⟨rfl, rfl⟩ := c2
            simp [setTrack, setDisc]
          · rw [if_neg (by omega)]
            simp only [setTrack, setDisc, if_true]
            rw [if_neg c2]

theorem loadSimpleSectors_get (T H : Nat) : ∀ (n start : Nat) (rd : List Nat) (i : Nat), i < n →
    ∃ sec, (loadSimpleSectors T H n start rd).1[i]? = some sec ∧
      sec.Data = some (freadBuffer 256 (rd.drop (256 * i))).1 := by
  intro n
  induction n with
  | zero =>
    intro start rd i hi
    omega
  | succ n ih =>
    intro start rd i hi
    unfold loadSimpleSectors
    dsimp only
    have hd : (freadBuffer 256 rd).2 = rd.drop 256 := rfl
    cases i with
    | zero => simp
    | succ i =>
      obtain ⟨sec, e1, e2⟩ := ih (start + 1) (freadBuffer 256 rd).2 i (by omega)
      refine ⟨sec, ?_, ?_⟩
      · rw [List.getElem?_cons_succ]
        exact e1
      · rw [e2, hd, List.drop_drop, show 256 * (i + 1) = 256 + 256 * i by omega]

theorem freadBuffer_fits (rd : List Nat) (k : Nat) (h : k + 256 ≤ rd.length) :
    (freadBuffer 256 (rd.drop k)).1 = (rd.drop k).take 256 := by
  unfold freadBuffer
  dsimp only
  rw [List.length_drop, show 256 - (rd.length - k) = 0 by omega]
  simp

theorem loadSimpleTrack_some (d hd t H : Nat) (rd : List Nat) (s : State)
    (ht : t < TRACKS_PER_DRIVE) : ∃ r, loadSimpleTrack d hd t H rd s = some r := by
  unfold loadSimpleTrack
  rw [if_pos ht]
  exact ⟨_, rfl⟩

theorem loadSimpleTracks_some (d hd H : Nat) : ∀ (n T0 : Nat) (rd : List Nat) (s : State),
    T0 + n ≤ TRACKS_PER_DRIVE → ∃ r, loadSimpleTracks d hd H n T0 rd s = some r := by
  intro n
  induction n with
  | zero =>
    intro T0 rd s _
    exact ⟨_, rfl⟩
  | succ n ih =>
    intro T0 rd s h
    unfold loadSimpleTracks
    obtain ⟨r, hr⟩ := loadSimpleTrack_some d hd T0 H rd s (by omega)
    obtain ⟨rd1, s1⟩ := r
    rw [hr]
    exact ih (T0 + 1) rd1 s1 (by omega)

theorem loadSimpleHeads_some (d H Tr : Nat) (hT : Tr ≤ TRACKS_PER_DRIVE) :
    ∀ (n Hd : Nat) (rd : List Nat) (s : State),
    ∃ r, loadSimpleHeads d H Tr n Hd rd s = some r := by
  intro n
  induction n with
  | zero =>
    intro Hd rd s
    exact ⟨_, rfl⟩
  | succ n ih =>
    intro Hd rd s
    unfold loadSimpleHeads
    obtain ⟨r, hr⟩ := loadSimpleTracks_some d Hd H Tr 0 rd s (by omega)
    obtain ⟨rd1, s1⟩ := r
    rw [hr]
    exact ih (Hd + 1) rd1 s1

theorem loadSimpleHeads_eq (d H Tr : Nat) : ∀ (n Hd : Nat) (rd rd' : List Nat) (s s' : State),
    loadSimpleHeads d H Tr n Hd rd s = some (rd', s') →
    rd' = rd.drop (2560 * (Tr * n)) ∧ s'.FS = s.FS ∧
    (∀ d', (s'.DiscStatus d').FileName = (s.DiscStatus d').FileName ∧
      (s'.DiscStatus d').NumHeads = (s.DiscStatus d').NumHeads) ∧
    ∀ h t, (s'.DiscStatus d).Tracks h t =
      if Hd ≤ h ∧ h < Hd + n ∧ t < Tr then
        simpleTrack t H (rd.drop (2560 * (Tr * (h - Hd) + t)))
      else (s.DiscStatus d).Tracks h t := by
  intro n
  induction n with
  | zero =>
    intro Hd rd rd' s s' h
    simp only [loadSimpleHeads, Option.some.injEq, Prod.mk.injEq] at h
    obtain ⟨rfl, rfl⟩ := h
    refine ⟨by simp, rfl, fun _ => ⟨rfl, rfl⟩, ?_⟩
    intro h t
    rw [if_neg (by omega)]
  | succ n ih =>
    intro Hd rd rd' s s' h
    unfold loadSimpleHeads at h
    cases ht : loadSimpleTracks d Hd H Tr 0 rd s with
    | none =>
      rw [ht] at h
      simp at h
    | some x =>
      obtain ⟨rd1, s1⟩ := x
      rw [ht] at h
      dsimp only at h
      obtain ⟨r1, f1, m1, t1⟩ := loadSimpleTracks_eq _ _ _ _ _ _ _ _ _ ht
      obtain ⟨r2, f2, m2, t2⟩ := ih _ _ _ _ _ h
      subst r1
      refine ⟨?_, ?_, ?_, ?_⟩
      · rw [r2, List.drop_drop, Nat.mul_succ]
        congr 1
        omega
      · rw [f2, f1]
      · intro d'
        rw [(m2 d').1, (m2 d').2, (m1 d').1, (m1 d').2]
        exact ⟨rfl, rfl⟩
      · intro h t
        rw [t2 h t, t1 h t]
        by_cases c1 : Hd + 1 ≤ h ∧ h < Hd + 1 + n ∧ t < Tr
        · rw [if_pos c1, if_pos (by omega), List.drop_drop]
          have e : h - Hd = (h - (Hd + 1)) + 1 := by omega
          rw [e, Nat.mul_succ]
          congr 2
          omega
        · rw [if_neg c1]
          by_cases c2 : h = Hd ∧ t < Tr
          · rw [if_pos (by omega), if_pos (by omega)]
            obtain ⟨rfl, _⟩ := c2
            simp
          · rw [if_neg (by omega), if_neg (by omega)]

theorem loadDSHeads_some (d T : Nat) (hT : T < TRACKS_PER_DRIVE) :
    ∀ (n Hd : Nat) (rd : List Nat) (s : State),
    ∃ r, loadDSHeads d T n Hd rd s = some r := by
  intro n
  induction n with
  | zero =>
    intro Hd rd s
    exact ⟨_, rfl⟩
  | succ n ih =>
    intro Hd rd s
    unfold loadDSHeads
    obtain ⟨r, hr⟩ := loadSimpleTrack_some d Hd T Hd rd s hT
    obtain ⟨rd1, s1⟩ := r
    rw [hr]
    exact ih (Hd + 1) rd1 s1

theorem loadDSTracks_some (d : Nat) : ∀ (n T0 : Nat) (rd : List Nat) (s : State),
    T0 + n ≤ TRACKS_PER_DRIVE → ∃ r, loadDSTracks d n T0 rd s = some r := by
  intro n
  induction n with
  | zero =>
    intro T0 rd s _
    exact ⟨_, rfl⟩
  | succ n ih =>
    intro T0 rd s h
    unfold loadDSTracks
    obtain ⟨r, hr⟩ := loadDSHeads_some d T0 (by omega) 2 0 rd s
    obtain ⟨rd1, s1⟩ := r
    rw [hr]
    exact ih (T0 + 1) rd1 s1 (by omega)

theorem loadDSHeads_eq (d T : Nat) : ∀ (n Hd : Nat) (rd rd' : List Nat) (s s' : State),
    loadDSHeads d T n Hd rd s = some (rd', s') →
    rd' = rd.drop (2560 * n) ∧ s'.FS = s.FS ∧
    (∀ d', (s'.DiscStatus d').FileName = (s.DiscStatus d').FileName ∧
      (s'.DiscStatus d').NumHeads = (s.DiscStatus d').NumHeads) ∧
    ∀ h t, (s'.DiscStatus d).Tracks h t =
      if t = T ∧ Hd ≤ h ∧ h < Hd + n then simpleTrack T h (rd.drop (2560 * (h - Hd)))
      else (s.DiscStatus d).Tracks h t := by
  intro n
  induction n with
  | zero =>
    intro Hd rd rd' s s' h
    simp only [loadDSHeads, Option.some.injEq, Prod.mk.injEq] at h
    obtain ⟨rfl, rfl⟩ := h
    refine ⟨by simp, rfl, fun _ => ⟨rfl, rfl⟩, ?_⟩
    intro h t
    rw [if_neg (by omega)]
  | succ n ih =>
    intro Hd rd rd' s s' h
    unfold loadDSHeads at h
    cases ht : loadSimpleTrack d Hd T Hd rd s with
    | none =>
      rw [ht] at h
      simp at h
    | some x =>
      obtain ⟨rd1, s1⟩ := x
      rw [ht] at h
      dsimp only at h
      obtain ⟨r1, e1⟩ := loadSimpleTrack_eq _ _ _ _ _ _ _ _ ht
      obtain ⟨r2, f2, m2, t2⟩ := ih _ _ _ _ _ h
      subst r1 e1
      refine ⟨?_, ?_, ?_, ?_⟩
      · rw [r2, List.drop_drop]
        congr 1
        omega
      · rw [f2]
        rfl
      · intro d'
        rw [(m2 d').1, (m2 d').2]
        unfold setTrack setDisc
        dsimp only
        split <;> exact ⟨rfl, rfl⟩
      · intro h t
        rw [t2 h t]
        by_cases c1 : t = T ∧ Hd + 1 ≤ h ∧ h < Hd + 1 + n
        · rw [if_pos c1, if_pos (by omega), List.drop_drop]
          congr 2
          omega
        · rw [if_neg c1]
          by_cases c2 : h = Hd ∧ t = T
          · rw [if_pos (by omega)]
            obtain ⟨rfl, rfl⟩ := c2
            simp [setTrack, setDisc]
          · rw [if_neg (by omega)]
            simp only [setTrack, setDisc, if_true]
            rw [if_neg c2]

theorem loadDSTracks_eq (d : Nat) : ∀ (n T0 : Nat) (rd rd' : List Nat) (s s' : State),
    loadDSTracks d n T0 rd s = some (rd', s') →
    rd' = rd.drop (2560 * (2 * n)) ∧ s'.FS = s.FS ∧
    (∀ d', (s'.DiscStatus d').FileName = (s.DiscStatus d').FileName ∧
      (s'.DiscStatus d').NumHeads = (s.DiscStatus d').NumHeads) ∧
    ∀ h t, (s'.DiscStatus d).Tracks h t =
      if h < 2 ∧ T0 ≤ t ∧ t < T0 + n then
        simpleTrack t h (rd.drop (2560 * (2 * (t - T0) + h)))
      else (s.DiscStatus d).Tracks h t := by
  intro n
  induction n with
  | zero =>
    intro T0 rd rd' s s' h
    simp only [loadDSTracks, Option.some.injEq, Prod.mk.injEq] at h
    obtain ⟨rfl, rfl⟩ := h
    refine ⟨by simp, rfl, fun _ => ⟨rfl, rfl⟩, ?_⟩
    intro h t
    rw [if_neg (by omega)]
  | succ n ih =>
    intro T0 rd rd' s s' h
    unfold loadDSTracks at h
    cases ht : loadDSHeads d T0 2 0 rd s with
    | none =>
      rw [ht] at h
      simp at h
    | some x =>
      obtain ⟨rd1, s1⟩ := x
      rw [ht] at h
      dsimp only at h
      obtain ⟨r1, f1, m1, t1⟩ := loadDSHeads_eq _ _ _ _ _ _ _ _ ht
      obtain ⟨r2, f2, m2, t2⟩ := ih _ _ _ _ _ h
      subst r1
      refine ⟨?_, ?_, ?_, ?_⟩
      · rw [r2, List.drop_drop]
        congr 1
        omega
      · rw [f2, f1]
      · intro d'
        rw [(m2 d').1, (m2 d').2, (m1 d').1, (m1 d').2]
        exact ⟨rfl, rfl⟩
      · intro h t
        rw [t2 h t, t1 h t]
        by_cases c1 : h < 2 ∧ T0 + 1 ≤ t ∧ t < T0 + 1 + n
        · rw [if_pos c1, if_pos (by omega), List.drop_drop]
          congr 2
          omega
        · rw [if_neg c1]
          by_cases c2 : h < 2 ∧ t = T0
          · rw [if_pos (by omega), if_pos (by omega)]
            obtain ⟨_, rfl⟩ := c2
            simp
          · rw [if_neg (by omega), if_neg (by omega)]

theorem FreeDiscImageLoop_some (d : Nat) : ∀ (n k0 : Nat) (s : State),
    (∀ k secs, k0 ≤ k → ((s.DiscStatus d).Tracks 0 k).Sectors = some secs →
      ((s.DiscStatus d).Tracks 0 k).LogicalSectors ≤ (secs.length : Int)) →
    ∃ s', FreeDiscImageLoop d n k0 s = some s' := by
  intro n
  induction n with
  | zero =>
    intro k0 s _
    exact ⟨_, rfl⟩
  | succ n ih =>
    intro k0 s h
    unfold FreeDiscImageLoop
    have hft : ∃ t, freeTrack ((s.DiscStatus d).Tracks 0 k0) = some t := by
      unfold freeTrack
      cases hs : ((s.DiscStatus d).Tracks 0 k0).Sectors with
      | none => exact ⟨_, rfl⟩
      | some secs =>
        dsimp only
        rw [if_pos (h k0 secs (Nat.le_refl _) hs)]
        exact ⟨_, rfl⟩
    obtain ⟨t, ht⟩ := hft
    rw [ht]
    apply ih
    intro k secs hk hs
    have hne : k ≠ k0 := by omega
    have e : ((setTrack d 0 k0 t s).DiscStatus d).Tracks 0 k = (s.DiscStatus d).Tracks 0 k := by
      simp [setTrack, setDisc, hne]
    rw [e] at hs ⊢
    exact h k secs (by omega) hs

theorem FreeDiscImage_setDisc_some (d : Nat) (s : State) (f : DiscStatusType → DiscStatusType)
    (hT : ∀ x, (f x).Tracks = x.Tracks) (hfree : Freeable d s) :
    ∃ sf, FreeDiscImage d (setDisc d f s) = some sf ∧ sf.FS = s.FS ∧
      (sf.DiscStatus d).FileName = (f (s.DiscStatus d)).FileName ∧
      (sf.DiscStatus d).NumHeads = (f (s.DiscStatus d)).NumHeads := by
  have e : ((setDisc d f s).DiscStatus d).Tracks = (s.DiscStatus d).Tracks := by
    simp [setDisc, hT]
  obtain ⟨sf, hsf⟩ := FreeDiscImageLoop_some d TRACKS_PER_DRIVE 0 (setDisc d f s) (by
    intro k secs _ hs
    rw [e] at hs ⊢
    exact hfree k secs hs)
  refine ⟨sf, hsf, ?_⟩
  have := FreeDiscImage_eq d _ _ hsf
  subst this
  simp [freedStore, setDisc]

theorem loadSimple_eq (dsd : Bool) (name : String) (d : Nat) (content : List Nat) (s : State)
    (hf : s.FS.Files name = some content) (hfree : Freeable d s) :
    ∃ s1, loadSimple dsd name d s = some s1 ∧ s1.FS = s.FS ∧
      (s1.DiscStatus d).FileName = name ∧
      (s1.DiscStatus d).NumHeads =
        (if dsd then 2 else if content.length > 0x40000 then 0 else 1) ∧
      ∀ h t, h < loaderHeads dsd content.length → t < 80 →
        (s1.DiscStatus d).Tracks h t =
          simpleTrack t (if dsd then h else 0) (content.drop (loaderOffset dsd h t)) := by
  cases dsd with
  | false =>
    obtain ⟨sf, hsf, f1, f2, f3⟩ := FreeDiscImage_setDisc_some d s (fun x => { x with
      NumHeads := if content.length > 0x40000 then 0 else 1,
      FileName := name, Kind := .SSD }) (fun _ => rfl) hfree
    obtain ⟨⟨rd1, s1⟩, hl⟩ := loadSimpleHeads_some d 0 80 (by decide)
      ((if content.length > 0x40000 then 2 else 1) - 0) 0 content sf
    obtain ⟨_, g1, g2, g3⟩ := loadSimpleHeads_eq _ _ _ _ _ _ _ _ _ hl
    refine ⟨s1, ?_, ?_, ?_, ?_, ?_⟩
    · unfold loadSimple LoadSimpleDiscImage
      simp only [Bool.false_eq_true, if_false, hf]
      rw [hsf]
      dsimp only
      rw [hl]
      rfl
    · rw [g1, f1]
    · rw [(g2 d).1, f2]
    · rw [(g2 d).2, f3]
      simp
    · intro h t hh ht
      simp only [loaderHeads, Bool.false_eq_true, if_false] at hh
      rw [g3 h t, if_pos (by omega)]
      simp [loaderOffset]
  | true =>
    obtain ⟨sf, hsf, f1, f2, f3⟩ := FreeDiscImage_setDisc_some d s (fun x => { x with
      FileName := name, Kind := .DSD, NumHeads := 2 }) (fun _ => rfl) hfree
    obtain ⟨⟨rd1, s1⟩, hl⟩ := loadDSTracks_some d 80 0 content sf (by decide)
    obtain ⟨_, g1, g2, g3⟩ := loadDSTracks_eq _ _ _ _ _ _ _ hl
    refine ⟨s1, ?_, ?_, ?_, ?_, ?_⟩
    · unfold loadSimple LoadSimpleDSDiscImage
      simp only [if_true, hf]
      rw [hsf]
      dsimp only
      rw [hl]
      rfl
    · rw [g1, f1]
    · rw [(g2 d).1, f2]
    · rw [(g2 d).2, f3]
      simp
    · intro h t hh ht
      simp only [loaderHeads, if_true] at hh
      rw [g3 h t, if_pos (by omega)]
      simp [loaderOffset]

theorem writeSectors_same (secs : List SectorType) : ∀ (n cur pos : Nat) (fs : FileSys)
    (c : List Nat), pos + 256 * n ≤ c.length →
    (∀ k, k < n → ∃ sec, secs[cur + k]? = some sec ∧
      sec.Data = some ((c.drop (pos + 256 * k)).take 256)) →
    ∃ b fs', writeSectors (some secs) n cur pos fs c = some (b, fs', c) ∧
      fs'.Files = fs.Files := by
  intro n
  induction n with
  | zero =>
    intro cur pos fs c _ _
    exact ⟨true, fs, rfl, rfl⟩
  | succ n ih =>
    intro cur pos fs c hfit hdat
    obtain ⟨sec, h1, h2⟩ := hdat 0 (by omega)
    rw [Nat.add_zero] at h1
    rw [Nat.mul_zero, Nat.add_zero] at h2
    have hlen : ((c.drop pos).take 256).length = 256 := by
      rw [List.length_take, List.length_drop]
      omega
    have hc : c.take pos ++ ((c.drop pos).take 256).take 256 ++ c.drop (pos + 256) = c := by
      have e1 : c.drop (pos + 256) = (c.drop pos).drop 256 := by
        rw [List.drop_drop]
      rw [List.take_take, Nat.min_self, e1, List.append_assoc, List.take_append_drop,
        List.take_append_drop]
    unfold writeSectors
    simp only [h1, h2, hlen, Nat.lt_irrefl, if_false, ioCall, hc]
    by_cases b : (!fs.IOFail fs.IOCalls) = true
    · rw [if_pos b]
      obtain ⟨b', fs', e1, e2⟩ := ih (cur + 1) (pos + 256)
        { fs with IOCalls := fs.IOCalls + 1 } c (by omega) (by
          intro k hk
          obtain ⟨sec', k1, k2⟩ := hdat (k + 1) (by omega)
          refine ⟨sec', ?_, ?_⟩
          · rw [← k1]
            congr 1
            omega
          · rw [k2]
            congr 3
            omega)
      exact ⟨b', fs', e1, e2⟩
    · rw [if_neg b]
      exact ⟨false, _, rfl, rfl⟩

theorem SaveTrackImage_same (d hd t off : Nat) (s : State) (content : List Nat)
    (secs : List SectorType)
    (hf : s.FS.Files (s.DiscStatus d).FileName = some content)
    (hoff : saveOffset (s.DiscStatus d).NumHeads hd (t : Int) = (off : Int))
    (hfit : off + 2560 ≤ content.length)
    (hsec : ((s.DiscStatus d).Tracks hd t).Sectors = some secs)
    (hdata : ∀ k, k < 10 → ∃ sec, secs[0 + k]? = some sec ∧
      sec.Data = some ((content.drop (off + 256 * k)).take 256)) :
    ∃ b s', SaveTrackImage d hd (t : Int) s = some (b, s') ∧
      ∀ n, s'.FS.Files n = s.FS.Files n := by
  have hoff2 : saveOffset (s.DiscStatus d).NumHeads hd (t : Int) =
      if (s.DiscStatus d).NumHeads ≠ 0 then ((s.DiscStatus d).NumHeads * (t : Int) + hd) * 2560
      else ((t : Int) + hd * TRACKS_PER_DRIVE) * 2560 := rfl
  have hfiles : ∀ (fs : FileSys) (n : String), fs.Files = s.FS.Files →
      (if n = (s.DiscStatus d).FileName then some content else fs.Files n) = s.FS.Files n := by
    intro fs n e
    split
    · rename_i hn
      rw [hn, hf]
    · rw [e]
  have hext : (((off : Nat) : Int) - (content.length : Int)).toNat = 0 := by omega
  unfold SaveTrackImage
  simp only [hf, ioCall, ← hoff2, hoff, hext, extendFile, Int.toNat_ofNat, hsec]
  by_cases b1 : (!s.FS.IOFail s.FS.IOCalls) = true
  · simp only [b1, if_true]
    by_cases b2 : (!s.FS.IOFail (s.FS.IOCalls + 1)) = true
    · simp only [b2, if_true]
      by_cases b3 : (!s.FS.IOFail (s.FS.IOCalls + 1 + 1)) = true
      · have h0 : (0 : Int) ≤ (off : Int) := by omega
        have hn : ¬ ((t : Int) < 0) := by omega
        simp only [b3, h0, and_self, if_true, hn, if_false]
        obtain ⟨b', fs', e1, e2⟩ := writeSectors_same secs 10 0 off
          { Files := s.FS.Files, IOFail := s.FS.IOFail, IOCalls := s.FS.IOCalls + 1 + 1 + 1 }
          content (by omega) hdata
        rw [e1]
        exact ⟨_, _, rfl, fun n => hfiles _ n e2⟩
      · simp only [b3, false_and, if_false, Bool.false_eq_true]
        exact ⟨_, _, rfl, fun n => hfiles _ n rfl⟩
    · simp only [b2, if_false, Bool.false_eq_true]
      exact ⟨_, _, rfl, fun n => hfiles _ n rfl⟩
  · simp only [b1, if_false, Bool.false_eq_true]
    exact ⟨_, _, rfl, fun n => hfiles _ n rfl⟩

theorem powerOn_no_sectors (d h k : Nat) : ((powerOn.DiscStatus d).Tracks h k).Sectors = none := by
  simp only [powerOn, Disc8271Reset, zeroState, InitDiscStore, ClearTrigger, setFDC,
    UpdateNMIStatus_eq, setStatus, setResult, Bool.false_eq_true, if_false, if_true]
  split_ifs <;> simp [Blank]

theorem saveOffset_loader (dsd : Bool) (len h t : Nat) (hh : h < loaderHeads dsd len) :
    saveOffset (if dsd then 2 else if len > 0x40000 then 0 else 1) h (t : Int) =
      (loaderOffset dsd h t : Int) := by
  unfold saveOffset loaderOffset
  unfold loaderHeads at hh
  cases dsd with
  | true =>
    simp only [if_true, TRACKS_PER_DRIVE]
    rw [if_pos (by omega)]
    push_cast
    omega
  | false =>
    simp only [Bool.false_eq_true, if_false, TRACKS_PER_DRIVE] at hh ⊢
    by_cases hl : len > 0x40000
    · simp only [hl, if_true, ne_eq, not_true_eq_false, if_false]
      push_cast
      omega
    · simp only [hl, if_false] at hh ⊢
      rw [if_pos (by omega)]
      push_cast
      omega

/-- C38: for an SSD image (single-sided, or double-length when the file is
longer than 0x40000 bytes) loaded by `LoadSimpleDiscImage` from head 0 with 80
tracks, and for a DSD image loaded by `LoadSimpleDSDiscImage` with 80 tracks,
into a drive whose old sector arrays can be freed: when the file fully
contains track `t` of a loaded head `h`, the load returns, the file offset
`SaveTrackImage` computes for the track is the offset the loader filled it
from, each of the ten sector buffers holds the 256 file bytes at that offset,
and writing the unmodified track back returns, whatever stdio calls fail, with
every file of the file system unchanged. -/
theorem load_then_save_unchanged (dsd : Bool) (name : String) (d h t : Nat)
    (content : List Nat) (s : State)
    (hf : s.FS.Files name = some content) (hfree : Freeable d s)
    (hh : h < loaderHeads dsd content.length) (ht : t < 80)
    (hfit : loaderOffset dsd h t + 2560 ≤ content.length) :
    ∃ s1, loadSimple dsd name d s = some s1 ∧
      saveOffset (s1.DiscStatus d).NumHeads h (t : Int) = (loaderOffset dsd h t : Int) ∧
      (∀ i, i < 10 → sectorData (((s1.DiscStatus d).Tracks h t).Sectors.getD []) i =
        (content.drop (loaderOffset dsd h t + 256 * i)).take 256) ∧
      ∃ b s2, SaveTrackImage d h (t : Int) s1 = some (b, s2) ∧
        ∀ n, s2.FS.Files n = s.FS.Files n := by
  obtain ⟨s1, l1, l2, l3, l4, l5⟩ := loadSimple_eq dsd name d content s hf hfree
  have htr := l5 h t hh ht
  have hsec : ((s1.DiscStatus d).Tracks h t).Sectors =
      some (loadSimpleSectors t (if dsd then h else 0) 10 0
        (content.drop (loaderOffset dsd h t))).1 := by
    rw [htr]
    rfl
  have hoff : saveOffset (s1.DiscStatus d).NumHeads h (t : Int) = (loaderOffset dsd h t : Int) := by
    rw [l4]
    exact saveOffset_loader dsd content.length h t hh
  have hbuf : ∀ k, k < 10 → (freadBuffer 256 ((content.drop (loaderOffset dsd h t)).drop (256 * k))).1 =
      (content.drop (loaderOffset dsd h t + 256 * k)).take 256 := by
    intro k hk
    rw [List.drop_drop]
    exact freadBuffer_fits content _ (by omega)
  refine ⟨s1, l1, hoff, ?_, ?_⟩
  · intro i hi
    rw [hsec, Option.getD_some, (loadSimpleSectors_data _ _ 10 0 _).2 i hi, hbuf i hi]
  · have hf1 : s1.FS.Files (s1.DiscStatus d).FileName = some content := by
      rw [l2, l3, hf]
    obtain ⟨b, s2, e1, e2⟩ := SaveTrackImage_same d h t (loaderOffset dsd h t) s1 content _ hf1
      hoff hfit hsec (by
        intro k hk
        obtain ⟨sec, k1, k2⟩ := loadSimpleSectors_get t (if dsd then h else 0) 10 0
          (content.drop (loaderOffset dsd h t)) k hk
        rw [Nat.zero_add]
        exact ⟨sec, k1, by rw [k2, hbuf k hk]⟩)
    exact ⟨b, s2, e1, fun n => by rw [e2 n, l2]⟩

theorem load_then_save_unchanged_witness :
    ∃ s1, loadSimple false "a.ssd" 0 (withFile "a.ssd" twoTrackImage powerOn) = some s1 ∧
      saveOffset (s1.DiscStatus 0).NumHeads 0 ((1 : Nat) : Int) = (loaderOffset false 0 1 : Int) ∧
      (∀ i, i < 10 → sectorData (((s1.DiscStatus 0).Tracks 0 1).Sectors.getD []) i =
        (twoTrackImage.drop (loaderOffset false 0 1 + 256 * i)).take 256) ∧
      ∃ b s2, SaveTrackImage 0 0 ((1 : Nat) : Int) s1 = some (b, s2) ∧
        ∀ n, s2.FS.Files n = (withFile "a.ssd" twoTrackImage powerOn).FS.Files n :=
  load_then_save_unchanged false "a.ssd" 0 0 1 twoTrackImage
    (withFile "a.ssd" twoTrackImage powerOn)
    (by simp only [withFile, if_true])
    (fun k secs hs => absurd ((powerOn_no_sectors 0 0 k).symm.trans hs) (by simp))
    (by
      unfold loaderHeads
      simp only [Bool.false_eq_true, if_false]
      split <;> omega)
    (by decide)
    (by
      rw [show twoTrackImage.length = 5120 from List.length_replicate _ _]
      decide)

/-! ## Sector buffers under a store -/

theorem getElem?_setData (secs : List SectorType) (i k : Nat) (data : List Nat) :
    (secs.modify (fun sec => { sec with Data := some data }) i)[k]? =
      (secs[k]?).map (fun sec => if i = k then { sec with Data := some data } else sec) := by
  rw [List.getElem?_modify]
  rfl

theorem TrackWF_setData (T : TrackType) (secs : List SectorType) (i : Nat) (data : List Nat)
    (h : TrackWF T secs) :
    TrackWF { T with Sectors := T.Sectors.map (fun secs =>
        secs.modify (fun sec => { sec with Data := some data }) i) }
      (secs.modify (fun sec => { sec with Data := some data }) i) := by
  obtain ⟨h1, h2, h3⟩ := h
  refine ⟨by simp [h1], by simp [h2], ?_⟩
  intro k hk
  have hk' : k < secs.length := by simpa using hk
  have e := getElem?_setData secs i k data
  rw [List.getElem?_eq_getElem hk, List.getElem?_eq_getElem hk'] at e
  simp only [Option.map_some', Option.some.injEq] at e
  rw [List.get_eq_getElem, e]
  have := h3 k hk'
  rw [List.get_eq_getElem] at this
  split <;> exact this

theorem hasID_setData (secs : List SectorType) (i : Nat) (data : List Nat) (id k : Nat) :
    hasID (secs.modify (fun sec => { sec with Data := some data }) i) id k = hasID secs id k := by
  unfold hasID
  rw [getElem?_setData]
  cases secs[k]? with
  | none => rfl
  | some sec =>
    simp only [Option.map_some']
    split <;> rfl

theorem sectorWritten_next (after : Int) (X : State) (tp : TrackPtr) (secs : List SectorType)
    (hmore : X.CommandStatus.SectorsToGo ≠ 1)
    (htp : X.CommandStatus.CurrentTrackPtr = some tp) (hwf : TrackWF (trackAt X tp) secs)
    (hp : X.PositionInTrack ≤ secs.length) (hbyte : X.PositionInTrack < 256)
    (hex : ∃ sec' ∈ secs, sec'.IDField.LogicalSector =
      ((X.CommandStatus.CurrentSector + 1) % 256).toNat) :
    ∃ u i, i < secs.length ∧
      hasID secs ((X.CommandStatus.CurrentSector + 1) % 256).toNat i = true ∧
      sectorWritten after X = some u ∧
      u.CommandStatus = { X.CommandStatus with
        ByteWithinSector := 0, SectorsToGo := X.CommandStatus.SectorsToGo - 1,
        CurrentSector := X.CommandStatus.CurrentSector + 1,
        CurrentSectorPtr := some { Trk := tp, Index := i } } ∧
      u.DiscStatus = X.DiscStatus ∧ u.PositionInTrack = i ∧ tickFrame X u := by
  unfold sectorWritten
  dsimp only
  rw [if_pos (by simp only [setCommandStatus]; omega)]
  generalize hZ : setCommandStatus (fun c => { c with CurrentSector := c.CurrentSector + 1 })
    (setCommandStatus (fun c => { c with
      ByteWithinSector := 0, SectorsToGo := c.SectorsToGo - 1 }) X) = Z
  have z1 : Z.CommandStatus = { X.CommandStatus with
      ByteWithinSector := 0, SectorsToGo := X.CommandStatus.SectorsToGo - 1,
      CurrentSector := X.CommandStatus.CurrentSector + 1 } := by
    rw [← hZ]
    rfl
  have z2 : Z.DiscStatus = X.DiscStatus := by rw [← hZ]; rfl
  have z3 : Z.PositionInTrack = X.PositionInTrack := by rw [← hZ]; rfl
  have z5 : Z.FDCState = X.FDCState := by rw [← hZ]; rfl
  have z6 : Z.FS = X.FS := by rw [← hZ]; rfl
  have zwf : TrackWF (trackAt Z tp) secs := by
    unfold trackAt
    rw [z2]
    exact hwf
  obtain ⟨i, sec', hi, _, _, hid, hget⟩ := GetSectorPtr_found tp
    ((X.CommandStatus.CurrentSector + 1) % 256).toNat Z secs zwf (by rw [z3]; exact hp)
    (by rw [z3]; exact hbyte) hex
  have hnext : nextSectorPtr Z = some (setCommandStatus (fun c => { c with
      CurrentSectorPtr := some { Trk := tp, Index := i } }) { Z with PositionInTrack := i }) := by
    have hctp : Z.CommandStatus.CurrentTrackPtr = some tp := by rw [z1]; exact htp
    have hcs : Z.CommandStatus.CurrentSector = X.CommandStatus.CurrentSector + 1 := by rw [z1]
    unfold nextSectorPtr
    rw [hctp]
    dsimp only
    rw [hcs, hget]
  rw [hnext]
  dsimp only
  rw [if_neg (by simp [setCommandStatus])]
  refine ⟨_, i, hi, hid, rfl, ?_, ?_, ?_, ?_⟩
  · simp [notLastByte, UpdateNMIStatus_eq, setStatus, SetTrigger, setCommandStatus, z1]
  · simp [notLastByte, UpdateNMIStatus_eq, setStatus, SetTrigger, setCommandStatus, z2]
  · simp [notLastByte, UpdateNMIStatus_eq, setStatus, SetTrigger, setCommandStatus]
  · simp [tickFrame, notLastByte, UpdateNMIStatus_eq, setStatus, SetTrigger, setCommandStatus,
      z1, z2, z5, z6]

theorem SaveTrackImage_frame (d hd : Nat) (t : Int) (s s' : State) (b : Bool)
    (h : SaveTrackImage d hd t s = some (b, s')) : s' = { s with FS := s'.FS } := by
  unfold SaveTrackImage at h
  dsimp only at h
  split at h
  · simp only [Option.some.injEq, Prod.mk.injEq] at h
    rw [← h.2]
  · split at h
    · simp at h
    · simp only [Option.some.injEq, Prod.mk.injEq] at h
      rw [← h.2]

theorem tickFrame_refl (t : State) : tickFrame t t :=
  ⟨rfl, rfl, rfl, rfl, rfl, fun _ => ⟨rfl, rfl⟩⟩

theorem tickFrame_trans (a b c : State) (h1 : tickFrame a b) (h2 : tickFrame b c) :
    tickFrame a c := by
  unfold tickFrame at h1 h2 ⊢
  refine ⟨h2.1.trans h1.1, h2.2.1.trans h1.2.1, h2.2.2.1.trans h1.2.2.1,
    h2.2.2.2.1.trans h1.2.2.2.1, h2.2.2.2.2.1.trans h1.2.2.2.2.1, fun x => ?_⟩
  have hb := h1.2.2.2.2.2 x
  have hc := h2.2.2.2.2.2 x
  exact ⟨hc.1.trans hb.1, hc.2.trans hb.2⟩

theorem loadSimpleSectors_ids (T H : Nat) : ∀ (n start : Nat) (rd : List Nat),
    (loadSimpleSectors T H n start rd).1.length = n ∧
    ∀ i, i < n → ∃ sec data, (loadSimpleSectors T H n start rd).1[i]? = some sec ∧
      sec.IDField.LogicalSector = (start + i) % 256 ∧ sec.RecordNum = (start + i) % 256 ∧
      sec.IDField.LogicalTrack = T % 256 ∧ sec.Data = some data ∧ data.length = 256 := by
  intro n
  induction n with
  | zero =>
    intro start rd
    exact ⟨rfl, fun i hi => absurd hi (by omega)⟩
  | succ n ih =>
    intro start rd
    unfold loadSimpleSectors
    dsimp only
    obtain ⟨e1, e2⟩ := ih (start + 1) (freadBuffer 256 rd).2
    refine ⟨by rw [List.length_cons, e1], ?_⟩
    intro i hi
    cases i with
    | zero =>
      exact ⟨_, (freadBuffer 256 rd).1, List.getElem?_cons_zero, rfl, rfl, rfl, rfl,
        freadBuffer_length 256 rd⟩
    | succ i =>
      obtain ⟨sec, data, k1, k2, k3, k4, k5, k6⟩ := e2 i (by omega)
      refine ⟨sec, data, ?_, ?_, ?_, k4, k5, k6⟩
      · rw [List.getElem?_cons_succ]
        exact k1
      · rw [k2]
        congr 1
        omega
      · rw [k3]
        congr 1
        omega

theorem simpleTrack_ten (T H : Nat) (rd : List Nat) :
    TrackWF (simpleTrack T H rd) (loadSimpleSectors T H 10 0 rd).1 ∧
    tenSectors (loadSimpleSectors T H 10 0 rd).1 ∧
    ∃ sec0 rest, (loadSimpleSectors T H 10 0 rd).1 = sec0 :: rest ∧
      sec0.IDField.LogicalTrack = T % 256 := by
  obtain ⟨e1, e2⟩ := loadSimpleSectors_ids T H 10 0 rd
  refine ⟨⟨rfl, by rw [e1]; rfl, ?_⟩, ⟨e1, ?_⟩, ?_⟩
  · intro i hi
    rw [e1] at hi
    obtain ⟨sec, data, k1, k2, k3, k4, k5, k6⟩ := e2 i hi
    rw [List.get_eq_getElem]
    have hi' : i < (loadSimpleSectors T H 10 0 rd).1.length := by rw [e1]; exact hi
    rw [List.getElem?_eq_getElem hi'] at k1
    rw [Option.some.inj k1, k3]
    omega
  · intro k hk
    obtain ⟨sec, data, k1, k2, k3, k4, k5, k6⟩ := e2 k hk
    exact ⟨sec, data, k1, by rw [k2]; omega, by rw [k3]; omega, k5, k6⟩
  · obtain ⟨sec, data, k1, k2, k3, k4, k5, k6⟩ := e2 0 (by omega)
    cases hl : (loadSimpleSectors T H 10 0 rd).1 with
    | nil =>
      rw [hl] at k1
      simp at k1
    | cons a rest =>
      rw [hl, List.getElem?_cons_zero] at k1
      exact ⟨a, rest, rfl, by rw [Option.some.inj k1]; exact k4⟩

theorem GetTrackPtr_at (id d : Nat) (s : State) (sec0 : SectorType) (rest : List SectorType)
    (hsel : GetSelectedDrive s = (d : Int))
    (hT : ((s.DiscStatus d).Tracks (CURRENT_HEAD s) s.FSDPhysicalTrack).Sectors =
      some (sec0 :: rest))
    (hid : id = sec0.IDField.LogicalTrack) :
    GetTrackPtr id s = some (some ⟨d, CURRENT_HEAD s, s.FSDPhysicalTrack⟩,
      { s with FSDPhysicalTrack := s.FSDPhysicalTrack }) := by
  unfold GetTrackPtr
  dsimp only
  rw [hsel, if_neg (by omega), Int.toNat_ofNat, show (257 : Nat) = 256 + 1 from rfl,
    GetTrackPtrLoop, if_pos (by omega), hT]
  dsimp only
  rw [if_pos hid]

theorem trackAt_setSectors (tp : TrackPtr) (secs : List SectorType) (s : State) :
    trackAt (setSectors tp secs s) tp = { trackAt s tp with Sectors := some secs } := by
  simp [trackAt, setSectors]

theorem setSectors_congr (tp : TrackPtr) (a b : List SectorType) (u s : State)
    (h : u.DiscStatus = (setSectors tp a s).DiscStatus) :
    (setSectors tp b u).DiscStatus = (setSectors tp b s).DiscStatus := by
  unfold setSectors
  dsimp only
  rw [h]
  funext d
  unfold setSectors
  dsimp only
  by_cases hd : d = tp.Drive
  · simp only [hd, if_true]
    congr 1
    funext h t
    by_cases c : h = tp.Head ∧ t = tp.Track
    · simp only [c, and_self, if_true]
    · simp only [c, if_false]
  · simp only [hd, if_false]

theorem setSectorData_eq_setSectors (tp : TrackPtr) (i : Nat) (data : List Nat)
    (secs : List SectorType) (s : State) (h : (trackAt s tp).Sectors = some secs) :
    (setSectorData ⟨tp, i⟩ data s).DiscStatus =
      (setSectors tp (secs.modify (fun sec => { sec with Data := some data }) i) s).DiscStatus := by
  unfold setSectorData setSectors
  dsimp only
  funext d
  by_cases hd : d = tp.Drive
  · simp only [hd, if_true]
    congr 1
    funext hh t
    by_cases c : hh = tp.Head ∧ t = tp.Track
    · simp only [c, and_self, if_true]
      unfold trackAt at h
      rw [h]
      rfl
    · simp only [c, if_false]
  · simp only [hd, if_false]

theorem setSectors_self (tp : TrackPtr) (secs : List SectorType) (s : State)
    (h : (trackAt s tp).Sectors = some secs) :
    (setSectors tp secs s).DiscStatus = s.DiscStatus := by
  unfold setSectors
  dsimp only
  funext d
  by_cases hd : d = tp.Drive
  · simp only [hd, if_true]
    have : (fun hh t => if hh = tp.Head ∧ t = tp.Track then
        { (s.DiscStatus tp.Drive).Tracks hh t with Sectors := some secs }
        else (s.DiscStatus tp.Drive).Tracks hh t) = (s.DiscStatus tp.Drive).Tracks := by
      funext hh t
      by_cases c : hh = tp.Head ∧ t = tp.Track
      · obtain ⟨rfl, rfl⟩ := c
        simp only [and_self, if_true]
        unfold trackAt at h
        rw [← h]
      · simp only [c, if_false]
    rw [this]
  · simp only [hd, if_false]

theorem getElem?_mapData (secs : List SectorType) (i k : Nat) (g : List Nat → List Nat) :
    (secs.modify (fun sec => { sec with Data := sec.Data.map g }) i)[k]? =
      (secs[k]?).map (fun sec => if i = k then { sec with Data := sec.Data.map g } else sec) := by
  rw [List.getElem?_modify]
  rfl

theorem modify_mapData_eq (secs : List SectorType) (i : Nat) (g : List Nat → List Nat)
    (sec : SectorType) (data : List Nat) (h1 : secs[i]? = some sec) (h2 : sec.Data = some data) :
    secs.modify (fun sec => { sec with Data := sec.Data.map g }) i =
      secs.modify (fun sec => { sec with Data := some (g data) }) i := by
  apply List.ext_getElem?
  intro k
  rw [getElem?_mapData, getElem?_setData]
  by_cases hik : i = k
  · subst hik
    rw [h1]
    simp [h2]
  · cases secs[k]? with
    | none => rfl
    | some x => simp [hik]

theorem storeBytes_length (bs data : List Nat) (h : bs.length ≤ data.length) :
    (storeBytes bs data).length = data.length := by
  unfold storeBytes
  rw [List.length_append, List.length_drop]
  omega

theorem storeBytes_snoc (bs data : List Nat) (b : Nat) (h : bs.length < data.length) :
    (storeBytes bs data).set bs.length b = storeBytes (bs ++ [b]) data := by
  unfold storeBytes
  rw [List.set_append_right _ _ (Nat.le_refl _), Nat.sub_self, List.length_append,
    List.length_singleton, List.append_assoc]
  congr 1
  have hd : data.drop bs.length = data[bs.length] :: data.drop (bs.length + 1) := by
    rw [List.drop_eq_getElem_cons h]
  rw [hd, List.set_cons_zero]
  rfl

/-! ## A write-back that returns -/

theorem writeSectors_returns (secs : List SectorType) : ∀ (n cur pos : Nat) (fs : FileSys)
    (c : List Nat), (∀ k, k < n → bufOK 256 secs (cur + k)) →
    ∃ r, writeSectors (some secs) n cur pos fs c = some r := by
  intro n
  induction n with
  | zero =>
    intro cur pos fs c _
    exact ⟨_, rfl⟩
  | succ n ih =>
    intro cur pos fs c hsh
    obtain ⟨sec, data, h1, h2, h3⟩ := hsh 0 (by omega)
    rw [Nat.add_zero] at h1
    unfold writeSectors
    simp only [h1, h2, ioCall]
    rw [if_neg (by omega)]
    by_cases b : (!fs.IOFail fs.IOCalls) = true
    · rw [if_pos b]
      apply ih
      intro k hk
      have := hsh (k + 1) (by omega)
      rw [show cur + 1 + k = cur + (k + 1) by omega]
      exact this
    · rw [if_neg b]
      exact ⟨_, rfl⟩

theorem SaveTrackImage_returns (d hd t : Nat) (s : State)
    (h : s.FS.Files (s.DiscStatus d).FileName = none ∨
      saveShape ((s.DiscStatus d).Tracks hd t)) :
    ∃ b s', SaveTrackImage d hd (t : Int) s = some (b, s') := by
  have hoff2 : saveOffset (s.DiscStatus d).NumHeads hd (t : Int) =
      if (s.DiscStatus d).NumHeads ≠ 0 then ((s.DiscStatus d).NumHeads * (t : Int) + hd) * 2560
      else ((t : Int) + hd * TRACKS_PER_DRIVE) * 2560 := rfl
  cases hf : s.FS.Files (s.DiscStatus d).FileName with
  | none =>
    unfold SaveTrackImage
    simp only [hf]
    exact ⟨_, _, rfl⟩
  | some content =>
    rcases h with h | ⟨secs, hsec, hshape⟩
    · rw [hf] at h
      simp at h
    · unfold SaveTrackImage
      simp only [hf, ioCall, ← hoff2, Int.toNat_ofNat, hsec]
      generalize saveOffset (s.DiscStatus d).NumHeads hd (t : Int) = off
      have hn : ¬ ((t : Int) < 0) := by omega
      by_cases b1 : (!s.FS.IOFail s.FS.IOCalls) = true
      · simp only [b1, if_true]
        by_cases b2 : (!s.FS.IOFail (s.FS.IOCalls + 1)) = true
        · simp only [b2, if_true]
          generalize extendFile _ _ _ = e
          obtain ⟨ok, fs1, c1⟩ := e
          cases ok with
          | false => exact ⟨_, _, rfl⟩
          | true =>
            simp only [if_true, hn, if_false]
            by_cases b3 : (!fs1.IOFail fs1.IOCalls) = true ∧ 0 ≤ off
            · rw [if_pos b3]
              obtain ⟨r, hr⟩ := writeSectors_returns secs 10 0 off.toNat
                { Files := fs1.Files, IOFail := fs1.IOFail, IOCalls := fs1.IOCalls + 1 } c1 hshape
              rw [hr]
              exact ⟨_, _, rfl⟩
            · rw [if_neg b3]
              exact ⟨_, _, rfl⟩
        · simp only [b2, if_false, Bool.false_eq_true]
          exact ⟨_, _, rfl⟩
      · simp only [b1, if_false, Bool.false_eq_true]
        exact ⟨_, _, rfl⟩

/-- The tick that completes the last sector: whatever the write-back returns,
the disc store is the one the tick was entered with. -/
theorem sectorWritten_done (after : Int) (X : State)
    (hlast : X.CommandStatus.SectorsToGo = 1)
    (hret : ∃ b X', SaveTrackImage (if X.FDCState.Select0 then 0 else 1) (CURRENT_HEAD X)
      X.CommandStatus.TrackAddr (setCommandStatus (fun c => { c with
        ByteWithinSector := 0, SectorsToGo := c.SectorsToGo - 1 }) X) = some (b, X')) :
    ∃ u, sectorWritten after X = some u ∧ u.DiscStatus = X.DiscStatus ∧
      u.CommandStatus.CurrentTrackPtr = X.CommandStatus.CurrentTrackPtr ∧
      ((u.CommandStatus.SectorsToGo = -1 ∧ u.FDCState.StatusReg = STATUS_REG_RESULT_FULL ∧
          u.CommandStatus.NextInterruptIsErr = X.CommandStatus.NextInterruptIsErr) ∨
        (u.CommandStatus.SectorsToGo = 0 ∧
          u.CommandStatus.NextInterruptIsErr = RESULT_REG_WRITE_PROTECT)) := by
  obtain ⟨b, X', hsave⟩ := hret
  have hfr := SaveTrackImage_frame _ _ _ _ _ _ hsave
  unfold sectorWritten
  dsimp only
  rw [if_neg (by simp only [setCommandStatus]; omega)]
  have e : SaveTrackImage
      (if (setCommandStatus (fun c => { c with
        ByteWithinSector := 0, SectorsToGo := c.SectorsToGo - 1 }) X).FDCState.Select0 = true
        then 0 else 1)
      (CURRENT_HEAD (setCommandStatus (fun c => { c with
        ByteWithinSector := 0, SectorsToGo := c.SectorsToGo - 1 }) X))
      (setCommandStatus (fun c => { c with
        ByteWithinSector := 0, SectorsToGo := c.SectorsToGo - 1 }) X).CommandStatus.TrackAddr
      (setCommandStatus (fun c => { c with
        ByteWithinSector := 0, SectorsToGo := c.SectorsToGo - 1 }) X) = some (b, X') := hsave
  rw [e]
  cases b with
  | true =>
    dsimp only
    refine ⟨_, rfl, ?_, ?_, Or.inl ⟨?_, ?_, ?_⟩⟩
    · rw [hfr]
      simp [UpdateNMIStatus_eq, setStatus, SetTrigger, setCommandStatus]
    · rw [hfr]
      simp [UpdateNMIStatus_eq, setStatus, SetTrigger, setCommandStatus]
    · simp [UpdateNMIStatus_eq, setStatus, SetTrigger, setCommandStatus]
    · simp [UpdateNMIStatus_eq, setStatus, SetTrigger, setCommandStatus]
    · rw [hfr]
      simp [UpdateNMIStatus_eq, setStatus, SetTrigger, setCommandStatus]
  | false =>
    dsimp only
    refine ⟨_, rfl, ?_, ?_, Or.inr ⟨?_, ?_⟩⟩
    · rw [hfr]
      simp [notLastByte, DoErr, UpdateNMIStatus_eq, setStatus, SetTrigger, setCommandStatus]
    · rw [hfr]
      simp [notLastByte, DoErr, UpdateNMIStatus_eq, setStatus, SetTrigger, setCommandStatus]
    · rw [hfr]
      simp [notLastByte, DoErr, UpdateNMIStatus_eq, setStatus, SetTrigger, setCommandStatus]
      omega
    · simp [notLastByte, DoErr, UpdateNMIStatus_eq, setStatus, SetTrigger, setCommandStatus]

/-! ## One tick of a write transfer -/

theorem WriteInterrupt_first (t : State) (hg : 0 ≤ t.CommandStatus.SectorsToGo)
    (hf : t.CommandStatus.FirstWriteInt = true)
    (hb : t.CommandStatus.ByteWithinSector < t.CommandStatus.SectorLength) :
    ∃ u, WriteInterrupt t = some u ∧
      u.CommandStatus = { t.CommandStatus with FirstWriteInt := false } ∧
      u.DiscStatus = t.DiscStatus ∧ u.PositionInTrack = t.PositionInTrack ∧ tickFrame t u := by
  unfold WriteInterrupt
  rw [if_neg (by omega)]
  simp only [hf, Bool.not_true, Bool.false_eq_true, if_false]
  rw [if_neg (by simp only [setResult, setCommandStatus]; omega)]
  refine ⟨_, rfl, ?_, ?_, ?_, ?_⟩ <;>
    simp [tickFrame, notLastByte, UpdateNMIStatus_eq, setStatus, SetTrigger, setResult,
      setCommandStatus]

/-- What a data tick does before it tests whether the sector is complete. -/
theorem WriteInterrupt_store (t : State) (b : Nat) (p : SectorPtr) (sec : SectorType)
    (data : List Nat) (hg : 0 ≤ t.CommandStatus.SectorsToGo)
    (hf : t.CommandStatus.FirstWriteInt = false)
    (hp : t.CommandStatus.CurrentSectorPtr = some p) (hsec : sectorAt t p = some sec)
    (hd : sec.Data = some data) (hb0 : 0 ≤ t.CommandStatus.ByteWithinSector)
    (hlen : t.CommandStatus.ByteWithinSector < data.length) :
    WriteInterrupt (setData b t) =
      if t.CommandStatus.ByteWithinSector + 1 ≥ t.CommandStatus.SectorLength then
        sectorWritten TIME_BETWEEN_BYTES
          (setResult RESULT_REG_SUCCESS (setCommandStatus (fun c => { c with
            ByteWithinSector := c.ByteWithinSector + 1 })
            (setSectorData p (data.set t.CommandStatus.ByteWithinSector.toNat b) (setData b t))))
      else some (notLastByte TIME_BETWEEN_BYTES
          (setResult RESULT_REG_SUCCESS (setCommandStatus (fun c => { c with
            ByteWithinSector := c.ByteWithinSector + 1 })
            (setSectorData p (data.set t.CommandStatus.ByteWithinSector.toNat b)
              (setData b t))))) := by
  unfold WriteInterrupt
  have e0 : (setData b t).CommandStatus = t.CommandStatus := rfl
  have e1 : sectorAt (setData b t) p = some sec := hsec
  have e2 : (setData b t).FDCState.DataReg = b := rfl
  rw [e0, if_neg (by omega)]
  simp only [hf, Bool.not_false, if_true, hp, e1, hd, e0, e2]
  rw [if_pos ⟨hb0, hlen⟩]
  rfl

/-! ## The ticks of one sector of a write transfer -/

theorem writeTicks_append (a b : List Nat) (t : State) :
    writeTicks (a ++ b) t = (writeTicks a t).bind (writeTicks b) := by
  induction a generalizing t with
  | nil => simp [writeTicks]
  | cons x a ih =>
    simp only [List.cons_append, writeTicks]
    cases WriteInterrupt (setData x t) with
    | none => rfl
    | some u => simp [ih]

theorem modify_setData_twice (secs : List SectorType) (i : Nat) (a b : List Nat) :
    (secs.modify (fun sec => { sec with Data := some a }) i).modify
      (fun sec => { sec with Data := some b }) i =
    secs.modify (fun sec => { sec with Data := some b }) i := by
  apply List.ext_getElem?
  intro k
  rw [getElem?_setData, getElem?_setData, getElem?_setData]
  cases secs[k]? with
  | none => rfl
  | some x =>
    by_cases hik : i = k
    · simp [hik]
    · simp [hik]

theorem modify_setData_same (secs : List SectorType) (i : Nat) (sec : SectorType)
    (data : List Nat) (h1 : secs[i]? = some sec) (h2 : sec.Data = some data) :
    secs.modify (fun sec => { sec with Data := some data }) i = secs := by
  apply List.ext_getElem?
  intro k
  rw [getElem?_setData]
  by_cases hik : i = k
  · subst hik
    rw [h1]
    simp only [Option.map_some', if_true, Option.some.injEq]
    cases sec
    simp_all
  · cases secs[k]? with
    | none => rfl
    | some x => simp [hik]

theorem TrackWF_replace (T : TrackType) (secs : List SectorType) (i : Nat) (data : List Nat)
    (h : TrackWF T secs) :
    TrackWF { T with Sectors := some (secs.modify (fun sec => { sec with Data := some data }) i) }
      (secs.modify (fun sec => { sec with Data := some data }) i) := by
  have := TrackWF_setData T secs i data h
  rw [h.1] at this
  exact this

theorem bufOK_setData (n : Nat) (secs : List SectorType) (i k : Nat) (d' : List Nat)
    (h : bufOK n secs k)
    (hl : ∀ sec data, secs[i]? = some sec → sec.Data = some data → data.length ≤ d'.length) :
    bufOK n (secs.modify (fun sec => { sec with Data := some d' }) i) k := by
  obtain ⟨sec, data, h1, h2, h3⟩ := h
  unfold bufOK
  rw [getElem?_setData, h1]
  by_cases hik : i = k
  · subst hik
    exact ⟨{ sec with Data := some d' }, d', by simp, rfl, by
      have := hl sec data h1 h2
      omega⟩
  · exact ⟨sec, data, by simp [hik], h2, h3⟩

/-- The first bytes of a sector: none of the ticks completes the sector. -/
theorem write_run (tp : TrackPtr) (i : Nat) (secs : List SectorType) (sec : SectorType)
    (data : List Nat) (t : State)
    (hg : 0 ≤ t.CommandStatus.SectorsToGo) (hf : t.CommandStatus.FirstWriteInt = false)
    (hb : t.CommandStatus.ByteWithinSector = 0)
    (hp : t.CommandStatus.CurrentSectorPtr = some ⟨tp, i⟩)
    (hT : (trackAt t tp).Sectors = some secs) (hsec : secs[i]? = some sec)
    (hd : sec.Data = some data) :
    ∀ bs : List Nat, (bs.length : Int) < t.CommandStatus.SectorLength →
      bs.length ≤ data.length →
      ∃ u, writeTicks bs t = some u ∧
        u.CommandStatus = { t.CommandStatus with ByteWithinSector := (bs.length : Int) } ∧
        u.DiscStatus = (setSectors tp (secs.modify (fun sec => { sec with
          Data := some (storeBytes bs data) }) i) t).DiscStatus ∧
        u.PositionInTrack = t.PositionInTrack ∧ tickFrame t u := by
  intro bs
  induction bs using List.reverseRecOn with
  | nil =>
    intro _ _
    refine ⟨t, rfl, ?_, ?_, rfl, tickFrame_refl t⟩
    · rw [List.length_nil, Nat.cast_zero, ← hb]
    · have e : storeBytes [] data = data := by simp [storeBytes]
      rw [e, modify_setData_same secs i sec data hsec hd, setSectors_self tp secs t hT]
  | append_singleton bs b ih =>
    intro hL hlen
    rw [List.length_append, List.length_singleton] at hL hlen
    push_cast at hL
    obtain ⟨u, r, c, d, p, f⟩ := ih (by omega) (by omega)
    have hTu : (trackAt u tp).Sectors = some (secs.modify (fun sec => { sec with
        Data := some (storeBytes bs data) }) i) := by
      unfold trackAt
      rw [d]
      have := trackAt_setSectors tp (secs.modify (fun sec => { sec with
        Data := some (storeBytes bs data) }) i) t
      unfold trackAt at this
      rw [this]
    have hi : i < secs.length := (List.getElem?_eq_some_iff.1 hsec).1
    have hsecu : sectorAt u ⟨tp, i⟩ =
        some { sec with Data := some (storeBytes bs data) } := by
      unfold sectorAt
      rw [hTu]
      dsimp only
      rw [getElem?_setData, hsec]
      simp
    have hlu : (storeBytes bs data).length = data.length := storeBytes_length bs data (by omega)
    have hst := WriteInterrupt_store u b ⟨tp, i⟩ _ (storeBytes bs data)
      (by rw [c]; exact hg) (by rw [c]; exact hf) (by rw [c]; exact hp) hsecu rfl
      (by rw [c]; dsimp only; omega) (by rw [c]; dsimp only; rw [hlu]; omega)
    rw [if_neg (by rw [c]; dsimp only; omega)] at hst
    have hset : (storeBytes bs data).set u.CommandStatus.ByteWithinSector.toNat b =
        storeBytes (bs ++ [b]) data := by
      rw [c]
      dsimp only
      rw [Int.toNat_ofNat]
      exact storeBytes_snoc bs data b (by omega)
    rw [hset] at hst
    have hTd : (trackAt (setData b u) tp).Sectors = some (secs.modify (fun sec => { sec with
        Data := some (storeBytes bs data) }) i) := hTu
    have hdisc := setSectorData_eq_setSectors tp i (storeBytes (bs ++ [b]) data) _ (setData b u)
      hTd
    rw [modify_setData_twice] at hdisc
    have hcong := setSectors_congr tp (secs.modify (fun sec => { sec with
        Data := some (storeBytes bs data) }) i) (secs.modify (fun sec => { sec with
        Data := some (storeBytes (bs ++ [b]) data) }) i) (setData b u) t d
    refine ⟨notLastByte TIME_BETWEEN_BYTES (setResult RESULT_REG_SUCCESS
      (setCommandStatus (fun c => { c with ByteWithinSector := c.ByteWithinSector + 1 })
        (setSectorData ⟨tp, i⟩ (storeBytes (bs ++ [b]) data) (setData b u)))), ?_, ?_, ?_, ?_, ?_⟩
    · rw [writeTicks_append, r]
      simp only [Option.some_bind, writeTicks]
      rw [hst]
      rfl
    · simp only [notLastByte, UpdateNMIStatus_eq, setStatus, SetTrigger, setResult,
        setCommandStatus, setSectorData, setData]
      rw [c]
      simp
    · have e : (notLastByte TIME_BETWEEN_BYTES (setResult RESULT_REG_SUCCESS
          (setCommandStatus (fun c => { c with ByteWithinSector := c.ByteWithinSector + 1 })
            (setSectorData ⟨tp, i⟩ (storeBytes (bs ++ [b]) data) (setData b u))))).DiscStatus =
          (setSectorData ⟨tp, i⟩ (storeBytes (bs ++ [b]) data) (setData b u)).DiscStatus := by
        simp [notLastByte, UpdateNMIStatus_eq, setStatus, SetTrigger, setResult, setCommandStatus]
      rw [e, hdisc, hcong]
    · simp only [notLastByte, UpdateNMIStatus_eq, setStatus, SetTrigger, setResult,
        setCommandStatus, setSectorData, setData]
      exact p
    · refine tickFrame_trans _ _ _ f ?_
      refine ⟨?_, ?_, ?_, ?_, ?_, ?_⟩ <;>
        simp only [notLastByte, UpdateNMIStatus_eq, setStatus, SetTrigger, setResult,
          setCommandStatus, setSectorData, setData]
      intro x
      split <;> exact ⟨rfl, rfl⟩

/-- The `L` ticks of one sector: the last one hands the state with the sector
stored to `sectorWritten`. -/
theorem write_sector (tp : TrackPtr) (i : Nat) (secs : List SectorType) (sec : SectorType)
    (data : List Nat) (t : State) (L : Nat) (bs : List Nat)
    (hg : 0 ≤ t.CommandStatus.SectorsToGo) (hf : t.CommandStatus.FirstWriteInt = false)
    (hb : t.CommandStatus.ByteWithinSector = 0)
    (hL : t.CommandStatus.SectorLength = (L : Int)) (hL1 : 1 ≤ L)
    (hp : t.CommandStatus.CurrentSectorPtr = some ⟨tp, i⟩)
    (hT : (trackAt t tp).Sectors = some secs) (hsec : secs[i]? = some sec)
    (hd : sec.Data = some data) (hbs : bs.length = L) (hlen : L ≤ data.length) :
    ∃ X, writeTicks bs t = sectorWritten TIME_BETWEEN_BYTES X ∧
      X.CommandStatus = { t.CommandStatus with ByteWithinSector := (L : Int) } ∧
      X.DiscStatus = (setSectors tp (secs.modify (fun sec => { sec with
        Data := some (storeBytes bs data) }) i) t).DiscStatus ∧
      X.PositionInTrack = t.PositionInTrack ∧ tickFrame t X := by
  obtain ⟨init, b, rfl⟩ : ∃ init b, bs = init ++ [b] := by
    cases hh : bs.reverse with
    | nil =>
      have : bs = [] := by simpa using hh
      rw [this] at hbs
      simp at hbs
      omega
    | cons x xs =>
      refine ⟨xs.reverse, x, ?_⟩
      have := congrArg List.reverse hh
      simpa using this
  rw [List.length_append, List.length_singleton] at hbs
  obtain ⟨u, r, c, d, p, f⟩ := write_run tp i secs sec data t hg hf hb hp hT hsec hd init
    (by rw [hL]; push_cast; omega) (by omega)
  have hTu : (trackAt u tp).Sectors = some (secs.modify (fun sec => { sec with
      Data := some (storeBytes init data) }) i) := by
    unfold trackAt
    rw [d]
    have := trackAt_setSectors tp (secs.modify (fun sec => { sec with
      Data := some (storeBytes init data) }) i) t
    unfold trackAt at this
    rw [this]
  have hsecu : sectorAt u ⟨tp, i⟩ =
      some { sec with Data := some (storeBytes init data) } := by
    unfold sectorAt
    rw [hTu]
    dsimp only
    rw [getElem?_setData, hsec]
    simp
  have hlu : (storeBytes init data).length = data.length :=
    storeBytes_length init data (by omega)
  have hst := WriteInterrupt_store u b ⟨tp, i⟩ _ (storeBytes init data)
    (by rw [c]; exact hg) (by rw [c]; exact hf) (by rw [c]; exact hp) hsecu rfl
    (by rw [c]; dsimp only; omega) (by rw [c]; dsimp only; rw [hlu]; omega)
  rw [if_pos (by rw [c]; dsimp only; rw [hL]; push_cast; omega)] at hst
  have hset : (storeBytes init data).set u.CommandStatus.ByteWithinSector.toNat b =
      storeBytes (init ++ [b]) data := by
    rw [c]
    dsimp only
    rw [Int.toNat_ofNat]
    exact storeBytes_snoc init data b (by omega)
  rw [hset] at hst
  have hTd : (trackAt (setData b u) tp).Sectors = some (secs.modify (fun sec => { sec with
      Data := some (storeBytes init data) }) i) := hTu
  have hdisc := setSectorData_eq_setSectors tp i (storeBytes (init ++ [b]) data) _ (setData b u)
    hTd
  rw [modify_setData_twice] at hdisc
  have hcong := setSectors_congr tp (secs.modify (fun sec => { sec with
      Data := some (storeBytes init data) }) i) (secs.modify (fun sec => { sec with
      Data := some (storeBytes (init ++ [b]) data) }) i) (setData b u) t d
  refine ⟨setResult RESULT_REG_SUCCESS
    (setCommandStatus (fun c => { c with ByteWithinSector := c.ByteWithinSector + 1 })
      (setSectorData ⟨tp, i⟩ (storeBytes (init ++ [b]) data) (setData b u))), ?_, ?_, ?_, ?_, ?_⟩
  · rw [writeTicks_append, r]
    simp only [Option.some_bind, writeTicks]
    rw [hst]
    cases sectorWritten TIME_BETWEEN_BYTES _ <;> rfl
  · simp only [setResult, setCommandStatus, setSectorData, setData]
    rw [c]
    simp
    omega
  · have e : (setResult RESULT_REG_SUCCESS
        (setCommandStatus (fun c => { c with ByteWithinSector := c.ByteWithinSector + 1 })
          (setSectorData ⟨tp, i⟩ (storeBytes (init ++ [b]) data) (setData b u)))).DiscStatus =
        (setSectorData ⟨tp, i⟩ (storeBytes (init ++ [b]) data) (setData b u)).DiscStatus := rfl
    rw [e, hdisc, hcong]
  · exact p
  · refine tickFrame_trans _ _ _ f ?_
    refine ⟨rfl, rfl, rfl, rfl, rfl, ?_⟩
    intro x
    simp only [setResult, setCommandStatus, setSectorData, setData]
    split <;> exact ⟨rfl, rfl⟩

/-! ## A multi-sector write -/

theorem hasID_sector (secs : List SectorType) (id i : Nat) (h : hasID secs id i = true) :
    ∃ sec, secs[i]? = some sec ∧ sec.IDField.LogicalSector = id := by
  unfold hasID at h
  cases hs : secs[i]? with
  | none =>
    rw [hs] at h
    simp at h
  | some sec =>
    rw [hs] at h
    simp only [Option.map_some', beq_iff_eq, Option.some.injEq] at h
    exact ⟨sec, rfl, h⟩

theorem saveShape_setSectors (tp : TrackPtr) (secs secs1 : List SectorType) (s : State)
    (D H A : Nat) (hT : (trackAt s tp).Sectors = some secs)
    (hb : ∀ k, bufOK 256 secs k → bufOK 256 secs1 k)
    (h : saveShape ((s.DiscStatus D).Tracks H A)) :
    saveShape (((setSectors tp secs1 s).DiscStatus D).Tracks H A) := by
  unfold setSectors
  dsimp only
  by_cases hd : D = tp.Drive
  · simp only [hd, if_true]
    by_cases c : H = tp.Head ∧ A = tp.Track
    · simp only [c, and_self, if_true]
      obtain ⟨secs', e1, e2⟩ := h
      rw [hd, c.1, c.2] at e1
      unfold trackAt at hT
      rw [hT] at e1
      have : secs' = secs := (Option.some.inj e1).symm
      subst this
      exact ⟨secs1, rfl, fun k hk => hb _ (e2 k hk)⟩
    · simp only [c, if_false]
      rw [hd] at h
      exact h
  · simp only [hd, if_false]
    exact h

theorem Write_sectors (tp : TrackPtr) (L : Nat) (hL1 : 1 ≤ L) (D H A : Nat) :
    ∀ (m : Nat) (t : State) (secs : List SectorType) (i0 : Nat) (bytes : List Nat),
    t.CommandStatus.SectorsToGo = (m : Int) + 1 → t.CommandStatus.ByteWithinSector = 0 →
    t.CommandStatus.FirstWriteInt = false → t.CommandStatus.SectorLength = (L : Int) →
    t.CommandStatus.CurrentTrackPtr = some tp → TrackWF (trackAt t tp) secs →
    secs.length < 256 → t.PositionInTrack ≤ secs.length →
    t.CommandStatus.CurrentSectorPtr = some { Trk := tp, Index := i0 } →
    bufOK L secs i0 →
    (∀ j : Nat, 1 ≤ j → j ≤ m →
      (∃ i, hasID secs ((t.CommandStatus.CurrentSector + (j : Int)) % 256).toNat i = true) ∧
      ∀ i, hasID secs ((t.CommandStatus.CurrentSector + (j : Int)) % 256).toNat i = true →
        bufOK L secs i) →
    bytes.length = L * (m + 1) →
    (if t.FDCState.Select0 then 0 else 1) = D → CURRENT_HEAD t = H →
    t.CommandStatus.TrackAddr = (A : Int) →
    (t.FS.Files (t.DiscStatus D).FileName = none ∨ saveShape ((t.DiscStatus D).Tracks H A)) →
    ∃ (u : State) (idx : List Nat), idx.length = m + 1 ∧ idx.head? = some i0 ∧
      (∀ (j i : Nat), idx[j]? = some i → i < secs.length ∧ (1 ≤ j →
        hasID secs ((t.CommandStatus.CurrentSector + (j : Int)) % 256).toNat i = true)) ∧
      writeTicks bytes t = some u ∧
      u.DiscStatus = (setSectors tp (storeSectors L idx bytes secs) t).DiscStatus ∧
      ((u.CommandStatus.SectorsToGo = -1 ∧ u.FDCState.StatusReg = STATUS_REG_RESULT_FULL ∧
          u.CommandStatus.NextInterruptIsErr = t.CommandStatus.NextInterruptIsErr) ∨
        (u.CommandStatus.SectorsToGo = 0 ∧
          u.CommandStatus.NextInterruptIsErr = RESULT_REG_WRITE_PROTECT)) := by
  intro m
  induction m with
  | zero =>
    intro t secs i0 bytes hg hb hf hL htp hwf hsz hp hptr hbuf _ hlen hD hH hA hsave
    obtain ⟨sec0, data, hsec0, hd, hdl⟩ := hbuf
    have hi0 : i0 < secs.length := (List.getElem?_eq_some_iff.1 hsec0).1
    obtain ⟨X, r, c, d, p, f⟩ := write_sector tp i0 secs sec0 data t L bytes (by omega) hf hb hL
      hL1 hptr hwf.1 hsec0 hd (by omega) hdl
    obtain ⟨g1, g2, g3, g4, g5, g6⟩ := f
    have hsl : (storeBytes bytes data).length = data.length :=
      storeBytes_length bytes data (by omega)
    have hshapeX : X.FS.Files (X.DiscStatus D).FileName = none ∨
        saveShape ((X.DiscStatus D).Tracks H A) := by
      rcases hsave with h | h
      · left
        rw [g1, (g6 D).1]
        exact h
      · right
        rw [d]
        refine saveShape_setSectors tp secs _ t D H A hwf.1 ?_ h
        intro k hk
        exact bufOK_setData 256 secs i0 k _ hk (by
          intro sec' data' e1 e2
          rw [hsec0] at e1
          have := Option.some.inj e1
          subst this
          rw [hd] at e2
          have := Option.some.inj e2
          subst this
          omega)
    obtain ⟨b, X', hret⟩ := SaveTrackImage_returns D H A (setCommandStatus (fun c => { c with
      ByteWithinSector := 0, SectorsToGo := c.SectorsToGo - 1 }) X) hshapeX
    obtain ⟨u, y1, y2, y3, y4⟩ := sectorWritten_done TIME_BETWEEN_BYTES X
      (by rw [c]; dsimp only; omega)
      ⟨b, X', by
        have a1 : (if X.FDCState.Select0 then 0 else 1) = D := by rw [g2]; exact hD
        have a2 : CURRENT_HEAD X = H := by
          unfold CURRENT_HEAD
          rw [g4]
          exact hH
        have a3 : X.CommandStatus.TrackAddr = (A : Int) := by rw [g5]; exact hA
        rw [a1, a2, a3]
        exact hret⟩
    refine ⟨u, [i0], rfl, rfl, ?_, ?_, ?_, ?_⟩
    · intro j i hji
      cases j with
      | zero =>
        simp only [List.getElem?_cons_zero, Option.some.injEq] at hji
        subst hji
        exact ⟨hi0, fun h => absurd h (by omega)⟩
      | succ j => simp at hji
    · rw [r, y1]
    · rw [y2, d]
      have e : bytes.take L = bytes := List.take_of_length_le (by omega)
      simp only [storeSectors]
      rw [e, modify_mapData_eq secs i0 _ sec0 data hsec0 hd]
    · rcases y4 with ⟨q1, q2, q3⟩ | ⟨q1, q2⟩
      · left
        exact ⟨q1, q2, by rw [q3, c]⟩
      · right
        exact ⟨q1, q2⟩
  | succ m ih =>
    intro t secs i0 bytes hg hb hf hL htp hwf hsz hp hptr hbuf hall hlen hD hH hA hsave
    obtain ⟨sec0, data, hsec0, hd, hdl⟩ := hbuf
    have hi0 : i0 < secs.length := (List.getElem?_eq_some_iff.1 hsec0).1
    have hsplit : bytes = bytes.take L ++ bytes.drop L := (List.take_append_drop L bytes).symm
    have hlt : (bytes.take L).length = L := by
      rw [List.length_take]
      have : L ≤ L * (m + 1 + 1) := Nat.le_mul_of_pos_right L (by omega)
      omega
    have hld : (bytes.drop L).length = L * (m + 1) := by
      rw [List.length_drop, hlen]
      have : L * (m + 1 + 1) = L * (m + 1) + L := by ring
      omega
    obtain ⟨X, r, c, d, p, f⟩ := write_sector tp i0 secs sec0 data t L (bytes.take L) (by omega)
      hf hb hL hL1 hptr hwf.1 hsec0 hd hlt hdl
    have hsl : (storeBytes (bytes.take L) data).length = data.length :=
      storeBytes_length _ data (by omega)
    generalize hS1 : secs.modify (fun sec => { sec with
      Data := some (storeBytes (bytes.take L) data) }) i0 = secs1 at d
    have hlen1 : secs1.length = secs.length := by
      rw [← hS1]
      simp
    have hid1 : ∀ id k, hasID secs1 id k = hasID secs id k := by
      intro id k
      rw [← hS1]
      exact hasID_setData secs i0 _ id k
    have hbuf1 : ∀ n k, bufOK n secs k → data.length ≤ (storeBytes (bytes.take L) data).length →
        bufOK n secs1 k := by
      intro n k hk hle
      rw [← hS1]
      exact bufOK_setData n secs i0 k _ hk (by
        intro sec' data' e1 e2
        rw [hsec0] at e1
        have := Option.some.inj e1
        subst this
        rw [hd] at e2
        have := Option.some.inj e2
        subst this
        exact hle)
    have hwfX : TrackWF (trackAt X tp) secs1 := by
      unfold trackAt
      rw [d]
      have := trackAt_setSectors tp secs1 t
      unfold trackAt at this
      rw [this, ← hS1]
      exact TrackWF_replace _ secs i0 _ hwf
    obtain ⟨hex1, hgood1⟩ := hall 1 (le_refl 1) (by omega)
    obtain ⟨i1', hi1'⟩ := hex1
    obtain ⟨sec1', hs1', hidl⟩ := hasID_sector secs1 _ i1' (by rw [hid1]; exact hi1')
    have hcsX : X.CommandStatus.CurrentSector = t.CommandStatus.CurrentSector := by rw [c]
    obtain ⟨u1, i1, y1, y2, y3, y4, y5, y6, y7⟩ := sectorWritten_next TIME_BETWEEN_BYTES X tp
      secs1 (by rw [c]; dsimp only; omega) (by rw [c]; exact htp) hwfX
      (by rw [p, hlen1]; exact hp) (by rw [p]; omega)
      ⟨sec1', List.getElem?_mem hs1', by rw [hcsX]; simpa using hidl⟩
    rw [hcsX] at y2
    have y2' : hasID secs ((t.CommandStatus.CurrentSector + 1) % 256).toNat i1 = true := by
      rw [← hid1]
      exact y2
    have hwf1 : TrackWF (trackAt u1 tp) secs1 := by
      unfold trackAt
      rw [y5]
      exact hwfX
    obtain ⟨g1, g2, g3, g4, g5, g6⟩ := tickFrame_trans _ _ _ f y7
    obtain ⟨u, idx, hlen2, hhead, hidx, e2, d2, fin⟩ := ih u1 secs1 i1 (bytes.drop L)
      (by rw [y4, c]; dsimp only; push_cast at hg; omega) (by rw [y4]) (by rw [y4, c]; exact hf)
      (by rw [y4, c]; exact hL) (by rw [y4, c]; exact htp) hwf1 (by rw [hlen1]; exact hsz)
      (by rw [y6, hlen1] at *; omega) (by rw [y4])
      (hbuf1 L i1 (hgood1 i1 (by simpa using y2')) (by omega))
      (by
        intro j hj1 hjm
        have := hall (j + 1) (by omega) (by omega)
        rw [y4, c]
        dsimp only
        have he : t.CommandStatus.CurrentSector + 1 + (j : Int) =
            t.CommandStatus.CurrentSector + ((j + 1 : Nat) : Int) := by push_cast; ring
        rw [he]
        obtain ⟨⟨i, hi⟩, h2⟩ := this
        refine ⟨⟨i, by rw [hid1]; exact hi⟩, ?_⟩
        intro i' hi'
        rw [hid1] at hi'
        exact hbuf1 L i' (h2 i' hi') (by omega))
      hld (by rw [g2]; exact hD)
      (by
        unfold CURRENT_HEAD
        rw [g4]
        exact hH)
      (by rw [g5]; exact hA)
      (by
        rcases hsave with h | h
        · left
          rw [g1, (g6 D).1]
          exact h
        · right
          rw [y5, d]
          exact saveShape_setSectors tp secs secs1 t D H A hwf.1
            (fun k hk => hbuf1 256 k hk (by omega)) h)
    refine ⟨u, i0 :: idx, by simp [hlen2], rfl, ?_, ?_, ?_, ?_⟩
    · intro j k hjk
      cases j with
      | zero =>
        simp only [List.getElem?_cons_zero, Option.some.injEq] at hjk
        subst hjk
        exact ⟨hi0, fun h => absurd h (by omega)⟩
      | succ j =>
        simp only [List.getElem?_cons_succ] at hjk
        obtain ⟨h1, h2⟩ := hidx j k hjk
        refine ⟨by rw [← hlen1]; exact h1, fun _ => ?_⟩
        cases j with
        | zero =>
          have hk : some i1 = some k := by
            rw [← hhead, List.head?_eq_getElem?]
            exact hjk
          simp only [Option.some.injEq] at hk
          subst hk
          simpa using y2'
        | succ j =>
          have := h2 (by omega)
          rw [y4, c] at this
          dsimp only at this
          have he : t.CommandStatus.CurrentSector + 1 + ((j + 1 : Nat) : Int) =
              t.CommandStatus.CurrentSector + ((j + 1 + 1 : Nat) : Int) := by push_cast; ring
          rw [he, hid1] at this
          exact this
    · rw [hsplit, writeTicks_append, r, y3]
      exact e2
    · rw [d2]
      simp only [storeSectors]
      rw [modify_mapData_eq secs i0 _ sec0 data hsec0 hd, hS1]
      exact setSectors_congr tp secs1 _ u1 t (by rw [y5, d])
    · rcases fin with ⟨q1, q2, q3⟩ | ⟨q1, q2⟩
      · left
        exact ⟨q1, q2, by rw [q3, y4, c]⟩
      · right
        exact ⟨q1, q2⟩

/-! ## The sector array after a whole transfer -/

theorem storeSectors_length (L : Nat) (idx : List Nat) (bytes : List Nat)
    (secs : List SectorType) : (storeSectors L idx bytes secs).length = secs.length := by
  induction idx generalizing bytes secs with
  | nil => rfl
  | cons i idx ih =>
    simp only [storeSectors]
    rw [ih]
    simp

theorem storeSectors_other (L : Nat) (idx : List Nat) (bytes : List Nat)
    (secs : List SectorType) (i : Nat) (h : i ∉ idx) :
    (storeSectors L idx bytes secs)[i]? = secs[i]? := by
  induction idx generalizing bytes secs with
  | nil => rfl
  | cons a idx ih =>
    simp only [storeSectors]
    rw [ih _ _ (fun hm => h (List.mem_cons_of_mem _ hm)), List.getElem?_modify]
    have hne : a ≠ i := by
      intro e
      exact h (by rw [e]; exact List.mem_cons_self _ _)
    simp [hne]

theorem storeSectors_at (L : Nat) : ∀ (idx : List Nat) (bytes : List Nat)
    (secs : List SectorType) (j i : Nat), idx.Nodup → idx[j]? = some i →
    (storeSectors L idx bytes secs)[i]? = (secs[i]?).map (fun sec => { sec with
      Data := sec.Data.map (storeBytes ((bytes.drop (L * j)).take L)) }) := by
  intro idx
  induction idx with
  | nil =>
    intro bytes secs j i _ h
    simp at h
  | cons a idx ih =>
    intro bytes secs j i hnd h
    rw [List.nodup_cons] at hnd
    simp only [storeSectors]
    cases j with
    | zero =>
      simp only [List.getElem?_cons_zero, Option.some.injEq] at h
      subst h
      rw [storeSectors_other L idx _ _ a hnd.1, List.getElem?_modify]
      simp
    | succ j =>
      simp only [List.getElem?_cons_succ] at h
      have hne : a ≠ i := by
        intro e
        rw [e] at hnd
        exact hnd.1 (List.getElem?_mem h)
      rw [ih _ _ j i hnd.2 h, List.getElem?_modify]
      simp only [hne, if_false, id_map', List.drop_drop]
      have e : L + L * j = L * (j + 1) := by ring
      rw [e]

theorem storeBytes_block (bs data : List Nat) (o : Nat) :
    (storeBytes bs data)[o]? = if o < bs.length then bs[o]? else data[o]? := by
  unfold storeBytes
  by_cases h : o < bs.length
  · rw [if_pos h, List.getElem?_append_left h]
  · rw [if_neg h, List.getElem?_append_right (by omega), List.getElem?_drop]
    congr 1
    omega

theorem block_length (L m j : Nat) (bytes : List Nat) (hlen : bytes.length = L * (m + 1))
    (hj : j ≤ m) : ((bytes.drop (L * j)).take L).length = L := by
  rw [List.length_take, List.length_drop, hlen]
  have : L * (m + 1) = L * j + L * (m - j) + L := by
    have : m + 1 = j + (m - j) + 1 := by omega
    rw [this]
    ring
  omega

theorem selected_drive (t : State) (d : Nat) (h : GetSelectedDrive t = (d : Int)) :
    (if t.FDCState.Select0 then 0 else 1) = d := by
  unfold GetSelectedDrive at h
  split at h
  · rename_i h0
    rw [if_pos h0]
    omega
  · rename_i h0
    rw [if_neg h0]
    split at h <;> omega

/-! ## Write setup -/

theorem DoVarLength_WriteDataCommand_eq (s sa sb : State) (tp : TrackPtr) (sp : SectorPtr)
    (hsel : 0 ≤ GetSelectedDrive (DoSelects s))
    (hw : (s.DiscStatus (GetSelectedDrive (DoSelects s)).toNat).Writeable = true)
    (ht : GetTrackPtr (Param s 0)
      (setCurrentTrack (GetSelectedDrive (DoSelects s)) (Param s 0) (DoSelects s)) =
        some (some tp, sa))
    (hs : GetSectorPtr tp (Param s 1) sa = some (some sp, sb)) :
    DoVarLength_WriteDataCommand s =
      some (setCommandStatus (fun c => { c with ByteWithinSector := 0, FirstWriteInt := true })
        (UpdateNMIStatus (setStatus STATUS_REG_COMMAND_BUSY (SetTrigger TIME_BETWEEN_BYTES
          (setCommandStatus (fun c => { c with ByteWithinSector := 0 })
            (setCommandStatus (fun c => { c with
              TrackAddr := (Param s 0 : Int), CurrentSector := (Param s 1 : Int),
              SectorsToGo := ((Param s 2 &&& 31 : Nat) : Int),
              SectorLength := ((1 <<< (7 + ((Param s 2 >>> 5) &&& 7)) : Nat) : Int) })
              (setCommandStatus (fun c => { c with CurrentSectorPtr := some sp })
                (setCommandStatus (fun c => { c with CurrentTrackPtr := some tp }) sb)))))))) := by
  have hnot : ¬ GetSelectedDrive (DoSelects s) < 0 := by omega
  have hw2 : ((DoSelects s).DiscStatus (GetSelectedDrive (DoSelects s)).toNat).Writeable = true := hw
  have hfa := GetTrackPtr_frame _ _ _ _ ht
  have hfb := GetSectorPtr_frame _ _ _ _ _ hs
  obtain ⟨c1, c2, c3, c4, c5, c6, c7, c8⟩ := setCurrentTrack_frame
    (GetSelectedDrive (DoSelects s)) (Param s 0) (DoSelects s)
  have hpa : ∀ i, Param sa i = Param s i := by
    intro i
    rw [hfa]
    exact congrFun c3 i
  have hpb : ∀ i, Param sb i = Param s i := by
    intro i
    rw [hfb]
    exact hpa i
  unfold DoVarLength_WriteDataCommand
  dsimp only [DoLoadHead]
  rw [if_neg hnot]
  simp only [hw2, Bool.not_true, Bool.false_eq_true, if_false, Param_setCurrentTrack]
  rw [show Param (DoSelects s) 0 = Param s 0 from rfl, ht]
  dsimp only
  rw [show Param (setCommandStatus (fun c => { c with CurrentTrackPtr := some tp }) sa) 1 =
    Param s 1 from hpa 1, GetSectorPtr_setCommandStatus, hs]
  dsimp only [Option.map_some']
  unfold latchVarLength
  have e0 : Param (setCommandStatus (fun c => { c with CurrentSectorPtr := some sp })
      (setCommandStatus (fun c => { c with CurrentTrackPtr := some tp }) sb)) 0 = Param s 0 :=
    hpb 0
  have e1 : Param (setCommandStatus (fun c => { c with CurrentSectorPtr := some sp })
      (setCommandStatus (fun c => { c with CurrentTrackPtr := some tp }) sb)) 1 = Param s 1 :=
    hpb 1
  have e2 : Param (setCommandStatus (fun c => { c with CurrentSectorPtr := some sp })
      (setCommandStatus (fun c => { c with CurrentTrackPtr := some tp }) sb)) 2 = Param s 2 :=
    hpb 2
  rw [e0, e1, e2]
  simp only [ValidateSector, if_true]

/-! ## A whole Write Data transfer -/

/-- C15 (amended): Write Data of `m + 1` sectors of length `L` on a writable disc
in the selected drive `d`, the head on a track of the disc (physical track
below 80) that carries the requested logical track (itself below 80), whose
sectors with the logical IDs `start … start + m` exist and own buffers of at
least `L` bytes, the track write-back at the end of the transfer returning (no
backing file, or ten sectors with 256-byte buffers on the track written
back). Setup returns and stores nothing; the first tick returns, stores
nothing and leaves the byte index 0; the `L × (m + 1)` data
ticks, each after the host has put the next byte of `bytes` into the data
register, return; the sectors `idx` visited carry the IDs `start + j`; the
`k`-th byte is then at offset `k mod L` of the sector visited for ID
`start + k div L`; each visited sector differs from before only in its first
`L` data bytes, every other sector of the track is as before, and the disc
store differs from before only in the sector array of this track. A data
tick stores the data register at `ByteWithinSector` of the current sector and
advances the index before it tests whether the sector is complete. -/
theorem Write_transfer (s : State) (d m L : Nat) (secs : List SectorType) (bytes : List Nat)
    (hsel : GetSelectedDrive (DoSelects s) = (d : Int))
    (hw : (s.DiscStatus d).Writeable = true)
    (hwf : TrackWF ((s.DiscStatus d).Tracks (CURRENT_HEAD (DoSelects s)) s.FSDPhysicalTrack)
      secs)
    (hlt : ∀ sec0 rest, secs = sec0 :: rest → Param s 0 = sec0.IDField.LogicalTrack)
    (_hphys : s.FSDPhysicalTrack < TRACKS_PER_DRIVE) (_htrack : Param s 0 < TRACKS_PER_DRIVE)
    (hsz : secs.length < 256) (hpos : s.PositionInTrack ≤ secs.length)
    (hn : Param s 2 &&& 31 = m + 1) (hL : 1 <<< (7 + ((Param s 2 >>> 5) &&& 7)) = L)
    (hrange : Param s 1 + m < 256)
    (hall : ∀ j, j ≤ m → (∃ i, hasID secs (Param s 1 + j) i = true) ∧
      ∀ i, hasID secs (Param s 1 + j) i = true → bufOK L secs i)
    (hbytes : bytes.length = L * (m + 1))
    (hsave : s.FS.Files (s.DiscStatus d).FileName = none ∨
      saveShape ((s.DiscStatus d).Tracks (CURRENT_HEAD (DoSelects s)) (Param s 0))) :
    ∃ (s2 t0 u : State) (idx : List Nat) (secs' : List SectorType),
      DoVarLength_WriteDataCommand s = some s2 ∧ s2.DiscStatus = s.DiscStatus ∧
      WriteInterrupt s2 = some t0 ∧ t0.DiscStatus = s.DiscStatus ∧
      t0.CommandStatus.ByteWithinSector = 0 ∧
      writeTicks bytes t0 = some u ∧
      idx.length = m + 1 ∧
      (∀ j i, idx[j]? = some i → hasID secs (Param s 1 + j) i = true) ∧
      u.DiscStatus = (setSectors ⟨d, CURRENT_HEAD (DoSelects s), s.FSDPhysicalTrack⟩
        secs' s).DiscStatus ∧
      secs'.length = secs.length ∧
      (∀ k, k < L * (m + 1) →
        ∃ i, idx[k / L]? = some i ∧ (sectorData secs' i)[k % L]? = bytes[k]?) ∧
      (∀ j i, idx[j]? = some i → secs'[i]? = (secs[i]?).map (fun (sec : SectorType) => { sec with
        Data := sec.Data.map (fun (data : List Nat) =>
          (bytes.drop (L * j)).take L ++ data.drop L) })) ∧
      (∀ i, i ∉ idx → secs'[i]? = secs[i]?) ∧
      (∀ (t : State) (b : Nat) (p : SectorPtr) (sec : SectorType) (data : List Nat),
        0 ≤ t.CommandStatus.SectorsToGo → t.CommandStatus.FirstWriteInt = false →
        t.CommandStatus.CurrentSectorPtr = some p → sectorAt t p = some sec →
        sec.Data = some data → 0 ≤ t.CommandStatus.ByteWithinSector →
        t.CommandStatus.ByteWithinSector < data.length →
        WriteInterrupt (setData b t) =
          if t.CommandStatus.ByteWithinSector + 1 ≥ t.CommandStatus.SectorLength then
            sectorWritten TIME_BETWEEN_BYTES
              (setResult RESULT_REG_SUCCESS (setCommandStatus (fun c => { c with
                ByteWithinSector := c.ByteWithinSector + 1 })
                (setSectorData p (data.set t.CommandStatus.ByteWithinSector.toNat b)
                  (setData b t))))
          else some (notLastByte TIME_BETWEEN_BYTES
              (setResult RESULT_REG_SUCCESS (setCommandStatus (fun c => { c with
                ByteWithinSector := c.ByteWithinSector + 1 })
                (setSectorData p (data.set t.CommandStatus.ByteWithinSector.toNat b)
                  (setData b t)))))) := by
  have hL1 : 1 ≤ L := by
    rw [← hL, Nat.shiftLeft_eq, one_mul]
    exact Nat.one_le_two_pow
  obtain ⟨⟨w1, w2, w3, w4, w5, w6, w7, w8, w9⟩, _, _⟩ :=
    setCurrentTrack_lookEq (GetSelectedDrive (DoSelects s)) (Param s 0) (DoSelects s)
  generalize hS' : setCurrentTrack (GetSelectedDrive (DoSelects s)) (Param s 0) (DoSelects s) = S'
    at w1 w2 w3 w4 w5 w6 w7 w8 w9
  have hselS : GetSelectedDrive S' = (d : Int) := by
    unfold GetSelectedDrive at hsel ⊢
    rw [w2, w3]
    exact hsel
  have hheadS : CURRENT_HEAD S' = CURRENT_HEAD (DoSelects s) := by
    unfold CURRENT_HEAD
    rw [w4]
  have hdS : S'.DiscStatus = s.DiscStatus := w1
  have hphS : S'.FSDPhysicalTrack = s.FSDPhysicalTrack := w7
  obtain ⟨⟨i00, hi00⟩, hgood0⟩ := hall 0 (by omega)
  rw [Nat.add_zero] at hi00 hgood0
  obtain ⟨sec00, hs00, hid00⟩ := hasID_sector secs _ i00 hi00
  obtain ⟨sec0, rest, hcons⟩ : ∃ sec0 rest, secs = sec0 :: rest := by
    cases hl : secs with
    | nil =>
      rw [hl] at hs00
      simp at hs00
    | cons a rest => exact ⟨a, rest, rfl⟩
  have ht := GetTrackPtr_at (Param s 0) d S' sec0 rest hselS (by
    rw [hheadS, hdS, hphS, hwf.1, hcons]) (hlt sec0 rest hcons)
  rw [hheadS, hphS] at ht
  generalize htp : (⟨d, CURRENT_HEAD (DoSelects s), s.FSDPhysicalTrack⟩ : TrackPtr) = tp at ht ⊢
  have htpD : tp.Drive = d := by rw [← htp]
  have htpH : tp.Head = CURRENT_HEAD (DoSelects s) := by rw [← htp]
  have htpT : tp.Track = s.FSDPhysicalTrack := by rw [← htp]
  have hwfa : TrackWF (trackAt { S' with FSDPhysicalTrack := s.FSDPhysicalTrack } tp) secs := by
    unfold trackAt
    rw [show ({ S' with FSDPhysicalTrack := s.FSDPhysicalTrack } : State).DiscStatus =
      S'.DiscStatus from rfl, hdS, htpD, htpH, htpT]
    exact hwf
  have hposS : S'.PositionInTrack = s.PositionInTrack := w9
  obtain ⟨i0, sec0', hi0, hsec0', hid0, hhas0, hs⟩ := GetSectorPtr_found tp (Param s 1)
    { S' with FSDPhysicalTrack := s.FSDPhysicalTrack } secs hwfa
    (by
      rw [show ({ S' with FSDPhysicalTrack := s.FSDPhysicalTrack } : State).PositionInTrack =
        S'.PositionInTrack from rfl, hposS]
      exact hpos)
    (by
      rw [show ({ S' with FSDPhysicalTrack := s.FSDPhysicalTrack } : State).PositionInTrack =
        S'.PositionInTrack from rfl, hposS]
      omega)
    ⟨sec00, List.getElem?_mem hs00, hid00⟩
  have hsel0 : 0 ≤ GetSelectedDrive (DoSelects s) := by omega
  have hdn : (GetSelectedDrive (DoSelects s)).toNat = d := by omega
  have heq := DoVarLength_WriteDataCommand_eq s _ _ tp ⟨tp, i0⟩ hsel0 (by rw [hdn]; exact hw)
    (by rw [hS']; exact ht) hs
  generalize hs2 : setCommandStatus (fun c => { c with
      ByteWithinSector := 0, FirstWriteInt := true })
    (UpdateNMIStatus (setStatus STATUS_REG_COMMAND_BUSY (SetTrigger TIME_BETWEEN_BYTES
      (setCommandStatus (fun c => { c with ByteWithinSector := 0 })
        (setCommandStatus (fun c => { c with
          TrackAddr := (Param s 0 : Int), CurrentSector := (Param s 1 : Int),
          SectorsToGo := ((Param s 2 &&& 31 : Nat) : Int),
          SectorLength := ((1 <<< (7 + ((Param s 2 >>> 5) &&& 7)) : Nat) : Int) })
          (setCommandStatus (fun c => { c with CurrentSectorPtr := some ⟨tp, i0⟩ })
            (setCommandStatus (fun c => { c with CurrentTrackPtr := some tp })
              { ({ S' with FSDPhysicalTrack := s.FSDPhysicalTrack } : State) with
                PositionInTrack := i0 }))))))) = s2 at heq
  have a1 : s2.CommandStatus.CurrentTrackPtr = some tp := by
    rw [← hs2]
    simp [setCommandStatus, UpdateNMIStatus_eq, setStatus, SetTrigger]
  have a2 : s2.CommandStatus.CurrentSectorPtr = some ⟨tp, i0⟩ := by
    rw [← hs2]
    simp [setCommandStatus, UpdateNMIStatus_eq, setStatus, SetTrigger]
  have a3 : s2.CommandStatus.SectorsToGo = ((m + 1 : Nat) : Int) := by
    rw [← hs2, ← hn]
    simp [setCommandStatus, UpdateNMIStatus_eq, setStatus, SetTrigger]
  have a4 : s2.CommandStatus.CurrentSector = (Param s 1 : Int) := by
    rw [← hs2]
    simp [setCommandStatus, UpdateNMIStatus_eq, setStatus, SetTrigger]
  have a5 : s2.CommandStatus.ByteWithinSector = 0 := by
    rw [← hs2]
    simp [setCommandStatus, UpdateNMIStatus_eq, setStatus, SetTrigger]
  have a6 : s2.CommandStatus.FirstWriteInt = true := by
    rw [← hs2]
    simp [setCommandStatus, UpdateNMIStatus_eq, setStatus, SetTrigger]
  have a7 : s2.CommandStatus.TrackAddr = (Param s 0 : Int) := by
    rw [← hs2]
    simp [setCommandStatus, UpdateNMIStatus_eq, setStatus, SetTrigger]
  have a8 : s2.PositionInTrack = i0 := by
    rw [← hs2]
    simp [setCommandStatus, UpdateNMIStatus_eq, setStatus, SetTrigger]
  have a9 : s2.DiscStatus = s.DiscStatus := by
    rw [← hs2]
    simp [setCommandStatus, UpdateNMIStatus_eq, setStatus, SetTrigger, hdS]
  have a10 : s2.FS = s.FS := by
    rw [← hs2, ← hS']
    unfold setCurrentTrack
    split <;> simp [setCommandStatus, UpdateNMIStatus_eq, setStatus, SetTrigger, DoSelects]
  have a11 : s2.FDCState.Select0 = (DoSelects s).FDCState.Select0 := by
    rw [← hs2]
    simp [setCommandStatus, UpdateNMIStatus_eq, setStatus, SetTrigger, w2]
  have a12 : s2.FDCState.DriveControlOutputPort =
      (DoSelects s).FDCState.DriveControlOutputPort := by
    rw [← hs2]
    simp [setCommandStatus, UpdateNMIStatus_eq, setStatus, SetTrigger, w4]
  have a13 : s2.CommandStatus.SectorLength = (L : Int) := by
    rw [← hs2, ← hL]
    simp [setCommandStatus, UpdateNMIStatus_eq, setStatus, SetTrigger]
  -- the first tick
  obtain ⟨t0, r0, b1, b2, b3, b4⟩ := WriteInterrupt_first s2 (by rw [a3]; omega) a6
    (by rw [a5, a13]; omega)
  obtain ⟨g1, g2, g3, g4, g5, g6⟩ := b4
  have hcs : t0.CommandStatus.CurrentSector = (Param s 1 : Int) := by rw [b1]; exact a4
  have hid : ∀ j : Nat, j ≤ m →
      ((t0.CommandStatus.CurrentSector + (j : Int)) % 256).toNat = Param s 1 + j := by
    intro j hj
    rw [hcs]
    omega
  have hwf0 : TrackWF (trackAt t0 tp) secs := by
    unfold trackAt
    rw [b2, a9, htpD, htpH, htpT]
    exact hwf
  obtain ⟨u, idx, hlen, hhead, hidx, e2, d2, _⟩ := Write_sectors tp L hL1 d
    (CURRENT_HEAD (DoSelects s)) (Param s 0) m t0 secs i0 bytes
    (by rw [b1]; dsimp only; rw [a3]; push_cast; ring)
    (by rw [b1]; exact a5) (by rw [b1]) (by rw [b1]; exact a13) (by rw [b1]; exact a1)
    hwf0 hsz (by rw [b3, a8]; omega) (by rw [b1]; exact a2)
    (hgood0 i0 hhas0)
    (by
      intro j hj1 hjm
      rw [hid j hjm]
      exact hall j hjm)
    hbytes
    (by rw [g2, a11]; exact selected_drive (DoSelects s) d hsel)
    (by
      unfold CURRENT_HEAD
      rw [g4, a12])
    (by rw [g5, a7])
    (by rw [g1, a10, b2, a9]; exact hsave)
  have hidxAll : ∀ j i, idx[j]? = some i → hasID secs (Param s 1 + j) i = true := by
    intro j i h
    have hj : j < idx.length := (List.getElem?_eq_some_iff.1 h).1
    cases j with
    | zero =>
      have : some i0 = some i := by
        rw [← hhead, List.head?_eq_getElem?]
        exact h
      rw [← Option.some.inj this, Nat.add_zero]
      exact hhas0
    | succ j =>
      have := (hidx (j + 1) i h).2 (by omega)
      rw [hid (j + 1) (by omega)] at this
      exact this
  have hnd : idx.Nodup := by
    rw [List.nodup_iff_getElem?_ne_getElem?]
    intro a b hab hb hEq
    have ha : a < idx.length := by omega
    have h1 : idx[a]? = some (idx.get ⟨a, ha⟩) := List.getElem?_eq_getElem ha
    have h2 : idx[b]? = some (idx.get ⟨a, ha⟩) := by rw [← hEq]; exact h1
    obtain ⟨x, hx1, hx2⟩ := hasID_sector secs _ _ (hidxAll a _ h1)
    obtain ⟨y, hy1, hy2⟩ := hasID_sector secs _ _ (hidxAll b _ h2)
    rw [hx1] at hy1
    rw [← Option.some.inj hy1, hx2] at hy2
    omega
  have hblock : ∀ j, j ≤ m → storeBytes ((bytes.drop (L * j)).take L) =
      fun data => (bytes.drop (L * j)).take L ++ data.drop L := by
    intro j hj
    funext data
    unfold storeBytes
    rw [block_length L m j bytes hbytes hj]
  have hat : ∀ j i, idx[j]? = some i → (storeSectors L idx bytes secs)[i]? =
      (secs[i]?).map (fun (sec : SectorType) => { sec with
        Data := sec.Data.map (fun (data : List Nat) =>
          (bytes.drop (L * j)).take L ++ data.drop L) }) := by
    intro j i h
    have hj : j < idx.length := (List.getElem?_eq_some_iff.1 h).1
    rw [storeSectors_at L idx bytes secs j i hnd h, hblock j (by omega)]
  refine ⟨s2, t0, u, idx, storeSectors L idx bytes secs, heq, a9, r0, by rw [b2, a9],
    by rw [b1]; exact a5, e2, hlen, hidxAll, ?_, storeSectors_length L idx bytes secs, ?_, hat,
    fun i hi => storeSectors_other L idx bytes secs i hi,
    fun t b p sec data h1 h2 h3 h4 h5 h6 h7 => WriteInterrupt_store t b p sec data h1 h2 h3 h4
      h5 h6 h7⟩
  · rw [d2]
    unfold setSectors
    dsimp only
    rw [b2, a9]
  · intro k hk
    have hj : k / L < m + 1 := by
      rw [Nat.div_lt_iff_lt_mul (by omega)]
      rw [Nat.mul_comm]
      exact hk
    have ho : k % L < L := Nat.mod_lt _ (by omega)
    have hjl : k / L < idx.length := by omega
    have hij : idx[k / L]? = some (idx.get ⟨k / L, hjl⟩) := List.getElem?_eq_getElem hjl
    refine ⟨_, hij, ?_⟩
    obtain ⟨sec, data, hsec, hd, hdl⟩ := (hall (k / L) (by omega)).2 _ (hidxAll _ _ hij)
    unfold sectorData
    rw [hat _ _ hij, hsec]
    simp only [Option.map_some', Option.some_bind, hd, Option.getD_some]
    rw [List.getElem?_append_left (by
      rw [block_length L m (k / L) bytes hbytes (by omega)]
      exact ho), List.getElem?_take_of_lt ho, List.getElem?_drop, Nat.div_add_mod]

theorem Write_transfer_witness :
    ∃ (s2 t0 u : State) (idx : List Nat) (secs' : List SectorType),
      DoVarLength_WriteDataCommand writeTwoState = some s2 ∧
      WriteInterrupt s2 = some t0 ∧ t0.DiscStatus = writeTwoState.DiscStatus ∧
      writeTicks (List.range 256) t0 = some u ∧
      idx.length = 2 ∧
      u.DiscStatus = (setSectors ⟨0, 0, 0⟩ secs' writeTwoState).DiscStatus ∧
      ∀ k, k < 256 →
        ∃ i, idx[k / 128]? = some i ∧ hasID swappedSectors (k / 128) i = true ∧
          (sectorData secs' i)[k % 128]? = some k := by
  obtain ⟨s2, t0, u, idx, secs', h1, _, h3, h4, _, h6, h7, h8, h9, _, h11, _⟩ :=
    Write_transfer writeTwoState 0 1 128 swappedSectors (List.range 256)
      (by decide) rfl ⟨rfl, rfl, by decide⟩
      (by
        intro sec0 rest hc
        cases hc
        rfl)
      (by decide) (by decide)
      (by decide) (by decide) rfl rfl (by decide)
      (by
        intro j hj
        have hP : Param writeTwoState 1 = 0 := rfl
        rw [hP, Nat.zero_add]
        have hl : ∀ i, 2 ≤ i → swappedSectors[i]? = none := by
          intro i hi
          exact List.getElem?_eq_none (by simpa [swappedSectors] using hi)
        have hj' : j = 0 ∨ j = 1 := by omega
        rcases hj' with rfl | rfl
        · refine ⟨⟨1, by decide⟩, fun i hi => ?_⟩
          rcases Nat.lt_or_ge i 2 with h | h
          · have hi' : i = 0 ∨ i = 1 := by omega
            rcases hi' with rfl | rfl
            · exact absurd hi (by decide)
            · exact ⟨_, _, rfl, rfl, by simp⟩
          · unfold hasID at hi
            rw [hl i h] at hi
            exact absurd hi (by decide)
        · refine ⟨⟨0, by decide⟩, fun i hi => ?_⟩
          rcases Nat.lt_or_ge i 2 with h | h
          · have hi' : i = 0 ∨ i = 1 := by omega
            rcases hi' with rfl | rfl
            · exact ⟨_, _, rfl, rfl, by simp⟩
            · exact absurd hi (by decide)
          · unfold hasID at hi
            rw [hl i h] at hi
            exact absurd hi (by decide))
      (by simp) (Or.inl rfl)
  refine ⟨s2, t0, u, idx, secs', h1, h3, h4, h6, h7, h9, ?_⟩
  intro k hk
  obtain ⟨i, q1, q2⟩ := h11 k (by omega)
  refine ⟨i, q1, ?_, ?_⟩
  · have := h8 _ _ q1
    have hP : Param writeTwoState 1 = 0 := rfl
    rw [hP, Nat.zero_add] at this
    exact this
  · rw [q2]
    exact List.getElem?_range hk

/-- C15 (as stated, refuted): the disc `loadedSSD`, made writable, holds on
track 5 the sectors with logical IDs 0 to 9, each with a 256-byte buffer; the
head is at physical track 0. Write Data of one 256-byte sector of track 5,
sector 0: setup does not move the head, finds the logical track on neither of
the two tracks it examines and defers "sector not found"; the tick posts 0x18
and no transfer takes place. -/
theorem Write_head_elsewhere :
    ((writableDrive0 loadedSSD).DiscStatus 0).Writeable = true ∧
    (writableDrive0 loadedSSD).FSDPhysicalTrack = 0 ∧
    ((((writableDrive0 loadedSSD).DiscStatus 0).Tracks 0 5).Sectors.bind (fun l => l[0]?)).map
      (fun x => (x.IDField.LogicalTrack, x.IDField.LogicalSector, x.Data.map List.length)) =
      some (5, 0, some 256) ∧
    (hostWrites [(0, 0x4B), (1, 5), (1, 0), (1, 0x21)] (writableDrive0 loadedSSD)).map
      (fun s => (s.CommandStatus.NextInterruptIsErr, s.CommandStatus.CurrentTrackPtr.isSome)) =
      some (0x18, false) ∧
    ((hostWrites [(0, 0x4B), (1, 5), (1, 0), (1, 0x21)] (writableDrive0 loadedSSD)).bind
      Disc8271_poll_real).map (fun s => (s.FDCState.ResultReg, s.FDCState.StatusReg)) =
      some (0x18, 0x18) := by
  refine ⟨?_, ?_, ?_, ?_, ?_⟩ <;> decide

/-- C16 (as stated, refuted): with the drive sounds switched on and the head not
yet loaded, a Write Data command on the write-protected disc of `lookupState`
defers 0x12, but the next tick is taken by the head-load step of the drive-head
motor state machine: it returns with the result register still 0, the status
`command_busy` and the code still pending. The tick after it posts 0x12 with
status `result_full|interrupt_request`. Format behaves the same. -/
theorem write_protect_tick_taken_by_motor :
    (hostWrites [(0, 0x4B), (1, 0), (1, 0), (1, 0x21)] (soundOn lookupState)).map
      (fun s => (s.FDCState.StatusReg, s.CommandStatus.NextInterruptIsErr)) = some (0x80, 0x12) ∧
    ((hostWrites [(0, 0x4B), (1, 0), (1, 0), (1, 0x21)] (soundOn lookupState)).bind
      Disc8271_poll_real).map (fun s =>
        (s.FDCState.ResultReg, s.FDCState.StatusReg, s.CommandStatus.NextInterruptIsErr)) =
      some (0, 0x80, 0x12) ∧
    (((hostWrites [(0, 0x4B), (1, 0), (1, 0), (1, 0x21)] (soundOn lookupState)).bind
      Disc8271_poll_real).bind Disc8271_poll_real).map (fun s =>
        (s.FDCState.ResultReg, s.FDCState.StatusReg)) = some (0x12, 0x18) ∧
    ((hostWrites [(0, 0x63), (1, 0), (1, 0), (1, 0x2A), (1, 0), (1, 0)] (soundOn lookupState)).bind
      Disc8271_poll_real).map (fun s =>
        (s.FDCState.ResultReg, s.FDCState.StatusReg, s.CommandStatus.NextInterruptIsErr)) =
      some (0, 0x80, 0x12) := by
  refine ⟨?_, ?_, ?_, ?_⟩ <;> decide

/-- C21 (as stated, refuted): after power-on a Read on the empty drive 0 defers
"sector not found" (0x18) and the host issues a Seek to track 5 before the
tick: the Seek leaves `FSDPhysicalTrack = 5` and status `command_busy`, and the
single following tick posts 0x18, not 0. With the drive sounds switched on, the
tick that follows a Seek issued right after power-on is taken by the drive-head
motor state machine and leaves the status `command_busy`. -/
theorem Seek_tick_not_success :
    (hostWrites [(0, 0x53), (1, 0), (1, 0), (1, 0x21), (0, 0x69), (1, 5)] powerOn).map
      (fun s => (s.FSDPhysicalTrack, s.FDCState.StatusReg)) = some (5, 0x80) ∧
    ((hostWrites [(0, 0x53), (1, 0), (1, 0), (1, 0x21), (0, 0x69), (1, 5)] powerOn).bind
      Disc8271_poll_real).map (fun s => (s.FDCState.ResultReg, s.FDCState.StatusReg)) =
      some (0x18, 0x18) ∧
    ((hostWrites [(0, 0x69), (1, 5)] (soundOn powerOn)).bind Disc8271_poll_real).map
      (fun s => (s.FDCState.ResultReg, s.FDCState.StatusReg)) = some (0, 0x80) := by
  refine ⟨?_, ?_, ?_⟩ <;> decide

/-- C22 (as stated, refuted): on `crcErrorState` a Write Data command on the
write-protected disc defers 0x12 and the host issues a Verify of track 0
sector 0 before the tick: setup copies the sector's stored error 0x0E into the
result register, and the following tick posts 0x12, not 0. With the drive
sounds switched on, the tick that follows a Verify is taken by the drive-head
motor state machine and leaves the result register 0x0E. -/
theorem Verify_tick_not_success :
    (hostWrites [(0, 0x4B), (1, 0), (1, 0), (1, 0x21), (0, 0x5F), (1, 0), (1, 0), (1, 1)]
      crcErrorState).map (fun s => (s.FDCState.ResultReg, s.CommandStatus.NextInterruptIsErr)) =
      some (0x0E, 0x12) ∧
    ((hostWrites [(0, 0x4B), (1, 0), (1, 0), (1, 0x21), (0, 0x5F), (1, 0), (1, 0), (1, 1)]
      crcErrorState).bind Disc8271_poll_real).map (fun s =>
        (s.FDCState.ResultReg, s.FDCState.StatusReg)) = some (0x12, 0x18) ∧
    ((hostWrites [(0, 0x5F), (1, 0), (1, 0), (1, 1)] (soundOn crcErrorState)).bind
      Disc8271_poll_real).map (fun s => (s.FDCState.ResultReg, s.FDCState.StatusReg)) =
      some (0x0E, 0x0E) := by
  refine ⟨?_, ?_, ?_⟩ <;> decide

/-! ## Snapshot record: what is written is what is read -/

theorem toU32_lt (v : Int) : toU32 v < 4294967296 := by
  unfold toU32
  omega

theorem toU32_nat (n : Nat) (h : n < 4294967296) : toU32 (n : Int) = n := by
  unfold toU32
  omega

theorem toInt32_toU32 (v : Int) (h : -2147483648 ≤ v ∧ v < 2147483648) :
    toInt32 (toU32 v) = v := by
  unfold toInt32 toU32
  split <;> omega

theorem rd8_fputc (set : Nat → State → State) (s : State) (v : Nat) (rest : List Nat) :
    rd8 set (s, fputc v ++ rest) = (set (v % 256) s, rest) := by
  simp [rd8, fget8, fputc, fgetc8]

theorem fget32_fput32 (v : Int) (rest : List Nat) :
    fget32 (fput32 v ++ rest) = (toU32 v, rest) := by
  have h := toU32_lt v
  unfold fput32
  generalize toU32 v = u at h ⊢
  simp only [fget32, fgetc8, List.cons_append, List.nil_append, Nat.mod_mod]
  refine Prod.ext ?_ rfl
  show u % 256 + 256 * (u / 256 % 256) + 65536 * (u / 65536 % 256) +
    16777216 * (u / 16777216 % 256) = u
  omega

theorem rd32_fput32 (set : Nat → State → State) (s : State) (v : Int) (rest : List Nat) :
    rd32 set (s, fput32 v ++ rest) = (set (toU32 v) s, rest) := by
  simp only [rd32, fget32_fput32]

theorem paramBytes_length (A : State) : (paramBytes A).length = 16 := by
  simp [paramBytes]

theorem paramBytes_getD (A : State) (i d : Nat) (h : i < 16) :
    (paramBytes A).getD i d = A.FDCState.Params i % 256 := by
  unfold paramBytes
  rw [List.getD_eq_getElem?_getD, List.getElem?_map, List.getElem?_range h]
  rfl

theorem rdParams_paramBytes (s A : State) (rest : List Nat) :
    rdParams (s, paramBytes A ++ rest) =
      (setFDC (fun f => { f with Params := fun i =>
        if i < 16 then A.FDCState.Params i % 256 else f.Params i }) s, rest) := by
  unfold rdParams
  have e1 : (paramBytes A ++ rest).take 16 = paramBytes A := by
    rw [List.take_append_of_le_length (by rw [paramBytes_length])]
    exact List.take_of_length_le (by rw [paramBytes_length])
  have e2 : (paramBytes A ++ rest).drop 16 = rest := by
    rw [List.drop_append_of_le_length (by rw [paramBytes_length])]
    rw [List.drop_of_length_le (by rw [paramBytes_length])]
    rfl
  dsimp only
  rw [e1, e2]
  refine Prod.ext ?_ rfl
  dsimp only
  congr 1
  funext f
  congr 1
  funext i
  by_cases h : i < 16
  · rw [if_pos h, if_pos h, paramBytes_getD A i _ h]
  · rw [if_neg h, if_neg h]

theorem toU32_bool (b : Bool) : decide (toU32 (if b then 1 else 0) ≠ 0) = b := by
  cases b <;> decide

/-! ## Components of a state after an assignment -/

theorem setFDC_get_Disc8271Trigger (f : FDCStateType → FDCStateType) (s : State) :
    (setFDC f s).Disc8271Trigger = s.Disc8271Trigger := rfl

theorem setFDC_get_TotalCycles (f : FDCStateType → FDCStateType) (s : State) :
    (setFDC f s).TotalCycles = s.TotalCycles := rfl

theorem setFDC_get_FS (f : FDCStateType → FDCStateType) (s : State) :
    (setFDC f s).FS = s.FS := rfl

theorem setFDC_get_FDCState (f : FDCStateType → FDCStateType) (s : State) :
    (setFDC f s).FDCState = f s.FDCState := rfl

theorem setFDC_get_DiscStatus (f : FDCStateType → FDCStateType) (s : State) :
    (setFDC f s).DiscStatus = s.DiscStatus := rfl

theorem setFDC_get_CommandStatus (f : FDCStateType → FDCStateType) (s : State) :
    (setFDC f s).CommandStatus = s.CommandStatus := rfl

theorem setCommandStatus_get_Disc8271Trigger (f : CommandStatusType → CommandStatusType) (s : State) :
    (setCommandStatus f s).Disc8271Trigger = s.Disc8271Trigger := rfl

theorem setCommandStatus_get_TotalCycles (f : CommandStatusType → CommandStatusType) (s : State) :
    (setCommandStatus f s).TotalCycles = s.TotalCycles := rfl

theorem setCommandStatus_get_FS (f : CommandStatusType → CommandStatusType) (s : State) :
    (setCommandStatus f s).FS = s.FS := rfl

theorem setCommandStatus_get_FDCState (f : CommandStatusType → CommandStatusType) (s : State) :
    (setCommandStatus f s).FDCState = s.FDCState := rfl

theorem setCommandStatus_get_DiscStatus (f : CommandStatusType → CommandStatusType) (s : State) :
    (setCommandStatus f s).DiscStatus = s.DiscStatus := rfl

theorem setCommandStatus_get_CommandStatus (f : CommandStatusType → CommandStatusType) (s : State) :
    (setCommandStatus f s).CommandStatus = f s.CommandStatus := rfl

theorem setTrigger32_get_Disc8271Trigger (v : Nat) (s : State) :
    (setTrigger32 v s).Disc8271Trigger = if toInt32 v ≠ CycleCountTMax then some (toInt32 v + s.TotalCycles) else none := rfl

theorem setTrigger32_get_TotalCycles (v : Nat) (s : State) :
    (setTrigger32 v s).TotalCycles = s.TotalCycles := rfl

theorem setTrigger32_get_FS (v : Nat) (s : State) :
    (setTrigger32 v s).FS = s.FS := rfl

theorem setTrigger32_get_FDCState (v : Nat) (s : State) :
    (setTrigger32 v s).FDCState = s.FDCState := rfl

theorem setTrigger32_get_DiscStatus (v : Nat) (s : State) :
    (setTrigger32 v s).DiscStatus = s.DiscStatus := rfl

theorem setTrigger32_get_CommandStatus (v : Nat) (s : State) :
    (setTrigger32 v s).CommandStatus = s.CommandStatus := rfl

theorem setDisc_get_Disc8271Trigger (d : Nat) (f : DiscStatusType → DiscStatusType) (s : State) :
    (setDisc d f s).Disc8271Trigger = s.Disc8271Trigger := rfl

theorem setDisc_get_TotalCycles (d : Nat) (f : DiscStatusType → DiscStatusType) (s : State) :
    (setDisc d f s).TotalCycles = s.TotalCycles := rfl

theorem setDisc_get_FS (d : Nat) (f : DiscStatusType → DiscStatusType) (s : State) :
    (setDisc d f s).FS = s.FS := rfl

theorem setDisc_get_FDCState (d : Nat) (f : DiscStatusType → DiscStatusType) (s : State) :
    (setDisc d f s).FDCState = s.FDCState := rfl

theorem setDisc_get_DiscStatus (d : Nat) (f : DiscStatusType → DiscStatusType) (s : State) :
    (setDisc d f s).DiscStatus = fun x => if x = d then f (s.DiscStatus x) else s.DiscStatus x := rfl

theorem setDisc_get_CommandStatus (d : Nat) (f : DiscStatusType → DiscStatusType) (s : State) :
    (setDisc d f s).CommandStatus = s.CommandStatus := rfl

theorem setFDC_get_FSDPhysicalTrack (f : FDCStateType → FDCStateType) (s : State) :
    (setFDC f s).FSDPhysicalTrack = s.FSDPhysicalTrack := rfl

theorem setFDC_get_PositionInTrack (f : FDCStateType → FDCStateType) (s : State) :
    (setFDC f s).PositionInTrack = s.PositionInTrack := rfl

theorem setCommandStatus_get_FSDPhysicalTrack (f : CommandStatusType → CommandStatusType) (s : State) :
    (setCommandStatus f s).FSDPhysicalTrack = s.FSDPhysicalTrack := rfl

theorem setCommandStatus_get_PositionInTrack (f : CommandStatusType → CommandStatusType) (s : State) :
    (setCommandStatus f s).PositionInTrack = s.PositionInTrack := rfl

theorem setTrigger32_get_FSDPhysicalTrack (v : Nat) (s : State) :
    (setTrigger32 v s).FSDPhysicalTrack = s.FSDPhysicalTrack := rfl

theorem setTrigger32_get_PositionInTrack (v : Nat) (s : State) :
    (setTrigger32 v s).PositionInTrack = s.PositionInTrack := rfl

theorem setDisc_get_FSDPhysicalTrack (d : Nat) (f : DiscStatusType → DiscStatusType) (s : State) :
    (setDisc d f s).FSDPhysicalTrack = s.FSDPhysicalTrack := rfl

theorem setDisc_get_PositionInTrack (d : Nat) (f : DiscStatusType → DiscStatusType) (s : State) :
    (setDisc d f s).PositionInTrack = s.PositionInTrack := rfl

theorem setDisc_NumHeads_Tracks (d : Nat) (v : Int) (s : State) (x : Nat) :
    ((setDisc d (fun y => { y with NumHeads := v }) s).DiscStatus x).Tracks =
      (s.DiscStatus x).Tracks := by
  unfold setDisc
  dsimp only
  split <;> rfl

theorem setDisc_Writeable_Tracks (d : Nat) (v : Bool) (s : State) (x : Nat) :
    ((setDisc d (fun y => { y with Writeable := v }) s).DiscStatus x).Tracks =
      (s.DiscStatus x).Tracks := by
  unfold setDisc
  dsimp only
  split <;> rfl

theorem toInt32_TMax : toInt32 (toU32 CycleCountTMax) = CycleCountTMax := by decide

theorem restoreFields_fieldBytes (A s : State) (rest : List Nat) (hr : Recordable A) :
    RestoredFrom A (restoreFields (fieldBytes A ++ rest) s).1 ∧
    (restoreFields (fieldBytes A ++ rest) s).1.FSDPhysicalTrack = s.FSDPhysicalTrack ∧
    (restoreFields (fieldBytes A ++ rest) s).1.PositionInTrack = s.PositionInTrack ∧
    ∀ x, ((restoreFields (fieldBytes A ++ rest) s).1.DiscStatus x).Tracks =
      (s.DiscStatus x).Tracks := by
  have b1 := Nat.mod_eq_of_lt hr.ResultReg
  have b2 := Nat.mod_eq_of_lt hr.StatusReg
  have b3 := Nat.mod_eq_of_lt hr.DataReg
  have b4 := Nat.mod_eq_of_lt hr.ScanSectorNum
  have b5 := Nat.mod_eq_of_lt hr.ModeReg
  have b6 := Nat.mod_eq_of_lt hr.CurrentTrack0
  have b7 := Nat.mod_eq_of_lt hr.CurrentTrack1
  have b8 := Nat.mod_eq_of_lt hr.DriveControlOutputPort
  have b9 := Nat.mod_eq_of_lt hr.DriveControlInputPort
  have b10 := Nat.mod_eq_of_lt hr.BadTracks00
  have b11 := Nat.mod_eq_of_lt hr.BadTracks01
  have b12 := Nat.mod_eq_of_lt hr.BadTracks10
  have b13 := Nat.mod_eq_of_lt hr.BadTracks11
  have u1 := toU32_nat _ hr.ScanCount
  have u2 : toU32 (A.FDCState.Command : Int) % 256 = A.FDCState.Command := by
    rw [toU32_nat A.FDCState.Command (by have := hr.Command; omega)]
    exact Nat.mod_eq_of_lt hr.Command
  have u3 : toU32 (A.CommandStatus.NextInterruptIsErr : Int) % 256 =
      A.CommandStatus.NextInterruptIsErr := by
    rw [toU32_nat A.CommandStatus.NextInterruptIsErr (by
      have := hr.NextInterruptIsErr
      omega)]
    exact Nat.mod_eq_of_lt hr.NextInterruptIsErr
  have i1 := toInt32_toU32 _ hr.CommandParamCount
  have i2 := toInt32_toU32 _ hr.CurrentParam
  have i3 := toInt32_toU32 _ hr.NumHeads0
  have i4 := toInt32_toU32 _ hr.NumHeads1
  have i5 := toInt32_toU32 _ hr.TrackAddr
  have i6 := toInt32_toU32 _ hr.CurrentSector
  have i7 := toInt32_toU32 _ hr.SectorLength
  have i8 := toInt32_toU32 _ hr.SectorsToGo
  have i9 := toInt32_toU32 _ hr.ByteWithinSector
  have hT : ∃ w, (match A.Disc8271Trigger with
      | none => fput32 CycleCountTMax
      | some t => fput32 (t - A.TotalCycles)) = fput32 w ∧
      (if toInt32 (toU32 w) ≠ CycleCountTMax then some (toInt32 (toU32 w) + s.TotalCycles)
        else none) = A.Disc8271Trigger.map (fun t => t - A.TotalCycles + s.TotalCycles) := by
    cases hA : A.Disc8271Trigger with
    | none =>
      refine ⟨CycleCountTMax, rfl, ?_⟩
      rw [toInt32_TMax, if_neg (by simp)]
      rfl
    | some t =>
      obtain ⟨t1, t2⟩ := hr.Trigger t hA
      refine ⟨t - A.TotalCycles, rfl, ?_⟩
      rw [toInt32_toU32 _ ⟨t1, by omega⟩, if_pos (by unfold CycleCountTMax; omega)]
      rfl
  obtain ⟨w, hw1, hw2⟩ := hT
  unfold restoreFields fieldBytes
  rw [hw1]
  simp only [List.flatten_cons, List.flatten_nil, List.append_assoc, List.append_nil,
    rd8_fputc, rd32_fput32, rdParams_paramBytes]
  refine ⟨?_, ?_, ?_, ?_⟩
  · constructor
    all_goals simp only [setFDC_get_Disc8271Trigger, setFDC_get_TotalCycles, setFDC_get_FS,
      setFDC_get_FDCState, setFDC_get_DiscStatus, setFDC_get_CommandStatus,
      setCommandStatus_get_Disc8271Trigger, setCommandStatus_get_TotalCycles,
      setCommandStatus_get_FS, setCommandStatus_get_FDCState, setCommandStatus_get_DiscStatus,
      setCommandStatus_get_CommandStatus, setTrigger32_get_Disc8271Trigger,
      setTrigger32_get_TotalCycles, setTrigger32_get_FS, setTrigger32_get_FDCState,
      setTrigger32_get_DiscStatus, setTrigger32_get_CommandStatus, setDisc_get_Disc8271Trigger,
      setDisc_get_TotalCycles, setDisc_get_FS, setDisc_get_FDCState, setDisc_get_DiscStatus,
      setDisc_get_CommandStatus, if_true, if_false,
      one_ne_zero, zero_ne_one, b1, b2, b3, b4, b5, b6, b7, b8, b9, b10, b11, b12,
      b13, u1, u2, u3, i1, i2, i3, i4, i5, i6, i7, i8, i9, toU32_bool, hw2]
    · intro i hi
      rw [if_pos hi]
      exact Nat.mod_eq_of_lt (hr.Params i hi)
  · simp only [setFDC_get_FSDPhysicalTrack, setFDC_get_PositionInTrack, setCommandStatus_get_FSDPhysicalTrack,
    setCommandStatus_get_PositionInTrack, setTrigger32_get_FSDPhysicalTrack,
    setTrigger32_get_PositionInTrack, setDisc_get_FSDPhysicalTrack, setDisc_get_PositionInTrack]
  · simp only [setFDC_get_FSDPhysicalTrack, setFDC_get_PositionInTrack, setCommandStatus_get_FSDPhysicalTrack,
    setCommandStatus_get_PositionInTrack, setTrigger32_get_FSDPhysicalTrack,
    setTrigger32_get_PositionInTrack, setDisc_get_FSDPhysicalTrack, setDisc_get_PositionInTrack]
  · intro x
    simp only [setFDC_get_DiscStatus, setCommandStatus_get_DiscStatus, setTrigger32_get_DiscStatus,
      setDisc_NumHeads_Tracks, setDisc_Writeable_Tracks]

/-! ## The file names of the record -/

theorem nameField_eq (name : String) (residue : Nat → Nat) (h : name.toList.length < 256) :
    ∃ tail, nameField name residue = name.toList.map Char.toNat ++ 0 :: tail := by
  unfold nameField
  rw [List.take_of_length_le (by rw [List.length_map]; omega)]
  exact ⟨_, rfl⟩

theorem nameField_length (name : String) (residue : Nat → Nat) :
    (nameField name residue).length = 256 := by
  unfold nameField
  rw [List.length_append, List.length_take, List.length_map, List.length_cons, List.length_map,
    List.length_range]
  omega

theorem savedName_length (d : Nat) (A : State) (residue : Nat → Nat → Nat) :
    (savedName d A residue).length = 256 := by
  unfold savedName
  split
  · exact List.length_replicate _ _
  · exact nameField_length _ _

theorem readName_append (prev f rest : List Nat) (hp : prev.length ≤ 256)
    (h : f.length = 256) (h0 : 0 ∈ f) :
    readName prev (f ++ rest) = some (f.takeWhile (fun b => b ≠ 0), f, rest) := by
  have e1 : (f ++ rest).take 256 = f := by
    rw [List.take_append_of_le_length (by omega), List.take_of_length_le (by omega)]
  have e2 : (f ++ rest).drop 256 = rest := by
    rw [List.drop_append_of_le_length (by omega), List.drop_of_length_le (by omega)]
    rfl
  unfold readName
  rw [e1, e2, h, List.drop_of_length_le hp, List.append_nil, if_pos h0]

theorem readName_blank (prev rest : List Nat) (hp : prev.length ≤ 256) :
    readName prev (List.replicate 256 0 ++ rest) = some ([], List.replicate 256 0, rest) := by
  have e : List.replicate 256 0 = 0 :: List.replicate 255 0 := rfl
  rw [readName_append prev _ _ hp (List.length_replicate _ _) (by
    rw [e]
    exact List.mem_cons_self _ _)]
  rw [e]
  rfl

theorem readName_nameField (prev : List Nat) (name : String) (residue : Nat → Nat)
    (rest : List Nat) (hp : prev.length ≤ 256) (h : storableName name) :
    readName prev (nameField name residue ++ rest) =
      some (name.toList.map Char.toNat, nameField name residue, rest) := by
  obtain ⟨tail, ht⟩ := nameField_eq name residue h.2.1
  rw [readName_append prev _ _ hp (nameField_length name residue) (by
    rw [ht]
    exact List.mem_append_right _ (List.mem_cons_self _ _))]
  congr 2
  rw [ht, List.takeWhile_append_of_pos (by
      intro a ha
      obtain ⟨c, hc, rfl⟩ := List.mem_map.1 ha
      simpa using (h.2.2 c hc).1)]
  simp

theorem name_of_bytes (name : String) :
    String.mk ((name.toList.map Char.toNat).map Char.ofNat) = name := by
  rw [List.map_map]
  have : (Char.ofNat ∘ Char.toNat) = id := by
    funext c
    simp
  rw [this, List.map_id]
  cases name
  rfl

/-! ## A load touches one drive -/

theorem Freeable_freedStore (d d' k0 n : Nat) (s : State) (h : Freeable d s) :
    Freeable d (freedStore d' k0 n s) := by
  intro k secs hs
  unfold freedStore setDisc at hs ⊢
  dsimp only at hs ⊢
  by_cases hd : d = d'
  · simp only [hd, if_true] at hs ⊢
    by_cases c : k0 ≤ k ∧ k < k0 + n
    · simp only [c, and_self, true_and, if_true] at hs
      cases hs
    · simp only [true_and, c, if_false] at hs ⊢
      rw [hd] at h
      exact h k secs hs
  · simp only [hd, if_false] at hs ⊢
    exact h k secs hs

theorem freedStore_other (d d' k0 n : Nat) (s : State) (h : d' ≠ d) :
    (freedStore d k0 n s).DiscStatus d' = s.DiscStatus d' := by
  simp [freedStore, setDisc, h]

theorem setTrack_other (d hd t : Nat) (T : TrackType) (s : State) (d' : Nat) (h : d' ≠ d) :
    (setTrack d hd t T s).DiscStatus d' = s.DiscStatus d' := by
  simp [setTrack, setDisc, h]

theorem loadSimpleTracks_other (d hd H d' : Nat) (hne : d' ≠ d) :
    ∀ (n T0 : Nat) (rd rd' : List Nat) (s s' : State),
    loadSimpleTracks d hd H n T0 rd s = some (rd', s') → s'.DiscStatus d' = s.DiscStatus d' := by
  intro n
  induction n with
  | zero =>
    intro T0 rd rd' s s' h
    simp only [loadSimpleTracks, Option.some.injEq, Prod.mk.injEq] at h
    rw [← h.2]
  | succ n ih =>
    intro T0 rd rd' s s' h
    unfold loadSimpleTracks at h
    cases ht : loadSimpleTrack d hd T0 H rd s with
    | none => simp [ht] at h
    | some r =>
      obtain ⟨rd1, s1⟩ := r
      rw [ht] at h
      dsimp only at h
      rw [ih _ _ _ _ _ h, (loadSimpleTrack_eq d hd T0 H rd rd1 s s1 ht).2,
        setTrack_other _ _ _ _ _ _ hne]

theorem loadSimpleHeads_other (d H Tr d' : Nat) (hne : d' ≠ d) :
    ∀ (n Hd : Nat) (rd rd' : List Nat) (s s' : State),
    loadSimpleHeads d H Tr n Hd rd s = some (rd', s') → s'.DiscStatus d' = s.DiscStatus d' := by
  intro n
  induction n with
  | zero =>
    intro Hd rd rd' s s' h
    simp only [loadSimpleHeads, Option.some.injEq, Prod.mk.injEq] at h
    rw [← h.2]
  | succ n ih =>
    intro Hd rd rd' s s' h
    unfold loadSimpleHeads at h
    cases ht : loadSimpleTracks d Hd H Tr 0 rd s with
    | none => simp [ht] at h
    | some r =>
      obtain ⟨rd1, s1⟩ := r
      rw [ht] at h
      dsimp only at h
      rw [ih _ _ _ _ _ h, loadSimpleTracks_other d Hd H d' hne _ _ _ _ _ _ ht]

theorem loadDSHeads_other (d T d' : Nat) (hne : d' ≠ d) :
    ∀ (n Hd : Nat) (rd rd' : List Nat) (s s' : State),
    loadDSHeads d T n Hd rd s = some (rd', s') → s'.DiscStatus d' = s.DiscStatus d' := by
  intro n
  induction n with
  | zero =>
    intro Hd rd rd' s s' h
    simp only [loadDSHeads, Option.some.injEq, Prod.mk.injEq] at h
    rw [← h.2]
  | succ n ih =>
    intro Hd rd rd' s s' h
    unfold loadDSHeads at h
    cases ht : loadSimpleTrack d Hd T Hd rd s with
    | none => simp [ht] at h
    | some r =>
      obtain ⟨rd1, s1⟩ := r
      rw [ht] at h
      dsimp only at h
      rw [ih _ _ _ _ _ h, (loadSimpleTrack_eq d Hd T Hd rd rd1 s s1 ht).2,
        setTrack_other _ _ _ _ _ _ hne]

theorem loadDSTracks_other (d d' : Nat) (hne : d' ≠ d) :
    ∀ (n T0 : Nat) (rd rd' : List Nat) (s s' : State),
    loadDSTracks d n T0 rd s = some (rd', s') → s'.DiscStatus d' = s.DiscStatus d' := by
  intro n
  induction n with
  | zero =>
    intro T0 rd rd' s s' h
    simp only [loadDSTracks, Option.some.injEq, Prod.mk.injEq] at h
    rw [← h.2]
  | succ n ih =>
    intro T0 rd rd' s s' h
    unfold loadDSTracks at h
    cases ht : loadDSHeads d T0 2 0 rd s with
    | none => simp [ht] at h
    | some r =>
      obtain ⟨rd1, s1⟩ := r
      rw [ht] at h
      dsimp only at h
      rw [ih _ _ _ _ _ h, loadDSHeads_other d T0 d' hne _ _ _ _ _ _ ht]

theorem loadSimple_other (dsd : Bool) (name : String) (d d' : Nat) (s s1 : State)
    (hne : d' ≠ d) (h : loadSimple dsd name d s = some s1) :
    s1.DiscStatus d' = s.DiscStatus d' := by
  unfold loadSimple at h
  cases dsd with
  | false =>
    simp only [Bool.false_eq_true, if_false] at h
    unfold LoadSimpleDiscImage at h
    cases hf : s.FS.Files name with
    | none =>
      rw [hf] at h
      simp only [Option.some.injEq] at h
      rw [← h]
    | some content =>
      rw [hf] at h
      dsimp only at h
      cases hfr : FreeDiscImage d (setDisc d (fun x => { x with
          NumHeads := if content.length > 0x40000 then 0 else 1,
          FileName := name, Kind := .SSD }) s) with
      | none => simp [hfr] at h
      | some sf =>
        rw [hfr] at h
        dsimp only at h
        cases hl : loadSimpleHeads d 0 80 ((if content.length > 0x40000 then 2 else 1) - 0) 0
            content sf with
        | none =>
          rw [hl] at h
          simp at h
        | some r =>
          obtain ⟨rd1, s2⟩ := r
          rw [hl] at h
          simp only [Option.map_some', Option.some.injEq] at h
          rw [← h, loadSimpleHeads_other d 0 80 d' hne _ _ _ _ _ _ hl,
            FreeDiscImage_eq d _ _ hfr, freedStore_other _ _ _ _ _ hne]
          simp [setDisc, hne]
  | true =>
    simp only [if_true] at h
    unfold LoadSimpleDSDiscImage at h
    cases hf : s.FS.Files name with
    | none =>
      rw [hf] at h
      simp only [Option.some.injEq] at h
      rw [← h]
    | some content =>
      rw [hf] at h
      dsimp only at h
      cases hfr : FreeDiscImage d (setDisc d (fun x => { x with
          FileName := name, Kind := .DSD, NumHeads := 2 }) s) with
      | none => simp [hfr] at h
      | some sf =>
        rw [hfr] at h
        dsimp only at h
        cases hl : loadDSTracks d 80 0 content sf with
        | none =>
          rw [hl] at h
          simp at h
        | some r =>
          obtain ⟨rd1, s2⟩ := r
          rw [hl] at h
          simp only [Option.map_some', Option.some.injEq] at h
          rw [← h, loadDSTracks_other d d' hne _ _ _ _ _ _ hl,
            FreeDiscImage_eq d _ _ hfr, freedStore_other _ _ _ _ _ hne]
          simp [setDisc, hne]

/-! ## What a load leaves alone -/

theorem storeOnly_trans (a b c : State) (h1 : storeOnly a b) (h2 : storeOnly b c) :
    storeOnly a c :=
  ⟨h2.1.trans h1.1, h2.2.1.trans h1.2.1, h2.2.2.trans h1.2.2⟩

theorem slotsFrom_trans (a b c : State) (h1 : slotsFrom a b) (h2 : slotsFrom b c) :
    slotsFrom a c := by
  intro d h t
  rcases h2 d h t with e | e | e
  · rw [e]
    exact h1 d h t
  · exact Or.inr (Or.inl e)
  · exact Or.inr (Or.inr e)

theorem slotsFrom_of_tracks (s s' : State)
    (h : ∀ d, (s'.DiscStatus d).Tracks = (s.DiscStatus d).Tracks) : slotsFrom s s' :=
  fun d _ _ => Or.inl (by rw [h d])

theorem freedStore_step (d k0 n : Nat) (s : State) :
    slotsFrom s (freedStore d k0 n s) ∧ storeOnly s (freedStore d k0 n s) := by
  refine ⟨?_, rfl, rfl, rfl⟩
  intro d' h t
  unfold freedStore setDisc
  dsimp only
  by_cases hd : d' = d
  · by_cases c : h = 0 ∧ k0 ≤ t ∧ t < k0 + n
    · right
      left
      simp [hd, c]
    · left
      simp [hd, c]
  · left
    simp [hd]

theorem setTrack_step (d hd t a b : Nat) (c : List Nat) (s : State) :
    slotsFrom s (setTrack d hd t (simpleTrack a b c) s) ∧
    storeOnly s (setTrack d hd t (simpleTrack a b c) s) := by
  refine ⟨?_, rfl, rfl, rfl⟩
  intro d' h k
  unfold setTrack setDisc
  dsimp only
  by_cases hd' : d' = d
  · by_cases e : h = hd ∧ k = t
    · right
      right
      exact ⟨a, b, c, by simp [hd', e]⟩
    · left
      simp [hd', e]
  · left
    simp [hd']

theorem loadSimpleTrack_step (d hd t H : Nat) (rd rd' : List Nat) (s s' : State)
    (h : loadSimpleTrack d hd t H rd s = some (rd', s')) : slotsFrom s s' ∧ storeOnly s s' := by
  rw [(loadSimpleTrack_eq d hd t H rd rd' s s' h).2]
  exact setTrack_step _ _ _ _ _ _ _

theorem loadSimpleTracks_step (d hd H : Nat) :
    ∀ (n T0 : Nat) (rd rd' : List Nat) (s s' : State),
    loadSimpleTracks d hd H n T0 rd s = some (rd', s') → slotsFrom s s' ∧ storeOnly s s' := by
  intro n
  induction n with
  | zero =>
    intro T0 rd rd' s s' h
    simp only [loadSimpleTracks, Option.some.injEq, Prod.mk.injEq] at h
    rw [← h.2]
    exact ⟨fun _ _ _ => Or.inl rfl, rfl, rfl, rfl⟩
  | succ n ih =>
    intro T0 rd rd' s s' h
    unfold loadSimpleTracks at h
    cases ht : loadSimpleTrack d hd T0 H rd s with
    | none => simp [ht] at h
    | some r =>
      obtain ⟨rd1, s1⟩ := r
      rw [ht] at h
      dsimp only at h
      obtain ⟨a1, a2⟩ := loadSimpleTrack_step d hd T0 H rd rd1 s s1 ht
      obtain ⟨b1, b2⟩ := ih _ _ _ _ _ h
      exact ⟨slotsFrom_trans _ _ _ a1 b1, storeOnly_trans _ _ _ a2 b2⟩

theorem loadSimpleHeads_step (d H Tr : Nat) :
    ∀ (n Hd : Nat) (rd rd' : List Nat) (s s' : State),
    loadSimpleHeads d H Tr n Hd rd s = some (rd', s') → slotsFrom s s' ∧ storeOnly s s' := by
  intro n
  induction n with
  | zero =>
    intro Hd rd rd' s s' h
    simp only [loadSimpleHeads, Option.some.injEq, Prod.mk.injEq] at h
    rw [← h.2]
    exact ⟨fun _ _ _ => Or.inl rfl, rfl, rfl, rfl⟩
  | succ n ih =>
    intro Hd rd rd' s s' h
    unfold loadSimpleHeads at h
    cases ht : loadSimpleTracks d Hd H Tr 0 rd s with
    | none => simp [ht] at h
    | some r =>
      obtain ⟨rd1, s1⟩ := r
      rw [ht] at h
      dsimp only at h
      obtain ⟨a1, a2⟩ := loadSimpleTracks_step d Hd H _ _ _ _ _ _ ht
      obtain ⟨b1, b2⟩ := ih _ _ _ _ _ h
      exact ⟨slotsFrom_trans _ _ _ a1 b1, storeOnly_trans _ _ _ a2 b2⟩

theorem loadDSHeads_step (d T : Nat) :
    ∀ (n Hd : Nat) (rd rd' : List Nat) (s s' : State),
    loadDSHeads d T n Hd rd s = some (rd', s') → slotsFrom s s' ∧ storeOnly s s' := by
  intro n
  induction n with
  | zero =>
    intro Hd rd rd' s s' h
    simp only [loadDSHeads, Option.some.injEq, Prod.mk.injEq] at h
    rw [← h.2]
    exact ⟨fun _ _ _ => Or.inl rfl, rfl, rfl, rfl⟩
  | succ n ih =>
    intro Hd rd rd' s s' h
    unfold loadDSHeads at h
    cases ht : loadSimpleTrack d Hd T Hd rd s with
    | none => simp [ht] at h
    | some r =>
      obtain ⟨rd1, s1⟩ := r
      rw [ht] at h
      dsimp only at h
      obtain ⟨a1, a2⟩ := loadSimpleTrack_step d Hd T Hd rd rd1 s s1 ht
      obtain ⟨b1, b2⟩ := ih _ _ _ _ _ h
      exact ⟨slotsFrom_trans _ _ _ a1 b1, storeOnly_trans _ _ _ a2 b2⟩

theorem loadDSTracks_step (d : Nat) :
    ∀ (n T0 : Nat) (rd rd' : List Nat) (s s' : State),
    loadDSTracks d n T0 rd s = some (rd', s') → slotsFrom s s' ∧ storeOnly s s' := by
  intro n
  induction n with
  | zero =>
    intro T0 rd rd' s s' h
    simp only [loadDSTracks, Option.some.injEq, Prod.mk.injEq] at h
    rw [← h.2]
    exact ⟨fun _ _ _ => Or.inl rfl, rfl, rfl, rfl⟩
  | succ n ih =>
    intro T0 rd rd' s s' h
    unfold loadDSTracks at h
    cases ht : loadDSHeads d T0 2 0 rd s with
    | none => simp [ht] at h
    | some r =>
      obtain ⟨rd1, s1⟩ := r
      rw [ht] at h
      dsimp only at h
      obtain ⟨a1, a2⟩ := loadDSHeads_step d T0 _ _ _ _ _ _ ht
      obtain ⟨b1, b2⟩ := ih _ _ _ _ _ h
      exact ⟨slotsFrom_trans _ _ _ a1 b1, storeOnly_trans _ _ _ a2 b2⟩

theorem setDisc_step (d : Nat) (f : DiscStatusType → DiscStatusType) (s : State)
    (hf : ∀ y, (f y).Tracks = y.Tracks) :
    slotsFrom s (setDisc d f s) ∧ storeOnly s (setDisc d f s) := by
  refine ⟨slotsFrom_of_tracks _ _ ?_, rfl, rfl, rfl⟩
  intro x
  unfold setDisc
  dsimp only
  split
  · exact hf _
  · rfl

theorem loadSimple_step (dsd : Bool) (name : String) (d : Nat) (s s1 : State)
    (h : loadSimple dsd name d s = some s1) : slotsFrom s s1 ∧ storeOnly s s1 := by
  unfold loadSimple at h
  cases dsd with
  | false =>
    simp only [Bool.false_eq_true, if_false] at h
    unfold LoadSimpleDiscImage at h
    cases hf : s.FS.Files name with
    | none =>
      rw [hf] at h
      simp only [Option.some.injEq] at h
      rw [← h]
      exact ⟨fun _ _ _ => Or.inl rfl, rfl, rfl, rfl⟩
    | some content =>
      rw [hf] at h
      dsimp only at h
      obtain ⟨a1, a2⟩ := setDisc_step d (fun x => { x with
          NumHeads := if content.length > 0x40000 then 0 else 1,
          FileName := name, Kind := .SSD }) s (fun _ => rfl)
      cases hfr : FreeDiscImage d (setDisc d (fun x => { x with
          NumHeads := if content.length > 0x40000 then 0 else 1,
          FileName := name, Kind := .SSD }) s) with
      | none => simp [hfr] at h
      | some sf =>
        rw [hfr] at h
        dsimp only at h
        have b := freedStore_step d 0 TRACKS_PER_DRIVE (setDisc d (fun x => { x with
          NumHeads := if content.length > 0x40000 then 0 else 1,
          FileName := name, Kind := .SSD }) s)
        rw [← FreeDiscImage_eq d _ _ hfr] at b
        cases hl : loadSimpleHeads d 0 80 ((if content.length > 0x40000 then 2 else 1) - 0) 0
            content sf with
        | none =>
          rw [hl] at h
          simp at h
        | some r =>
          obtain ⟨rd1, s2⟩ := r
          rw [hl] at h
          simp only [Option.map_some', Option.some.injEq] at h
          rw [← h]
          obtain ⟨c1, c2⟩ := loadSimpleHeads_step d 0 80 _ _ _ _ _ _ hl
          exact ⟨slotsFrom_trans _ _ _ (slotsFrom_trans _ _ _ a1 b.1) c1,
            storeOnly_trans _ _ _ (storeOnly_trans _ _ _ a2 b.2) c2⟩
  | true =>
    simp only [if_true] at h
    unfold LoadSimpleDSDiscImage at h
    cases hf : s.FS.Files name with
    | none =>
      rw [hf] at h
      simp only [Option.some.injEq] at h
      rw [← h]
      exact ⟨fun _ _ _ => Or.inl rfl, rfl, rfl, rfl⟩
    | some content =>
      rw [hf] at h
      dsimp only at h
      obtain ⟨a1, a2⟩ := setDisc_step d (fun x => { x with
          FileName := name, Kind := .DSD, NumHeads := 2 }) s (fun _ => rfl)
      cases hfr : FreeDiscImage d (setDisc d (fun x => { x with
          FileName := name, Kind := .DSD, NumHeads := 2 }) s) with
      | none => simp [hfr] at h
      | some sf =>
        rw [hfr] at h
        dsimp only at h
        have b := freedStore_step d 0 TRACKS_PER_DRIVE (setDisc d (fun x => { x with
          FileName := name, Kind := .DSD, NumHeads := 2 }) s)
        rw [← FreeDiscImage_eq d _ _ hfr] at b
        cases hl : loadDSTracks d 80 0 content sf with
        | none =>
          rw [hl] at h
          simp at h
        | some r =>
          obtain ⟨rd1, s2⟩ := r
          rw [hl] at h
          simp only [Option.map_some', Option.some.injEq] at h
          rw [← h]
          obtain ⟨c1, c2⟩ := loadDSTracks_step d _ _ _ _ _ _ hl
          exact ⟨slotsFrom_trans _ _ _ (slotsFrom_trans _ _ _ a1 b.1) c1,
            storeOnly_trans _ _ _ (storeOnly_trans _ _ _ a2 b.2) c2⟩

theorem slotOK_simpleTrack (p a b : Nat) (c : List Nat) (hp : p ≤ 10) :
    slotOK p (simpleTrack a b c) := by
  intro secs hs
  obtain ⟨t1, t2, sec0, rest, t3, _⟩ := simpleTrack_ten a b c
  have e : (loadSimpleSectors a b 10 0 c).1 = secs := Option.some.inj hs
  rw [e] at t1 t2 t3
  refine ⟨t1, ?_, ?_⟩
  · rw [t3]
    exact List.cons_ne_nil _ _
  · rw [t2.1]
    exact hp

theorem slotOK_slotsFrom (p : Nat) (s s' : State) (hp : p ≤ 10) (h : slotsFrom s s')
    (hok : ∀ d h t, d < 2 → h < 2 → t < TRACKS_PER_DRIVE →
      slotOK p ((s.DiscStatus d).Tracks h t)) :
    ∀ d h t, d < 2 → h < 2 → t < TRACKS_PER_DRIVE →
      slotOK p ((s'.DiscStatus d).Tracks h t) := by
  intro d hh t hd hh2 ht
  rcases h d hh t with e | e | ⟨a, b, c, e⟩
  · rw [e]
    exact hok d hh t hd hh2 ht
  · intro secs hs
    rw [e] at hs
    cases hs
  · rw [e]
    exact slotOK_simpleTrack p a b c hp

theorem loadNamed_disc (name : String) (d : Nat) (flags : Bool × Bool) (s : State)
    (content : List Nat) (hn : storableName name) (hf : s.FS.Files name = some content)
    (hfree : Freeable d s) :
    ∃ s1, loadNamed (name.toList.map Char.toNat) d flags s = some (s1, true, flags.2) ∧
      storeOnly s s1 ∧ slotsFrom s s1 ∧ ∀ d', d' ≠ d → s1.DiscStatus d' = s.DiscStatus d' := by
  obtain ⟨s1, h1, h2, _, _, h5⟩ := loadSimple_eq (isDsdName (name.toList.map Char.toNat)) name d
    content s hf hfree
  have hne : name.toList.map Char.toNat ≠ [] := by
    intro e
    exact hn.1 (List.map_eq_nil_iff.1 e)
  have e : (if isDsdName (name.toList.map Char.toNat) then LoadSimpleDSDiscImage name d 80 s
      else LoadSimpleDiscImage name d 0 80 s) =
      loadSimple (isDsdName (name.toList.map Char.toNat)) name d s := rfl
  have hs : ((s1.DiscStatus d).Tracks 0 0).Sectors.isNone = false := by
    rw [h5 0 0 (by
      unfold loaderHeads
      split
      · omega
      · split <;> omega) (by omega)]
    rfl
  unfold loadNamed
  rw [if_pos hne, name_of_bytes, e, h1]
  dsimp only
  rw [hs, Bool.or_false]
  obtain ⟨k1, k2⟩ := loadSimple_step _ _ _ _ _ h1
  exact ⟨s1, rfl, k2, k1, fun d' hd' => loadSimple_other _ _ _ _ _ _ hd' h1⟩

/-- One file name of the record and the load it causes. -/
theorem loadName_step (A B : State) (residue : Nat → Nat → Nat) (d : Nat) (Loaded : Bool)
    (prev rest : List Nat) (s : State) (hp : prev.length ≤ 256)
    (hd : reloads A B d) (hFS : s.FS = B.FS) (hfree : Freeable d s) :
    ∃ n s1, readName prev (savedName d A residue ++ rest) =
        some (n, savedName d A residue, rest) ∧
      loadNamed n d (Loaded, false) s =
        some (s1, Loaded || ((A.DiscStatus d).Tracks 0 0).Sectors.isSome, false) ∧
      storeOnly s s1 ∧ slotsFrom s s1 ∧
      ∀ d', d' ≠ d → s1.DiscStatus d' = s.DiscStatus d' := by
  cases c : ((A.DiscStatus d).Tracks 0 0).Sectors with
  | none =>
    refine ⟨[], s, ?_, ?_, ⟨rfl, rfl, rfl⟩, fun _ _ _ => Or.inl rfl, fun _ _ => rfl⟩
    · unfold savedName
      rw [c]
      exact readName_blank prev rest hp
    · simp [loadNamed]
  | some secs =>
    have hd' : storableName (A.DiscStatus d).FileName ∧
        (B.FS.Files (A.DiscStatus d).FileName).isSome = true := by
      rcases hd with h | h
      · rw [c] at h
        exact absurd h (by simp)
      · exact h
    obtain ⟨content, hc⟩ := Option.isSome_iff_exists.1 hd'.2
    obtain ⟨s1, h1, h2, h3, h4⟩ := loadNamed_disc (A.DiscStatus d).FileName d (Loaded, false) s
      content hd'.1 (by rw [hFS]; exact hc) hfree
    refine ⟨(A.DiscStatus d).FileName.toList.map Char.toNat, s1, ?_, ?_, h2, h3, h4⟩
    · unfold savedName
      rw [c]
      exact readName_nameField prev _ _ rest hp hd'.1
    · rw [h1]
      simp

/-! ## The pointer lookups that end a load -/

theorem lookupPointers_frame (s R : State) (h : lookupPointers s = some R) :
    R.FDCState = s.FDCState ∧ R.DiscStatus = s.DiscStatus ∧
    R.Disc8271Trigger = s.Disc8271Trigger ∧ R.TotalCycles = s.TotalCycles ∧
    ∃ a b, R.CommandStatus = { s.CommandStatus with
      CurrentTrackPtr := a, CurrentSectorPtr := b } := by
  unfold lookupPointers at h
  cases ht : GetTrackPtr (s.CommandStatus.TrackAddr % 256).toNat s with
  | none => simp [ht] at h
  | some r =>
    obtain ⟨tp, s1⟩ := r
    have hfa := GetTrackPtr_frame _ _ _ _ ht
    have f1 : s1.FDCState = s.FDCState := by rw [hfa]
    have f2 : s1.DiscStatus = s.DiscStatus := by rw [hfa]
    have f3 : s1.Disc8271Trigger = s.Disc8271Trigger := by rw [hfa]
    have f4 : s1.TotalCycles = s.TotalCycles := by rw [hfa]
    have f5 : s1.CommandStatus = s.CommandStatus := by rw [hfa]
    rw [ht] at h
    dsimp only at h
    cases tp with
    | none =>
      dsimp only at h
      rw [← Option.some.inj h]
      refine ⟨f1, f2, f3, f4, none, none, ?_⟩
      simp only [setCommandStatus, f5]
    | some tp =>
      dsimp only at h
      rw [GetSectorPtr_setCommandStatus] at h
      cases hs : GetSectorPtr tp (s1.CommandStatus.CurrentSector % 256).toNat s1 with
      | none =>
        simp only [setCommandStatus] at h
        rw [hs] at h
        simp at h
      | some r2 =>
        obtain ⟨sp, s2⟩ := r2
        have hfb := GetSectorPtr_frame _ _ _ _ _ hs
        have g1 : s2.FDCState = s1.FDCState := by rw [hfb]
        have g2 : s2.DiscStatus = s1.DiscStatus := by rw [hfb]
        have g3 : s2.Disc8271Trigger = s1.Disc8271Trigger := by rw [hfb]
        have g4 : s2.TotalCycles = s1.TotalCycles := by rw [hfb]
        have g5 : s2.CommandStatus = s1.CommandStatus := by rw [hfb]
        simp only [setCommandStatus] at h
        rw [hs] at h
        simp only [Option.map_some', Option.some.injEq] at h
        rw [← h]
        refine ⟨by rw [← f1, ← g1], by rw [← f2, ← g2], by rw [← f3, ← g3],
          by rw [← f4, ← g4], some tp, sp, ?_⟩
        simp only [g5, f5]

theorem selected_lt_two (s : State) : (GetSelectedDrive s).toNat < 2 := by
  unfold GetSelectedDrive
  split
  · decide
  · split <;> decide

theorem CURRENT_HEAD_lt_two (s : State) : CURRENT_HEAD s < 2 := by
  unfold CURRENT_HEAD
  exact Nat.lt_succ_of_le Nat.and_le_right

/-- With the head over a track below the last one and every track slot in the
store sound, `GetTrackPtr` returns, and a track it returns is sound. -/
theorem GetTrackPtr_in_range (t : Nat) (s : State)
    (hP : s.FSDPhysicalTrack + 1 < TRACKS_PER_DRIVE)
    (hok : ∀ d h k, d < 2 → h < 2 → k < TRACKS_PER_DRIVE →
      slotOK s.PositionInTrack ((s.DiscStatus d).Tracks h k)) :
    ∃ r s', GetTrackPtr t s = some (r, s') ∧ s'.PositionInTrack = s.PositionInTrack ∧
      ∀ tp, r = some tp → ∃ secs, TrackWF (trackAt s' tp) secs ∧
        s.PositionInTrack ≤ secs.length := by
  have hP' : s.FSDPhysicalTrack + 1 < 80 := hP
  by_cases hsel : GetSelectedDrive s < 0
  · refine ⟨none, s, ?_, rfl, fun tp h => by cases h⟩
    unfold GetTrackPtr
    simp only [hsel, if_true]
  · have hd := selected_lt_two s
    have hh := CURRENT_HEAD_lt_two s
    have ok0 := hok _ _ s.FSDPhysicalTrack hd hh (Nat.lt_of_succ_lt hP)
    have ok1 := hok _ _ (s.FSDPhysicalTrack + 1) hd hh hP
    unfold GetTrackPtr
    simp only [hsel, if_false]
    rw [show (257 : Nat) = 254 + 3 from rfl, GetTrackPtrLoop_two _ _ _ _ (by omega)]
    cases hs : ((s.DiscStatus (GetSelectedDrive s).toNat).Tracks (CURRENT_HEAD s)
              s.FSDPhysicalTrack).Sectors with
    | none => exact ⟨none, s, rfl, rfl, fun tp h => by cases h⟩
    | some l =>
      obtain ⟨w1, w2, w3⟩ := ok0 l hs
      cases l with
      | nil => exact absurd rfl w2
      | cons a rest =>
        by_cases ha : t = a.IDField.LogicalTrack
        · simp only [ha, if_true]
          refine ⟨_, _, rfl, rfl, ?_⟩
          intro tp htp
          rw [← Option.some.inj htp]
          exact ⟨a :: rest, w1, w3⟩
        · simp only [ha, if_false]
          cases hs2 : ((s.DiscStatus (GetSelectedDrive s).toNat).Tracks (CURRENT_HEAD s)
                (s.FSDPhysicalTrack + 1)).Sectors with
          | none => exact ⟨none, s, rfl, rfl, fun tp h => by cases h⟩
          | some l2 =>
            obtain ⟨v1, v2, v3⟩ := ok1 l2 hs2
            cases l2 with
            | nil => exact absurd rfl v2
            | cons b rest2 =>
              by_cases hb : t = b.IDField.LogicalTrack
              · simp only [hb, if_true]
                refine ⟨_, _, rfl, rfl, ?_⟩
                intro tp htp
                rw [← Option.some.inj htp]
                exact ⟨b :: rest2, v1, v3⟩
              · simp only [hb, if_false]
                exact ⟨none, s, rfl, rfl, fun tp h => by cases h⟩

/-- With the head over a track below the last one, at a position within ten
sectors, and every track slot in the store sound, the pointer lookups that end
`Load8271UEF` return. -/
theorem lookupPointers_returns (s : State)
    (hP : s.FSDPhysicalTrack + 1 < TRACKS_PER_DRIVE) (hpos : s.PositionInTrack ≤ 10)
    (hok : ∀ d h k, d < 2 → h < 2 → k < TRACKS_PER_DRIVE →
      slotOK s.PositionInTrack ((s.DiscStatus d).Tracks h k)) :
    ∃ R, lookupPointers s = some R := by
  obtain ⟨r, s1, h1, h2, h3⟩ :=
    GetTrackPtr_in_range (s.CommandStatus.TrackAddr % 256).toNat s hP hok
  unfold lookupPointers
  rw [h1]
  dsimp only
  cases r with
  | none => exact ⟨_, rfl⟩
  | some tp =>
    obtain ⟨secs, w1, w2⟩ := h3 tp rfl
    dsimp only
    rw [GetSectorPtr_setCommandStatus,
      GetSectorPtr_eq_find tp _ s1 secs w1 (by rw [h2]; exact w2) (by rw [h2]; omega)]
    exact ⟨_, rfl⟩

theorem RestoredFrom_frame (A s R : State) (h : RestoredFrom A s)
    (e1 : R.FDCState = s.FDCState) (e2 : R.DiscStatus = s.DiscStatus)
    (e3 : R.Disc8271Trigger = s.Disc8271Trigger) (e4 : R.TotalCycles = s.TotalCycles)
    (e5' : ∃ a b, R.CommandStatus = { s.CommandStatus with
      CurrentTrackPtr := a, CurrentSectorPtr := b }) : RestoredFrom A R := by
  obtain ⟨a, b, e5⟩ := e5'
  exact {
    Trigger := by rw [e3, e4]; exact h.Trigger
    ResultReg := by rw [e1]; exact h.ResultReg
    StatusReg := by rw [e1]; exact h.StatusReg
    DataReg := by rw [e1]; exact h.DataReg
    ScanSectorNum := by rw [e1]; exact h.ScanSectorNum
    ScanCount := by rw [e1]; exact h.ScanCount
    ModeReg := by rw [e1]; exact h.ModeReg
    CurrentTrack0 := by rw [e1]; exact h.CurrentTrack0
    CurrentTrack1 := by rw [e1]; exact h.CurrentTrack1
    DriveControlOutputPort := by rw [e1]; exact h.DriveControlOutputPort
    DriveControlInputPort := by rw [e1]; exact h.DriveControlInputPort
    BadTracks00 := by rw [e1]; exact h.BadTracks00
    BadTracks01 := by rw [e1]; exact h.BadTracks01
    BadTracks10 := by rw [e1]; exact h.BadTracks10
    BadTracks11 := by rw [e1]; exact h.BadTracks11
    Command := by rw [e1]; exact h.Command
    CommandParamCount := by rw [e1]; exact h.CommandParamCount
    CurrentParam := by rw [e1]; exact h.CurrentParam
    Params := by rw [e1]; exact h.Params
    NumHeads0 := by rw [e2]; exact h.NumHeads0
    NumHeads1 := by rw [e2]; exact h.NumHeads1
    Select0 := by rw [e1]; exact h.Select0
    Select1 := by rw [e1]; exact h.Select1
    Writeable0 := by rw [e2]; exact h.Writeable0
    Writeable1 := by rw [e2]; exact h.Writeable1
    FirstWriteInt := by rw [e5]; exact h.FirstWriteInt
    NextInterruptIsErr := by rw [e5]; exact h.NextInterruptIsErr
    TrackAddr := by rw [e5]; exact h.TrackAddr
    CurrentSector := by rw [e5]; exact h.CurrentSector
    SectorLength := by rw [e5]; exact h.SectorLength
    SectorsToGo := by rw [e5]; exact h.SectorsToGo
    ByteWithinSector := by rw [e5]; exact h.ByteWithinSector }

/-! ## The record of a state -/

theorem fieldBytes_length (A : State) : (fieldBytes A).length = 101 := by
  unfold fieldBytes
  cases A.Disc8271Trigger <;>
    simp [fput32, fputc, paramBytes_length]

theorem recordBody_length (A : State) (residue : Nat → Nat → Nat) :
    (recordBody A residue).length = 613 := by
  unfold recordBody
  rw [List.length_append, List.length_append, savedName_length, savedName_length,
    fieldBytes_length]

theorem Save8271UEF_body (A : State) (residue : Nat → Nat → Nat) :
    (Save8271UEF A residue).drop 6 = recordBody A residue := rfl

/-- With a disc in a drive of the saved state and the named image files at
hand, `Load8271UEF` on the record of `A` reaches its pointer lookups after
restoring the fields into a state `L` that differs from `B` in the disc store
only, where each track slot is as in `B`, freed, or freshly loaded. -/
theorem Load_reaches_lookup (A B : State) (residue : Nat → Nat → Nat)
    (hd0 : reloads A B 0) (hd1 : reloads A B 1)
    (hone : ((A.DiscStatus 0).Tracks 0 0).Sectors.isSome = true ∨
      ((A.DiscStatus 1).Tracks 0 0).Sectors.isSome = true)
    (hf0 : Freeable 0 B) (hf1 : Freeable 1 B) :
    ∃ L, slotsFrom B L ∧ storeOnly B L ∧
      Load8271UEF (recordBody A residue) B = lookupPointers (restoreFields (fieldBytes A) L).1 := by
  obtain ⟨F0, hF0⟩ := FreeDiscImageLoop_some 0 TRACKS_PER_DRIVE 0 B
    (fun k secs _ hs => hf0 k secs hs)
  have e0 := FreeDiscImage_eq 0 B F0 hF0
  have hf1' : Freeable 1 F0 := by
    rw [e0]
    exact Freeable_freedStore 1 0 _ _ _ hf1
  obtain ⟨F1, hF1⟩ := FreeDiscImageLoop_some 1 TRACKS_PER_DRIVE 0 F0
    (fun k secs _ hs => hf1' k secs hs)
  have e1 := FreeDiscImage_eq 1 F0 F1 hF1
  have hfree0 : Freeable 0 F1 := by
    rw [e1, e0]
    exact Freeable_freedStore 0 1 _ _ _ (Freeable_freedStore 0 0 _ _ _ hf0)
  have hfree1 : Freeable 1 F1 := by
    rw [e1]
    exact Freeable_freedStore 1 1 _ _ _ hf1'
  have st0 : slotsFrom B F0 ∧ storeOnly B F0 := by
    rw [e0]
    exact freedStore_step 0 0 _ B
  have st1 : slotsFrom F0 F1 ∧ storeOnly F0 F1 := by
    rw [e1]
    exact freedStore_step 1 0 _ F0
  have hFS : F1.FS = B.FS := st1.2.1.trans st0.2.1
  obtain ⟨n0, L0, r0, l0, k0, m0, o0⟩ := loadName_step A B residue 0 false []
    (savedName 1 A residue ++ fieldBytes A) F1 (by simp) hd0 hFS hfree0
  have hfreeL : Freeable 1 L0 := by
    intro k secs hs
    rw [o0 1 (by decide)] at hs ⊢
    exact hfree1 k secs hs
  obtain ⟨n1, L1, r1, l1, k1, m1, o1⟩ := loadName_step A B residue 1
    (false || ((A.DiscStatus 0).Tracks 0 0).Sectors.isSome) (savedName 0 A residue)
    (fieldBytes A) L0
    (by rw [savedName_length]) hd1 (by rw [k0.1]; exact hFS) hfreeL
  have hL : ((false || ((A.DiscStatus 0).Tracks 0 0).Sectors.isSome) ||
      ((A.DiscStatus 1).Tracks 0 0).Sectors.isSome) = true := by
    rcases hone with h | h <;> simp [h]
  refine ⟨L1,
    slotsFrom_trans _ _ _ (slotsFrom_trans _ _ _ (slotsFrom_trans _ _ _ st0.1 st1.1) m0) m1,
    storeOnly_trans _ _ _ (storeOnly_trans _ _ _ (storeOnly_trans _ _ _ st0.2 st1.2) k0) k1,
    ?_⟩
  have hF0' : FreeDiscImage 0 B = some F0 := hF0
  have hF1' : FreeDiscImage 1 F0 = some F1 := hF1
  unfold Load8271UEF recordBody
  rw [hF0']
  dsimp only
  rw [hF1']
  dsimp only
  rw [List.append_assoc, r0]
  dsimp only
  rw [l0]
  dsimp only
  rw [r1]
  dsimp only
  rw [l1]
  dsimp only
  rw [hL, if_pos (by decide)]

/-- C28 (as stated, refuted): a state with no disc in either drive and a Seek
command latched is saved; the record read back after power-on leaves the
command register and the parameter buffer as power-on set them, not as they
were saved. -/
theorem snapshot_not_restored :
    (Load8271UEF ((Save8271UEF (latched 0x69 [0, 5] powerOn) (fun _ _ => 0)).drop 6)
      powerOn).map
      (fun R => (R.FDCState.Command, R.FDCState.Params 1)) = some (255, 0) ∧
    (latched 0x69 [0, 5] powerOn).FDCState.Command = 0x69 ∧
    (latched 0x69 [0, 5] powerOn).FDCState.Params 1 = 5 := by
  refine ⟨?_, ?_, ?_⟩ <;> decide

/-- C28 (amended): the saved state `A` holds values within the ranges of their C
types, at least one of its drives holds a disc, and for each drive with a disc
the file name is a non-empty C string of fewer than 256 bytes naming an image
file that can be opened when the record is read. The reading state `B` keeps
`FreeDiscImage` inside its sector arrays, has its head over a physical track
below 79 at a position in the track of at most 10, and each of its track slots
(drives 0 and 1, heads 0 and 1, tracks below 80) with a sector array has a
non-empty one of the recorded length, record numbers equal to the indices, and
at least as many sectors as the position in the track. Then, whatever bytes
follow the terminating zero in the file-name arrays, the record of `A` is the
6-byte chunk header followed by 613 bytes, and `Load8271UEF` on these 613 bytes
returns a state in which every field written after the file names has the
value saved (the trigger relative to the current cycle count unless
"never"). -/
theorem snapshot_restored (A B : State) (residue : Nat → Nat → Nat) (hr : Recordable A)
    (hd0 : reloads A B 0) (hd1 : reloads A B 1)
    (hone : ((A.DiscStatus 0).Tracks 0 0).Sectors.isSome = true ∨
      ((A.DiscStatus 1).Tracks 0 0).Sectors.isSome = true)
    (hf0 : Freeable 0 B) (hf1 : Freeable 1 B)
    (hP : B.FSDPhysicalTrack + 1 < TRACKS_PER_DRIVE) (hpos : B.PositionInTrack ≤ 10)
    (hok : ∀ d h t, d < 2 → h < 2 → t < TRACKS_PER_DRIVE →
      slotOK B.PositionInTrack ((B.DiscStatus d).Tracks h t)) :
    (Save8271UEF A residue).length = 6 + 613 ∧
    ∃ R, Load8271UEF ((Save8271UEF A residue).drop 6) B = some R ∧ RestoredFrom A R := by
  obtain ⟨L, hL1, hL2, hL⟩ := Load_reaches_lookup A B residue hd0 hd1 hone hf0 hf1
  obtain ⟨q1, q2, q3, q4⟩ := restoreFields_fieldBytes A L [] hr
  rw [List.append_nil] at q1 q2 q3 q4
  have okL := slotOK_slotsFrom B.PositionInTrack B L hpos hL1 hok
  have hret : ∃ R, lookupPointers (restoreFields (fieldBytes A) L).1 = some R := by
    apply lookupPointers_returns
    · rw [q2, hL2.2.1]
      exact hP
    · rw [q3, hL2.2.2]
      exact hpos
    · intro d h t hd hh ht
      rw [q3, hL2.2.2, q4]
      exact okL d h t hd hh ht
  obtain ⟨R, hR⟩ := hret
  refine ⟨?_, R, ?_, ?_⟩
  · have : Save8271UEF A residue = [110, 4, 101, 2, 0, 0] ++ recordBody A residue := rfl
    rw [this, List.length_append, recordBody_length]
    rfl
  · rw [Save8271UEF_body, hL]
    exact hR
  · obtain ⟨e1, e2, e3, e4, e5⟩ := lookupPointers_frame _ R hR
    exact RestoredFrom_frame A _ R q1 e1 e2 e3 e4 e5

theorem snapshot_restored_witness :
    savedState.FDCState.Select0 = true ∧
    ∃ R, Load8271UEF ((Save8271UEF savedState (fun _ i => i + 65)).drop 6)
        (withFile "a.ssd" dsdImage powerOn) = some R ∧
      RestoredFrom savedState R ∧ R.FDCState.Command = 0x69 ∧ R.FDCState.Params 1 = 5 ∧
      R.Disc8271Trigger = some (600 + R.TotalCycles) := by
  obtain ⟨_, R, hR, hF⟩ := snapshot_restored savedState
    (withFile "a.ssd" dsdImage powerOn) (fun _ i => i + 65)
    { ResultReg := by decide
      StatusReg := by decide
      DataReg := by decide
      ScanSectorNum := by decide
      ScanCount := by decide
      ModeReg := by decide
      CurrentTrack0 := by decide
      CurrentTrack1 := by decide
      DriveControlOutputPort := by decide
      DriveControlInputPort := by decide
      BadTracks00 := by decide
      BadTracks01 := by decide
      BadTracks10 := by decide
      BadTracks11 := by decide
      Command := by decide
      CommandParamCount := by decide
      CurrentParam := by decide
      Params := by decide
      NumHeads0 := by decide
      NumHeads1 := by decide
      NextInterruptIsErr := by decide
      TrackAddr := by decide
      CurrentSector := by decide
      SectorLength := by decide
      SectorsToGo := by decide
      ByteWithinSector := by decide
      Trigger := by
        intro t ht
        have e : savedState.Disc8271Trigger = some 1000 := rfl
        rw [e] at ht
        rw [← Option.some.inj ht]
        decide }
    (Or.inr ⟨⟨by decide, by decide, by decide⟩, rfl⟩)
    (Or.inl rfl)
    (Or.inl rfl)
    (by
      intro k secs hs
      have e : ∀ h t, ((withFile "a.ssd" dsdImage powerOn).DiscStatus 0).Tracks h t =
          (powerOn.DiscStatus 0).Tracks h t := fun _ _ => rfl
      rw [e, powerOn_no_sectors] at hs
      cases hs)
    (by
      intro k secs hs
      have e : ∀ h t, ((withFile "a.ssd" dsdImage powerOn).DiscStatus 1).Tracks h t =
          (powerOn.DiscStatus 1).Tracks h t := fun _ _ => rfl
      rw [e, powerOn_no_sectors] at hs
      cases hs)
    (by decide)
    (by decide)
    (by
      intro d h t _ _ _ secs hs
      have e : ((withFile "a.ssd" dsdImage powerOn).DiscStatus d).Tracks h t =
          (powerOn.DiscStatus d).Tracks h t := rfl
      rw [e, powerOn_no_sectors] at hs
      cases hs)
  refine ⟨rfl, R, hR, hF, ?_, ?_, ?_⟩
  · rw [hF.Command]
    rfl
  · rw [hF.Params 1 (by decide)]
    rfl
  · rw [hF.Trigger]
    rfl

end Disc8271
